import Mathlib

/-!
# SR-IOV device detection: the matching engine of `sriov_detection.go`

A shallow embedding of the matching engine and of the discovery of the devices
of `opendek/roles/infrastructure/device_sriov_detection/files/sriov_detection.go`
and theorems about them.

Conventions of the embedding.

* Go machine integers are `Nat` or `Int`; where a value can wrap (the counter
  `successfulCheckedDevices` and the positions `uint8(len(devicesSlice))`, the
  conversions to `int8` and `uint32` of the discovery) it is reduced explicitly.
* What the operating system and the packages `net`, `ethtool` and `ghw` answer
  about a network interface is a parameter of the functions of the discovery
  (`NetInterface`, `HostInterface`, `PtpProbeAnswers`).
* A Go `map[string]*T` is an association list `GoMap T` with the operations of
  the section "Go maps". The order in which a `range` statement visits the keys
  of a map is not fixed by Go: every `range` over a map asks the enumeration
  oracle `mapOrder : Nat → List String → List String` for the order, with the
  number of map `range` statements executed so far as first argument.
* A run-time fault of the Go code (nil dereference, index out of range) is the
  result `none`.
* A Go string is a sequence of bytes. The embedding holds the text it encodes as
  a `String`; where the source counts or indexes the bytes of a string (`len`,
  `strings.LastIndex`, `s[i]`, `s[i:j]`) the embedding does so on the bytes
  `goBytes` of the UTF-8 encoding of the text.
* The global variables of the source that the matching engine only reads are
  the record `Globals`, a parameter of the functions that read them.
* The three device slices and the three card affinity maps always travel in
  pairs in the source (regular slice with `CardAffinityMap`, PTP slice with
  `PtpCardAffinityMap`, RRU slice with `RruCardAffinityMap`). The embedding keeps
  them in one record `World`; a function of the source that receives a slice and
  a map receives the `DeviceCapabilityType` naming the pair instead.
* `World.selectionLog` is a ghost variable: it is written at every place where
  the source hands a device to a role and it is never read by the embedding.
-/

namespace SriovDetection

/-! ## Global types -/

/-- Go: `type LinkStateType uint8`. -/
abbrev LinkStateType := Nat

/-- Go: `LINK_STATE_DOWN`. -/
def LINK_STATE_DOWN : LinkStateType := 0
/-- Go: `LINK_STATE_UP`. -/
def LINK_STATE_UP : LinkStateType := 1
/-- Go: `LINK_STATE_INVALID_VALUE`. -/
def LINK_STATE_INVALID_VALUE : LinkStateType := 2

/-- Go: `type CardAffinityPfCoupleType uint8` with its four constants. -/
inductive CardAffinityPfCoupleType where
  | EMPTY_MARKED_TRUE
  | EMPTY_MARKED_FALSE
  | CURRENT_PF_SMALLER_THAN_COUPLED
  | CURRENT_PF_BIGGER_THAN_COUPLED
  deriving DecidableEq, Repr

/-- Go: `type DeviceCapabilityType uint8` with its three constants. -/
inductive DeviceCapabilityType where
  | REGULAR
  | PTP_SUPPORT
  | RRU_CONNECTION
  deriving DecidableEq, Repr

/-- Go: `INVALID_VALUE_FOR_NUMA_NODE`. -/
def INVALID_VALUE_FOR_NUMA_NODE : Int := -1
/-- Go: `INVALID_VALUE_FOR_SPECIFIC_PORT`. -/
def INVALID_VALUE_FOR_SPECIFIC_PORT : Int := -1

/-- Go: `type SupDevice struct`. -/
structure SupDevice where
  InterfaceName : String
  PciBus : String
  DeviceId : String
  Driver : String
  LinkSpeed : Nat
  NumVFSupp : Nat
  LinkState : LinkStateType
  NUMALocation : Int
  ConnectorType : String
  DDPSupport : Bool
  PTPSupport : Bool
  RRUConnection : Bool
  SpecificPortNumber : Int
  CardAffinity : String
  CheckedAgainstCriteria : Bool
  IsCardAffinityCouple : Bool
  deriving DecidableEq, Repr

/-- Go: `type CriteriaList struct`. -/
structure CriteriaList where
  Functionality : String
  DeviceId : List String
  Driver : List String
  LinkSpeed : Nat
  NumVFSupp : Nat
  LinkState : LinkStateType
  NUMALocation : Int
  ConnectorType : List String
  DDPSupport : Bool
  PTPSupport : Bool
  RRUConnection : Bool
  SpecificPortNumber : Int
  CardAffinityPfCouple : String
  CardAffinity : String
  SelectedDeviceInterface : String
  deriving DecidableEq, Repr

/-- Go: `type CardAffinityDevicesInfo struct`. -/
structure CardAffinityDevicesInfo where
  DevicesIndexesSlice : List Nat
  ChosenDeviceHasNoCardAffinity : Bool
  deriving DecidableEq, Repr

/-! ## Go maps -/

/-- A Go `map[string]*V` whose pointers are all non-nil and pairwise distinct. -/
abbrev GoMap (V : Type) := List (String × V)

/-- Go: `m[k]`, `none` standing for the nil pointer of a missing key. -/
def mapGet {V : Type} : GoMap V → String → Option V
  | [], _ => none
  | (k, v) :: rest, key => if k = key then some v else mapGet rest key

/-- Go: `*m[k] = v` for a key that is present; a missing key leaves the map alone. -/
def mapSet {V : Type} : GoMap V → String → V → GoMap V
  | [], _, _ => []
  | (k, v) :: rest, key, val =>
    if k = key then (k, val) :: rest else (k, v) :: mapSet rest key val

/-- Go: `delete(m, k)`. -/
def mapDelete {V : Type} : GoMap V → String → GoMap V
  | [], _ => []
  | (k, v) :: rest, key => if k = key then rest else (k, v) :: mapDelete rest key

/-- The keys of a map, in storage order. -/
def mapKeys {V : Type} (m : GoMap V) : List String := m.map Prod.fst

/-! ## Go strings -/

/-- Go: `a < b` on strings, the lexicographic order of the bytes; on valid UTF-8
strings this is the lexicographic order of the code points. -/
def goStringLess (a b : String) : Prop := a.toList < b.toList

instance (a b : String) : Decidable (goStringLess a b) := by
  unfold goStringLess; infer_instance

/-- The bytes of the UTF-8 encoding of a character. -/
def utf8Bytes (c : Char) : List Nat :=
  if c.toNat < 128 then [c.toNat]
  else if c.toNat < 2048 then [192 + c.toNat / 64, 128 + c.toNat % 64]
  else if c.toNat < 65536 then
    [224 + c.toNat / 4096, 128 + c.toNat / 64 % 64, 128 + c.toNat % 64]
  else
    [240 + c.toNat / 262144, 128 + c.toNat / 4096 % 64, 128 + c.toNat / 64 % 64,
      128 + c.toNat % 64]

/-- The bytes of the Go string that holds a text. -/
def goBytes : List Char → List Nat
  | [] => []
  | c :: rest => utf8Bytes c ++ goBytes rest

/-- Go: `s[0:n]`, for a number of bytes `n` at which a character of `s` ends:
the text of the first `n` bytes. -/
def goSliceTo : List Char → Nat → List Char
  | [], _ => []
  | c :: rest, n =>
    if (utf8Bytes c).length ≤ n then c :: goSliceTo rest (n - (utf8Bytes c).length) else []

/-! ## Matching one criteria list against a slice of devices -/

/-- Go: `SearchCapabilityInCriteriaList` (the two last parameters only feed the
debug print and are dropped). -/
def SearchCapabilityInCriteriaList : List String → String → Bool
  | [], _ => false
  | capabilityInCriteriaList :: rest, deviceCapability =>
    if capabilityInCriteriaList = deviceCapability then true
    else SearchCapabilityInCriteriaList rest deviceCapability

/-- The nine capability checks in the body of the loop of
`CheckDevicesAgainstSpecificCriteriaList` (lines 420-470): `true` when no
check executes `continue`. -/
def passesCapabilityChecks (criteriaList : CriteriaList) (device : SupDevice) : Bool :=
  if 0 < criteriaList.DeviceId.length ∧ 0 < device.DeviceId.length ∧
      SearchCapabilityInCriteriaList criteriaList.DeviceId device.DeviceId = false then false
  else if 0 < criteriaList.Driver.length ∧ 0 < device.Driver.length ∧
      SearchCapabilityInCriteriaList criteriaList.Driver device.Driver = false then false
  else if 0 < criteriaList.LinkSpeed ∧ device.LinkSpeed < criteriaList.LinkSpeed then false
  else if 0 < criteriaList.NumVFSupp ∧ device.NumVFSupp < criteriaList.NumVFSupp then false
  else if criteriaList.LinkState ≠ LINK_STATE_INVALID_VALUE ∧
      device.LinkState ≠ criteriaList.LinkState then false
  else if criteriaList.NUMALocation > INVALID_VALUE_FOR_NUMA_NODE ∧
      device.NUMALocation ≠ criteriaList.NUMALocation then false
  else if 0 < criteriaList.ConnectorType.length ∧ 0 < device.ConnectorType.length ∧
      SearchCapabilityInCriteriaList criteriaList.ConnectorType device.ConnectorType = false
    then false
  else if criteriaList.DDPSupport = true ∧ device.DDPSupport = false then false
  else if criteriaList.SpecificPortNumber > 0 ∧
      device.SpecificPortNumber ≠ criteriaList.SpecificPortNumber then false
  else true

/-- The loop of `CheckDevicesAgainstSpecificCriteriaList` from position
`deviceIndex` on. The criteria pointer is dereferenced only for a device that
has neither flag set, so a nil pointer faults only there. -/
def CheckDevicesAgainstSpecificCriteriaList.loop (criteriaListPtr : Option CriteriaList) :
    List SupDevice → Nat → Option Int
  | [], _ => some (-1)
  | device :: rest, deviceIndex =>
    if device.CheckedAgainstCriteria = true ∨ device.IsCardAffinityCouple = true then
      CheckDevicesAgainstSpecificCriteriaList.loop criteriaListPtr rest (deviceIndex + 1)
    else
      match criteriaListPtr with
      | none => none
      | some criteriaList =>
        if passesCapabilityChecks criteriaList device then some (deviceIndex : Int)
        else CheckDevicesAgainstSpecificCriteriaList.loop criteriaListPtr rest (deviceIndex + 1)

/-- Go: `CheckDevicesAgainstSpecificCriteriaList`. -/
def CheckDevicesAgainstSpecificCriteriaList (criteriaListPtr : Option CriteriaList)
    (devicesInfoSlice : List SupDevice) : Option Int :=
  CheckDevicesAgainstSpecificCriteriaList.loop criteriaListPtr devicesInfoSlice 0

/-! ## The state of one run -/

/-- The global variables the matching engine reads and never writes. -/
structure Globals where
  NUMBER_OF_DEVICES_REQUIRED : Nat
  USE_OF_CARD_AFFINITY_CAPABILITY : Bool
  USE_OF_PTP_SUPPORT_CAPABILITY : Bool
  USE_OF_RRU_CONNECTION_CAPABILITY : Bool
  deriving DecidableEq, Repr

/-- The state the matching engine works on: the criteria lists map, the three
device slices with their card affinity maps, the number of map `range`
statements executed so far and the ghost log of selections (collection and
position of every device handed to a role, in the order of the selections). -/
structure World where
  criteriaListsMap : GoMap CriteriaList
  regularDevicesSlice : List SupDevice
  ptpDevicesSlice : List SupDevice
  rruDevicesSlice : List SupDevice
  CardAffinityMap : GoMap CardAffinityDevicesInfo
  PtpCardAffinityMap : GoMap CardAffinityDevicesInfo
  RruCardAffinityMap : GoMap CardAffinityDevicesInfo
  rangeCount : Nat
  selectionLog : List (DeviceCapabilityType × Nat)
  deriving DecidableEq, Repr

/-- The device slice of a collection. -/
def World.devices (w : World) : DeviceCapabilityType → List SupDevice
  | .REGULAR => w.regularDevicesSlice
  | .PTP_SUPPORT => w.ptpDevicesSlice
  | .RRU_CONNECTION => w.rruDevicesSlice

/-- Writes the device slice of a collection. -/
def World.setDevices (w : World) (c : DeviceCapabilityType) (ds : List SupDevice) : World :=
  match c with
  | .REGULAR => { w with regularDevicesSlice := ds }
  | .PTP_SUPPORT => { w with ptpDevicesSlice := ds }
  | .RRU_CONNECTION => { w with rruDevicesSlice := ds }

/-- The card affinity map of a collection. -/
def World.affinityMap (w : World) : DeviceCapabilityType → GoMap CardAffinityDevicesInfo
  | .REGULAR => w.CardAffinityMap
  | .PTP_SUPPORT => w.PtpCardAffinityMap
  | .RRU_CONNECTION => w.RruCardAffinityMap

/-- Writes the card affinity map of a collection. -/
def World.setAffinityMap (w : World) (c : DeviceCapabilityType)
    (m : GoMap CardAffinityDevicesInfo) : World :=
  match c with
  | .REGULAR => { w with CardAffinityMap := m }
  | .PTP_SUPPORT => { w with PtpCardAffinityMap := m }
  | .RRU_CONNECTION => { w with RruCardAffinityMap := m }

/-- Ghost: records that the device at position `i` of collection `c` was handed
to a role. -/
def World.logSelection (w : World) (c : DeviceCapabilityType) (i : Nat) : World :=
  { w with selectionLog := w.selectionLog ++ [(c, i)] }

/-- Counts one more executed `range` over a map. -/
def World.tick (w : World) : World := { w with rangeCount := w.rangeCount + 1 }

/-- Go: `devices[i] = f(devices[i])`, faulting when `i` is out of range. -/
def modifyDevice (devices : List SupDevice) (i : Nat) (f : SupDevice → SupDevice) :
    Option (List SupDevice) :=
  match devices[i]? with
  | none => none
  | some d => some (devices.set i (f d))

/-- Go: `w.devices(c)[i] = f(w.devices(c)[i])`. -/
def World.modifyDevice (w : World) (c : DeviceCapabilityType) (i : Nat)
    (f : SupDevice → SupDevice) : Option World :=
  match SriovDetection.modifyDevice (w.devices c) i f with
  | none => none
  | some ds => some (w.setDevices c ds)

/-- Go: `*criteriaListsMap[pf] = f(*criteriaListsMap[pf])`, faulting on a missing key. -/
def World.modifyCriteria (w : World) (pf : String) (f : CriteriaList → CriteriaList) :
    Option World :=
  match mapGet w.criteriaListsMap pf with
  | none => none
  | some cl => some { w with criteriaListsMap := mapSet w.criteriaListsMap pf (f cl) }

/-! ## Output string -/

/-- Go: `UpdateOutputString`; the result is the new value of `*outputStringPtr`. -/
def UpdateOutputString (NUMBER_OF_DEVICES_REQUIRED : Nat) (interfaceIndexToAdd : Nat)
    (deviceInterfaceToAdd : String) (outputString : String) : String :=
  if 0 < interfaceIndexToAdd ∧ interfaceIndexToAdd ≤ NUMBER_OF_DEVICES_REQUIRED then
    outputString ++ (deviceInterfaceToAdd ++ "\n")
  else ""

/-! ## Card affinity groups -/

/-- Go: `RemoveDeviceIndexFromSlice`: the last element is copied over position
`deviceIndex`, the slice is truncated by one and an empty group is deleted. -/
def RemoveDeviceIndexFromSlice (deviceIndex : Nat) (currentCardAffinity : String)
    (cardAffinityMap : GoMap CardAffinityDevicesInfo) :
    Option (GoMap CardAffinityDevicesInfo) :=
  match mapGet cardAffinityMap currentCardAffinity with
  | none => none
  | some info =>
    match info.DevicesIndexesSlice.getLast? with
    | none => none
    | some last =>
      if deviceIndex < info.DevicesIndexesSlice.length then
        let truncated := (info.DevicesIndexesSlice.set deviceIndex last).dropLast
        if truncated.length = 0 then some (mapDelete cardAffinityMap currentCardAffinity)
        else some (mapSet cardAffinityMap currentCardAffinity
          { info with DevicesIndexesSlice := truncated })
      else none

/-- Go: `RemoveDeviceIndexFromSlice` applied to the card affinity map of collection `c`. -/
def World.removeDeviceIndex (w : World) (c : DeviceCapabilityType) (deviceIndex : Nat)
    (currentCardAffinity : String) : Option World :=
  match RemoveDeviceIndexFromSlice deviceIndex currentCardAffinity (w.affinityMap c) with
  | none => none
  | some m => some (w.setAffinityMap c m)

/-- The loop of lines 557-559: every device of the group is flagged
`IsCardAffinityCouple`. -/
def markCardAffinityCouples : List Nat → List SupDevice → Option (List SupDevice)
  | [], devices => some devices
  | coupledDeviceIndex :: rest, devices =>
    match modifyDevice devices coupledDeviceIndex
        (fun d => { d with IsCardAffinityCouple := true }) with
    | none => none
    | some devices1 => markCardAffinityCouples rest devices1

/-- The loop of `SelectingDeviceFromCardAffinityIndexesSlice` over the positions
of the group that are still to be visited; `indexInDevicesIndexesSlice` is the
position, in the group, of the head of the list. -/
def SelectingDeviceFromCardAffinityIndexesSlice.loop
    (cardAffinityPfCoupleType : CardAffinityPfCoupleType) (c : DeviceCapabilityType)
    (currentCardAffinity currentPF : String) :
    List Nat → Nat → World → Option (Int × World)
  | [], _, w => some (-1, w)
  | deviceIndex :: rest, indexInDevicesIndexesSlice, w =>
    match (if cardAffinityPfCoupleType = .CURRENT_PF_BIGGER_THAN_COUPLED then
        w.modifyDevice c deviceIndex (fun d => { d with IsCardAffinityCouple := false })
      else some w) with
    | none => none
    | some w1 =>
    match (w1.devices c)[deviceIndex]? with
    | none => none
    | some device =>
    match CheckDevicesAgainstSpecificCriteriaList (mapGet w1.criteriaListsMap currentPF)
        [device] with
    | none => none
    | some checkingSpecificDeviceResult =>
      if checkingSpecificDeviceResult = 0 then
        match cardAffinityPfCoupleType with
        | .EMPTY_MARKED_FALSE =>
          match mapGet (w1.affinityMap c) currentCardAffinity with
          | none => none
          | some info =>
            let w2 := w1.setAffinityMap c (mapSet (w1.affinityMap c) currentCardAffinity
              { info with ChosenDeviceHasNoCardAffinity := true })
            match w2.removeDeviceIndex c indexInDevicesIndexesSlice currentCardAffinity with
            | none => none
            | some w3 => some ((deviceIndex : Int), w3.logSelection c deviceIndex)
        | .CURRENT_PF_SMALLER_THAN_COUPLED =>
          match mapGet w1.criteriaListsMap currentPF with
          | none => none
          | some criteriaList =>
          match w1.modifyCriteria criteriaList.CardAffinityPfCouple
              (fun cl => { cl with CardAffinity := device.CardAffinity }) with
          | none => none
          | some w2 =>
          match mapGet (w2.affinityMap c) currentCardAffinity with
          | none => none
          | some info =>
          match markCardAffinityCouples info.DevicesIndexesSlice (w2.devices c) with
          | none => none
          | some devices =>
          match (w2.setDevices c devices).removeDeviceIndex c indexInDevicesIndexesSlice
              currentCardAffinity with
          | none => none
          | some w3 => some ((deviceIndex : Int), w3.logSelection c deviceIndex)
        | .CURRENT_PF_BIGGER_THAN_COUPLED =>
          match w1.modifyDevice c deviceIndex
              (fun d => { d with IsCardAffinityCouple := true }) with
          | none => none
          | some w2 =>
          match w2.removeDeviceIndex c indexInDevicesIndexesSlice currentCardAffinity with
          | none => none
          | some w3 => some ((deviceIndex : Int), w3.logSelection c deviceIndex)
        | .EMPTY_MARKED_TRUE =>
          match w1.removeDeviceIndex c indexInDevicesIndexesSlice currentCardAffinity with
          | none => none
          | some w3 => some ((deviceIndex : Int), w3.logSelection c deviceIndex)
      else
        match (if cardAffinityPfCoupleType = .CURRENT_PF_BIGGER_THAN_COUPLED then
            w1.modifyDevice c deviceIndex (fun d => { d with IsCardAffinityCouple := true })
          else some w1) with
        | none => none
        | some w2 =>
          SelectingDeviceFromCardAffinityIndexesSlice.loop cardAffinityPfCoupleType c
            currentCardAffinity currentPF rest (indexInDevicesIndexesSlice + 1) w2

/-- Go: `SelectingDeviceFromCardAffinityIndexesSlice`, on the slice and the map
of collection `c`. -/
def SelectingDeviceFromCardAffinityIndexesSlice
    (cardAffinityPfCoupleType : CardAffinityPfCoupleType) (c : DeviceCapabilityType)
    (currentCardAffinity currentPF : String) (w : World) : Option (Int × World) :=
  match mapGet (w.affinityMap c) currentCardAffinity with
  | none => none
  | some info =>
    SelectingDeviceFromCardAffinityIndexesSlice.loop cardAffinityPfCoupleType c
      currentCardAffinity currentPF info.DevicesIndexesSlice 0 w

/-- The common shape of the three `for cardAffinity, cardAffinityDevicesInfo :=
range cardAffinityMap` loops of `CheckDevicesAgainstCriteriaListWithCardAffinity`:
`visit` is the condition on the group and `cardAffinityPfCoupleType` the type
handed to the selection. -/
def CheckDevicesAgainstCriteriaListWithCardAffinity.scan
    (cardAffinityPfCoupleType : CardAffinityPfCoupleType) (c : DeviceCapabilityType)
    (currentPF : String) (visit : CardAffinityDevicesInfo → Bool) :
    List String → World → Option (Int × World)
  | [], w => some (-1, w)
  | cardAffinity :: rest, w =>
    match mapGet (w.affinityMap c) cardAffinity with
    | none => CheckDevicesAgainstCriteriaListWithCardAffinity.scan cardAffinityPfCoupleType c
        currentPF visit rest w
    | some cardAffinityDevicesInfo =>
      if visit cardAffinityDevicesInfo then
        match SelectingDeviceFromCardAffinityIndexesSlice cardAffinityPfCoupleType c
            cardAffinity currentPF w with
        | none => none
        | some (deviceIndex, w1) =>
          if deviceIndex ≥ 0 then some (deviceIndex, w1)
          else CheckDevicesAgainstCriteriaListWithCardAffinity.scan cardAffinityPfCoupleType c
            currentPF visit rest w1
      else CheckDevicesAgainstCriteriaListWithCardAffinity.scan cardAffinityPfCoupleType c
        currentPF visit rest w

/-- Go: `CheckDevicesAgainstCriteriaListWithCardAffinity`, on the slice and the
map of collection `c`. -/
def CheckDevicesAgainstCriteriaListWithCardAffinity (mapOrder : Nat → List String → List String)
    (c : DeviceCapabilityType) (currentPF : String) (w : World) : Option (Int × World) :=
  match mapGet w.criteriaListsMap currentPF with
  | none => none
  | some criteriaList =>
    if criteriaList.CardAffinityPfCouple = "" then
      match CheckDevicesAgainstCriteriaListWithCardAffinity.scan .EMPTY_MARKED_TRUE c currentPF
          (fun info => info.ChosenDeviceHasNoCardAffinity)
          (mapOrder w.rangeCount (mapKeys (w.affinityMap c))) w.tick with
      | none => none
      | some (deviceIndex, w1) =>
        if deviceIndex ≥ 0 then some (deviceIndex, w1)
        else
          CheckDevicesAgainstCriteriaListWithCardAffinity.scan .EMPTY_MARKED_FALSE c currentPF
            (fun info => decide (1 < info.DevicesIndexesSlice.length))
            (mapOrder w1.rangeCount (mapKeys (w1.affinityMap c))) w1.tick
    else if goStringLess currentPF criteriaList.CardAffinityPfCouple then
      CheckDevicesAgainstCriteriaListWithCardAffinity.scan .CURRENT_PF_SMALLER_THAN_COUPLED c
        currentPF
        (fun info => !info.ChosenDeviceHasNoCardAffinity &&
          decide (1 < info.DevicesIndexesSlice.length))
        (mapOrder w.rangeCount (mapKeys (w.affinityMap c))) w.tick
    else
      if currentPF = "" ∨ criteriaList.CardAffinity = "" then some (-1, w)
      else
        SelectingDeviceFromCardAffinityIndexesSlice .CURRENT_PF_BIGGER_THAN_COUPLED c
          criteriaList.CardAffinity currentPF w

/-- Go: `CheckDevicesAgainstCriteriaListWithNoCardAffinity`. The result holds
the returned boolean, `*outputStringPtr`, `*successfulCheckedDevicesPtr` and the
state. -/
def CheckDevicesAgainstCriteriaListWithNoCardAffinity (g : Globals)
    (criteriaListPtr : Option CriteriaList)
    (outputString : String) (successfulCheckedDevices : Nat) (w : World) :
    Option (Bool × String × Nat × World) :=
  match criteriaListPtr with
  | none => none
  | some criteriaList =>
    let deviceCapabilityType : Option DeviceCapabilityType :=
      if criteriaList.PTPSupport = true then
        (if w.ptpDevicesSlice.length = 0 then none else some .PTP_SUPPORT)
      else if criteriaList.RRUConnection = true then
        (if w.rruDevicesSlice.length = 0 then none else some .RRU_CONNECTION)
      else some .REGULAR
    match deviceCapabilityType with
    | none => some (false, outputString, successfulCheckedDevices, w)
    | some capability =>
      match CheckDevicesAgainstSpecificCriteriaList criteriaListPtr (w.devices capability) with
      | none => none
      | some deviceIndex =>
        if deviceIndex ≥ 0 then
          match (w.devices capability)[deviceIndex.toNat]? with
          | none => none
          | some device =>
            let successful := (successfulCheckedDevices + 1) % 256
            some (true,
              UpdateOutputString g.NUMBER_OF_DEVICES_REQUIRED successful device.InterfaceName
                outputString,
              successful,
              (w.setDevices capability ((w.devices capability).set deviceIndex.toNat
                { device with CheckedAgainstCriteria := true })).logSelection capability
                deviceIndex.toNat)
        else some (false, outputString, successfulCheckedDevices, w)

/-- The loop of `FindProperCoupleDevicesFromDifferentCardAffinityMaps` over the
keys of the card affinity map of the current PF (collection `cur`); the map
of the coupled PF is the one of collection `cpl`. -/
def FindProperCoupleDevicesFromDifferentCardAffinityMaps.loop
    (cur cpl : DeviceCapabilityType) (currentPf : String) (requiredCoupleOfDevices : Bool) :
    List String → World → Option (Bool × World)
  | [], w => some (false, w)
  | cardAffinity :: rest, w =>
    match mapGet (w.affinityMap cur) cardAffinity with
    | none => FindProperCoupleDevicesFromDifferentCardAffinityMaps.loop cur cpl currentPf
        requiredCoupleOfDevices rest w
    | some info =>
    match (if info.DevicesIndexesSlice.length = 1 then mapGet (w.affinityMap cpl) cardAffinity
        else none) with
    | none => FindProperCoupleDevicesFromDifferentCardAffinityMaps.loop cur cpl currentPf
        requiredCoupleOfDevices rest w
    | some coupledInfo =>
    match info.DevicesIndexesSlice[0]? with
    | none => none
    | some position =>
    match (w.devices cur)[position]? with
    | none => none
    | some device =>
    match CheckDevicesAgainstSpecificCriteriaList (mapGet w.criteriaListsMap currentPf)
        [device] with
    | none => none
    | some deviceIndex =>
      if deviceIndex = 0 then
        if requiredCoupleOfDevices = true then
          match coupledInfo.DevicesIndexesSlice[0]? with
          | none => none
          | some coupledPosition =>
          match (w.devices cpl)[coupledPosition]? with
          | none => none
          | some coupledDevice =>
          match mapGet w.criteriaListsMap currentPf with
          | none => none
          | some criteriaList =>
          match CheckDevicesAgainstSpecificCriteriaList
              (mapGet w.criteriaListsMap criteriaList.CardAffinityPfCouple) [coupledDevice] with
          | none => none
          | some coupledDeviceIndex =>
            if coupledDeviceIndex = 0 then
              match w.modifyCriteria currentPf
                  (fun cl => { cl with SelectedDeviceInterface := device.InterfaceName }) with
              | none => none
              | some w1 =>
              match w1.modifyDevice cur position
                  (fun d => { d with CheckedAgainstCriteria := true }) with
              | none => none
              | some w2 =>
              match (w2.removeDeviceIndex cur 0 cardAffinity).map
                  (fun w3 : World => w3.logSelection cur position) with
              | none => none
              | some w3 =>
              match mapGet (w3.affinityMap cpl) cardAffinity with
              | none => none
              | some coupledInfo3 =>
              match coupledInfo3.DevicesIndexesSlice[0]? with
              | none => none
              | some coupledPosition3 =>
              match w3.modifyDevice cpl coupledPosition3
                  (fun d => { d with CheckedAgainstCriteria := true }) with
              | none => none
              | some w4 =>
              match (w4.devices cpl)[coupledPosition3]? with
              | none => none
              | some coupledDevice4 =>
              match w4.modifyCriteria criteriaList.CardAffinityPfCouple
                  (fun cl => { cl with
                    SelectedDeviceInterface := coupledDevice4.InterfaceName }) with
              | none => none
              | some w5 =>
              match w5.removeDeviceIndex cpl 0 cardAffinity with
              | none => none
              | some w6 => some (true, w6.logSelection cpl coupledPosition3)
            else FindProperCoupleDevicesFromDifferentCardAffinityMaps.loop cur cpl currentPf
              requiredCoupleOfDevices rest w
        else
          match w.modifyCriteria currentPf
              (fun cl => { cl with SelectedDeviceInterface := device.InterfaceName }) with
          | none => none
          | some w1 =>
          match w1.modifyDevice cur position
              (fun d => { d with CheckedAgainstCriteria := true }) with
          | none => none
          | some w2 =>
          match (w2.removeDeviceIndex cur 0 cardAffinity).map
              (fun w3 : World => w3.logSelection cur position) with
          | none => none
          | some w3 =>
          match mapGet (w3.affinityMap cpl) cardAffinity with
          | none => none
          | some coupledInfo3 =>
            some (true, w3.setAffinityMap cpl (mapSet (w3.affinityMap cpl) cardAffinity
              { coupledInfo3 with ChosenDeviceHasNoCardAffinity := true }))
      else FindProperCoupleDevicesFromDifferentCardAffinityMaps.loop cur cpl currentPf
        requiredCoupleOfDevices rest w

/-- Go: `FindProperCoupleDevicesFromDifferentCardAffinityMaps`; `cur` names the
pair (`cardAffinityMapOfCurrentPF`, `devicesSlice`) and `cpl` the pair
(`cardAffinityMapOfCoupledPF`, `coupledDevicesSlice`). -/
def FindProperCoupleDevicesFromDifferentCardAffinityMaps
    (mapOrder : Nat → List String → List String) (cur cpl : DeviceCapabilityType)
    (currentPf : String) (requiredCoupleOfDevices : Bool) (w : World) :
    Option (Bool × World) :=
  FindProperCoupleDevicesFromDifferentCardAffinityMaps.loop cur cpl currentPf
    requiredCoupleOfDevices (mapOrder w.rangeCount (mapKeys (w.affinityMap cur))) w.tick

/-- Go: `FindDevicesForPfCoupleWithSpecialCapability`, on the slice and the map
of collection `c`. -/
def FindDevicesForPfCoupleWithSpecialCapability (mapOrder : Nat → List String → List String)
    (c : DeviceCapabilityType) (currentPf : String) (w : World) : Option (Bool × World) :=
  match mapGet w.criteriaListsMap currentPf with
  | none => none
  | some criteriaList =>
    let coupledPf :=
      if goStringLess criteriaList.CardAffinityPfCouple currentPf then currentPf
      else criteriaList.CardAffinityPfCouple
    let currentPf :=
      if goStringLess criteriaList.CardAffinityPfCouple currentPf then
        criteriaList.CardAffinityPfCouple
      else currentPf
    match CheckDevicesAgainstCriteriaListWithCardAffinity mapOrder c currentPf w with
    | none => none
    | some (deviceIndex, w1) =>
      if deviceIndex ≥ 0 then
        match CheckDevicesAgainstCriteriaListWithCardAffinity mapOrder c coupledPf w1 with
        | none => none
        | some (coupledDeviceIndex, w2) =>
          if coupledDeviceIndex ≥ 0 then
            match (w2.devices c)[deviceIndex.toNat]? with
            | none => none
            | some device =>
            match w2.modifyCriteria currentPf
                (fun cl => { cl with SelectedDeviceInterface := device.InterfaceName }) with
            | none => none
            | some w3 =>
            match (w3.devices c)[coupledDeviceIndex.toNat]? with
            | none => none
            | some coupledDevice =>
            match w3.modifyCriteria coupledPf
                (fun cl => { cl with SelectedDeviceInterface := coupledDevice.InterfaceName })
                with
            | none => none
            | some w4 => some (true, w4)
          else some (false, w2)
      else some (false, w1)

/-- The loop of lines 951-960: the position in the group of the first element
equal to `deviceIndex`, counted from `indexInDevicesIndexesSlice`. -/
def findIndexInDevicesIndexesSlice : List Nat → Nat → Nat → Option Nat
  | [], _, _ => none
  | deviceIndexInSlice :: rest, indexInDevicesIndexesSlice, deviceIndex =>
    if deviceIndexInSlice = deviceIndex then some indexInDevicesIndexesSlice
    else findIndexInDevicesIndexesSlice rest (indexInDevicesIndexesSlice + 1) deviceIndex

/-- The loop of `TreatmentOFCardAffinityWithCapabilities` over the sorted PFs.
`target` names the pair (`targetCapabilityCardAffinityMap`,
`targetCapabilityDevicesSlice`), `other` the pair (`otherCapabilityCardAffinityMap`,
`otherCapabilityDevicesSlice`); the regular slice is always paired with the
global `CardAffinityMap`. -/
def TreatmentOFCardAffinityWithCapabilities.loop
    (mapOrder : Nat → List String → List String) (target other : DeviceCapabilityType)
    (deviceCapabilityType : DeviceCapabilityType) :
    List String → World → Option (Bool × World)
  | [], w => some (true, w)
  | pfIndex :: rest, w =>
    match mapGet w.criteriaListsMap pfIndex with
    | none => none
    | some criteriaList =>
    if criteriaList.SelectedDeviceInterface ≠ "" then
      TreatmentOFCardAffinityWithCapabilities.loop mapOrder target other deviceCapabilityType
        rest w
    else if (deviceCapabilityType = .RRU_CONNECTION ∧ criteriaList.RRUConnection = true) ∨
        (deviceCapabilityType = .PTP_SUPPORT ∧ criteriaList.PTPSupport = true) then
      if criteriaList.CardAffinityPfCouple = "" then
        match FindProperCoupleDevicesFromDifferentCardAffinityMaps mapOrder target .REGULAR
            pfIndex false w with
        | none => none
        | some (true, w1) =>
          TreatmentOFCardAffinityWithCapabilities.loop mapOrder target other
            deviceCapabilityType rest w1
        | some (false, w1) =>
        match FindProperCoupleDevicesFromDifferentCardAffinityMaps mapOrder target other
            pfIndex false w1 with
        | none => none
        | some (true, w2) =>
          TreatmentOFCardAffinityWithCapabilities.loop mapOrder target other
            deviceCapabilityType rest w2
        | some (false, w2) =>
        match CheckDevicesAgainstSpecificCriteriaList (mapGet w2.criteriaListsMap pfIndex)
            (w2.devices target) with
        | none => none
        | some deviceIndex =>
          if deviceIndex ≥ 0 then
            match (w2.devices target)[deviceIndex.toNat]? with
            | none => none
            | some device =>
            match mapGet (w2.affinityMap target) device.CardAffinity with
            | none => none
            | some info =>
            match (match findIndexInDevicesIndexesSlice info.DevicesIndexesSlice 0
                deviceIndex.toNat with
              | none => some w2
              | some indexInDevicesIndexesSlice =>
                match w2.modifyCriteria pfIndex
                    (fun cl => { cl with SelectedDeviceInterface := device.InterfaceName }) with
                | none => none
                | some w3 =>
                match (w3.removeDeviceIndex target indexInDevicesIndexesSlice
                    device.CardAffinity).map
                    (fun w4 : World => w4.logSelection target deviceIndex.toNat) with
                | none => none
                | some w4 =>
                  w4.modifyDevice target deviceIndex.toNat
                    (fun d => { d with CheckedAgainstCriteria := true })) with
            | none => none
            | some w6 =>
            match (w6.devices target)[deviceIndex.toNat]? with
            | none => none
            | some device6 =>
              if device6.CheckedAgainstCriteria = true then
                TreatmentOFCardAffinityWithCapabilities.loop mapOrder target other
                  deviceCapabilityType rest w6
              else some (false, w6)
          else some (false, w2)
      else
        match mapGet w.criteriaListsMap criteriaList.CardAffinityPfCouple with
        | none => none
        | some coupledCriteriaList =>
        if (deviceCapabilityType = .RRU_CONNECTION ∧ coupledCriteriaList.RRUConnection = true) ∨
            (deviceCapabilityType = .PTP_SUPPORT ∧ coupledCriteriaList.PTPSupport = true) then
          match FindDevicesForPfCoupleWithSpecialCapability mapOrder target pfIndex w with
          | none => none
          | some (true, w1) =>
            TreatmentOFCardAffinityWithCapabilities.loop mapOrder target other
              deviceCapabilityType rest w1
          | some (false, w1) => some (false, w1)
        else if deviceCapabilityType = .RRU_CONNECTION ∧
            coupledCriteriaList.PTPSupport = true then
          match FindProperCoupleDevicesFromDifferentCardAffinityMaps mapOrder target other
              pfIndex true w with
          | none => none
          | some (true, w1) =>
            TreatmentOFCardAffinityWithCapabilities.loop mapOrder target other
              deviceCapabilityType rest w1
          | some (false, w1) => some (false, w1)
        else
          match FindProperCoupleDevicesFromDifferentCardAffinityMaps mapOrder target .REGULAR
              pfIndex true w with
          | none => none
          | some (true, w1) =>
            TreatmentOFCardAffinityWithCapabilities.loop mapOrder target other
              deviceCapabilityType rest w1
          | some (false, w1) =>
          match FindProperCoupleDevicesFromDifferentCardAffinityMaps mapOrder target other
              pfIndex true w1 with
          | none => none
          | some (true, w2) =>
            TreatmentOFCardAffinityWithCapabilities.loop mapOrder target other
              deviceCapabilityType rest w2
          | some (false, w2) =>
          match FindDevicesForPfCoupleWithSpecialCapability mapOrder target pfIndex w2 with
          | none => none
          | some (true, w3) =>
            TreatmentOFCardAffinityWithCapabilities.loop mapOrder target other
              deviceCapabilityType rest w3
          | some (false, w3) => some (false, w3)
    else
      TreatmentOFCardAffinityWithCapabilities.loop mapOrder target other deviceCapabilityType
        rest w

/-- Go: `TreatmentOFCardAffinityWithCapabilities`. -/
def TreatmentOFCardAffinityWithCapabilities (mapOrder : Nat → List String → List String)
    (sortedCriteriaListsKeys : List String) (target other : DeviceCapabilityType)
    (deviceCapabilityType : DeviceCapabilityType) (w : World) : Option (Bool × World) :=
  TreatmentOFCardAffinityWithCapabilities.loop mapOrder target other deviceCapabilityType
    sortedCriteriaListsKeys w

/-! ## Top level orchestration -/

/-- Inserts a string into an ascending list, before the first element that is
not smaller. -/
def insertSorted (s : String) : List String → List String
  | [] => [s]
  | x :: xs => if goStringLess x s then x :: insertSorted s xs else s :: x :: xs

/-- Go: `sort.Strings`, as an insertion sort (the keys of a map are pairwise
distinct, so every sorting algorithm returns the same list). -/
def sortStrings : List String → List String
  | [] => []
  | x :: xs => insertSorted x (sortStrings xs)

/-- The `for _, pfIndex := range sortedCriteriaListsKeys` loop of
`CheckDevicesAgainstCriteria` (lines 1073-1104), followed by the final
`return ""`. -/
def CheckDevicesAgainstCriteria.loop (mapOrder : Nat → List String → List String)
    (g : Globals) : List String → Nat → String → World → Option (String × World)
  | [], _, _, w => some ("", w)
  | pfIndex :: rest, successfulCheckedDevices, outputString, w =>
    if g.USE_OF_CARD_AFFINITY_CAPABILITY = true then
      match mapGet w.criteriaListsMap pfIndex with
      | none => none
      | some criteriaList =>
        if criteriaList.SelectedDeviceInterface = "" then
          match CheckDevicesAgainstCriteriaListWithCardAffinity mapOrder .REGULAR pfIndex w with
          | none => none
          | some (deviceIndex, w1) =>
            if deviceIndex ≥ 0 then
              match w1.regularDevicesSlice[deviceIndex.toNat]? with
              | none => none
              | some device =>
                let successful := (successfulCheckedDevices + 1) % 256
                let output := UpdateOutputString g.NUMBER_OF_DEVICES_REQUIRED successful
                  device.InterfaceName outputString
                if successful = g.NUMBER_OF_DEVICES_REQUIRED then some (output, w1)
                else CheckDevicesAgainstCriteria.loop mapOrder g rest successful output w1
            else some ("", w1)
        else
          let successful := (successfulCheckedDevices + 1) % 256
          let output := UpdateOutputString g.NUMBER_OF_DEVICES_REQUIRED successful
            criteriaList.SelectedDeviceInterface outputString
          if successful = g.NUMBER_OF_DEVICES_REQUIRED then some (output, w)
          else CheckDevicesAgainstCriteria.loop mapOrder g rest successful output w
    else
      match CheckDevicesAgainstCriteriaListWithNoCardAffinity g (mapGet w.criteriaListsMap pfIndex)
          outputString successfulCheckedDevices w with
      | none => none
      | some (properDeviceFound, output, successful, w1) =>
        if properDeviceFound = true then
          if successful = g.NUMBER_OF_DEVICES_REQUIRED then some (output, w1)
          else CheckDevicesAgainstCriteria.loop mapOrder g rest successful output w1
        else some ("", w1)

/-- Go: `CheckDevicesAgainstCriteria`: the returned string and the final state. -/
def CheckDevicesAgainstCriteria (mapOrder : Nat → List String → List String) (g : Globals)
    (w : World) : Option (String × World) :=
  let sortedCriteriaListsKeys := sortStrings (mapOrder w.rangeCount (mapKeys w.criteriaListsMap))
  let w0 := w.tick
  match (if g.USE_OF_CARD_AFFINITY_CAPABILITY = true ∧
      g.USE_OF_RRU_CONNECTION_CAPABILITY = true then
      TreatmentOFCardAffinityWithCapabilities mapOrder sortedCriteriaListsKeys .RRU_CONNECTION
        .PTP_SUPPORT .RRU_CONNECTION w0
    else some (true, w0)) with
  | none => none
  | some (false, w1) => some ("", w1)
  | some (true, w1) =>
  match (if g.USE_OF_CARD_AFFINITY_CAPABILITY = true ∧
      g.USE_OF_PTP_SUPPORT_CAPABILITY = true then
      TreatmentOFCardAffinityWithCapabilities mapOrder sortedCriteriaListsKeys .PTP_SUPPORT
        .RRU_CONNECTION .PTP_SUPPORT w1
    else some (true, w1)) with
  | none => none
  | some (false, w2) => some ("", w2)
  | some (true, w2) => CheckDevicesAgainstCriteria.loop mapOrder g sortedCriteriaListsKeys 0 "" w2

/-! ## Validation of the parsed configuration -/

/-- The variables `YamlFileValidation` writes: the criteria lists map (a coupled
PF may be filled in) and the three `USE_OF_..._CAPABILITY` globals. -/
structure ValidationState where
  criteriaListsMap : GoMap CriteriaList
  USE_OF_CARD_AFFINITY_CAPABILITY : Bool
  USE_OF_PTP_SUPPORT_CAPABILITY : Bool
  USE_OF_RRU_CONNECTION_CAPABILITY : Bool
  deriving DecidableEq, Repr

/-- Go: `ValidateCardAffinityCouplesInYamlFile`; the first component is the
returned error (`none` for `nil`). `criteriaListPtr` is the entry of `pf`. -/
def ValidateCardAffinityCouplesInYamlFile (criteriaListPtr : CriteriaList) (pf : String)
    (v : ValidationState) : Option String × ValidationState :=
  if criteriaListPtr.CardAffinityPfCouple = pf then
    (some "INVALID card affinity pf couple in criteria list: The card affinity configured MUST be different from the current PF", v)
  else
    match mapGet v.criteriaListsMap criteriaListPtr.CardAffinityPfCouple with
    | some coupled =>
      if 0 < coupled.CardAffinityPfCouple.length then
        if coupled.CardAffinityPfCouple ≠ pf then
          (some "NO Card affinity pf couple MATCH in 2 criteria lists in the YAML file", v)
        else (none, { v with USE_OF_CARD_AFFINITY_CAPABILITY := true })
      else
        (none, { v with
          criteriaListsMap := mapSet v.criteriaListsMap criteriaListPtr.CardAffinityPfCouple
            { coupled with CardAffinityPfCouple := pf },
          USE_OF_CARD_AFFINITY_CAPABILITY := true })
    | none =>
      (some "INVALID card affinity pf couple in criteria list: It is not a PF in the criteriaLists section in the YAML file", v)

/-- The `for pf, criteriaListPtr := range criteriaListsMap` loop of
`YamlFileValidation` over the keys still to be visited, followed by `return nil`. -/
def YamlFileValidation.loop : List String → ValidationState → Option String × ValidationState
  | [], v => (none, v)
  | pf :: rest, v =>
    match mapGet v.criteriaListsMap pf with
    | none => YamlFileValidation.loop rest v
    | some criteriaListPtr =>
      if criteriaListPtr.DeviceId.length = 0 then
        (some "there is no device id in criteria list", v)
      else if criteriaListPtr.PTPSupport = true ∧ criteriaListPtr.RRUConnection = true then
        (some "A PF MUST NOT support both PTP and RRU connection! Invalid configurations in PF", v)
      else
        let v1 := if criteriaListPtr.PTPSupport = true then
          { v with USE_OF_PTP_SUPPORT_CAPABILITY := true } else v
        let v2 := if criteriaListPtr.RRUConnection = true then
          { v1 with USE_OF_RRU_CONNECTION_CAPABILITY := true } else v1
        if 0 < criteriaListPtr.CardAffinityPfCouple.length then
          match ValidateCardAffinityCouplesInYamlFile criteriaListPtr pf v2 with
          | (some err, v3) => (some err, v3)
          | (none, v3) => YamlFileValidation.loop rest v3
        else YamlFileValidation.loop rest v2

/-- Go: `YamlFileValidation`; `order` is the order in which the `range` statement
visits the keys of the map. The first component is the returned error (`none`
for `nil`), the second the variables as the function leaves them. -/
def YamlFileValidation (order : List String) (v : ValidationState) :
    Option String × ValidationState :=
  if v.criteriaListsMap.length = 0 then
    (some "The criteria lists map from the YAML file is EMPTY!", v)
  else YamlFileValidation.loop order v

/-! ## Fixtures of `sriov_detection_test.go` -/

/-- Builds a device from the positional literal used by the tests. -/
def mkDev (name bus id drv : String) (speed vfs : Nat) (ls : LinkStateType) (numa : Int)
    (conn : String) (ddp ptp rru : Bool) (port : Int) (aff : String) (chk cpl : Bool) :
    SupDevice :=
  ⟨name, bus, id, drv, speed, vfs, ls, numa, conn, ddp, ptp, rru, port, aff, chk, cpl⟩

/-- The 14 devices of `Test_CheckDevicesAgainstCriteria` (lines 246-275). -/
def testDevicesInfoSlice : List SupDevice :=
  [ mkDev "eth0" "" "1593" "" 0 64 2 (-1) "" false false false (-1) "" false false,
    mkDev "eth1" "" "eyal" "driver2" 0 64 2 (-1) "" false false false (-1) "" false false,
    mkDev "eth2" "" "0d58" "driver1" 0 128 2 (-1) "" false false false (-1) "" false false,
    mkDev "eth3" "" "158a" "driver2" 40000 256 2 (-1) "" false false false (-1) "" false false,
    mkDev "eth4" "" "158a" "driver2" 40000 60 2 (-1) "" false false false (-1) "" false false,
    mkDev "eth5" "" "0d58" "driver2" 20000 64 2 (-1) "" false false false (-1) "" false false,
    mkDev "eth6" "" "0d58" "driver1" 40000 64 2 (-1) "" false false false (-1) "" false false,
    mkDev "eth7" "" "0d58" "driver2" 10000 64 1 7 "" false false false (-1) "" false false,
    mkDev "eth8" "" "0d58" "driver2" 40000 64 0 7 "" false false false (-1) "" false false,
    mkDev "eth9" "" "0d58" "driver2" 40000 64 1 7 "" false false false (-1) "" false false,
    mkDev "eth10" "" "0d58" "driver2" 40000 64 1 0 "Eyal" false false false (-1) "" false false,
    mkDev "eth11" "" "0d58" "driver2" 40000 64 1 0 "SATA" false false false (-1) "" false false,
    mkDev "eth12" "" "0d58" "driver2" 40000 64 1 0 "SATA" true false false (-1) "" false false,
    mkDev "eth13" "" "0d58" "driver2" 40000 64 1 0 "SATA" true false false 3 "0000:cc:00.x"
      false false ]

/-- The device identifiers every criteria list of the tests accepts. -/
def testDeviceIds : List String := ["158a", "0d58", "1593", "159b", "1592", "188a"]

/-- The criteria list `pf5` of `Test_CheckDevicesAgainstCriteria` (lines 295-296). -/
def testPf5 : CriteriaList :=
  ⟨"FH", testDeviceIds, ["driver2"], 40000, 64, 1, 0, ["SATA"], true, false, false, 3,
    "pf6", "0000:cc:00.x", ""⟩

/-- The regular devices of `IntitializeDevicesSlices` (lines 69-80). -/
def REGULAR_DEVICES_SLICE : List SupDevice :=
  [ mkDev "eth0" "0000:cc:00.0" "0d58" "i40e" 40000 64 1 1 "" false false false 0
      "0000:cc:00.x" false false,
    mkDev "eth3" "0000:b1:00.0" "0d58" "i40e" 40000 64 1 1 "" false false false 0
      "0000:b1:00.x" false false,
    mkDev "eth4" "0000:31:00.0" "159b" "ice" 65535 128 0 0 "" false false false 0
      "0000:31:00.x" false false,
    mkDev "eth6" "0000:b1:00.1" "159b" "ice" 25000 128 0 1 "" false false false 1
      "0000:b1:00.x" false false,
    mkDev "eth10" "0000:ee:00.0" "159b" "ice" 25000 128 0 1 "" false false false 0
      "0000:ee:00.x" false false,
    mkDev "eth11" "0000:ee:00.1" "159b" "ice" 25000 128 0 1 "" false false false 1
      "0000:ee:00.x" false false,
    mkDev "eth12" "0000:ff:00.0" "159b" "ice" 25000 128 0 1 "" false false false 0
      "0000:ff:00.x" false false,
    mkDev "eth13" "0000:ff:00.1" "159b" "ice" 25000 128 0 1 "" false false false 1
      "0000:ff:00.x" false false,
    mkDev "eth14" "0000:gg:00.0" "159b" "ice" 25000 64 0 1 "" false false false 0
      "0000:gg:00.x" false false,
    mkDev "eth15" "0000:gg:00.1" "159b" "ice" 25000 63 0 1 "" false false false 1
      "0000:gg:00.x" false false ]

/-- The PTP devices of `IntitializeDevicesSlices` (lines 82-87). -/
def PTP_DEVICES_SLICE : List SupDevice :=
  [ mkDev "eth1" "0000:cc:00.1" "0d58" "i40e" 40000 128 1 1 "" false true false 1
      "0000:cc:00.x" false false,
    mkDev "eth7" "0000:dd:00.0" "0d58" "i40e" 40000 64 1 1 "" false true false 0
      "0000:dd:00.x" false false,
    mkDev "eth9" "0000:ii:00.0" "0d58" "i40e" 40000 64 1 1 "" false true false 0
      "0000:ii:00.x" false false,
    mkDev "eth16" "0000:ii:00.1" "0d58" "i40e" 40000 64 1 1 "" false true false 1
      "0000:ii:00.x" false false ]

/-- The RRU devices of `IntitializeDevicesSlices` (lines 89-94). -/
def RRU_DEVICES_SLICE : List SupDevice :=
  [ mkDev "eth2" "0000:dd:00.1" "0d58" "i40e" 40000 64 1 1 "" false false true 1
      "0000:dd:00.x" false false,
    mkDev "eth5" "0000:31:00.1" "159b" "ice" 65535 128 0 0 "" false false true 1
      "0000:31:00.x" false false,
    mkDev "eth8" "0000:hh:00.0" "0d58" "i40e" 40000 64 1 1 "" false false true 0
      "0000:hh:00.x" false false,
    mkDev "eth17" "0000:hh:00.1" "0d58" "i40e" 40000 64 1 1 "" false false true 1
      "0000:hh:00.x" false false ]

/-- The `CardAffinityMap` of `InitializeCardAffinityMaps` (lines 110-121), stored
in the order of the assignments. -/
def testCardAffinityMap : GoMap CardAffinityDevicesInfo :=
  [ ("0000:cc:00.x", ⟨[0], false⟩), ("0000:31:00.x", ⟨[2], false⟩),
    ("0000:b1:00.x", ⟨[1, 3], false⟩), ("0000:ee:00.x", ⟨[4, 5], false⟩),
    ("0000:ff:00.x", ⟨[6, 7], false⟩), ("0000:gg:00.x", ⟨[8, 9], false⟩) ]

/-- The `PtpCardAffinityMap` of `InitializeCardAffinityMaps` (lines 124-129). -/
def testPtpCardAffinityMap : GoMap CardAffinityDevicesInfo :=
  [ ("0000:ii:00.x", ⟨[2, 3], false⟩), ("0000:cc:00.x", ⟨[0], false⟩),
    ("0000:dd:00.x", ⟨[1], false⟩) ]

/-- The `RruCardAffinityMap` of `InitializeCardAffinityMaps` (lines 132-137). -/
def testRruCardAffinityMap : GoMap CardAffinityDevicesInfo :=
  [ ("0000:hh:00.x", ⟨[2, 3], false⟩), ("0000:dd:00.x", ⟨[0], false⟩),
    ("0000:31:00.x", ⟨[1], false⟩) ]

/-- A criteria list of `InitializeCriteriaListsMap`: they differ only in the
minimal number of VFs and in the coupled PF. -/
def testCriteria (numVFSupp : Nat) (cardAffinityPfCouple : String) : CriteriaList :=
  ⟨"APP", testDeviceIds, [], 0, numVFSupp, 2, -1, [], false, false, false, -1,
    cardAffinityPfCouple, "", ""⟩

/-- The map `CRITERIA_LISTS_MAP_WITH_CARD_AFFINITY` of `InitializeCriteriaListsMap`
(lines 147-177). -/
def CRITERIA_LISTS_MAP_WITH_CARD_AFFINITY : GoMap CriteriaList :=
  [ ("pf1", testCriteria 100 ""), ("pf2", testCriteria 100 ""), ("pf3", testCriteria 64 "pf6"),
    ("pf4", testCriteria 64 ""), ("pf5", testCriteria 64 ""), ("pf6", testCriteria 64 "pf3"),
    ("pf7", testCriteria 64 "pf8"), ("pf8", testCriteria 64 "pf7") ]

/-- The state after `InitializeCardAffinityMaps`, `IntitializeDevicesSlices` and
`InitializeCriteriaListsMap`. -/
def testWorld : World :=
  { criteriaListsMap := CRITERIA_LISTS_MAP_WITH_CARD_AFFINITY
    regularDevicesSlice := REGULAR_DEVICES_SLICE
    ptpDevicesSlice := PTP_DEVICES_SLICE
    rruDevicesSlice := RRU_DEVICES_SLICE
    CardAffinityMap := testCardAffinityMap
    PtpCardAffinityMap := testPtpCardAffinityMap
    RruCardAffinityMap := testRruCardAffinityMap
    rangeCount := 0
    selectionLog := [] }

/-- The enumeration that visits the keys of every map in storage order. -/
def storageOrder : Nat → List String → List String := fun _ keys => keys

/-- The enumeration that visits the keys of every map in reverse storage order. -/
def reverseOrder : Nat → List String → List String := fun _ keys => keys.reverse

/-! ## Reference definitions, in the words of the specification -/

/-- The nine filters in the words of the specification: a membership filter
passes when the list of the role is empty, or the value of the device is empty,
or the value is in the list; the other filters as stated. -/
def filtersPass (role : CriteriaList) (device : SupDevice) : Prop :=
  (role.DeviceId = [] ∨ device.DeviceId = "" ∨ device.DeviceId ∈ role.DeviceId) ∧
  (role.Driver = [] ∨ device.Driver = "" ∨ device.Driver ∈ role.Driver) ∧
  role.LinkSpeed ≤ device.LinkSpeed ∧
  role.NumVFSupp ≤ device.NumVFSupp ∧
  (role.LinkState = 2 ∨ role.LinkState = device.LinkState) ∧
  (role.NUMALocation < 0 ∨ role.NUMALocation = device.NUMALocation) ∧
  (role.ConnectorType = [] ∨ device.ConnectorType = "" ∨
    device.ConnectorType ∈ role.ConnectorType) ∧
  (role.DDPSupport = true → device.DDPSupport = true) ∧
  (role.SpecificPortNumber ≤ 0 ∨ role.SpecificPortNumber = device.SpecificPortNumber)

/-- A device is acceptable for a role when it is neither assigned nor reserved
as an affinity partner and passes the nine filters. -/
def acceptable (role : CriteriaList) (device : SupDevice) : Prop :=
  device.CheckedAgainstCriteria = false ∧ device.IsCardAffinityCouple = false ∧
  filtersPass role device

instance (role : CriteriaList) (device : SupDevice) : Decidable (filtersPass role device) := by
  unfold filtersPass; infer_instance

instance (role : CriteriaList) (device : SupDevice) : Decidable (acceptable role device) := by
  unfold acceptable; infer_instance

/-- The collection a role is matched against when card affinity is not in use:
the PTP collection if the role requires PTP, else the RRU collection if it
requires RRU, else the regular collection. -/
def roleCollection (role : CriteriaList) : DeviceCapabilityType :=
  if role.PTPSupport = true then .PTP_SUPPORT
  else if role.RRUConnection = true then .RRU_CONNECTION
  else .REGULAR

/-- The position of the first acceptable device of a slice, if there is one. -/
def firstAcceptable (role : CriteriaList) : List SupDevice → Option Nat
  | [] => none
  | d :: ds => if acceptable role d then some 0 else (firstAcceptable role ds).map (· + 1)

/-- The interface names, each followed by a newline. -/
def outputLines : List String → String
  | [] => ""
  | name :: rest => (name ++ "\n") ++ outputLines rest

/-- The greedy reference of the specification: the role names are visited in
the order given; each role takes the first acceptable device of its collection
and flags it as assigned. The result is the list of the interface names of the
chosen devices, or `none` when some role gets no device. -/
def greedyReference (roles : GoMap CriteriaList) :
    List String → (DeviceCapabilityType → List SupDevice) → Option (List String)
  | [], _ => some []
  | name :: rest, collections =>
    match mapGet roles name with
    | none => none
    | some role =>
      match firstAcceptable role (collections (roleCollection role)) with
      | none => none
      | some i =>
        match (collections (roleCollection role))[i]? with
        | none => none
        | some d =>
          (greedyReference roles rest
            (Function.update collections (roleCollection role)
              ((collections (roleCollection role)).set i
                { d with CheckedAgainstCriteria := true }))).map (d.InterfaceName :: ·)

/-- The output the specification asks for: the lines of the greedy reference
when every role gets a device, the empty string otherwise. -/
def greedyOutput (roles : GoMap CriteriaList) (order : List String)
    (collections : DeviceCapabilityType → List SupDevice) : String :=
  match greedyReference roles order collections with
  | some names => outputLines names
  | none => ""

/-- The number of devices of a slice with both flags clear. -/
def clearCount (devices : List SupDevice) : Nat :=
  (devices.filter (fun d => !d.CheckedAgainstCriteria && !d.IsCardAffinityCouple)).length

/-- The invariant of the loop of `CheckDevicesAgainstCriteria`: the output
string holds exactly `s` lines and `s` is below the number required (or nothing
is required and the output string is empty). -/
def outputInvariant (n s : Nat) (out : String) : Prop :=
  (n = 0 ∧ out = "") ∨
    (s < n ∧ s < 256 ∧ ∃ names : List String, names.length = s ∧ out = outputLines names)

/-- The invariant of the matching without card affinity, relative to the state
`w0` on entry: the log has no duplicates, every logged position holds a device
that is flagged now and was not flagged on entry, and a device that is not
flagged now is as it was on entry. -/
def noAffinityInvariant (w0 w : World) : Prop :=
  w.selectionLog.Nodup ∧
  (∀ (c : DeviceCapabilityType) (i : Nat), (c, i) ∈ w.selectionLog →
    (∃ d, (w.devices c)[i]? = some d ∧ d.CheckedAgainstCriteria = true) ∧
    (∃ d0, (w0.devices c)[i]? = some d0 ∧ d0.CheckedAgainstCriteria = false)) ∧
  (∀ (c : DeviceCapabilityType) (i : Nat) (d : SupDevice), (w.devices c)[i]? = some d →
    d.CheckedAgainstCriteria = false → (w0.devices c)[i]? = some d)

/-- The number of devices of the three collections with both flags clear. -/
def totalClearCount (w : World) : Nat :=
  clearCount w.regularDevicesSlice + clearCount w.ptpDevicesSlice + clearCount w.rruDevicesSlice

/-- Sets the `CheckedAgainstCriteria` flag of every device of the slice. -/
def flagAll (devices : List SupDevice) : List SupDevice :=
  devices.map (fun d => { d with CheckedAgainstCriteria := true })

/-- The fixture of the tests with the regular devices `eth4` and `eth6`
(positions 2 and 3) already flagged as assigned. -/
def testWorldTwoFlagged : World :=
  { testWorld with
    regularDevicesSlice := REGULAR_DEVICES_SLICE.take 2 ++
      flagAll ((REGULAR_DEVICES_SLICE.drop 2).take 2) ++ REGULAR_DEVICES_SLICE.drop 4 }

/-- The fixture of the tests reduced to its first four regular devices, without
PTP and RRU devices: four devices with both flags clear for eight roles. -/
def testWorldFourDevices : World :=
  { testWorld with
    regularDevicesSlice := REGULAR_DEVICES_SLICE.take 4
    ptpDevicesSlice := []
    rruDevicesSlice := [] }

/-- What `YamlFileValidation` may change in the criteria lists map `m0`: no key
appears or disappears, the PTP and RRU requirements of a role stay, and a role
that declares a coupled PF stays as it is. -/
def yamlFrame (m0 m : GoMap CriteriaList) : Prop :=
  ∀ k : String,
    (mapGet m0 k = none → mapGet m k = none) ∧
    ∀ cl, mapGet m0 k = some cl →
      ∃ cl1, mapGet m k = some cl1 ∧ cl1.PTPSupport = cl.PTPSupport ∧
        cl1.RRUConnection = cl.RRUConnection ∧ cl1.DeviceId = cl.DeviceId ∧
        (cl.CardAffinityPfCouple ≠ "" → cl1 = cl)

/-- The validation state of a criteria lists map before `YamlFileValidation`:
the three `USE_OF_..._CAPABILITY` globals have their initial value `false`. -/
def initialValidationState (criteriaListsMap : GoMap CriteriaList) : ValidationState :=
  ⟨criteriaListsMap, false, false, false⟩

/-- Replaces the entry of a key that is present (the `map[key] = &value` of the tests). -/
def testSetCriteria (m : GoMap CriteriaList) (pf : String) (cl : CriteriaList) :
    GoMap CriteriaList :=
  mapSet m pf cl

/-- The `firstCriteriaList` of `Test_YamlFileValidation` (lines 547-579) with one
device identifier, coupled to `couple` and with the PTP and RRU requirements given. -/
def testFirstCriteriaList (couple : String) (ptp rru : Bool) : CriteriaList :=
  ⟨"APP", ["1592"], [], 0, 100, 2, -1, [], false, ptp, rru, -1, couple, "pf1", ""⟩

/-- Position `p` is listed in some group of the card affinity map. -/
def isMember (m : GoMap CardAffinityDevicesInfo) (p : Nat) : Prop :=
  ∃ key info, mapGet m key = some info ∧ p ∈ info.DevicesIndexesSlice

/-- A card affinity map lists every device position at most once: its keys are
pairwise distinct, no group lists a position twice and no position is listed in
two groups. -/
def listedAtMostOnce (m : GoMap CardAffinityDevicesInfo) : Prop :=
  (mapKeys m).Nodup ∧
  (∀ key info, mapGet m key = some info → info.DevicesIndexesSlice.Nodup) ∧
  (∀ key1 key2 info1 info2 p, mapGet m key1 = some info1 → mapGet m key2 = some info2 →
    p ∈ info1.DevicesIndexesSlice → p ∈ info2.DevicesIndexesSlice → key1 = key2)

/-- Every position listed in the map is a position of the slice, listed under
the card affinity key of its device. -/
def listedUnderOwnKey (devices : List SupDevice) (m : GoMap CardAffinityDevicesInfo) : Prop :=
  ∀ key info p, mapGet m key = some info → p ∈ info.DevicesIndexesSlice →
    ∃ d, devices[p]? = some d ∧ d.CardAffinity = key

/-- A well-formed card affinity map of a device slice. -/
def affinityMapWellFormed (devices : List SupDevice) (m : GoMap CardAffinityDevicesInfo) :
    Prop :=
  listedAtMostOnce m ∧ listedUnderOwnKey devices m

/-- The invariant behind the uniqueness of the selections with card affinity:
the three maps list every position at most once, the log has no duplicates and
no logged position is still listed in the map of its collection. -/
def selectionInvariant (w : World) : Prop :=
  (∀ c, listedAtMostOnce (w.affinityMap c)) ∧ w.selectionLog.Nodup ∧
  ∀ c i, (c, i) ∈ w.selectionLog → ¬ isMember (w.affinityMap c) i

/-- The positions listed in a card affinity map, group after group. -/
def affinityMembers : GoMap CardAffinityDevicesInfo → List Nat
  | [] => []
  | (_, info) :: rest => info.DevicesIndexesSlice ++ affinityMembers rest

/-- Well-formedness of a card affinity map as a property of its list of entries:
the keys are pairwise distinct, no position is listed twice, and every position
is listed under the card affinity key of its device. -/
def affinityEntriesWellFormed (devices : List SupDevice) (m : GoMap CardAffinityDevicesInfo) :
    Prop :=
  (mapKeys m).Nodup ∧ (affinityMembers m).Nodup ∧
  ∀ e ∈ m, ∀ p ∈ e.2.DevicesIndexesSlice,
    (devices[p]?).map (fun d => d.CardAffinity) = some e.1

instance (devices : List SupDevice) (m : GoMap CardAffinityDevicesInfo) :
    Decidable (affinityEntriesWellFormed devices m) := by
  unfold affinityEntriesWellFormed; infer_instance

/-- The state of `Test_CheckDevicesAgainstCriteriaWithCardAffinityAndSpecialCapabilities`
(lines 894-900): the fixture with `pf3` requiring an RRU connection and `pf7`
requiring PTP support. -/
def testWorldSpecialCapabilities : World :=
  { testWorld with
    criteriaListsMap :=
      mapSet (mapSet CRITERIA_LISTS_MAP_WITH_CARD_AFFINITY "pf3"
        { testCriteria 64 "pf6" with RRUConnection := true }) "pf7"
        { testCriteria 64 "pf8" with PTPSupport := true } }

/-! ## Card affinity groups: selections and later states -/

/-- The group `key` after the removal of `p`, and the other groups. -/
def groupShrunk (m m1 : GoMap CardAffinityDevicesInfo) (key : String)
    (info : CardAffinityDevicesInfo) (p : Nat) : Prop :=
  (∀ k, k ≠ key → mapGet m1 k = mapGet m k) ∧
  ∀ info1, mapGet m1 key = some info1 →
    ∀ x, x ∈ info1.DevicesIndexesSlice ↔ (x ∈ info.DevicesIndexesSlice ∧ x ≠ p)

/-- A state `w` reached after `w1`, as far as a call for the role `b` on
collection `c` can tell: the criteria list of `b` is the one of `w1`, and no
group of the card affinity map of `c` has gained a position. -/
def groupsOnlyShrink (c : DeviceCapabilityType) (b : String) (w1 w : World) : Prop :=
  mapGet w.criteriaListsMap b = mapGet w1.criteriaListsMap b ∧
  ∀ key info, mapGet (w.affinityMap c) key = some info →
    ∃ info1, mapGet (w1.affinityMap c) key = some info1 ∧
      ∀ x, x ∈ info.DevicesIndexesSlice → x ∈ info1.DevicesIndexesSlice

/-- An enumeration that visits the group `0000:ff:00.x` first. -/
def ffFirstOrder : Nat → List String → List String := fun _ keys =>
  keys.filter (fun k => k = "0000:ff:00.x") ++ keys.filter (fun k => k ≠ "0000:ff:00.x")

/-- The state after calls of `CheckDevicesAgainstCriteriaListWithCardAffinity` for
the roles of the list, one after the other. -/
def afterCalls (mapOrder : Nat → List String → List String) (c : DeviceCapabilityType) :
    List String → World → World
  | [], w => w
  | pf :: rest, w =>
    afterCalls mapOrder c rest
      (((CheckDevicesAgainstCriteriaListWithCardAffinity mapOrder c pf w).map Prod.snd).getD w)

/-! ## Discovery helpers -/

/-- Go: `m[k] = &v` for a key that is missing: the entry is added. -/
def mapInsert {V : Type} (m : GoMap V) (key : String) (val : V) : GoMap V := m ++ [(key, val)]

/-- Go: `UpdatingCardAffinityMap`: the position `uint8(len(devicesSlice))` is
appended to the group of `cardAffinity`, which is created when it is missing. -/
def UpdatingCardAffinityMap (cardAffinity : String) (devicesSlice : List SupDevice)
    (cardAffinityMap : GoMap CardAffinityDevicesInfo) : GoMap CardAffinityDevicesInfo :=
  match mapGet cardAffinityMap cardAffinity with
  | some info =>
    mapSet cardAffinityMap cardAffinity
      { info with DevicesIndexesSlice := info.DevicesIndexesSlice ++ [devicesSlice.length % 256] }
  | none =>
    mapInsert cardAffinityMap cardAffinity
      { DevicesIndexesSlice := [devicesSlice.length % 256],
        ChosenDeviceHasNoCardAffinity := false }

/-- Go: `strings.LastIndex(s, sep)` for a separator of one byte: the position of
the last occurrence in the bytes from position `i` on, `-1` when there is none. -/
def lastIndexFrom (sep : Nat) : List Nat → Nat → Int
  | [], _ => -1
  | c :: rest, i =>
    let later := lastIndexFrom sep rest (i + 1)
    if later ≥ 0 then later else if c = sep then (i : Int) else -1

/-- Go: `GetDeviceCardAffinity`. The byte `.` is 46; the slice ends after the
last `.`, where a character ends, so that the returned bytes are a text; the
second parameter only feeds the debug print. -/
def GetDeviceCardAffinity (deviceBusInfo : String) (_networkDeviceInterface : String) : String :=
  if (goBytes deviceBusInfo.toList).length < 5 ∨
      (goBytes deviceBusInfo.toList).contains 46 = false then ""
  else
    let lastDotIndexInBusInfo := lastIndexFrom 46 (goBytes deviceBusInfo.toList) 0
    if ((goBytes deviceBusInfo.toList).length : Int) ≠ lastDotIndexInBusInfo + 2 then ""
    else String.mk (goSliceTo deviceBusInfo.toList (lastDotIndexInBusInfo + 1).toNat) ++ "x"

/-- Go: `GetDeviceCardAffinity` on the bytes of its first argument, statement by
statement: the bytes of the returned string (`x` is the byte 120). -/
def GetDeviceCardAffinityBytes (deviceBusInfo : List Nat) : List Nat :=
  if deviceBusInfo.length < 5 ∨ deviceBusInfo.contains 46 = false then []
  else
    let lastDotIndexInBusInfo := lastIndexFrom 46 deviceBusInfo 0
    if (deviceBusInfo.length : Int) ≠ lastDotIndexInBusInfo + 2 then []
    else deviceBusInfo.take (lastDotIndexInBusInfo + 1).toNat ++ [120]

/-! ## Reference definitions for the validation of the configuration -/

/-- One iteration of the loop of `YamlFileValidation`, reduced to the criteria
lists map: `none` when the iteration returns an error, otherwise the map the
iteration leaves. -/
def validateStep (m : GoMap CriteriaList) (pf : String) : Option (GoMap CriteriaList) :=
  match mapGet m pf with
  | none => some m
  | some cl =>
    if cl.DeviceId.length = 0 then none
    else if cl.PTPSupport = true ∧ cl.RRUConnection = true then none
    else if 0 < cl.CardAffinityPfCouple.length then
      if cl.CardAffinityPfCouple = pf then none
      else
        match mapGet m cl.CardAffinityPfCouple with
        | some coupled =>
          if 0 < coupled.CardAffinityPfCouple.length then
            if coupled.CardAffinityPfCouple ≠ pf then none else some m
          else some (mapSet m cl.CardAffinityPfCouple { coupled with CardAffinityPfCouple := pf })
        | none => none
    else some m

/-- The loop of `YamlFileValidation`, reduced to the criteria lists map. -/
def validateAll : List String → GoMap CriteriaList → Option (GoMap CriteriaList)
  | [], m => some m
  | pf :: rest, m =>
    match validateStep m pf with
    | none => none
    | some m1 => validateAll rest m1

/-- The partnership relation of a role map is symmetric: the coupled PF of a
role that has one is another role of the map, whose coupled PF is the role. -/
def partnershipSymmetric (m : GoMap CriteriaList) : Prop :=
  ∀ r cl, mapGet m r = some cl → cl.CardAffinityPfCouple ≠ "" →
    cl.CardAffinityPfCouple ≠ r ∧
    ∃ cp, mapGet m cl.CardAffinityPfCouple = some cp ∧ cp.CardAffinityPfCouple = r

/-- The role maps that the specification accepts: the map is not empty, every
role lists a device identifier, no role requires both PTP and RRU, every
declared partner is a different declared role whose own declared partner is
empty or the declaring role, and no role is named as partner by two roles. -/
def yamlValid (m : GoMap CriteriaList) : Prop :=
  m ≠ [] ∧
  (∀ r cl, mapGet m r = some cl → cl.DeviceId ≠ []) ∧
  (∀ r cl, mapGet m r = some cl → ¬ (cl.PTPSupport = true ∧ cl.RRUConnection = true)) ∧
  (∀ r cl, mapGet m r = some cl → cl.CardAffinityPfCouple ≠ "" →
    cl.CardAffinityPfCouple ≠ r ∧
    ∃ cp, mapGet m cl.CardAffinityPfCouple = some cp ∧
      (cp.CardAffinityPfCouple = "" ∨ cp.CardAffinityPfCouple = r)) ∧
  (∀ r1 r2 cl1 cl2, mapGet m r1 = some cl1 → mapGet m r2 = some cl2 →
    cl1.CardAffinityPfCouple ≠ "" → cl1.CardAffinityPfCouple = cl2.CardAffinityPfCouple →
    r1 = r2)

/-- What the validation may change in an entry of the role map `m0`: no key
appears or disappears, and an entry changes at most in its coupled PF, and only
when it declared none. -/
def coupleFrame (m0 m : GoMap CriteriaList) : Prop :=
  ∀ k : String,
    (mapGet m0 k = none → mapGet m k = none) ∧
    ∀ cl0, mapGet m0 k = some cl0 →
      ∃ cl, mapGet m k = some cl ∧
        cl = { cl0 with CardAffinityPfCouple := cl.CardAffinityPfCouple } ∧
        (cl0.CardAffinityPfCouple ≠ "" → cl = cl0)

/-- The fixture of `Test_YamlFileValidation` with the coupled PF of `pf6` and of
`pf8` left out: the partners `pf3` and `pf7` are declared on one side only. -/
def testOneSidedCouples : GoMap CriteriaList :=
  testSetCriteria (testSetCriteria CRITERIA_LISTS_MAP_WITH_CARD_AFFINITY "pf6"
    (testCriteria 64 "")) "pf8" (testCriteria 64 "")

/-- The fixture of `Test_YamlFileValidation` with `pf1` and `pf2` both naming
`pf4` as their coupled PF. -/
def testTwoSuitors : GoMap CriteriaList :=
  testSetCriteria (testSetCriteria CRITERIA_LISTS_MAP_WITH_CARD_AFFINITY "pf1"
    (testCriteria 100 "pf4")) "pf2" (testCriteria 100 "pf4")

/-- A role map with a role named by the empty string: the roles `""` and `b`
both name `a` as their coupled PF, and `a` names nobody. -/
def testRoleNamedByEmptyString : GoMap CriteriaList :=
  [("", testCriteria 64 "a"), ("a", testCriteria 64 ""), ("b", testCriteria 64 "a")]

/-! ## Definitions for the properties of validation, grouping and priority -/

/-- The role map `m` in the middle of the validation of the accepted role map
`m0`: an entry is as in `m0`, or it declared no coupled PF in `m0` and holds the
role of `m0` that names it. -/
def partlyCompleted (m0 m : GoMap CriteriaList) : Prop :=
  ∀ k : String,
    (mapGet m0 k = none → mapGet m k = none) ∧
    ∀ cl0, mapGet m0 k = some cl0 →
      mapGet m k = some cl0 ∨
      (cl0.CardAffinityPfCouple = "" ∧
        ∃ r cr0, mapGet m0 r = some cr0 ∧ cr0.CardAffinityPfCouple = k ∧
          mapGet m k = some { cl0 with CardAffinityPfCouple := r })

/-- Every group of the card affinity map lists at least one position. -/
def groupsNonEmpty (m : GoMap CardAffinityDevicesInfo) : Prop :=
  ∀ e, e ∈ m → e.2.DevicesIndexesSlice ≠ []

instance (m : GoMap CardAffinityDevicesInfo) : Decidable (groupsNonEmpty m) := by
  unfold groupsNonEmpty; infer_instance

/-- The three card affinity maps of the state satisfy `P`. -/
def mapsSatisfy (P : GoMap CardAffinityDevicesInfo → Prop) (w : World) : Prop :=
  ∀ c, P (w.affinityMap c)

/-- The property `P` of card affinity maps is kept by the two ways in which a
matching pass writes a map: `RemoveDeviceIndexFromSlice`, and the assignment of
the flag `ChosenDeviceHasNoCardAffinity` of a group. -/
def closedUnderSelection (P : GoMap CardAffinityDevicesInfo → Prop) : Prop :=
  (∀ idx key m m1, P m → RemoveDeviceIndexFromSlice idx key m = some m1 → P m1) ∧
  (∀ m key info b, P m → mapGet m key = some info →
    P (mapSet m key { info with ChosenDeviceHasNoCardAffinity := b }))

/-- A role that accepts the devices with one device identifier only. -/
def priorityRole (deviceId : String) : CriteriaList :=
  ⟨"APP", [deviceId], [], 0, 0, 2, -1, [], false, false, false, -1, "", "", ""⟩

/-- A device with the interface name and the device identifier given. -/
def priorityDevice (name deviceId : String) : SupDevice :=
  mkDev name "" deviceId "" 0 64 2 (-1) "" false false false (-1) "" false false

/-- Ten roles `pf1`, ..., `pf10`; the role `pfk` accepts the device `ethk` only. -/
def tenRolesMap : GoMap CriteriaList :=
  [ ("pf1", priorityRole "id1"), ("pf2", priorityRole "id2"), ("pf3", priorityRole "id3"),
    ("pf4", priorityRole "id4"), ("pf5", priorityRole "id5"), ("pf6", priorityRole "id6"),
    ("pf7", priorityRole "id7"), ("pf8", priorityRole "id8"), ("pf9", priorityRole "id9"),
    ("pf10", priorityRole "id10") ]

/-- Ten regular devices `eth1`, ..., `eth10` for the ten roles, no card affinity. -/
def tenRolesWorld : World :=
  { criteriaListsMap := tenRolesMap
    regularDevicesSlice :=
      [ priorityDevice "eth1" "id1", priorityDevice "eth2" "id2", priorityDevice "eth3" "id3",
        priorityDevice "eth4" "id4", priorityDevice "eth5" "id5", priorityDevice "eth6" "id6",
        priorityDevice "eth7" "id7", priorityDevice "eth8" "id8", priorityDevice "eth9" "id9",
        priorityDevice "eth10" "id10" ]
    ptpDevicesSlice := []
    rruDevicesSlice := []
    CardAffinityMap := []
    PtpCardAffinityMap := []
    RruCardAffinityMap := []
    rangeCount := 0
    selectionLog := [] }

/-- The fixture of `Test_CheckDevicesAgainstCriteriaListWithCardAffinity` with the
four roles the test matches: `pf1`, `pf2`, `pf3` and `pf6`. -/
def testWorldFourRoles : World :=
  { testWorld with
    criteriaListsMap :=
      [ ("pf1", testCriteria 100 ""), ("pf2", testCriteria 100 ""),
        ("pf3", testCriteria 64 "pf6"), ("pf6", testCriteria 64 "pf3") ] }

/-- The result of `CheckDevicesAgainstCriteria` as the caller sees it: the output
string and the three device slices. -/
def passResult (r : String × World) : String × List SupDevice × List SupDevice × List SupDevice :=
  (r.1, r.2.devices .REGULAR, r.2.devices .PTP_SUPPORT, r.2.devices .RRU_CONNECTION)

/-- A valid bus address in the words of the specification, a character being a
byte as for `len` and `strings.LastIndex`: it has at least 5 bytes and its last
`.` is the second-to-last byte. -/
def validBusInfo (deviceBusInfo : String) : Prop :=
  5 ≤ (goBytes deviceBusInfo.toList).length ∧
    (goBytes deviceBusInfo.toList).dropLast.getLast? = some 46 ∧
    (goBytes deviceBusInfo.toList).getLast? ≠ some 46

instance (deviceBusInfo : String) : Decidable (validBusInfo deviceBusInfo) := by
  unfold validBusInfo; infer_instance

/-- The same condition on the bytes of any Go string, whether they encode a text
or not: there are at least 5 bytes, the second-to-last byte is a `.` and the
last byte is not. -/
def validBusInfoBytes (bytes : List Nat) : Prop :=
  5 ≤ bytes.length ∧ bytes.dropLast.getLast? = some 46 ∧ bytes.getLast? ≠ some 46

instance (bytes : List Nat) : Decidable (validBusInfoBytes bytes) := by
  unfold validBusInfoBytes; infer_instance

/-- The same condition on the characters of the text: it has at least 5
characters and its last `.` is the second-to-last character. -/
def validBusInfoInCharacters (deviceBusInfo : String) : Prop :=
  5 ≤ deviceBusInfo.length ∧ deviceBusInfo.toList.dropLast.getLast? = some '.' ∧
    deviceBusInfo.toList.getLast? ≠ some '.'

instance (deviceBusInfo : String) : Decidable (validBusInfoInCharacters deviceBusInfo) := by
  unfold validBusInfoInCharacters; infer_instance

/-! ## Removal, selection by type, PTP probe and treatment outcome -/

/-- The state of `Test_SelectingDeviceFromCardAffinityIndexesSlice` after `pf3`
has been given position 6 of the group `0000:ff:00.x`. -/
def testWorldAfterPf3 : World :=
  ((SelectingDeviceFromCardAffinityIndexesSlice .CURRENT_PF_SMALLER_THAN_COUPLED .REGULAR
    "0000:ff:00.x" "pf3" testWorld).getD (0, testWorld)).2

/-- Some position of `l` holds a device that is acceptable for `role`. -/
def holdsAcceptable (role : CriteriaList) (devices : List SupDevice) (l : List Nat) : Prop :=
  ∃ p, p ∈ l ∧ ∃ d, devices[p]? = some d ∧ acceptable role d

/-- The fixture with `pf3` requiring an RRU connection and its coupled PF `pf6`
requiring PTP support on port 1. -/
def testWorldRruWithPtpPartner : World :=
  { testWorld with
    criteriaListsMap :=
      mapSet (mapSet CRITERIA_LISTS_MAP_WITH_CARD_AFFINITY "pf3"
        { testCriteria 64 "pf6" with RRUConnection := true }) "pf6"
        { testCriteria 64 "pf3" with PTPSupport := true, SpecificPortNumber := 1 } }

/-- Go: `const BYTE_BUFFER_SIZE_FOR_PTP_MESSAGES`. -/
def BYTE_BUFFER_SIZE_FOR_PTP_MESSAGES : Nat := 1024

/-- Go: `strings.Contains(s, substr)` on the bytes of the two strings. -/
def stringsContains : List Char → List Char → Bool
  | [], substr => substr.isEmpty
  | c :: rest, substr => substr.isPrefixOf (c :: rest) || stringsContains rest substr

/-- What the operating system answers during one call of `GetDevicePtpSupport`:
the results of the two calls of `ChangeLinkState`, whether `cmd.Start()` returns
an error (`cmd.Process` is then left nil), the data that the successive calls of
`stdout.Read` deliver before a call returns an error (end of the output, or the
pipe closed by the main goroutine), and whether the `select` statement takes the
branch of `ctx.Done()` rather than the branch of the channel. -/
structure PtpProbeAnswers where
  changeLinkStateUp : Bool
  changeLinkStateDown : Bool
  startFails : Bool
  stdoutReads : List String
  timeoutFirst : Bool
  deriving DecidableEq, Repr

/-- The calls that `GetDevicePtpSupport` makes, in the order of the main
goroutine: `ChangeLinkState`, the `go` statement that launches the goroutine of
the `ptp4l` process, the receive from `ptpMasterFoundChannel`,
`cmd.Process.Kill()` and `stdout.Close()`. -/
inductive PtpProbeEvent where
  | changeLinkState (setLinkStateUp : Bool)
  | launchGoroutine
  | receiveResult (result : Bool)
  | killProcess
  | closeStdout
  deriving DecidableEq, Repr

/-- The `for` loop of the goroutine of `GetDevicePtpSupport` (lines 1415-1431):
each `Read` overwrites the first bytes of `byteBuffer`, whose other bytes stay,
and the whole buffer is searched for the line of `ptp4l`; the value is the one
sent on `ptpMasterFoundChannel`. -/
def ptpGoroutine.loop : List Char → List String → Bool
  | _, [] => false
  | byteBuffer, read :: rest =>
    let data := read.toList.take byteBuffer.length
    let byteBuffer1 := data ++ byteBuffer.drop data.length
    if stringsContains byteBuffer1 "new foreign master".toList = true then true
    else ptpGoroutine.loop byteBuffer1 rest

/-- The goroutine of `GetDevicePtpSupport` (lines 1406-1432): the one value it
sends on `ptpMasterFoundChannel`. -/
def ptpGoroutine (answers : PtpProbeAnswers) : Bool :=
  if answers.startFails then false
  else ptpGoroutine.loop (List.replicate BYTE_BUFFER_SIZE_FOR_PTP_MESSAGES (Char.ofNat 0))
    answers.stdoutReads

/-- Go: `GetDevicePtpSupport`, with the answers of the operating system as a
parameter. The result is the list of the calls made and the returned boolean;
`none` stands for the run-time panic of a call through the nil `cmd.Process`. -/
def GetDevicePtpSupport (answers : PtpProbeAnswers) (linkState : LinkStateType) :
    List PtpProbeEvent × Option Bool :=
  if linkState = LINK_STATE_DOWN ∧ answers.changeLinkStateUp = false then
    ([.changeLinkState true], some false)
  else
    let entry : List PtpProbeEvent :=
      (if linkState = LINK_STATE_DOWN then [.changeLinkState true] else []) ++
        [.launchGoroutine]
    let result := ptpGoroutine answers
    if answers.timeoutFirst = false then
      if answers.startFails then (entry ++ [.receiveResult result, .killProcess], none)
      else if linkState = LINK_STATE_DOWN then
        if answers.changeLinkStateDown = false then
          (entry ++ [.receiveResult result, .killProcess, .closeStdout,
            .changeLinkState false], some false)
        else
          (entry ++ [.receiveResult result, .killProcess, .closeStdout,
            .changeLinkState false], some result)
      else (entry ++ [.receiveResult result, .killProcess, .closeStdout], some result)
    else
      if linkState = LINK_STATE_DOWN then
        if answers.changeLinkStateDown = false then
          (entry ++ [.closeStdout, .receiveResult result, .changeLinkState false], some false)
        else
          (entry ++ [.closeStdout, .receiveResult result, .changeLinkState false], some result)
      else (entry ++ [.closeStdout, .receiveResult result], some result)

/-- What a role requires: its criteria list without the two fields that the
matching writes (`CardAffinity` and `SelectedDeviceInterface`). -/
def roleRequirements (cl : CriteriaList) : CriteriaList :=
  { cl with CardAffinity := "", SelectedDeviceInterface := "" }

/-- The coupled PF that the role `k` declares in the map `m` (empty for a role
that declares none or is missing). -/
def coupleOf (m : GoMap CriteriaList) (k : String) : String :=
  match mapGet m k with
  | some cl => cl.CardAffinityPfCouple
  | none => ""

/-- The roles that the treatment of the roles in `visited` may write: these
roles, their coupled PFs and the coupled PFs of those. -/
def touchedBy (m : GoMap CriteriaList) (visited : List String) (k : String) : Prop :=
  ∃ q, q ∈ visited ∧ (k = q ∨ (coupleOf m q ≠ "" ∧
    (k = coupleOf m q ∨ k = coupleOf m (coupleOf m q))))

/-- The criteria lists map `m1` comes from `m` by assignments to roles in `T`:
no role appears or disappears, the requirements stay, a selected interface
stays non-empty, and is not written at all when `sel` is false. -/
def rolesAssigned (T : String → Prop) (sel : Bool) (m m1 : GoMap CriteriaList) : Prop :=
  ∀ k, (mapGet m k = none → mapGet m1 k = none) ∧
    ∀ cl, mapGet m k = some cl → ∃ cl1, mapGet m1 k = some cl1 ∧
      roleRequirements cl1 = roleRequirements cl ∧
      (cl.SelectedDeviceInterface ≠ "" → cl1.SelectedDeviceInterface ≠ "") ∧
      (sel = false → cl1.SelectedDeviceInterface = cl.SelectedDeviceInterface) ∧
      (¬ T k → cl1 = cl)

/-- Every device of the three collections has an interface name. -/
def namesNonEmpty (w : World) : Prop :=
  ∀ c d, d ∈ w.devices c → d.InterfaceName ≠ ""

/-- The state `w1` comes from `w` by steps of the matching for the roles in `T`:
the devices keep their interface names and the criteria lists map changes by
assignments only. -/
def stepOf (T : String → Prop) (sel : Bool) (w w1 : World) : Prop :=
  (∀ c, (w1.devices c).map (fun d => d.InterfaceName) =
    (w.devices c).map (fun d => d.InterfaceName)) ∧
  rolesAssigned T sel w.criteriaListsMap w1.criteriaListsMap

/-- The role requires the capability that `TreatmentOFCardAffinityWithCapabilities`
treats (the condition of lines 931-932). -/
def requiresCapability (ty : DeviceCapabilityType) (cl : CriteriaList) : Prop :=
  (ty = .RRU_CONNECTION ∧ cl.RRUConnection = true) ∨
    (ty = .PTP_SUPPORT ∧ cl.PTPSupport = true)

instance (ty : DeviceCapabilityType) (cl : CriteriaList) :
    Decidable (requiresCapability ty cl) := by
  unfold requiresCapability
  infer_instance

/-- The role `k` needs nothing more from the treatment of the capability `ty`:
it does not require the capability or it has a selected interface. -/
def roleResolved (ty : DeviceCapabilityType) (m : GoMap CriteriaList) (k : String) : Prop :=
  ∀ cl, mapGet m k = some cl → requiresCapability ty cl → cl.SelectedDeviceInterface ≠ ""

/-- The outcome of `TreatmentOFCardAffinityWithCapabilities` on the sorted roles
`keys`: on success every role is resolved; on failure the loop has stopped at a
role `pf` that requires the capability and has no selected interface, the roles
before it are resolved, and only the roles visited, their coupled PFs and the
coupled PFs of those have been written. -/
def treatmentOutcome (ty : DeviceCapabilityType) (keys : List String) (w : World) (b : Bool)
    (w1 : World) : Prop :=
  (b = true → stepOf (touchedBy w.criteriaListsMap keys) true w w1 ∧
    ∀ k, k ∈ keys → roleResolved ty w1.criteriaListsMap k) ∧
  (b = false → ∃ (pre : List String) (pf : String) (post : List String) (cl : CriteriaList),
    keys = pre ++ pf :: post ∧
    stepOf (touchedBy w.criteriaListsMap (pre ++ [pf])) true w w1 ∧
    (∀ k, k ∈ pre → roleResolved ty w1.criteriaListsMap k) ∧
    mapGet w1.criteriaListsMap pf = some cl ∧ requiresCapability ty cl ∧
    cl.SelectedDeviceInterface = "")

/-- The fixture of `TestingFailureForTreatmentOFCardAffinityWithCapabilities`
(lines 813-824): `pf1`, `pf2`, `pf3` and `pf4` require an RRU connection and `pf2`
at least 64 VFs. -/
def testWorldFourRruRoles : World :=
  { testWorld with
    criteriaListsMap :=
      mapSet (mapSet (mapSet (mapSet CRITERIA_LISTS_MAP_WITH_CARD_AFFINITY
        "pf1" { testCriteria 100 "" with RRUConnection := true })
        "pf2" { testCriteria 64 "" with RRUConnection := true })
        "pf3" { testCriteria 64 "pf6" with RRUConnection := true })
        "pf4" { testCriteria 64 "" with RRUConnection := true } }

/-- The symmetry of the partnership relation as a property of the list of
entries. -/
def partnershipEntriesSymmetric (m : GoMap CriteriaList) : Prop :=
  ∀ e ∈ m, e.2.CardAffinityPfCouple ≠ "" →
    e.2.CardAffinityPfCouple ≠ e.1 ∧
    (mapGet m e.2.CardAffinityPfCouple).map (fun cp => cp.CardAffinityPfCouple) = some e.1

instance (m : GoMap CriteriaList) : Decidable (partnershipEntriesSymmetric m) := by
  unfold partnershipEntriesSymmetric; infer_instance

/-! ## Discovery of the devices and the two flags of a device -/

/-- The fixture of the tests with the roles `pf7` and `pf8` asking for at least
130 VFs, as lines 432-433 of `Test_CheckDevicesAgainstCriteriaListWithCardAffinity`
set them. -/
def testWorldPf7Pf8Demanding : World :=
  { testWorld with
    criteriaListsMap :=
      mapSet (mapSet CRITERIA_LISTS_MAP_WITH_CARD_AFFINITY "pf7" (testCriteria 130 "pf8"))
        "pf8" (testCriteria 130 "pf7") }

/-- Go: a `net.Addr` as `CheckIfDeviceCurrentlyUsed` tells them apart: a
`*net.IPNet` with the bytes of its `IP`, or a value of another type. -/
inductive NetAddr where
  | ipNet (ip : List Nat)
  | other
  deriving DecidableEq, Repr

/-- Go: `net.Interface`, with the answer of its method `Addrs()`: the returned
addresses and whether the returned error is not nil. -/
structure NetInterface where
  Name : String
  Flags : Nat
  addrs : List NetAddr
  addrsError : Bool
  deriving DecidableEq, Repr

/-- Go: `net.FlagUp`, the first flag of `net.Flags` (`1 << iota`). -/
def FlagUp : Nat := 1

/-- Go: `net.IP.To4` of the standard library: an address of 4 bytes, or of 16
bytes of which the first 10 are zero and the next two `0xff`, has an IPv4 form
(`none` is the nil result). -/
def ipTo4 (ip : List Nat) : Option (List Nat) :=
  if ip.length = 4 then some ip
  else if ip.length = 16 ∧ (ip.take 10).all (fun b => b = 0) = true ∧ ip[10]? = some 255 ∧
      ip[11]? = some 255 then some (ip.drop 12)
  else none

/-- The `for _, ipAddres := range addrs` loop of `CheckIfDeviceCurrentlyUsed`:
`true` when the loop executes `return true`. -/
def CheckIfDeviceCurrentlyUsed.loop : List NetAddr → Bool
  | [] => false
  | ipAddres :: rest =>
    match ipAddres with
    | .ipNet ip =>
      if (ipTo4 ip).isSome then true else CheckIfDeviceCurrentlyUsed.loop rest
    | .other => CheckIfDeviceCurrentlyUsed.loop rest

/-- Go: `CheckIfDeviceCurrentlyUsed`. -/
def CheckIfDeviceCurrentlyUsed (networkDevice : NetInterface) : Bool :=
  if networkDevice.Flags &&& FlagUp > 0 then
    if networkDevice.addrsError = false ∧
        CheckIfDeviceCurrentlyUsed.loop networkDevice.addrs = true then true
    else if networkDevice.addrsError = true then true
    else false
  else false

/-- The interface is up: the flag `net.FlagUp`, the lowest bit, is set. -/
def interfaceIsUp (networkDevice : NetInterface) : Prop := networkDevice.Flags % 2 = 1

/-- An IPv4 network address in the words of the specification: an address with
a network mask (`*net.IPNet`) whose IP has 4 bytes or is an IPv4 address mapped
into 16 bytes (`::ffff:a.b.c.d`). -/
def isIPv4NetworkAddress (a : NetAddr) : Prop :=
  ∃ ip, a = .ipNet ip ∧
    (ip.length = 4 ∨ (ip.length = 16 ∧ (∀ b, b ∈ ip.take 10 → b = 0) ∧ ip[10]? = some 255 ∧
      ip[11]? = some 255))

/-- Go: `INTEL_VENDOR_NAME`. -/
def INTEL_VENDOR_NAME : String := "Intel Corporation"

/-- Go: `INVALID_VALUE_FOR_CAPABILITY_FROM_LINUX_FS`. -/
def INVALID_VALUE_FOR_CAPABILITY_FROM_LINUX_FS : Int := -1

/-- Go: the conversion `int8(x)` of an integer. -/
def toInt8 (x : Int) : Int := (x + 128) % 256 - 128

/-- The answers of the operating system and of the packages `ethtool` and `ghw`
about one network interface, as `DetectDevices` asks for them:
`ptrEthtoolHandle.BusInfo` (value and whether the error is not nil), the integer
that `cat` of a file of `/sys/class/net/.../device/` followed by `strings.TrimSpace`
and `strconv.Atoi` yields (`none` when one of them fails), `ptrPci.GetDevice`
(`none` for nil, else the product identifier and the vendor name),
`ptrEthtoolHandle.DriverName`, `CmdGetMapped` and `LinkState` (`none` on error),
and the answers to the PTP probe. -/
structure HostInterface where
  networkDevice : NetInterface
  busInfo : String
  busInfoError : Bool
  sriovTotalVfs : Option Int
  pciDevice : Option (String × String)
  driverName : Option String
  ethToolMap : Option (List (String × Nat))
  linkState : Option Nat
  numaNode : Option Int
  ptpAnswers : PtpProbeAnswers
  deriving DecidableEq, Repr

/-- Go: `CheckVendorNameAndProductId`, on the answer of `ptrPci.GetDevice(busInfo)`. -/
def CheckVendorNameAndProductId (deviceInfo : Option (String × String)) : Bool × String :=
  match deviceInfo with
  | none => (false, "")
  | some (productId, vendorName) =>
    if productId.length = 0 then (false, "")
    else if vendorName ≠ INTEL_VENDOR_NAME then (false, "")
    else (true, productId)

/-- Go: `DetectCapabilityFromLinuxFS`, on the integer read from the file. -/
def DetectCapabilityFromLinuxFS (capabilityFile : Option Int) : Int :=
  match capabilityFile with
  | none => INVALID_VALUE_FOR_CAPABILITY_FROM_LINUX_FS
  | some capabilityInt => capabilityInt

/-- Go: `GetDeviceDriver`. -/
def GetDeviceDriver (driverName : Option String) : String :=
  match driverName with
  | none => ""
  | some driver => driver

/-- Go: `GetDeviceLinkSpeed`; a missing key `Speed` reads as 0. -/
def GetDeviceLinkSpeed (ethToolMap : Option (List (String × Nat))) : Nat :=
  match ethToolMap with
  | none => 0
  | some m => (mapGet m "Speed").getD 0

/-- Go: `GetDeviceLinkState`. -/
def GetDeviceLinkState (linkState : Option Nat) : LinkStateType :=
  match linkState with
  | none => LINK_STATE_INVALID_VALUE
  | some 0 => LINK_STATE_DOWN
  | some 1 => LINK_STATE_UP
  | some _ => LINK_STATE_INVALID_VALUE

/-- Go: `FilteringDeviceForBasicCapabilities`: the result, the bus information,
the maximal number of VFs and the device identifier. -/
def FilteringDeviceForBasicCapabilities (host : HostInterface) : Bool × String × Int × String :=
  if host.busInfoError = true ∨ host.busInfo.length = 0 ∨ host.busInfo = "N/A" then
    (false, "", 0, "")
  else if CheckIfDeviceCurrentlyUsed host.networkDevice = true then (false, "", 0, "")
  else
    let maxVfs := DetectCapabilityFromLinuxFS host.sriovTotalVfs
    if maxVfs ≤ 0 then (false, "", 0, "")
    else
      match CheckVendorNameAndProductId host.pciDevice with
      | (false, _) => (false, "", 0, "")
      | (true, deviceId) => (true, host.busInfo, maxVfs, deviceId)

/-- The body of the loop of `DetectDevices` for one network interface (lines
1557-1605): the state after the iteration, `none` when the iteration faults. The
three slices under construction and the three global card affinity maps are the
ones of the state. -/
def DetectDevices.iteration (g : Globals) (host : HostInterface) (w : World) : Option World :=
  match FilteringDeviceForBasicCapabilities host with
  | (false, _, _, _) => some w
  | (true, deviceBusInfo, maxVfs, deviceId) =>
    let driver := GetDeviceDriver host.driverName
    let linkSpeed := GetDeviceLinkSpeed host.ethToolMap
    let linkState := GetDeviceLinkState host.linkState
    let numaNode := DetectCapabilityFromLinuxFS host.numaNode
    let cardAffinity := GetDeviceCardAffinity deviceBusInfo host.networkDevice.Name
    match (GetDevicePtpSupport host.ptpAnswers linkState).2 with
    | none => none
    | some ptpSupport =>
      let rruConnection := false
      match (if cardAffinity ≠ "" then
          match (goBytes deviceBusInfo.toList).getLast? with
          | none => none
          | some lastByte =>
            some (toInt8 (((lastByte + 256 - 48) % 256 : Nat) : Int),
              if g.USE_OF_CARD_AFFINITY_CAPABILITY = true then
                if g.USE_OF_RRU_CONNECTION_CAPABILITY = true ∧ rruConnection = true then
                  w.setAffinityMap .RRU_CONNECTION (UpdatingCardAffinityMap cardAffinity
                    (w.devices .RRU_CONNECTION) (w.affinityMap .RRU_CONNECTION))
                else if g.USE_OF_PTP_SUPPORT_CAPABILITY = true ∧ ptpSupport = true then
                  w.setAffinityMap .PTP_SUPPORT (UpdatingCardAffinityMap cardAffinity
                    (w.devices .PTP_SUPPORT) (w.affinityMap .PTP_SUPPORT))
                else
                  w.setAffinityMap .REGULAR (UpdatingCardAffinityMap cardAffinity
                    (w.devices .REGULAR) (w.affinityMap .REGULAR))
              else w)
        else some (INVALID_VALUE_FOR_SPECIFIC_PORT, w)) with
      | none => none
      | some (specificPort, w1) =>
        let supDevice : SupDevice :=
          ⟨host.networkDevice.Name, deviceBusInfo, deviceId, driver, linkSpeed,
            maxVfs.toNat % 2 ^ 32, linkState, toInt8 numaNode, "", false, ptpSupport,
            rruConnection, specificPort, cardAffinity, false, false⟩
        if g.USE_OF_RRU_CONNECTION_CAPABILITY = true ∧ rruConnection = true then
          some (w1.setDevices .RRU_CONNECTION (w1.devices .RRU_CONNECTION ++ [supDevice]))
        else if g.USE_OF_PTP_SUPPORT_CAPABILITY = true ∧ ptpSupport = true then
          some (w1.setDevices .PTP_SUPPORT (w1.devices .PTP_SUPPORT ++ [supDevice]))
        else some (w1.setDevices .REGULAR (w1.devices .REGULAR ++ [supDevice]))

/-- The `for _, networkDevice := range networkInterfaces` loop of `DetectDevices`. -/
def DetectDevices.loop (g : Globals) : List HostInterface → World → Option World
  | [], w => some w
  | host :: rest, w =>
    match DetectDevices.iteration g host w with
    | none => none
    | some w1 => DetectDevices.loop g rest w1

/-- Go: `DetectDevices`. The three returned slices start empty; the three card
affinity maps are the global ones, as the state holds them on entry. -/
def DetectDevices (g : Globals) (networkInterfaces : List HostInterface) (w : World) :
    Option World :=
  DetectDevices.loop g networkInterfaces
    { w with regularDevicesSlice := [], ptpDevicesSlice := [], rruDevicesSlice := [] }

/-- The collection of a device in the words of the specification: RRU if RRU is
in use and the device reports an RRU connection, otherwise PTP if PTP is in use
and the device supports PTP, otherwise regular. -/
def collectionOf (g : Globals) (d : SupDevice) : DeviceCapabilityType :=
  if g.USE_OF_RRU_CONNECTION_CAPABILITY = true ∧ d.RRUConnection = true then .RRU_CONNECTION
  else if g.USE_OF_PTP_SUPPORT_CAPABILITY = true ∧ d.PTPSupport = true then .PTP_SUPPORT
  else .REGULAR

/-- An interface of the test host in the style of the fixtures: it passes the
basic filters, its link is up and the PTP probe answers `ptp`. -/
def testHost (name busInfo : String) (ptp : Bool) : HostInterface :=
  { networkDevice := ⟨name, 0, [], false⟩
    busInfo := busInfo
    busInfoError := false
    sriovTotalVfs := some 64
    pciDevice := some ("0d58", "Intel Corporation")
    driverName := some "i40e"
    ethToolMap := some [("Speed", 40000)]
    linkState := some 1
    numaNode := some 1
    ptpAnswers := ⟨true, true, false, if ptp then ["new foreign master"] else [], false⟩ }

/-- The state before discovery: nothing but the criteria lists map. -/
def emptyWorld (criteriaListsMap : GoMap CriteriaList) : World :=
  ⟨criteriaListsMap, [], [], [], [], [], [], 0, []⟩

/-- A host with three interfaces that pass the basic filters: eth0 and eth1 on
the card `0000:cc:00`, of which eth1 answers the PTP probe, and eth2 on the card
`0000:dd:00`. -/
def testHostInterfaces : List HostInterface :=
  [testHost "eth0" "0000:cc:00.0" false, testHost "eth1" "0000:cc:00.1" true,
    testHost "eth2" "0000:dd:00.0" false]

/-- The invariant of the loop of `DetectDevices`: in each of the three maps the
keys are pairwise distinct, no key is empty and no group lists a position twice;
every listed position is a position of the collection of the map, listed under
the key of its device; when card affinity is in use every device with a key is
listed under it; and every device is in the collection `collectionOf` names. -/
def discoveryInvariant (g : Globals) (w : World) : Prop :=
  (∀ c, (mapKeys (w.affinityMap c)).Nodup) ∧
  (∀ c key info, mapGet (w.affinityMap c) key = some info →
    key ≠ "" ∧ info.DevicesIndexesSlice.Nodup) ∧
  (∀ c, listedUnderOwnKey (w.devices c) (w.affinityMap c)) ∧
  (g.USE_OF_CARD_AFFINITY_CAPABILITY = true → ∀ c p d, (w.devices c)[p]? = some d →
    d.CardAffinity ≠ "" →
    ∃ info, mapGet (w.affinityMap c) d.CardAffinity = some info ∧
      p ∈ info.DevicesIndexesSlice) ∧
  (∀ c d, d ∈ w.devices c → collectionOf g d = c)

/-- The number of devices of the three collections. -/
def totalDevices (w : World) : Nat :=
  (w.devices .REGULAR).length + (w.devices .PTP_SUPPORT).length +
    (w.devices .RRU_CONNECTION).length

/-- A configuration of three roles: `pf1` requires PTP support and has no
coupled PF, `pf2` and `pf3` are coupled to each other. -/
def testRolesPtpAndCouple : GoMap CriteriaList :=
  [ ("pf1", { testCriteria 64 "" with PTPSupport := true }), ("pf2", testCriteria 64 "pf3"),
    ("pf3", testCriteria 64 "pf2") ]

/-- A host with three interfaces that pass the basic filters: eth0 and eth2 on
the card `0000:cc:00`, and eth1, which answers the PTP probe and whose bus
information `0000:dd:00.10` does not end with a `.` and one character. -/
def testHostEmptyKey : List HostInterface :=
  [testHost "eth0" "0000:cc:00.0" false, testHost "eth2" "0000:cc:00.1" false,
    testHost "eth1" "0000:dd:00.10" true]

/-- No device of the three collections has both `CheckedAgainstCriteria` and
`IsCardAffinityCouple` set. -/
def flagsExclusive (w : World) : Prop :=
  ∀ c d, d ∈ w.devices c →
    ¬ (d.CheckedAgainstCriteria = true ∧ d.IsCardAffinityCouple = true)

/-- The invariant behind `flagsExclusive` in a matching with card affinity: the
three maps list every position at most once, and a device that has
`CheckedAgainstCriteria` set is not flagged `IsCardAffinityCouple` and its
position is in no group of the map of its collection. -/
def flagsInvariant (w : World) : Prop :=
  (∀ c, listedAtMostOnce (w.affinityMap c)) ∧
  ∀ c i d, (w.devices c)[i]? = some d → d.CheckedAgainstCriteria = true →
    d.IsCardAffinityCouple = false ∧ ¬ isMember (w.affinityMap c) i

/-- The invariant `flagsInvariant` between the assignment of
`CheckedAgainstCriteria` to position `i0` of collection `c0` and the removal of
that position from its group: it is the one position that may be listed. -/
def flagsInvariantBut (c0 : DeviceCapabilityType) (i0 : Nat) (w : World) : Prop :=
  (∀ c, listedAtMostOnce (w.affinityMap c)) ∧
  ∀ c i d, (w.devices c)[i]? = some d → d.CheckedAgainstCriteria = true →
    d.IsCardAffinityCouple = false ∧ (isMember (w.affinityMap c) i → c = c0 ∧ i = i0)

/-- The fixture of the tests with `pf3` requiring an RRU connection: its couple
with `pf6` is matched by the RRU treatment, the couple of `pf7` and `pf8` by the
regular matching. -/
def testWorldRruRoleAndRegularCouple : World :=
  { testWorld with
    criteriaListsMap :=
      mapSet CRITERIA_LISTS_MAP_WITH_CARD_AFFINITY "pf3"
        { testCriteria 64 "pf6" with RRUConnection := true } }

/-! ## The positions handed to the roles and the lines of the output -/

/-- The interface name of the device at position `p.2` of the collection `p.1`. -/
def interfaceAt (w : World) (p : DeviceCapabilityType × Nat) : Option String :=
  ((w.devices p.1)[p.2]?).map (fun d => d.InterfaceName)

/-- The selected interface that the role `k` holds in the criteria lists map
(empty for a role that holds none or is missing). -/
def selectedOf (m : GoMap CriteriaList) (k : String) : String :=
  match mapGet m k with
  | some cl => cl.SelectedDeviceInterface
  | none => ""

/-- The devices of `w1` have the interface names of the devices of `w`. -/
def namesKept (w w1 : World) : Prop :=
  ∀ c, (w1.devices c).map (fun d => d.InterfaceName) =
    (w.devices c).map (fun d => d.InterfaceName)

/-- The invariant that ties the selected interfaces of the roles to the log of
the selections, relative to the state `w0` on entry. The list `a` holds pairs of
a role and a position: its positions are pairwise distinct and logged, and a
role that holds a selected interface holds the one it held on entry or the
interface name of the device at a position that `a` pairs with the role. -/
def assignmentInvariant (w0 : World) (a : List (String × DeviceCapabilityType × Nat))
    (w : World) : Prop :=
  namesKept w0 w ∧ (a.map Prod.snd).Nodup ∧ (∀ e ∈ a, e.2 ∈ w.selectionLog) ∧
  ∀ k cl, mapGet w.criteriaListsMap k = some cl → cl.SelectedDeviceInterface ≠ "" →
    selectedOf w0.criteriaListsMap k = cl.SelectedDeviceInterface ∨
    ∃ p, (k, p) ∈ a ∧ interfaceAt w0 p = some cl.SelectedDeviceInterface

/-- The line of the output for the role `k`: the interface name of the device at
the position handed to the role, or, for a role that is handed no position, the
selected interface that the role holds in `w`. -/
def outputLineOf (w : World) (k : String) : Option (DeviceCapabilityType × Nat) → String
  | some p => (interfaceAt w p).getD ""
  | none => selectedOf w.criteriaListsMap k

/-- The lines of the output, each a role with the position handed to it or with
`none`: every position is logged, holds a device of the state `w0` and is paired
in `a` with no other role than the one of its line, a role with `none` holds a
selected interface in `w0`, and the positions are pairwise distinct. -/
def linesTracked (w0 : World) (a : List (String × DeviceCapabilityType × Nat))
    (log : List (DeviceCapabilityType × Nat))
    (lines : List (String × Option (DeviceCapabilityType × Nat))) : Prop :=
  (∀ k p, (k, some p) ∈ lines →
    p ∈ log ∧ (interfaceAt w0 p).isSome ∧ ∀ k2, (k2, p) ∈ a → k2 = k) ∧
  (∀ k, (k, none) ∈ lines → selectedOf w0.criteriaListsMap k ≠ "") ∧
  (lines.filterMap Prod.snd).Nodup

/-- The state of the output in the loop of `CheckDevicesAgainstCriteria` with
card affinity: nothing is required and the output is empty, or more is required
than the counter can hold, or the output holds the `s` lines written so far. -/
def outputState (w0 : World) (n s : Nat) (out : String)
    (lines : List (String × Option (DeviceCapabilityType × Nat))) : Prop :=
  (n = 0 ∧ out = "") ∨ 256 ≤ n ∨
    (s < n ∧ n < 256 ∧ lines.length = s ∧
      out = outputLines (lines.map (fun e => outputLineOf w0 e.1 e.2)))

end SriovDetection

/-! # Theorems -/

namespace SriovDetection

/-! ## Helper lemmas: strings and the capability checks -/

theorem string_length_eq_zero (s : String) : s.length = 0 ↔ s = "" := by
  cases s with
  | mk data =>
    constructor
    · intro h
      have : data = [] := List.length_eq_zero.mp h
      subst this
      rfl
    · intro h
      rw [h]
      rfl

theorem string_length_pos (s : String) : 0 < s.length ↔ s ≠ "" := by
  rw [Nat.pos_iff_ne_zero, Ne, string_length_eq_zero]

theorem search_iff_mem (l : List String) (x : String) :
    SearchCapabilityInCriteriaList l x = true ↔ x ∈ l := by
  induction l with
  | nil => simp [SearchCapabilityInCriteriaList]
  | cons a l ih =>
    unfold SearchCapabilityInCriteriaList
    by_cases h : a = x
    · simp [h]
    · have h2 : ¬ x = a := fun e => h e.symm
      simp [h, h2, ih]

theorem search_eq_false_iff (l : List String) (x : String) :
    SearchCapabilityInCriteriaList l x = false ↔ x ∉ l := by
  rw [← search_iff_mem]
  cases SearchCapabilityInCriteriaList l x <;> simp

theorem membership_filter_iff (l : List String) (x : String) :
    ¬ (0 < l.length ∧ 0 < x.length ∧ SearchCapabilityInCriteriaList l x = false) ↔
      (l = [] ∨ x = "" ∨ x ∈ l) := by
  rw [search_eq_false_iff, string_length_pos, List.length_pos]
  by_cases h1 : l = [] <;> by_cases h2 : x = "" <;> by_cases h3 : x ∈ l <;> simp [h1, h2, h3]

theorem ite_false_eq_true_iff (p : Prop) [Decidable p] (b : Bool) :
    (if p then false else b) = true ↔ ¬ p ∧ b = true := by
  by_cases h : p <;> simp [h]

theorem passesCapabilityChecks_iff (role : CriteriaList) (device : SupDevice) :
    passesCapabilityChecks role device = true ↔ filtersPass role device := by
  have hId := membership_filter_iff role.DeviceId device.DeviceId
  have hDr := membership_filter_iff role.Driver device.Driver
  have hCo := membership_filter_iff role.ConnectorType device.ConnectorType
  have hSp : ¬ (0 < role.LinkSpeed ∧ device.LinkSpeed < role.LinkSpeed) ↔
      role.LinkSpeed ≤ device.LinkSpeed := by omega
  have hVf : ¬ (0 < role.NumVFSupp ∧ device.NumVFSupp < role.NumVFSupp) ↔
      role.NumVFSupp ≤ device.NumVFSupp := by omega
  have hLs : ¬ (role.LinkState ≠ LINK_STATE_INVALID_VALUE ∧ device.LinkState ≠ role.LinkState) ↔
      (role.LinkState = 2 ∨ role.LinkState = device.LinkState) := by
    unfold LINK_STATE_INVALID_VALUE
    by_cases h1 : role.LinkState = 2 <;>
      by_cases h2 : role.LinkState = device.LinkState <;> simp [h1, h2, eq_comm]
  have hNu : ¬ (role.NUMALocation > INVALID_VALUE_FOR_NUMA_NODE ∧
      device.NUMALocation ≠ role.NUMALocation) ↔
      (role.NUMALocation < 0 ∨ role.NUMALocation = device.NUMALocation) := by
    unfold INVALID_VALUE_FOR_NUMA_NODE; omega
  have hDd : ¬ (role.DDPSupport = true ∧ device.DDPSupport = false) ↔
      (role.DDPSupport = true → device.DDPSupport = true) := by
    cases role.DDPSupport <;> cases device.DDPSupport <;> simp
  have hPo : ¬ (role.SpecificPortNumber > 0 ∧
      device.SpecificPortNumber ≠ role.SpecificPortNumber) ↔
      (role.SpecificPortNumber ≤ 0 ∨ role.SpecificPortNumber = device.SpecificPortNumber) := by
    omega
  unfold filtersPass
  rw [← hId, ← hDr, ← hCo, ← hSp, ← hVf, ← hLs, ← hNu, ← hDd, ← hPo]
  unfold passesCapabilityChecks
  simp only [ite_false_eq_true_iff]
  simp

/-! ## `CheckDevicesAgainstSpecificCriteriaList` -/

/-- The first position of an acceptable device, counted from the head. -/
theorem check_loop_spec (role : CriteriaList) :
    ∀ (ds : List SupDevice) (k : Nat),
      (CheckDevicesAgainstSpecificCriteriaList.loop (some role) ds k = some (-1) ∧
        ∀ d ∈ ds, ¬ acceptable role d) ∨
      (∃ (i : Nat) (d : SupDevice),
        CheckDevicesAgainstSpecificCriteriaList.loop (some role) ds k = some ((k + i : Nat) : Int) ∧
        ds[i]? = some d ∧ acceptable role d ∧
        ∀ (j : Nat) (e : SupDevice), j < i → ds[j]? = some e → ¬ acceptable role e) := by
  intro ds
  induction ds with
  | nil =>
    intro k
    left
    simp [CheckDevicesAgainstSpecificCriteriaList.loop]
  | cons d ds ih =>
    intro k
    by_cases hacc : acceptable role d
    · right
      refine ⟨0, d, ?_, by simp, hacc, by intro j e hj; omega⟩
      obtain ⟨h1, h2, h3⟩ := hacc
      have h3 := (passesCapabilityChecks_iff role d).mpr h3
      simp [CheckDevicesAgainstSpecificCriteriaList.loop, h1, h2, h3]
    · have hstep : CheckDevicesAgainstSpecificCriteriaList.loop (some role) (d :: ds) k =
          CheckDevicesAgainstSpecificCriteriaList.loop (some role) ds (k + 1) := by
        unfold acceptable at hacc
        rw [← passesCapabilityChecks_iff] at hacc
        by_cases h1 : d.CheckedAgainstCriteria = true
        · simp [CheckDevicesAgainstSpecificCriteriaList.loop, h1]
        · by_cases h2 : d.IsCardAffinityCouple = true
          · simp [CheckDevicesAgainstSpecificCriteriaList.loop, h2]
          · have h3 : ¬ passesCapabilityChecks role d = true := by
              intro h3
              exact hacc ⟨by simpa using h1, by simpa using h2, h3⟩
            simp [CheckDevicesAgainstSpecificCriteriaList.loop, h1, h2, h3]
      rcases ih (k + 1) with ⟨hr, hall⟩ | ⟨i, e, hr, hget, he, hmin⟩
      · left
        refine ⟨by rw [hstep, hr], ?_⟩
        intro x hx
        rcases List.mem_cons.mp hx with rfl | hx
        · exact hacc
        · exact hall x hx
      · right
        refine ⟨i + 1, e, ?_, by simpa using hget, he, ?_⟩
        · rw [hstep, hr]
          congr 2
          omega
        · intro j f hj hf
          cases j with
          | zero =>
            simp at hf
            subst hf
            exact hacc
          | succ j =>
            simp at hf
            exact hmin j f (by omega) hf

/-- The function returns; the result is -1 or a position of the slice. -/
theorem check_total (role : CriteriaList) (ds : List SupDevice) :
    ∃ r : Int, CheckDevicesAgainstSpecificCriteriaList (some role) ds = some r ∧
      (r = -1 ∨ (0 ≤ r ∧ r.toNat < ds.length)) := by
  unfold CheckDevicesAgainstSpecificCriteriaList
  rcases check_loop_spec role ds 0 with ⟨hr, _⟩ | ⟨i, d, hr, hget, _, _⟩
  · exact ⟨-1, hr, Or.inl rfl⟩
  · refine ⟨((0 + i : Nat) : Int), hr, Or.inr ⟨by omega, ?_⟩⟩
    have := (List.getElem?_eq_some_iff.mp hget).1
    simpa using this

/-- C1. `CheckDevicesAgainstSpecificCriteriaList(role, devices)` returns; the
result is -1 exactly when no device of the slice is acceptable (neither flag
set and all nine filters passing), and it is the position `i` exactly when
device `i` is acceptable and no device before it is. -/
theorem C1_first_acceptable_device (role : CriteriaList) (devices : List SupDevice) :
    ∃ r : Int, CheckDevicesAgainstSpecificCriteriaList (some role) devices = some r ∧
      (r = -1 ↔ ∀ d ∈ devices, ¬ acceptable role d) ∧
      (∀ i : Nat, r = (i : Int) ↔
        ((∃ d, devices[i]? = some d ∧ acceptable role d) ∧
          ∀ (j : Nat) (e : SupDevice), j < i → devices[j]? = some e → ¬ acceptable role e)) := by
  unfold CheckDevicesAgainstSpecificCriteriaList
  rcases check_loop_spec role devices 0 with ⟨hr, hall⟩ | ⟨i, d, hr, hget, hd, hmin⟩
  · refine ⟨-1, hr, ⟨fun _ => hall, fun _ => rfl⟩, ?_⟩
    intro i
    constructor
    · intro h
      omega
    · rintro ⟨⟨d, hget, hd⟩, _⟩
      exact absurd hd (hall d (List.getElem?_mem hget))
  · refine ⟨((0 + i : Nat) : Int), hr, ?_, ?_⟩
    · constructor
      · intro h
        omega
      · intro hall
        exact absurd hd (hall d (List.getElem?_mem hget))
    · intro i2
      constructor
      · intro h
        have : i2 = i := by omega
        subst this
        exact ⟨⟨d, hget, hd⟩, hmin⟩
      · rintro ⟨⟨d2, hget2, hd2⟩, hmin2⟩
        have h1 : ¬ i < i2 := fun h => hmin2 i d h hget hd
        have h2 : ¬ i2 < i := fun h => hmin i2 d2 h hget2 hd2
        have : i2 = i := by omega
        subst this
        simp

/-- C1, witness of the test: with all flags clear, the criteria `pf5` of the
test pick position 13 (`eth13`) among the 14 devices of the test. -/
theorem C1_witness_pf5_eth13 :
    CheckDevicesAgainstSpecificCriteriaList (some testPf5) testDevicesInfoSlice = some 13 ∧
      (testDevicesInfoSlice[13]?).map (fun d => d.InterfaceName) = some "eth13" := by
  decide

theorem check_loop_eq_firstAcceptable (role : CriteriaList) :
    ∀ (ds : List SupDevice) (k : Nat),
      CheckDevicesAgainstSpecificCriteriaList.loop (some role) ds k =
        some (match firstAcceptable role ds with
          | some i => ((k + i : Nat) : Int)
          | none => -1) := by
  intro ds
  induction ds with
  | nil => intro k; simp [CheckDevicesAgainstSpecificCriteriaList.loop, firstAcceptable]
  | cons d ds ih =>
    intro k
    by_cases hacc : acceptable role d
    · obtain ⟨h1, h2, h3⟩ := id hacc
      have h3 := (passesCapabilityChecks_iff role d).mpr h3
      simp [CheckDevicesAgainstSpecificCriteriaList.loop, firstAcceptable, hacc, h1, h2, h3]
    · have hstep : CheckDevicesAgainstSpecificCriteriaList.loop (some role) (d :: ds) k =
          CheckDevicesAgainstSpecificCriteriaList.loop (some role) ds (k + 1) := by
        have hacc2 := hacc
        unfold acceptable at hacc2
        rw [← passesCapabilityChecks_iff] at hacc2
        by_cases h1 : d.CheckedAgainstCriteria = true
        · simp [CheckDevicesAgainstSpecificCriteriaList.loop, h1]
        · by_cases h2 : d.IsCardAffinityCouple = true
          · simp [CheckDevicesAgainstSpecificCriteriaList.loop, h2]
          · have h3 : ¬ passesCapabilityChecks role d = true := by
              intro h3
              exact hacc2 ⟨by simpa using h1, by simpa using h2, h3⟩
            simp [CheckDevicesAgainstSpecificCriteriaList.loop, h1, h2, h3]
      rw [hstep, ih (k + 1)]
      simp only [firstAcceptable, hacc, if_false]
      cases firstAcceptable role ds with
      | none => rfl
      | some i =>
        simp only [Option.map_some']
        congr 2
        omega

theorem check_eq_firstAcceptable (role : CriteriaList) (ds : List SupDevice) :
    CheckDevicesAgainstSpecificCriteriaList (some role) ds =
      some (match firstAcceptable role ds with
        | some i => (i : Int)
        | none => -1) := by
  unfold CheckDevicesAgainstSpecificCriteriaList
  rw [check_loop_eq_firstAcceptable]
  cases firstAcceptable role ds <;> simp

theorem firstAcceptable_some (role : CriteriaList) :
    ∀ (ds : List SupDevice) (i : Nat), firstAcceptable role ds = some i →
      ∃ d, ds[i]? = some d ∧ acceptable role d := by
  intro ds
  induction ds with
  | nil => intro i h; simp [firstAcceptable] at h
  | cons d ds ih =>
    intro i h
    by_cases hacc : acceptable role d
    · simp only [firstAcceptable, hacc, if_true, Option.some.injEq] at h
      subst h
      exact ⟨d, by simp, hacc⟩
    · simp only [firstAcceptable, hacc, if_false] at h
      cases hf : firstAcceptable role ds with
      | none => simp [hf] at h
      | some j =>
        simp only [hf, Option.map_some', Option.some.injEq] at h
        subst h
        obtain ⟨e, he, hacce⟩ := ih j hf
        exact ⟨e, by simpa using he, hacce⟩

theorem firstAcceptable_nil_of_length (role : CriteriaList) (ds : List SupDevice)
    (h : ds.length = 0) : firstAcceptable role ds = none := by
  have : ds = [] := List.length_eq_zero.mp h
  subst this
  rfl

/-- The step of the matching without card affinity, as a function of the first
acceptable device of the collection of the role. -/
theorem noCardAffinity_eq (g : Globals) (role : CriteriaList) (out : String) (s : Nat)
    (w : World) :
    CheckDevicesAgainstCriteriaListWithNoCardAffinity g (some role) out s w =
      match firstAcceptable role (w.devices (roleCollection role)) with
      | none => some (false, out, s, w)
      | some i =>
        match (w.devices (roleCollection role))[i]? with
        | none => none
        | some d =>
          some (true,
            UpdateOutputString g.NUMBER_OF_DEVICES_REQUIRED ((s + 1) % 256) d.InterfaceName out,
            (s + 1) % 256,
            (w.setDevices (roleCollection role) ((w.devices (roleCollection role)).set i
              { d with CheckedAgainstCriteria := true })).logSelection (roleCollection role) i) := by
  unfold CheckDevicesAgainstCriteriaListWithNoCardAffinity roleCollection
  by_cases hp : role.PTPSupport = true
  · by_cases hl : w.ptpDevicesSlice.length = 0
    · have := firstAcceptable_nil_of_length role _ hl
      simp [hp, hl, World.devices, this]
    · simp only [hp, hl, if_true, if_false, check_eq_firstAcceptable]
      cases hf : firstAcceptable role (w.devices .PTP_SUPPORT) with
      | none => simp [hf]
      | some i => simp [hf]
  · by_cases hr : role.RRUConnection = true
    · by_cases hl : w.rruDevicesSlice.length = 0
      · have := firstAcceptable_nil_of_length role _ hl
        simp [hp, hr, hl, World.devices, this]
      · simp only [hp, hr, hl, if_true, if_false, check_eq_firstAcceptable]
        cases hf : firstAcceptable role (w.devices .RRU_CONNECTION) with
        | none => simp [hf]
        | some i => simp [hf]
    · simp only [hp, hr, if_false, check_eq_firstAcceptable]
      cases hf : firstAcceptable role (w.devices .REGULAR) with
      | none => simp [hf]
      | some i => simp [hf]

/-! ## `sort.Strings` -/

theorem goStringLess_iff (a b : String) : goStringLess a b ↔ a < b :=
  String.lt_iff_toList_lt.symm

theorem insertSorted_eq_orderedInsert (s : String) (l : List String) :
    insertSorted s l = List.orderedInsert (· ≤ ·) s l := by
  induction l with
  | nil => rfl
  | cons x xs ih =>
    simp only [insertSorted, List.orderedInsert, goStringLess_iff]
    by_cases h : x < s
    · rw [if_pos h, if_neg (not_le.mpr h), ih]
    · rw [if_neg h, if_pos (not_lt.mp h)]

theorem sortStrings_eq_insertionSort (l : List String) :
    sortStrings l = List.insertionSort (· ≤ ·) l := by
  induction l with
  | nil => rfl
  | cons x xs ih => simp [sortStrings, List.insertionSort, ih, insertSorted_eq_orderedInsert]

theorem sortStrings_perm (l : List String) : (sortStrings l).Perm l := by
  rw [sortStrings_eq_insertionSort]
  exact List.perm_insertionSort _ l

theorem sortStrings_sorted (l : List String) : (sortStrings l).Sorted (· ≤ ·) := by
  rw [sortStrings_eq_insertionSort]
  exact List.sorted_insertionSort _ l

/-- Sorting any enumeration of pairwise distinct keys gives the ascending list. -/
theorem sortStrings_eq_of_perm (l order : List String) (hperm : order.Perm l)
    (hsorted : order.Pairwise goStringLess) : sortStrings l = order := by
  apply List.eq_of_perm_of_sorted ((sortStrings_perm l).trans hperm.symm) (sortStrings_sorted l)
  exact hsorted.imp (fun {a b} h => le_of_lt ((goStringLess_iff a b).mp h))

theorem sortStrings_mem (l : List String) (x : String) : x ∈ sortStrings l ↔ x ∈ l :=
  (sortStrings_perm l).mem_iff

/-! ## Go maps -/

theorem mapGet_isSome_of_mem {V : Type} (m : GoMap V) (k : String) (h : k ∈ mapKeys m) :
    ∃ v, mapGet m k = some v := by
  induction m with
  | nil => simp [mapKeys] at h
  | cons e m ih =>
    obtain ⟨k0, v0⟩ := e
    by_cases hk : k0 = k
    · exact ⟨v0, by simp [mapGet, hk]⟩
    · have h2 : k ∈ mapKeys m := by
        simp only [mapKeys, List.map_cons, List.mem_cons] at h
        rcases h with h | h
        · exact absurd h.symm hk
        · exact h
      obtain ⟨v, hv⟩ := ih h2
      exact ⟨v, by simp [mapGet, hk, hv]⟩

theorem mapKeys_length {V : Type} (m : GoMap V) : (mapKeys m).length = m.length := by
  simp [mapKeys]

/-! ## Output strings -/

theorem outputLines_append (names : List String) (name : String) :
    outputLines (names ++ [name]) = outputLines names ++ (name ++ "\n") := by
  induction names with
  | nil => simp [outputLines]
  | cons n ns ih => simp [outputLines, ih, String.append_assoc]

theorem updateOutputString_of_le (n i : Nat) (name out : String) (h1 : 0 < i) (h2 : i ≤ n) :
    UpdateOutputString n i name out = out ++ (name ++ "\n") := by
  simp [UpdateOutputString, h1, h2]

theorem updateOutputString_zero (i : Nat) (name out : String) :
    UpdateOutputString 0 i name out = "" := by
  unfold UpdateOutputString
  have : ¬ (0 < i ∧ i ≤ 0) := by omega
  rw [if_neg this]

/-! ## Matching without card affinity -/

theorem devices_setDevices (w : World) (c : DeviceCapabilityType) (l : List SupDevice) :
    (w.setDevices c l).devices = Function.update w.devices c l := by
  funext c2
  cases c <;> cases c2 <;> simp [World.setDevices, World.devices, Function.update]

theorem devices_logSelection (w : World) (c : DeviceCapabilityType) (i : Nat) :
    (w.logSelection c i).devices = w.devices := by
  funext c2
  cases c2 <;> rfl

theorem criteria_setDevices (w : World) (c : DeviceCapabilityType) (l : List SupDevice) :
    (w.setDevices c l).criteriaListsMap = w.criteriaListsMap := by
  cases c <;> rfl

theorem criteria_logSelection (w : World) (c : DeviceCapabilityType) (i : Nat) :
    (w.logSelection c i).criteriaListsMap = w.criteriaListsMap := rfl

/-- Without card affinity the loop of `CheckDevicesAgainstCriteria` computes the
greedy reference over the keys it is given. -/
theorem loop_noCardAffinity_eq_greedy (mapOrder : Nat → List String → List String)
    (g : Globals) (hAff : g.USE_OF_CARD_AFFINITY_CAPABILITY = false)
    (h256 : g.NUMBER_OF_DEVICES_REQUIRED < 256) :
    ∀ (keys : List String) (s : Nat) (out : String) (w : World),
      s + keys.length = g.NUMBER_OF_DEVICES_REQUIRED → (keys = [] → out = "") →
      (∀ k ∈ keys, k ∈ mapKeys w.criteriaListsMap) →
      (CheckDevicesAgainstCriteria.loop mapOrder g keys s out w).map Prod.fst =
        some (match greedyReference w.criteriaListsMap keys w.devices with
          | some names => out ++ outputLines names
          | none => "") := by
  intro keys
  induction keys with
  | nil =>
    intro s out w _ hout _
    simp [CheckDevicesAgainstCriteria.loop, greedyReference, outputLines, hout]
  | cons key rest ih =>
    intro s out w hlen _ hkeys
    obtain ⟨role, hrole⟩ := mapGet_isSome_of_mem w.criteriaListsMap key (hkeys key (by simp))
    have hs : (s + 1) % 256 = s + 1 := by
      apply Nat.mod_eq_of_lt
      simp only [List.length_cons] at hlen
      omega
    simp only [CheckDevicesAgainstCriteria.loop, hAff, Bool.false_eq_true, if_false, hrole,
      noCardAffinity_eq, greedyReference]
    cases hf : firstAcceptable role (w.devices (roleCollection role)) with
    | none => simp
    | some i =>
      obtain ⟨d, hd, _⟩ := firstAcceptable_some role _ i hf
      simp only [hd, hs]
      have hupd : UpdateOutputString g.NUMBER_OF_DEVICES_REQUIRED (s + 1) d.InterfaceName out =
          out ++ (d.InterfaceName ++ "\n") := by
        apply updateOutputString_of_le
        · omega
        · simp only [List.length_cons] at hlen
          omega
      rw [hupd]
      by_cases hN : s + 1 = g.NUMBER_OF_DEVICES_REQUIRED
      · have hrest : rest = [] := by
          apply List.length_eq_zero.mp
          simp only [List.length_cons] at hlen
          omega
        subst hrest
        simp only [if_pos hN, if_true, Option.map_some', greedyReference, outputLines]
        simp
      · have hrest : rest ≠ [] := by
          intro h
          subst h
          simp only [List.length_cons, List.length_nil] at hlen
          omega
        have := ih (s + 1) (out ++ (d.InterfaceName ++ "\n"))
          ((w.setDevices (roleCollection role) ((w.devices (roleCollection role)).set i
            { d with CheckedAgainstCriteria := true })).logSelection (roleCollection role) i)
          (by simp only [List.length_cons] at hlen; omega)
          (fun h => absurd h hrest)
          (by
            intro k hk
            rw [criteria_logSelection, criteria_setDevices]
            exact hkeys k (List.mem_cons_of_mem _ hk))
        rw [criteria_logSelection, criteria_setDevices, devices_logSelection,
          devices_setDevices] at this
        simp only [if_neg hN, if_true, this]
        cases greedyReference w.criteriaListsMap rest
            (Function.update w.devices (roleCollection role)
              ((w.devices (roleCollection role)).set i
                { d with CheckedAgainstCriteria := true })) with
        | none => simp
        | some names => simp [outputLines, String.append_assoc]

theorem criteria_tick (w : World) : w.tick.criteriaListsMap = w.criteriaListsMap := rfl

theorem devices_tick (w : World) : w.tick.devices = w.devices := by
  funext c
  cases c <;> rfl

/-- C2. With card affinity disabled and `NUMBER_OF_DEVICES_REQUIRED` (a `uint8`)
equal to the number of roles, `CheckDevicesAgainstCriteria` returns the output
of the greedy reference run over the role names in ascending order: every role
takes the first acceptable device of its collection and flags it; the result is
the lines of the chosen interface names when every role gets a device and the
empty string otherwise. `order` is the ascending list of the role names and the
enumeration of the map is any permutation of its keys. -/
theorem C2_no_affinity_equals_greedy_reference (mapOrder : Nat → List String → List String)
    (g : Globals) (w : World) (order : List String)
    (hAff : g.USE_OF_CARD_AFFINITY_CAPABILITY = false)
    (hN : g.NUMBER_OF_DEVICES_REQUIRED = w.criteriaListsMap.length)
    (h256 : g.NUMBER_OF_DEVICES_REQUIRED < 256)
    (henum : (mapOrder w.rangeCount (mapKeys w.criteriaListsMap)).Perm
      (mapKeys w.criteriaListsMap))
    (hperm : order.Perm (mapKeys w.criteriaListsMap))
    (hsorted : order.Pairwise goStringLess) :
    (CheckDevicesAgainstCriteria mapOrder g w).map Prod.fst =
      some (greedyOutput w.criteriaListsMap order w.devices) := by
  have hsort : sortStrings (mapOrder w.rangeCount (mapKeys w.criteriaListsMap)) = order :=
    sortStrings_eq_of_perm _ order (hperm.trans henum.symm) hsorted
  have hlen : 0 + order.length = g.NUMBER_OF_DEVICES_REQUIRED := by
    rw [hN, hperm.length_eq, mapKeys_length]
    omega
  have hloop := loop_noCardAffinity_eq_greedy mapOrder g hAff h256 order 0 "" w.tick hlen
    (fun _ => rfl) (fun k hk => by rw [criteria_tick]; exact hperm.mem_iff.mp hk)
  rw [criteria_tick, devices_tick] at hloop
  unfold CheckDevicesAgainstCriteria greedyOutput
  simp only [hAff, Bool.false_eq_true, false_and, if_false, hsort, hloop]
  cases greedyReference w.criteriaListsMap order w.devices <;> simp

/-- C2, witness: on the fixture of the tests with eight devices required, no
card affinity and the keys enumerated in reverse storage order, the result is
the output of the greedy reference, eight lines in the order `pf1` to `pf8`. -/
theorem C2_witness_test_fixture :
    (CheckDevicesAgainstCriteria reverseOrder ⟨8, false, false, false⟩ testWorld).map Prod.fst =
      some (greedyOutput CRITERIA_LISTS_MAP_WITH_CARD_AFFINITY
        ["pf1", "pf2", "pf3", "pf4", "pf5", "pf6", "pf7", "pf8"] testWorld.devices) ∧
    greedyOutput CRITERIA_LISTS_MAP_WITH_CARD_AFFINITY
        ["pf1", "pf2", "pf3", "pf4", "pf5", "pf6", "pf7", "pf8"] testWorld.devices =
      "eth4\neth6\neth0\neth3\neth10\neth11\neth12\neth13\n" :=
  ⟨C2_no_affinity_equals_greedy_reference reverseOrder ⟨8, false, false, false⟩ testWorld
    ["pf1", "pf2", "pf3", "pf4", "pf5", "pf6", "pf7", "pf8"] rfl (by decide) (by decide)
    (by decide) (by decide) (by decide), by decide⟩

/-! ## The shape of the returned string -/

theorem outputInvariant_step (n s : Nat) (out name : String) (h : outputInvariant n s out) :
    ((s + 1) % 256 = n →
      ∃ names : List String, names.length = n ∧
        UpdateOutputString n ((s + 1) % 256) name out = outputLines names) ∧
    ((s + 1) % 256 ≠ n →
      outputInvariant n ((s + 1) % 256) (UpdateOutputString n ((s + 1) % 256) name out)) := by
  rcases h with ⟨h0, _⟩ | ⟨hlt, h256, names, hlen, hout⟩
  · subst h0
    rw [updateOutputString_zero]
    exact ⟨fun _ => ⟨[], rfl, rfl⟩, fun _ => Or.inl ⟨rfl, rfl⟩⟩
  · by_cases hw : s + 1 < 256
    · have hs : (s + 1) % 256 = s + 1 := Nat.mod_eq_of_lt hw
      rw [hs, updateOutputString_of_le n (s + 1) name out (by omega) (by omega), hout,
        ← outputLines_append]
      refine ⟨fun hn => ⟨names ++ [name], by simp [hlen, hn], rfl⟩, fun hn => Or.inr ⟨by omega, hw,
        names ++ [name], by simp [hlen], rfl⟩⟩
    · have hs : (s + 1) % 256 = 0 := by omega
      rw [hs]
      have hupd : UpdateOutputString n 0 name out = "" := by
        unfold UpdateOutputString
        rw [if_neg (by omega)]
      rw [hupd]
      exact ⟨fun hn => by omega, fun _ => Or.inr ⟨by omega, by omega, [], rfl, rfl⟩⟩

theorem noCardAffinity_result (g : Globals) (ptr : Option CriteriaList) (out : String) (s : Nat)
    (w : World) (found : Bool) (out1 : String) (s1 : Nat) (w1 : World)
    (h : CheckDevicesAgainstCriteriaListWithNoCardAffinity g ptr out s w =
      some (found, out1, s1, w1)) :
    found = false ∨ (found = true ∧ s1 = (s + 1) % 256 ∧ ∃ name,
      out1 = UpdateOutputString g.NUMBER_OF_DEVICES_REQUIRED ((s + 1) % 256) name out) := by
  cases ptr with
  | none => simp [CheckDevicesAgainstCriteriaListWithNoCardAffinity] at h
  | some role =>
    rw [noCardAffinity_eq] at h
    cases hf : firstAcceptable role (w.devices (roleCollection role)) with
    | none =>
      simp only [hf, Option.some.injEq, Prod.mk.injEq] at h
      exact Or.inl h.1.symm
    | some i =>
      simp only [hf] at h
      cases hd : (w.devices (roleCollection role))[i]? with
      | none => simp [hd] at h
      | some d =>
        simp only [hd, Option.some.injEq, Prod.mk.injEq] at h
        exact Or.inr ⟨h.1.symm, h.2.2.1.symm, d.InterfaceName, h.2.1.symm⟩

/-- Whatever the loop of `CheckDevicesAgainstCriteria` returns is empty or holds
exactly the required number of lines. -/
theorem loop_output_shape (mapOrder : Nat → List String → List String) (g : Globals) :
    ∀ (keys : List String) (s : Nat) (out : String) (w : World) (str : String) (w1 : World),
      outputInvariant g.NUMBER_OF_DEVICES_REQUIRED s out →
      CheckDevicesAgainstCriteria.loop mapOrder g keys s out w = some (str, w1) →
      str = "" ∨ ∃ names : List String,
        names.length = g.NUMBER_OF_DEVICES_REQUIRED ∧ str = outputLines names := by
  intro keys
  induction keys with
  | nil =>
    intro s out w str w1 _ h
    simp only [CheckDevicesAgainstCriteria.loop, Option.some.injEq, Prod.mk.injEq] at h
    exact Or.inl h.1.symm
  | cons key rest ih =>
    intro s out w str w1 hinv h
    rw [CheckDevicesAgainstCriteria.loop] at h
    split at h
    · split at h
      · exact absurd h (by simp)
      · rename_i criteriaList _
        split at h
        · split at h
          · exact absurd h (by simp)
          · rename_i deviceIndex w2 _
            split at h
            · split at h
              · exact absurd h (by simp)
              · rename_i device _
                have hstep := outputInvariant_step g.NUMBER_OF_DEVICES_REQUIRED s out
                  device.InterfaceName hinv
                simp only at h
                split at h
                · rename_i heq
                  simp only [Option.some.injEq, Prod.mk.injEq] at h
                  rw [← h.1]
                  exact Or.inr (hstep.1 heq)
                · rename_i hne
                  exact ih _ _ _ _ _ (hstep.2 hne) h
            · simp only [Option.some.injEq, Prod.mk.injEq] at h
              exact Or.inl h.1.symm
        · have hstep := outputInvariant_step g.NUMBER_OF_DEVICES_REQUIRED s out
            criteriaList.SelectedDeviceInterface hinv
          simp only at h
          split at h
          · rename_i heq
            simp only [Option.some.injEq, Prod.mk.injEq] at h
            rw [← h.1]
            exact Or.inr (hstep.1 heq)
          · rename_i hne
            exact ih _ _ _ _ _ (hstep.2 hne) h
    · split at h
      · exact absurd h (by simp)
      · rename_i found out2 s2 w2 hstepEq
        rcases noCardAffinity_result g _ out s w found out2 s2 w2 hstepEq with
          hf | ⟨hf, hs2, name, hout2⟩
        · subst hf
          simp only [Bool.false_eq_true, if_false, Option.some.injEq, Prod.mk.injEq] at h
          exact Or.inl h.1.symm
        · subst hf hs2 hout2
          have hstep := outputInvariant_step g.NUMBER_OF_DEVICES_REQUIRED s out name hinv
          simp only [if_true] at h
          split at h
          · rename_i heq
            simp only [Option.some.injEq, Prod.mk.injEq] at h
            rw [← h.1]
            exact Or.inr (hstep.1 heq)
          · rename_i hne
            exact ih _ _ _ _ _ (hstep.2 hne) h

/-- Without card affinity the loop of `CheckDevicesAgainstCriteria` returns
whenever every key it visits is a key of the criteria lists map. -/
theorem loop_noCardAffinity_total (mapOrder : Nat → List String → List String) (g : Globals)
    (hAff : g.USE_OF_CARD_AFFINITY_CAPABILITY = false) :
    ∀ (keys : List String) (s : Nat) (out : String) (w : World),
      (∀ k ∈ keys, k ∈ mapKeys w.criteriaListsMap) →
      ∃ r, CheckDevicesAgainstCriteria.loop mapOrder g keys s out w = some r := by
  intro keys
  induction keys with
  | nil => intro s out w _; exact ⟨_, rfl⟩
  | cons key rest ih =>
    intro s out w hkeys
    obtain ⟨role, hrole⟩ := mapGet_isSome_of_mem w.criteriaListsMap key (hkeys key (by simp))
    simp only [CheckDevicesAgainstCriteria.loop, hAff, Bool.false_eq_true, if_false, hrole,
      noCardAffinity_eq]
    cases hf : firstAcceptable role (w.devices (roleCollection role)) with
    | none => exact ⟨_, rfl⟩
    | some i =>
      obtain ⟨d, hd, _⟩ := firstAcceptable_some role _ i hf
      simp only [hd, if_true]
      split
      · exact ⟨_, rfl⟩
      · apply ih
        intro k hk
        rw [criteria_logSelection, criteria_setDevices]
        exact hkeys k (List.mem_cons_of_mem _ hk)

/-- C3. In either mode, whatever `CheckDevicesAgainstCriteria` returns is the
empty string or the concatenation of exactly `NUMBER_OF_DEVICES_REQUIRED`
entries `name ++ "\n"`: a partial list is never returned. Without card affinity
the function always returns (the enumeration of the map visiting keys of the
map only); with card affinity the statement covers every run that does not
fault. -/
theorem C3_output_is_empty_or_complete (mapOrder : Nat → List String → List String)
    (g : Globals) (w : World) :
    (∀ (str : String) (w1 : World), CheckDevicesAgainstCriteria mapOrder g w = some (str, w1) →
      str = "" ∨ ∃ names : List String,
        names.length = g.NUMBER_OF_DEVICES_REQUIRED ∧ str = outputLines names) ∧
    (g.USE_OF_CARD_AFFINITY_CAPABILITY = false →
      (∀ k ∈ mapOrder w.rangeCount (mapKeys w.criteriaListsMap), k ∈ mapKeys w.criteriaListsMap) →
      ∃ r, CheckDevicesAgainstCriteria mapOrder g w = some r) := by
  have hinit : outputInvariant g.NUMBER_OF_DEVICES_REQUIRED 0 "" := by
    by_cases h0 : g.NUMBER_OF_DEVICES_REQUIRED = 0
    · exact Or.inl ⟨h0, rfl⟩
    · exact Or.inr ⟨by omega, by omega, [], rfl, rfl⟩
  constructor
  · intro str w1 h
    unfold CheckDevicesAgainstCriteria at h
    simp only at h
    split at h
    · exact absurd h (by simp)
    · simp only [Option.some.injEq, Prod.mk.injEq] at h
      exact Or.inl h.1.symm
    · split at h
      · exact absurd h (by simp)
      · simp only [Option.some.injEq, Prod.mk.injEq] at h
        exact Or.inl h.1.symm
      · exact loop_output_shape mapOrder g _ 0 "" _ str w1 hinit h
  · intro hAff henum
    unfold CheckDevicesAgainstCriteria
    simp only [hAff, Bool.false_eq_true, false_and, if_false]
    apply loop_noCardAffinity_total mapOrder g hAff
    intro k hk
    rw [criteria_tick]
    exact henum k ((sortStrings_mem _ k).mp hk)

/-- C3, witness: both modes on the fixture of the tests return a string of the
stated shape: without card affinity five devices are required and returned,
with card affinity seven are required and returned, and the run that requires
eight returns the empty string. -/
theorem C3_witness_both_modes :
    ((CheckDevicesAgainstCriteria storageOrder ⟨5, false, false, false⟩ testWorld).map Prod.fst =
        some "eth4\neth6\neth0\neth3\neth10\n" ∧
      (CheckDevicesAgainstCriteria storageOrder ⟨7, true, false, false⟩ testWorld).map Prod.fst =
        some "eth6\neth10\neth12\neth3\neth11\neth13\neth14\n" ∧
      (CheckDevicesAgainstCriteria storageOrder ⟨8, true, false, false⟩ testWorld).map Prod.fst =
        some "") ∧
    ("eth4\neth6\neth0\neth3\neth10\n" = "" ∨ ∃ names : List String,
      names.length = 5 ∧ "eth4\neth6\neth0\neth3\neth10\n" = outputLines names) := by
  refine ⟨by decide, ?_⟩
  exact (C3_output_is_empty_or_complete storageOrder ⟨5, false, false, false⟩ testWorld).1
    "eth4\neth6\neth0\neth3\neth10\n"
    ((CheckDevicesAgainstCriteria storageOrder ⟨5, false, false, false⟩ testWorld).getD
      ("", testWorld)).2 (by decide)

/-! ## No device is selected twice without card affinity -/

theorem selectionLog_setDevices (w : World) (c : DeviceCapabilityType) (l : List SupDevice) :
    (w.setDevices c l).selectionLog = w.selectionLog := by
  cases c <;> rfl

theorem selectionLog_logSelection (w : World) (c : DeviceCapabilityType) (i : Nat) :
    (w.logSelection c i).selectionLog = w.selectionLog ++ [(c, i)] := rfl

/-- Flagging an unflagged device and logging it keeps the invariant. -/
theorem noAffinityInvariant_select (w0 w : World) (c : DeviceCapabilityType) (i : Nat)
    (d : SupDevice) (hinv : noAffinityInvariant w0 w) (hd : (w.devices c)[i]? = some d)
    (hflag : d.CheckedAgainstCriteria = false) :
    noAffinityInvariant w0 ((w.setDevices c ((w.devices c).set i
      { d with CheckedAgainstCriteria := true })).logSelection c i) := by
  obtain ⟨hnodup, hlog, hclear⟩ := hinv
  have hnotin : (c, i) ∉ w.selectionLog := by
    intro hmem
    obtain ⟨⟨d1, hd1, hflag1⟩, _⟩ := hlog c i hmem
    rw [hd] at hd1
    cases hd1
    rw [hflag] at hflag1
    exact absurd hflag1 (by simp)
  have hi : i < (w.devices c).length := (List.getElem?_eq_some_iff.mp hd).1
  have hdev : ∀ (c2 : DeviceCapabilityType) (j : Nat), (c2, j) ≠ (c, i) →
      (((w.setDevices c ((w.devices c).set i
        { d with CheckedAgainstCriteria := true })).logSelection c i).devices c2)[j]? =
        (w.devices c2)[j]? := by
    intro c2 j hne
    rw [devices_logSelection, devices_setDevices]
    by_cases hc : c2 = c
    · subst hc
      have hj : i ≠ j := fun e => hne (by rw [e])
      simp [Function.update, List.getElem?_set, hj]
    · simp [Function.update, hc]
  have hnew : (((w.setDevices c ((w.devices c).set i
        { d with CheckedAgainstCriteria := true })).logSelection c i).devices c)[i]? =
        some { d with CheckedAgainstCriteria := true } := by
    rw [devices_logSelection, devices_setDevices]
    simp [Function.update, List.getElem?_set, hi]
  refine ⟨?_, ?_, ?_⟩
  · rw [selectionLog_logSelection, selectionLog_setDevices]
    exact List.Nodup.append hnodup (List.nodup_singleton _) (by simpa using hnotin)
  · intro c2 j hmem
    rw [selectionLog_logSelection, selectionLog_setDevices, List.mem_append,
      List.mem_singleton] at hmem
    rcases hmem with hmem | heq
    · have hne : (c2, j) ≠ (c, i) := fun e => hnotin (e ▸ hmem)
      rw [hdev c2 j hne]
      exact hlog c2 j hmem
    · cases heq
      exact ⟨⟨_, hnew, rfl⟩, ⟨d, hclear c i d hd hflag, hflag⟩⟩
  · intro c2 j e he hflage
    by_cases heq : (c2, j) = (c, i)
    · cases heq
      rw [hnew] at he
      cases he
      exact absurd hflage (by simp)
    · rw [hdev c2 j heq] at he
      exact hclear c2 j e he hflage

theorem loop_noAffinityInvariant (mapOrder : Nat → List String → List String) (g : Globals)
    (hAff : g.USE_OF_CARD_AFFINITY_CAPABILITY = false) (w0 : World) :
    ∀ (keys : List String) (s : Nat) (out : String) (w : World) (str : String) (w1 : World),
      noAffinityInvariant w0 w →
      CheckDevicesAgainstCriteria.loop mapOrder g keys s out w = some (str, w1) →
      noAffinityInvariant w0 w1 := by
  intro keys
  induction keys with
  | nil =>
    intro s out w str w1 hinv h
    simp only [CheckDevicesAgainstCriteria.loop, Option.some.injEq, Prod.mk.injEq] at h
    rw [← h.2]
    exact hinv
  | cons key rest ih =>
    intro s out w str w1 hinv h
    simp only [CheckDevicesAgainstCriteria.loop, hAff, Bool.false_eq_true, if_false] at h
    cases hrole : mapGet w.criteriaListsMap key with
    | none => simp [hrole, CheckDevicesAgainstCriteriaListWithNoCardAffinity] at h
    | some role =>
      simp only [hrole, noCardAffinity_eq] at h
      cases hf : firstAcceptable role (w.devices (roleCollection role)) with
      | none =>
        simp only [hf, Bool.false_eq_true, if_false, Option.some.injEq, Prod.mk.injEq] at h
        rw [← h.2]
        exact hinv
      | some i =>
        obtain ⟨d, hd, hacc⟩ := firstAcceptable_some role _ i hf
        have hinv2 := noAffinityInvariant_select w0 w (roleCollection role) i d hinv hd hacc.1
        simp only [hf, hd, if_true] at h
        split at h
        · simp only [Option.some.injEq, Prod.mk.injEq] at h
          rw [← h.2]
          exact hinv2
        · exact ih _ _ _ _ _ hinv2 h

/-- C4. With card affinity disabled, one call of `CheckDevicesAgainstCriteria`
selects no device position of a collection twice (the log of the selections has
no duplicates), and every position it selects holds a device whose
`CheckedAgainstCriteria` flag was clear on entry. -/
theorem C4_no_affinity_no_device_twice (mapOrder : Nat → List String → List String)
    (g : Globals) (w : World) (str : String) (w1 : World)
    (hAff : g.USE_OF_CARD_AFFINITY_CAPABILITY = false) (hlog : w.selectionLog = [])
    (h : CheckDevicesAgainstCriteria mapOrder g w = some (str, w1)) :
    w1.selectionLog.Nodup ∧
    ∀ (c : DeviceCapabilityType) (i : Nat), (c, i) ∈ w1.selectionLog →
      ∃ d, (w.devices c)[i]? = some d ∧ d.CheckedAgainstCriteria = false := by
  have hinit : noAffinityInvariant w w.tick := by
    refine ⟨?_, ?_, ?_⟩
    · show w.selectionLog.Nodup
      rw [hlog]
      exact List.nodup_nil
    · intro c i hmem
      have : (c, i) ∈ w.selectionLog := hmem
      rw [hlog] at this
      exact absurd this (by simp)
    · intro c i d hd _
      rw [devices_tick] at hd
      exact hd
  unfold CheckDevicesAgainstCriteria at h
  simp only [hAff, Bool.false_eq_true, false_and, if_false] at h
  have hfinal := loop_noAffinityInvariant mapOrder g hAff w _ 0 "" _ str w1 hinit h
  exact ⟨hfinal.1, fun c i hmem => (hfinal.2.1 c i hmem).2⟩

/-- C4, witness: on the fixture of the tests with `eth4` and `eth6` (regular
positions 2 and 3) flagged on entry and five devices required, the run selects
the regular positions 4, 5, 0, 1 and 6: pairwise distinct, none of them 2 or 3. -/
theorem C4_witness_flagged_devices_skipped :
    (CheckDevicesAgainstCriteria storageOrder ⟨5, false, false, false⟩ testWorldTwoFlagged).map
        (fun r => (r.1, r.2.selectionLog)) =
      some ("eth10\neth11\neth0\neth3\neth12\n",
        [(.REGULAR, 4), (.REGULAR, 5), (.REGULAR, 0), (.REGULAR, 1), (.REGULAR, 6)]) ∧
    (((CheckDevicesAgainstCriteria storageOrder ⟨5, false, false, false⟩
        testWorldTwoFlagged).getD ("", testWorld)).2.selectionLog.Nodup ∧
      ∀ (c : DeviceCapabilityType) (i : Nat),
        (c, i) ∈ ((CheckDevicesAgainstCriteria storageOrder ⟨5, false, false, false⟩
          testWorldTwoFlagged).getD ("", testWorld)).2.selectionLog →
        ∃ d, (testWorldTwoFlagged.devices c)[i]? = some d ∧ d.CheckedAgainstCriteria = false) :=
  ⟨by decide,
    C4_no_affinity_no_device_twice storageOrder ⟨5, false, false, false⟩ testWorldTwoFlagged
      ((CheckDevicesAgainstCriteria storageOrder ⟨5, false, false, false⟩
        testWorldTwoFlagged).getD ("", testWorld)).1
      ((CheckDevicesAgainstCriteria storageOrder ⟨5, false, false, false⟩
        testWorldTwoFlagged).getD ("", testWorld)).2 rfl rfl (by decide)⟩

/-! ## Too few free devices -/

theorem clearCount_set (ds : List SupDevice) :
    ∀ (i : Nat) (d : SupDevice), ds[i]? = some d → d.CheckedAgainstCriteria = false →
      d.IsCardAffinityCouple = false →
      clearCount (ds.set i { d with CheckedAgainstCriteria := true }) + 1 = clearCount ds := by
  induction ds with
  | nil => intro i d h; simp at h
  | cons x xs ih =>
    intro i d h h1 h2
    cases i with
    | zero =>
      simp only [List.getElem?_cons_zero, Option.some.injEq] at h
      subst h
      simp [clearCount, List.filter_cons, h1, h2]
    | succ i =>
      simp only [List.getElem?_cons_succ] at h
      have := ih i d h h1 h2
      simp only [clearCount, List.set_cons_succ, List.filter_cons] at this ⊢
      split
      · simp only [List.length_cons]
        omega
      · exact this

theorem totalClearCount_select (w : World) (c : DeviceCapabilityType) (i : Nat) (d : SupDevice)
    (hd : (w.devices c)[i]? = some d) (h1 : d.CheckedAgainstCriteria = false)
    (h2 : d.IsCardAffinityCouple = false) :
    totalClearCount ((w.setDevices c ((w.devices c).set i
      { d with CheckedAgainstCriteria := true })).logSelection c i) + 1 = totalClearCount w := by
  have := clearCount_set (w.devices c) i d hd h1 h2
  cases c <;>
    simp only [totalClearCount, World.setDevices, World.logSelection, World.devices] at this ⊢ <;>
    omega

/-- With fewer free devices than devices still to be found, the loop of
`CheckDevicesAgainstCriteria` returns the empty string. -/
theorem loop_noCardAffinity_insufficient (mapOrder : Nat → List String → List String)
    (g : Globals) (hAff : g.USE_OF_CARD_AFFINITY_CAPABILITY = false)
    (h256 : g.NUMBER_OF_DEVICES_REQUIRED < 256) :
    ∀ (keys : List String) (s : Nat) (out : String) (w : World),
      (∀ k ∈ keys, k ∈ mapKeys w.criteriaListsMap) →
      totalClearCount w + s < g.NUMBER_OF_DEVICES_REQUIRED →
      ∃ w1, CheckDevicesAgainstCriteria.loop mapOrder g keys s out w = some ("", w1) := by
  intro keys
  induction keys with
  | nil => intro s out w _ _; exact ⟨w, rfl⟩
  | cons key rest ih =>
    intro s out w hkeys hcount
    obtain ⟨role, hrole⟩ := mapGet_isSome_of_mem w.criteriaListsMap key (hkeys key (by simp))
    simp only [CheckDevicesAgainstCriteria.loop, hAff, Bool.false_eq_true, if_false, hrole,
      noCardAffinity_eq]
    cases hf : firstAcceptable role (w.devices (roleCollection role)) with
    | none => exact ⟨w, rfl⟩
    | some i =>
      obtain ⟨d, hd, hacc⟩ := firstAcceptable_some role _ i hf
      have hsel := totalClearCount_select w (roleCollection role) i d hd hacc.1 hacc.2.1
      have hs : (s + 1) % 256 = s + 1 := Nat.mod_eq_of_lt (by omega)
      have hne : ¬ s + 1 = g.NUMBER_OF_DEVICES_REQUIRED := by omega
      simp only [hd, if_true, hs, if_neg hne]
      apply ih
      · intro k hk
        rw [criteria_logSelection, criteria_setDevices]
        exact hkeys k (List.mem_cons_of_mem _ hk)
      · omega

/-- C8. With card affinity disabled and `NUMBER_OF_DEVICES_REQUIRED` (a
`uint8`) equal to the number of roles, if the three collections together hold
fewer devices with both flags clear than there are roles, then
`CheckDevicesAgainstCriteria` returns the empty string, whatever the first
roles found. -/
theorem C8_insufficient_supply_returns_empty (mapOrder : Nat → List String → List String)
    (g : Globals) (w : World)
    (hAff : g.USE_OF_CARD_AFFINITY_CAPABILITY = false)
    (hN : g.NUMBER_OF_DEVICES_REQUIRED = w.criteriaListsMap.length)
    (h256 : g.NUMBER_OF_DEVICES_REQUIRED < 256)
    (henum : ∀ k ∈ mapOrder w.rangeCount (mapKeys w.criteriaListsMap),
      k ∈ mapKeys w.criteriaListsMap)
    (hcount : clearCount w.regularDevicesSlice + clearCount w.ptpDevicesSlice +
      clearCount w.rruDevicesSlice < w.criteriaListsMap.length) :
    ∃ w1, CheckDevicesAgainstCriteria mapOrder g w = some ("", w1) := by
  unfold CheckDevicesAgainstCriteria
  simp only [hAff, Bool.false_eq_true, false_and, if_false]
  apply loop_noCardAffinity_insufficient mapOrder g hAff h256
  · intro k hk
    rw [criteria_tick]
    exact henum k ((sortStrings_mem _ k).mp hk)
  · show totalClearCount w + 0 < g.NUMBER_OF_DEVICES_REQUIRED
    rw [hN]
    exact hcount

/-- C8, witness: eight roles and four free devices (the first four regular
devices of the fixture of the tests): the first four roles each find a device
(four selections are logged) and the result is the empty string. -/
theorem C8_witness_four_devices_eight_roles :
    (CheckDevicesAgainstCriteria storageOrder ⟨8, false, false, false⟩
        testWorldFourDevices).map (fun r => (r.1, r.2.selectionLog)) =
      some ("", [(.REGULAR, 2), (.REGULAR, 3), (.REGULAR, 0), (.REGULAR, 1)]) ∧
    ∃ w1, CheckDevicesAgainstCriteria storageOrder ⟨8, false, false, false⟩
      testWorldFourDevices = some ("", w1) :=
  ⟨by decide,
    C8_insufficient_supply_returns_empty storageOrder ⟨8, false, false, false⟩
      testWorldFourDevices rfl (by decide) (by decide) (by decide) (by decide)⟩

/-! ## Validation of the configuration -/

theorem mapGet_mapSet_ne {V : Type} (m : GoMap V) (k k2 : String) (v : V) (h : k ≠ k2) :
    mapGet (mapSet m k v) k2 = mapGet m k2 := by
  induction m with
  | nil => rfl
  | cons e m ih =>
    obtain ⟨k0, v0⟩ := e
    by_cases h0 : k0 = k
    · subst h0
      simp [mapSet, mapGet, h]
    · by_cases h2 : k0 = k2
      · subst h2
        simp [mapSet, mapGet, h0]
      · simp [mapSet, mapGet, h0, h2, ih]

theorem mapGet_mapSet_self {V : Type} (m : GoMap V) (k : String) (v v0 : V)
    (h : mapGet m k = some v0) : mapGet (mapSet m k v) k = some v := by
  induction m with
  | nil => simp [mapGet] at h
  | cons e m ih =>
    obtain ⟨k0, v1⟩ := e
    by_cases h0 : k0 = k
    · simp [mapSet, mapGet, h0]
    · simp only [mapGet, h0, if_false] at h
      simp [mapSet, mapGet, h0, ih h]

theorem mapGet_mapSet_none {V : Type} (m : GoMap V) (k k2 : String) (v : V)
    (h : mapGet m k2 = none) : mapGet (mapSet m k v) k2 = none := by
  induction m with
  | nil => rfl
  | cons e m ih =>
    obtain ⟨k0, v0⟩ := e
    by_cases h2 : k0 = k2
    · simp [mapGet, h2] at h
    · simp only [mapGet, h2, if_false] at h
      by_cases h0 : k0 = k
      · subst h0
        simp [mapSet, mapGet, h2, h]
      · simp [mapSet, mapGet, h0, h2, ih h]

theorem mem_mapKeys_of_mapGet {V : Type} (m : GoMap V) (k : String) (v : V)
    (h : mapGet m k = some v) : k ∈ mapKeys m := by
  induction m with
  | nil => simp [mapGet] at h
  | cons e m ih =>
    obtain ⟨k0, v0⟩ := e
    by_cases h0 : k0 = k
    · simp [mapKeys, h0]
    · simp only [mapGet, h0, if_false] at h
      have := ih h
      simp only [mapKeys, List.map_cons, List.mem_cons] at this ⊢
      exact Or.inr this

theorem yamlFrame_refl (m : GoMap CriteriaList) : yamlFrame m m :=
  fun _ => ⟨fun h => h, fun cl h => ⟨cl, h, rfl, rfl, rfl, fun _ => rfl⟩⟩

theorem yamlFrame_trans (m0 m1 m2 : GoMap CriteriaList) (h01 : yamlFrame m0 m1)
    (h12 : ∀ k : String,
      (mapGet m1 k = none → mapGet m2 k = none) ∧
      ∀ cl, mapGet m1 k = some cl →
        ∃ cl1, mapGet m2 k = some cl1 ∧ cl1.PTPSupport = cl.PTPSupport ∧
          cl1.RRUConnection = cl.RRUConnection ∧ cl1.DeviceId = cl.DeviceId ∧
          (cl.CardAffinityPfCouple ≠ "" → cl1 = cl)) :
    yamlFrame m0 m2 := by
  intro k
  refine ⟨fun h => (h12 k).1 ((h01 k).1 h), ?_⟩
  intro cl hcl
  obtain ⟨cl1, h1, hp1, hr1, hd1, hc1⟩ := (h01 k).2 cl hcl
  obtain ⟨cl2, h2, hp2, hr2, hd2, hc2⟩ := (h12 k).2 cl1 h1
  refine ⟨cl2, h2, hp2.trans hp1, hr2.trans hr1, hd2.trans hd1, ?_⟩
  intro hne
  have e1 := hc1 hne
  subst e1
  exact hc2 hne

/-- A successful `ValidateCardAffinityCouplesInYamlFile` changes the map within
the frame. -/
theorem validate_frame (cl : CriteriaList) (pf : String) (v v3 : ValidationState)
    (h : ValidateCardAffinityCouplesInYamlFile cl pf v = (none, v3)) :
    yamlFrame v.criteriaListsMap v3.criteriaListsMap := by
  unfold ValidateCardAffinityCouplesInYamlFile at h
  split at h
  · simp at h
  · split at h
    · rename_i coupled hcoupled
      split at h
      · split at h
        · simp at h
        · simp only [Prod.mk.injEq, true_and] at h
          rw [← h]
          exact yamlFrame_refl _
      · rename_i hlen
        simp only [Prod.mk.injEq, true_and] at h
        rw [← h]
        have hempty : coupled.CardAffinityPfCouple = "" :=
          (string_length_eq_zero _).mp (by omega)
        intro k
        by_cases hk : cl.CardAffinityPfCouple = k
        · subst hk
          refine ⟨fun hn => by rw [hcoupled] at hn; exact absurd hn (by simp), ?_⟩
          intro cl0 hcl0
          rw [hcoupled] at hcl0
          cases hcl0
          exact ⟨_, mapGet_mapSet_self _ _ _ _ hcoupled, rfl, rfl, rfl,
            fun hne => absurd hempty hne⟩
        · refine ⟨fun hn => by rw [mapGet_mapSet_ne _ _ _ _ hk]; exact hn, ?_⟩
          intro cl0 hcl0
          exact ⟨cl0, by rw [mapGet_mapSet_ne _ _ _ _ hk]; exact hcl0, rfl, rfl, rfl,
            fun _ => rfl⟩
    · simp at h

/-- The loop of `YamlFileValidation` returns an error when it visits a key `pf`
whose entry is bad in a way that the frame preserves and that the checks of the
iteration of `pf` reject. -/
theorem yaml_loop_error (pf : String) (bad : GoMap CriteriaList → Prop)
    (hpresent : ∀ m, bad m → ∃ cl, mapGet m pf = some cl)
    (hframe : ∀ m0 m, yamlFrame m0 m → bad m0 → bad m)
    (hreject : ∀ (v : ValidationState) (cl : CriteriaList), bad v.criteriaListsMap →
      mapGet v.criteriaListsMap pf = some cl →
      ¬ (cl.PTPSupport = true ∧ cl.RRUConnection = true) →
      0 < cl.CardAffinityPfCouple.length ∧
        (ValidateCardAffinityCouplesInYamlFile cl pf v).1 ≠ none) :
    ∀ (keys : List String) (v : ValidationState), pf ∈ keys → bad v.criteriaListsMap →
      (YamlFileValidation.loop keys v).1 ≠ none := by
  intro keys
  induction keys with
  | nil => intro v h; simp at h
  | cons key rest ih =>
    intro v hmem hbad
    obtain ⟨cl, hcl⟩ := hpresent _ hbad
    rw [YamlFileValidation.loop]
    cases hk : mapGet v.criteriaListsMap key with
    | none =>
      have hne : key ≠ pf := by
        intro e
        rw [e, hcl] at hk
        exact absurd hk (by simp)
      have hmem2 : pf ∈ rest := by
        rcases List.mem_cons.mp hmem with h | h
        · exact absurd h.symm hne
        · exact h
      exact ih v hmem2 hbad
    | some clk =>
      simp only
      split
      · simp
      · split
        · simp
        · rename_i hdev hboth
          by_cases hkey : key = pf
          · subst hkey
            rw [hcl] at hk
            cases hk
            have hrej := fun (v2 : ValidationState) (h2 : v2.criteriaListsMap = v.criteriaListsMap) =>
              hreject v2 cl (h2 ▸ hbad) (h2 ▸ hcl) hboth
            have hlen := (hreject v cl hbad hcl hboth).1
            simp only [hlen, if_true]
            split
            · simp
            · rename_i v3 hval
              exfalso
              refine (hrej _ ?_).2 (by rw [hval])
              split <;> split <;> rfl
          · have hmem2 : pf ∈ rest := by
              rcases List.mem_cons.mp hmem with h | h
              · exact absurd h.symm hkey
              · exact h
            split
            · split
              · simp
              · rename_i v3 hval
                have hfr := validate_frame _ _ _ _ hval
                apply ih v3 hmem2
                refine hframe _ _ hfr ?_
                have : ∀ (x : ValidationState), x.criteriaListsMap = v.criteriaListsMap →
                    bad x.criteriaListsMap := fun x hx => hx ▸ hbad
                apply this
                split <;> split <;> rfl
            · apply ih _ hmem2
              have : ∀ (x : ValidationState), x.criteriaListsMap = v.criteriaListsMap →
                  bad x.criteriaListsMap := fun x hx => hx ▸ hbad
              apply this
              split <;> split <;> rfl


/-- C9. For every role map in which some role requires both PTP and RRU,
`YamlFileValidation` returns an error, whatever the other roles hold and in
whatever order the `range` statement enumerates the map. -/
theorem C9_ptp_and_rru_rejected (order : List String) (v : ValidationState) (pf : String)
    (cl : CriteriaList) (horder : order.Perm (mapKeys v.criteriaListsMap))
    (hget : mapGet v.criteriaListsMap pf = some cl)
    (hptp : cl.PTPSupport = true) (hrru : cl.RRUConnection = true) :
    (YamlFileValidation order v).1 ≠ none := by
  unfold YamlFileValidation
  split
  · simp
  · apply yaml_loop_error pf
      (fun m => ∃ c, mapGet m pf = some c ∧ c.PTPSupport = true ∧ c.RRUConnection = true)
    · rintro m ⟨c, hc, _⟩
      exact ⟨c, hc⟩
    · rintro m0 m hfr ⟨c, hc, hp, hr⟩
      obtain ⟨c1, hc1, hp1, hr1, _, _⟩ := (hfr pf).2 c hc
      exact ⟨c1, hc1, hp1.trans hp, hr1.trans hr⟩
    · rintro v2 c ⟨c0, hc0, hp, hr⟩ hc hboth
      rw [hc0] at hc
      cases hc
      exact absurd ⟨hp, hr⟩ hboth
    · exact horder.mem_iff.mpr (mem_mapKeys_of_mapGet _ _ _ hget)
    · exact ⟨cl, hget, hptp, hrru⟩

/-- C9, witness of the test: `pf1` requiring both PTP and RRU in the map of the
tests is rejected, here with `pf1` enumerated last. -/
theorem C9_witness_pf1_ptp_and_rru :
    (YamlFileValidation ["pf8", "pf7", "pf6", "pf5", "pf4", "pf3", "pf2", "pf1"]
      (initialValidationState (testSetCriteria CRITERIA_LISTS_MAP_WITH_CARD_AFFINITY "pf1"
        (testFirstCriteriaList "" true true)))).1 ≠ none :=
  C9_ptp_and_rru_rejected _ _ "pf1" (testFirstCriteriaList "" true true) (by decide)
    (by decide) rfl rfl

/-- C10. `YamlFileValidation` returns an error for every role map in which some
role declares a coupled PF (a non-empty `CardAffinityPfCouple`) that is (a) the
name of the role itself, or (b) not a key of the map, or (c) a role that itself
declares a coupled PF other than the declaring role; in whatever order the
`range` statement enumerates the map. -/
theorem C10_bad_couple_rejected (order : List String) (v : ValidationState) (pf : String)
    (cl : CriteriaList) (horder : order.Perm (mapKeys v.criteriaListsMap))
    (hget : mapGet v.criteriaListsMap pf = some cl)
    (hdeclared : cl.CardAffinityPfCouple ≠ "")
    (hbad : cl.CardAffinityPfCouple = pf ∨
      mapGet v.criteriaListsMap cl.CardAffinityPfCouple = none ∨
      ∃ coupled, mapGet v.criteriaListsMap cl.CardAffinityPfCouple = some coupled ∧
        coupled.CardAffinityPfCouple ≠ "" ∧ coupled.CardAffinityPfCouple ≠ pf) :
    (YamlFileValidation order v).1 ≠ none := by
  unfold YamlFileValidation
  split
  · simp
  · apply yaml_loop_error pf
      (fun m => mapGet m pf = some cl ∧
        (cl.CardAffinityPfCouple = pf ∨ mapGet m cl.CardAffinityPfCouple = none ∨
          ∃ coupled, mapGet m cl.CardAffinityPfCouple = some coupled ∧
            coupled.CardAffinityPfCouple ≠ "" ∧ coupled.CardAffinityPfCouple ≠ pf))
    · rintro m ⟨hc, _⟩
      exact ⟨cl, hc⟩
    · rintro m0 m hfr ⟨hc, hb⟩
      obtain ⟨c1, hc1, _, _, _, hsame⟩ := (hfr pf).2 cl hc
      have e := hsame hdeclared
      subst e
      refine ⟨hc1, ?_⟩
      rcases hb with h | h | ⟨coupled, hcp, hne, hne2⟩
      · exact Or.inl h
      · exact Or.inr (Or.inl ((hfr _).1 h))
      · obtain ⟨cp1, hcp1, _, _, _, hsame2⟩ := (hfr _).2 coupled hcp
        have e2 := hsame2 hne
        subst e2
        exact Or.inr (Or.inr ⟨cp1, hcp1, hne, hne2⟩)
    · rintro v2 c ⟨hc0, hb⟩ hc _
      rw [hc0] at hc
      cases hc
      refine ⟨(string_length_pos _).mpr hdeclared, ?_⟩
      unfold ValidateCardAffinityCouplesInYamlFile
      rcases hb with h | h | ⟨coupled, hcp, hne, hne2⟩
      · simp [h]
      · by_cases hself : cl.CardAffinityPfCouple = pf
        · simp [hself]
        · simp [hself, h]
      · by_cases hself : cl.CardAffinityPfCouple = pf
        · simp [hself]
        · simp [hself, hcp, (string_length_pos _).mpr hne, hne2]
    · exact horder.mem_iff.mpr (mem_mapKeys_of_mapGet _ _ _ hget)
    · exact ⟨hget, hbad⟩

/-- C10, witnesses of the test: `pf1` coupled to `pf1`, `pf1` coupled to `eyal`
(not a role), and `pf1` coupled to `pf3` while `pf3` is coupled to `pf6`; each
is rejected, here with `pf1` enumerated last. -/
theorem C10_witness_three_bad_couples :
    (YamlFileValidation ["pf8", "pf7", "pf6", "pf5", "pf4", "pf3", "pf2", "pf1"]
      (initialValidationState (testSetCriteria CRITERIA_LISTS_MAP_WITH_CARD_AFFINITY "pf1"
        (testFirstCriteriaList "pf1" false false)))).1 ≠ none ∧
    (YamlFileValidation ["pf8", "pf7", "pf6", "pf5", "pf4", "pf3", "pf2", "pf1"]
      (initialValidationState (testSetCriteria CRITERIA_LISTS_MAP_WITH_CARD_AFFINITY "pf1"
        (testFirstCriteriaList "eyal" false false)))).1 ≠ none ∧
    (YamlFileValidation ["pf8", "pf7", "pf6", "pf5", "pf4", "pf3", "pf2", "pf1"]
      (initialValidationState (testSetCriteria CRITERIA_LISTS_MAP_WITH_CARD_AFFINITY "pf1"
        (testFirstCriteriaList "pf3" false false)))).1 ≠ none :=
  ⟨C10_bad_couple_rejected _ _ "pf1" (testFirstCriteriaList "pf1" false false) (by decide)
      (by decide) (by decide) (Or.inl rfl),
    C10_bad_couple_rejected _ _ "pf1" (testFirstCriteriaList "eyal" false false) (by decide)
      (by decide) (by decide) (Or.inr (Or.inl (by decide))),
    C10_bad_couple_rejected _ _ "pf1" (testFirstCriteriaList "pf3" false false) (by decide)
      (by decide) (by decide)
      (Or.inr (Or.inr ⟨testCriteria 64 "pf6", by decide, by decide, by decide⟩))⟩

/-! ## Card affinity groups -/

theorem nodup_getElem?_inj (l : List Nat) (hnd : l.Nodup) (i j : Nat) (p : Nat)
    (hi : l[i]? = some p) (hj : l[j]? = some p) : i = j := by
  obtain ⟨hi1, hi2⟩ := List.getElem?_eq_some_iff.mp hi
  obtain ⟨hj1, hj2⟩ := List.getElem?_eq_some_iff.mp hj
  exact (List.Nodup.getElem_inj_iff hnd).mp (hi2.trans hj2.symm)

/-- The slice after `RemoveDeviceIndexFromSlice`: the element at `idx` is gone,
every other element stays, nothing is added. -/
theorem swapRemove_spec (l : List Nat) (idx p last : Nat) (hp : l[idx]? = some p)
    (hl : l.getLast? = some last) (hnd : l.Nodup) :
    ((l.set idx last).dropLast).Nodup ∧ p ∉ (l.set idx last).dropLast ∧
      (∀ x ∈ (l.set idx last).dropLast, x ∈ l) ∧
      ((l.set idx last).dropLast).length + 1 = l.length ∧
      (∀ x ∈ l, x ≠ p → x ∈ (l.set idx last).dropLast) := by
  obtain ⟨init, rfl⟩ := List.getLast?_eq_some_iff.mp hl
  have hinit : init.Nodup := (List.nodup_append.mp hnd).1
  have hlast : last ∉ init := by
    intro h
    exact (List.nodup_append.mp hnd).2.2 h (by simp) 
  have hidxlt : idx < (init ++ [last]).length := (List.getElem?_eq_some_iff.mp hp).1
  by_cases hidx : idx < init.length
  · have hp2 : init[idx]? = some p := by
      rw [List.getElem?_append_left hidx] at hp
      exact hp
    have hpm : p ∈ init := List.getElem?_mem hp2
    rw [List.set_append_left idx last hidx, List.dropLast_concat]
    refine ⟨hinit.set hlast, ?_, ?_, by simp, ?_⟩
    · intro hmem
      obtain ⟨j, hj⟩ := List.mem_iff_getElem?.mp hmem
      rw [List.getElem?_set] at hj
      by_cases hij : idx = j
      · subst hij
        simp only [if_true, hidx] at hj
        cases hj
        exact hlast hpm
      · simp only [hij, if_false] at hj
        exact hij (nodup_getElem?_inj init hinit idx j p hp2 hj)
    · intro x hx
      rcases List.mem_or_eq_of_mem_set hx with h | h
      · exact List.mem_append_left _ h
      · simp [h]
    · intro x hx hne
      rcases List.mem_append.mp hx with h | h
      · obtain ⟨j, hj⟩ := List.mem_iff_getElem?.mp h
        apply List.mem_iff_getElem?.mpr
        refine ⟨j, ?_⟩
        rw [List.getElem?_set]
        by_cases hij : idx = j
        · subst hij
          rw [hp2] at hj
          cases hj
          exact absurd rfl hne
        · simp [hij, hj]
      · simp only [List.mem_singleton] at h
        subst h
        apply List.mem_iff_getElem?.mpr
        exact ⟨idx, by rw [List.getElem?_set]; simp [hidx]⟩
  · have hidxeq : idx = init.length := by
      simp only [List.length_append, List.length_singleton] at hidxlt
      omega
    subst hidxeq
    have hpl : p = last := by
      rw [List.getElem?_append_right (le_refl _)] at hp
      simpa using hp.symm
    subst hpl
    have hset : (init ++ [p]).set init.length p = init ++ [p] := by
      rw [List.set_append_right _ _ (le_refl _)]
      simp
    rw [hset, List.dropLast_concat]
    refine ⟨hinit, hlast, fun x hx => List.mem_append_left _ hx, by simp, ?_⟩
    intro x hx hne
    rcases List.mem_append.mp hx with h | h
    · exact h
    · simp only [List.mem_singleton] at h
      exact absurd h hne

theorem mapGet_none_of_not_mem {V : Type} (m : GoMap V) (k : String) (h : k ∉ mapKeys m) :
    mapGet m k = none := by
  cases hg : mapGet m k with
  | none => rfl
  | some v => exact absurd (mem_mapKeys_of_mapGet m k v hg) h

theorem mapKeys_mapSet {V : Type} (m : GoMap V) (k : String) (v : V) :
    mapKeys (mapSet m k v) = mapKeys m := by
  induction m with
  | nil => rfl
  | cons e m ih =>
    obtain ⟨k0, v0⟩ := e
    by_cases h0 : k0 = k
    · simp [mapSet, mapKeys, h0]
    · simp only [mapKeys] at ih
      simp [mapSet, mapKeys, h0, ih]

theorem mapGet_mapDelete_ne {V : Type} (m : GoMap V) (k k2 : String) (h : k ≠ k2) :
    mapGet (mapDelete m k) k2 = mapGet m k2 := by
  induction m with
  | nil => rfl
  | cons e m ih =>
    obtain ⟨k0, v0⟩ := e
    by_cases h0 : k0 = k
    · subst h0
      simp [mapDelete, mapGet, h]
    · by_cases h2 : k0 = k2
      · subst h2
        simp [mapDelete, mapGet, h0]
      · simp [mapDelete, mapGet, h0, h2, ih]

theorem mapKeys_mapDelete_sublist {V : Type} (m : GoMap V) (k : String) :
    (mapKeys (mapDelete m k)).Sublist (mapKeys m) := by
  induction m with
  | nil => exact List.Sublist.refl _
  | cons e m ih =>
    obtain ⟨k0, v0⟩ := e
    by_cases h0 : k0 = k
    · simp only [mapDelete, h0, if_true, mapKeys, List.map_cons]
      exact List.sublist_cons_self _ _
    · simp only [mapDelete, h0, if_false, mapKeys, List.map_cons]
      exact List.Sublist.cons₂ _ ih

theorem mapGet_mapDelete_self {V : Type} (m : GoMap V) (k : String) (h : (mapKeys m).Nodup) :
    mapGet (mapDelete m k) k = none := by
  induction m with
  | nil => rfl
  | cons e m ih =>
    obtain ⟨k0, v0⟩ := e
    simp only [mapKeys, List.map_cons, List.nodup_cons] at h
    by_cases h0 : k0 = k
    · subst h0
      simp only [mapDelete, if_true]
      exact mapGet_none_of_not_mem m k0 h.1
    · simp only [mapDelete, h0, if_false, mapGet]
      exact ih h.2

/-- What `RemoveDeviceIndexFromSlice` does to a map that lists every position at
most once: the position `p` at `deviceIndex` of the group leaves the map, the
other groups and the other positions of the group stay, and the group is
deleted exactly when `p` was its only position. -/
theorem remove_spec (idx : Nat) (key : String) (m m1 : GoMap CardAffinityDevicesInfo)
    (h : RemoveDeviceIndexFromSlice idx key m = some m1) (hwf : listedAtMostOnce m) :
    ∃ info p, mapGet m key = some info ∧ info.DevicesIndexesSlice[idx]? = some p ∧
      listedAtMostOnce m1 ∧ ¬ isMember m1 p ∧
      (∀ k, k ≠ key → mapGet m1 k = mapGet m k) ∧
      (∀ info1, mapGet m1 key = some info1 →
        info1.ChosenDeviceHasNoCardAffinity = info.ChosenDeviceHasNoCardAffinity ∧
        info1.DevicesIndexesSlice ≠ [] ∧
        ∀ x, x ∈ info1.DevicesIndexesSlice ↔ (x ∈ info.DevicesIndexesSlice ∧ x ≠ p)) ∧
      (mapGet m1 key = none ↔ info.DevicesIndexesSlice.length = 1) := by
  unfold RemoveDeviceIndexFromSlice at h
  cases hinfo : mapGet m key with
  | none => simp [hinfo] at h
  | some info =>
    simp only [hinfo] at h
    cases hlast : info.DevicesIndexesSlice.getLast? with
    | none => simp [hlast] at h
    | some last =>
      simp only [hlast] at h
      by_cases hidx : idx < info.DevicesIndexesSlice.length
      · simp only [hidx, if_true] at h
        obtain ⟨hkeys, hgroup, hcross⟩ := hwf
        have hp : info.DevicesIndexesSlice[idx]? = some (info.DevicesIndexesSlice[idx]) :=
          List.getElem?_eq_getElem hidx
        obtain ⟨hnd, hpnot, hsub, hlen, hkeep⟩ := swapRemove_spec info.DevicesIndexesSlice idx
          (info.DevicesIndexesSlice[idx]) last hp hlast (hgroup key info hinfo)
        have hmemiff : ∀ x, x ∈ (info.DevicesIndexesSlice.set idx last).dropLast ↔
            (x ∈ info.DevicesIndexesSlice ∧ x ≠ info.DevicesIndexesSlice[idx]) := by
          intro x
          constructor
          · intro hx
            exact ⟨hsub x hx, fun e => hpnot (e ▸ hx)⟩
          · rintro ⟨hx, hne⟩
            exact hkeep x hx hne
        -- the lookups of the new map
        have key_facts : (mapKeys m1).Nodup ∧ (∀ k, k ≠ key → mapGet m1 k = mapGet m k) ∧
            (∀ info1, mapGet m1 key = some info1 →
              info1.ChosenDeviceHasNoCardAffinity = info.ChosenDeviceHasNoCardAffinity ∧
              info1.DevicesIndexesSlice = (info.DevicesIndexesSlice.set idx last).dropLast ∧
              info1.DevicesIndexesSlice ≠ []) ∧
            (mapGet m1 key = none ↔ info.DevicesIndexesSlice.length = 1) := by
          by_cases hempty : ((info.DevicesIndexesSlice.set idx last).dropLast).length = 0
          · simp only [hempty, if_true, Option.some.injEq] at h
            subst h
            refine ⟨(mapKeys_mapDelete_sublist m key).nodup hkeys,
              fun k hk => mapGet_mapDelete_ne m key k (fun e => hk e.symm), ?_, ?_⟩
            · intro info1 h1
              rw [mapGet_mapDelete_self m key hkeys] at h1
              exact absurd h1 (by simp)
            · constructor
              · intro _
                omega
              · intro _
                exact mapGet_mapDelete_self m key hkeys
          · simp only [hempty, if_false, Option.some.injEq] at h
            subst h
            refine ⟨by rw [mapKeys_mapSet]; exact hkeys,
              fun k hk => mapGet_mapSet_ne m key k _ (fun e => hk e.symm), ?_, ?_⟩
            · intro info1 h1
              rw [mapGet_mapSet_self m key _ info hinfo] at h1
              cases h1
              refine ⟨rfl, rfl, ?_⟩
              intro e
              simp only at e
              rw [e] at hempty
              exact hempty rfl
            · constructor
              · intro hn
                rw [mapGet_mapSet_self m key _ info hinfo] at hn
                exact absurd hn (by simp)
              · intro hl
                omega
        obtain ⟨hkeys1, hother, hself, hnone⟩ := key_facts
        refine ⟨info, info.DevicesIndexesSlice[idx], rfl, hp, ⟨hkeys1, ?_, ?_⟩, ?_, hother, ?_,
          hnone⟩
        · intro k info1 h1
          by_cases hk : k = key
          · subst hk
            rw [(hself info1 h1).2.1]
            exact hnd
          · rw [hother k hk] at h1
            exact hgroup k info1 h1
        · intro k1 k2 i1 i2 x h1 h2 hx1 hx2
          have conv : ∀ k i, mapGet m1 k = some i → x ∈ i.DevicesIndexesSlice →
              ∃ i0, mapGet m k = some i0 ∧ x ∈ i0.DevicesIndexesSlice := by
            intro k i hk hx
            by_cases hkk : k = key
            · subst hkk
              rw [(hself i hk).2.1] at hx
              exact ⟨info, hinfo, hsub x hx⟩
            · rw [hother k hkk] at hk
              exact ⟨i, hk, hx⟩
          obtain ⟨j1, hj1, hxj1⟩ := conv k1 i1 h1 hx1
          obtain ⟨j2, hj2, hxj2⟩ := conv k2 i2 h2 hx2
          exact hcross k1 k2 j1 j2 x hj1 hj2 hxj1 hxj2
        · rintro ⟨k, i, hk, hx⟩
          by_cases hkk : k = key
          · subst hkk
            rw [(hself i hk).2.1] at hx
            exact hpnot hx
          · rw [hother k hkk] at hk
            exact hkk (hcross k key i info _ hk hinfo hx (List.getElem_mem _))
        · intro info1 h1
          obtain ⟨hc, hs, hne⟩ := hself info1 h1
          refine ⟨hc, hne, ?_⟩
          rw [hs]
          exact hmemiff
      · simp [hidx] at h

/-! ## Reading the state after a write -/

@[simp] theorem affinityMap_setDevices (w : World) (c c2 : DeviceCapabilityType)
    (l : List SupDevice) : (w.setDevices c l).affinityMap c2 = w.affinityMap c2 := by
  cases c <;> cases c2 <;> rfl

@[simp] theorem affinityMap_logSelection (w : World) (c c2 : DeviceCapabilityType) (i : Nat) :
    (w.logSelection c i).affinityMap c2 = w.affinityMap c2 := by
  cases c2 <;> rfl

@[simp] theorem affinityMap_tick (w : World) (c : DeviceCapabilityType) :
    w.tick.affinityMap c = w.affinityMap c := by
  cases c <;> rfl

@[simp] theorem affinityMap_setAffinityMap_self (w : World) (c : DeviceCapabilityType)
    (m : GoMap CardAffinityDevicesInfo) : (w.setAffinityMap c m).affinityMap c = m := by
  cases c <;> rfl

theorem affinityMap_setAffinityMap_ne (w : World) (c c2 : DeviceCapabilityType)
    (m : GoMap CardAffinityDevicesInfo) (h : c2 ≠ c) :
    (w.setAffinityMap c m).affinityMap c2 = w.affinityMap c2 := by
  cases c <;> cases c2 <;> first | rfl | exact absurd rfl h

@[simp] theorem devices_setAffinityMap (w : World) (c : DeviceCapabilityType)
    (m : GoMap CardAffinityDevicesInfo) : (w.setAffinityMap c m).devices = w.devices := by
  funext c2
  cases c <;> cases c2 <;> rfl

@[simp] theorem criteria_setAffinityMap (w : World) (c : DeviceCapabilityType)
    (m : GoMap CardAffinityDevicesInfo) :
    (w.setAffinityMap c m).criteriaListsMap = w.criteriaListsMap := by
  cases c <;> rfl

@[simp] theorem selectionLog_setAffinityMap (w : World) (c : DeviceCapabilityType)
    (m : GoMap CardAffinityDevicesInfo) :
    (w.setAffinityMap c m).selectionLog = w.selectionLog := by
  cases c <;> rfl

@[simp] theorem selectionLog_tick (w : World) : w.tick.selectionLog = w.selectionLog := rfl

@[simp] theorem devices_setDevices_self (w : World) (c : DeviceCapabilityType)
    (l : List SupDevice) : (w.setDevices c l).devices c = l := by
  cases c <;> rfl

theorem devices_setDevices_ne (w : World) (c c2 : DeviceCapabilityType)
    (l : List SupDevice) (h : c2 ≠ c) : (w.setDevices c l).devices c2 = w.devices c2 := by
  cases c <;> cases c2 <;> first | rfl | exact absurd rfl h

theorem modifyDevice_eq_some (w w1 : World) (c : DeviceCapabilityType) (i : Nat)
    (f : SupDevice → SupDevice) (h : w.modifyDevice c i f = some w1) :
    ∃ d, (w.devices c)[i]? = some d ∧ w1 = w.setDevices c ((w.devices c).set i (f d)) := by
  unfold World.modifyDevice SriovDetection.modifyDevice at h
  cases hd : (w.devices c)[i]? with
  | none => simp [hd] at h
  | some d =>
    simp only [hd, Option.some.injEq] at h
    exact ⟨d, rfl, h.symm⟩

theorem modifyCriteria_eq_some (w w1 : World) (pf : String) (f : CriteriaList → CriteriaList)
    (h : w.modifyCriteria pf f = some w1) :
    ∃ cl, mapGet w.criteriaListsMap pf = some cl ∧
      w1 = { w with criteriaListsMap := mapSet w.criteriaListsMap pf (f cl) } := by
  unfold World.modifyCriteria at h
  cases hd : mapGet w.criteriaListsMap pf with
  | none => simp [hd] at h
  | some cl =>
    simp only [hd, Option.some.injEq] at h
    exact ⟨cl, rfl, h.symm⟩

theorem removeDeviceIndex_eq_some (w w1 : World) (c : DeviceCapabilityType) (idx : Nat)
    (key : String) (h : w.removeDeviceIndex c idx key = some w1) :
    ∃ m1, RemoveDeviceIndexFromSlice idx key (w.affinityMap c) = some m1 ∧
      w1 = w.setAffinityMap c m1 := by
  unfold World.removeDeviceIndex at h
  cases hd : RemoveDeviceIndexFromSlice idx key (w.affinityMap c) with
  | none => simp [hd] at h
  | some m1 =>
    simp only [hd, Option.some.injEq] at h
    exact ⟨m1, rfl, h.symm⟩

@[simp] theorem affinityMap_criteria_update (w : World) (c : DeviceCapabilityType)
    (m : GoMap CriteriaList) :
    ({ w with criteriaListsMap := m } : World).affinityMap c = w.affinityMap c := by
  cases c <;> rfl

@[simp] theorem devices_criteria_update (w : World) (m : GoMap CriteriaList) :
    ({ w with criteriaListsMap := m } : World).devices = w.devices := by
  funext c
  cases c <;> rfl

/-- One device against one criteria list: the result is 0 exactly when the
device is acceptable. -/
theorem check_single (role : CriteriaList) (d : SupDevice) (r : Int)
    (h : CheckDevicesAgainstSpecificCriteriaList (some role) [d] = some r) :
    (r = 0 ↔ acceptable role d) ∧ (r = 0 ∨ r = -1) := by
  rw [check_eq_firstAcceptable] at h
  simp only [firstAcceptable] at h
  by_cases hacc : acceptable role d
  · simp only [hacc, if_true, Option.some.injEq] at h
    subst h
    simp [hacc]
  · simp only [hacc, if_false, Option.map_none', Option.some.injEq] at h
    subst h
    simp [hacc]

theorem check_single_zero (ptr : Option CriteriaList) (d : SupDevice)
    (h : CheckDevicesAgainstSpecificCriteriaList ptr [d] = some 0) :
    ∃ role, ptr = some role ∧ acceptable role d := by
  cases ptr with
  | none =>
    simp only [CheckDevicesAgainstSpecificCriteriaList,
      CheckDevicesAgainstSpecificCriteriaList.loop] at h
    split at h
    · simp at h
    · simp at h
  | some role => exact ⟨role, rfl, (check_single role d 0 h).1.mp rfl⟩

/-- What `modifyDevice` leaves of the state. -/
theorem modifyDevice_proj (w w1 : World) (c : DeviceCapabilityType) (i : Nat)
    (f : SupDevice → SupDevice) (h : w.modifyDevice c i f = some w1) :
    ∃ d, (w.devices c)[i]? = some d ∧ w1.devices c = (w.devices c).set i (f d) ∧
      (∀ c2, c2 ≠ c → w1.devices c2 = w.devices c2) ∧
      (∀ c2, w1.affinityMap c2 = w.affinityMap c2) ∧
      w1.criteriaListsMap = w.criteriaListsMap ∧ w1.selectionLog = w.selectionLog ∧
      w1.rangeCount = w.rangeCount := by
  obtain ⟨d, hd, rfl⟩ := modifyDevice_eq_some w w1 c i f h
  refine ⟨d, hd, devices_setDevices_self _ _ _, fun c2 h2 => devices_setDevices_ne _ _ _ _ h2,
    fun c2 => affinityMap_setDevices _ _ _ _, criteria_setDevices _ _ _,
    selectionLog_setDevices _ _ _, ?_⟩
  cases c <;> rfl

/-- What `modifyCriteria` leaves of the state. -/
theorem modifyCriteria_proj (w w1 : World) (pf : String) (f : CriteriaList → CriteriaList)
    (h : w.modifyCriteria pf f = some w1) :
    ∃ cl, mapGet w.criteriaListsMap pf = some cl ∧
      w1.criteriaListsMap = mapSet w.criteriaListsMap pf (f cl) ∧
      w1.devices = w.devices ∧ (∀ c2, w1.affinityMap c2 = w.affinityMap c2) ∧
      w1.selectionLog = w.selectionLog ∧ w1.rangeCount = w.rangeCount := by
  obtain ⟨cl, hcl, rfl⟩ := modifyCriteria_eq_some w w1 pf f h
  exact ⟨cl, hcl, rfl, devices_criteria_update _ _, fun c2 => affinityMap_criteria_update _ _ _,
    rfl, rfl⟩

/-- What `removeDeviceIndex` leaves of the state. -/
theorem removeDeviceIndex_proj (w w1 : World) (c : DeviceCapabilityType) (idx : Nat)
    (key : String) (h : w.removeDeviceIndex c idx key = some w1) :
    ∃ m1, RemoveDeviceIndexFromSlice idx key (w.affinityMap c) = some m1 ∧
      w1.affinityMap c = m1 ∧ (∀ c2, c2 ≠ c → w1.affinityMap c2 = w.affinityMap c2) ∧
      w1.devices = w.devices ∧ w1.criteriaListsMap = w.criteriaListsMap ∧
      w1.selectionLog = w.selectionLog ∧ w1.rangeCount = w.rangeCount := by
  obtain ⟨m1, hm1, rfl⟩ := removeDeviceIndex_eq_some w w1 c idx key h
  refine ⟨m1, hm1, affinityMap_setAffinityMap_self _ _ _,
    fun c2 h2 => affinityMap_setAffinityMap_ne _ _ _ _ h2, devices_setAffinityMap _ _ _,
    criteria_setAffinityMap _ _ _, selectionLog_setAffinityMap _ _ _, ?_⟩
  cases c <;> rfl

/-- What a removal followed by the log entry leaves of the state. -/
theorem removeAndLog_proj (w w1 : World) (c : DeviceCapabilityType) (idx p : Nat)
    (key : String)
    (h : (w.removeDeviceIndex c idx key).map (fun w3 : World => w3.logSelection c p) = some w1) :
    ∃ m1, RemoveDeviceIndexFromSlice idx key (w.affinityMap c) = some m1 ∧
      w1.affinityMap c = m1 ∧ (∀ c2, c2 ≠ c → w1.affinityMap c2 = w.affinityMap c2) ∧
      w1.devices = w.devices ∧ w1.criteriaListsMap = w.criteriaListsMap ∧
      w1.selectionLog = w.selectionLog ++ [(c, p)] ∧ w1.rangeCount = w.rangeCount := by
  obtain ⟨w0, hw0, rfl⟩ := Option.map_eq_some'.mp h
  obtain ⟨m1, hm1, ha, hb, hc, hd, he, hf⟩ := removeDeviceIndex_proj w w0 c idx key hw0
  refine ⟨m1, hm1, ?_, ?_, ?_, ?_, ?_, ?_⟩
  · rw [affinityMap_logSelection, ha]
  · intro c2 h2
    rw [affinityMap_logSelection, hb c2 h2]
  · rw [devices_logSelection, hc]
  · rw [criteria_logSelection, hd]
  · rw [selectionLog_logSelection, he]
  · exact hf

theorem findProperCouple_loop_true (cur cpl : DeviceCapabilityType) (pf : String) (w w1 : World)
    (hdiff : cur ≠ cpl)
    (hcur : affinityMapWellFormed (w.devices cur) (w.affinityMap cur))
    (hcpl : affinityMapWellFormed (w.devices cpl) (w.affinityMap cpl))
    (role : CriteriaList) (hrole : mapGet w.criteriaListsMap pf = some role)
    (hne : role.CardAffinityPfCouple ≠ pf) :
    ∀ keys : List String,
      FindProperCoupleDevicesFromDifferentCardAffinityMaps.loop cur cpl pf true keys w =
        some (true, w1) →
      ∃ (pos cpos : Nat) (d dc : SupDevice) (partnerRole : CriteriaList),
        mapGet w.criteriaListsMap role.CardAffinityPfCouple = some partnerRole ∧
        (w.devices cur)[pos]? = some d ∧ (w.devices cpl)[cpos]? = some dc ∧
        mapGet w1.criteriaListsMap pf =
          some { role with SelectedDeviceInterface := d.InterfaceName } ∧
        mapGet w1.criteriaListsMap role.CardAffinityPfCouple =
          some { partnerRole with SelectedDeviceInterface := dc.InterfaceName } ∧
        d.CardAffinity = dc.CardAffinity ∧
        acceptable role d ∧ acceptable partnerRole dc ∧
        (w1.devices cur)[pos]? = some { d with CheckedAgainstCriteria := true } ∧
        (w1.devices cpl)[cpos]? = some { dc with CheckedAgainstCriteria := true } ∧
        ¬ isMember (w1.affinityMap cur) pos ∧ ¬ isMember (w1.affinityMap cpl) cpos := by
  intro keys
  induction keys with
  | nil => intro h; simp [FindProperCoupleDevicesFromDifferentCardAffinityMaps.loop] at h
  | cons cardAffinity rest ih =>
    intro h
    rw [FindProperCoupleDevicesFromDifferentCardAffinityMaps.loop] at h
    split at h
    · exact ih h
    · rename_i info hinfo
      split at h
      · exact ih h
      · rename_i coupledInfo hcoupled
        split at h
        · simp at h
        · rename_i position hpos
          split at h
          · simp at h
          · rename_i device hdev
            split at h
            · simp at h
            · rename_i deviceIndex hcheck
              split at h
              · rename_i hzero
                simp only [if_true] at h
                subst hzero
                obtain ⟨role0, hrole0, hacc⟩ := check_single_zero _ _ hcheck
                rw [hrole] at hrole0
                cases hrole0
                have hlen1 : info.DevicesIndexesSlice.length = 1 := by
                  by_contra hc
                  simp [hc] at hcoupled
                simp only [hlen1, if_true] at hcoupled
                split at h
                · simp at h
                · rename_i cpos hcpos
                  split at h
                  · simp at h
                  · rename_i dc hdc
                    simp only [hrole] at h
                    split at h
                    · simp at h
                    · rename_i coupledDeviceIndex hcheck2
                      split at h
                      · rename_i hzero2
                        subst hzero2
                        obtain ⟨partnerRole, hpartner, hacc2⟩ := check_single_zero _ _ hcheck2
                        split at h
                        · simp at h
                        · rename_i wa hwa
                          obtain ⟨cl0, hcl0, hacr, hadev, hamap, _, _⟩ :=
                            modifyCriteria_proj _ _ _ _ hwa
                          rw [hrole] at hcl0
                          cases hcl0
                          split at h
                          · simp at h
                          · rename_i wb hwb
                            obtain ⟨d0, hd0, hbdev, hbdev2, hbmap, hbcr, _, _⟩ :=
                              modifyDevice_proj _ _ _ _ _ hwb
                            rw [hadev, hdev] at hd0
                            cases hd0
                            split at h
                            · simp at h
                            · rename_i wc hwc
                              obtain ⟨m1, hm1, hcmap, hcmap2, hcdev, hccr, _, _⟩ :=
                                removeAndLog_proj _ _ _ _ _ _ hwc
                              rw [hbmap, hamap] at hm1
                              split at h
                              · simp at h
                              · rename_i coupledInfo3 hci3
                                rw [hcmap2 cpl (fun e => hdiff e.symm), hbmap, hamap,
                                  hcoupled] at hci3
                                cases hci3
                                split at h
                                · simp at h
                                · rename_i cpos3 hcpos3
                                  rw [hcpos] at hcpos3
                                  cases hcpos3
                                  split at h
                                  · simp at h
                                  · rename_i wd hwd
                                    obtain ⟨d1, hd1, hddev, hddev2, hdmap, hdcr, _, _⟩ :=
                                      modifyDevice_proj _ _ _ _ _ hwd
                                    rw [hcdev, hbdev2 cpl (fun e => hdiff e.symm), hadev,
                                      hdc] at hd1
                                    cases hd1
                                    split at h
                                    · simp at h
                                    · rename_i dc4 hdc4
                                      rw [hddev, hcdev, hbdev2 cpl (fun e => hdiff e.symm),
                                        hadev] at hdc4
                                      have hlt : cpos < (w.devices cpl).length :=
                                        (List.getElem?_eq_some_iff.mp hdc).1
                                      rw [List.getElem?_set_self hlt] at hdc4
                                      cases hdc4
                                      split at h
                                      · simp at h
                                      · rename_i we hwe
                                        obtain ⟨cl1, hcl1, hecr, hedev, hemap, _, _⟩ :=
                                          modifyCriteria_proj _ _ _ _ hwe
                                        rw [hdcr, hccr, hbcr, hacr,
                                          mapGet_mapSet_ne _ _ _ _ (Ne.symm hne),
                                          hpartner] at hcl1
                                        cases hcl1
                                        split at h
                                        · simp at h
                                        · rename_i wf hwf
                                          obtain ⟨m2, hm2, hfmap, hfmap2, hfdev, hfcr, _, _⟩ :=
                                            removeDeviceIndex_proj _ _ _ _ _ hwf
                                          rw [hemap, hdmap, hcmap2 cpl (fun e => hdiff e.symm),
                                            hbmap, hamap] at hm2
                                          simp only [Option.some.injEq, Prod.mk.injEq,
                                            true_and] at h
                                          subst h
                                          obtain ⟨i1, p1, hi1, hp1, _, hnot1, _⟩ :=
                                            remove_spec 0 cardAffinity _ _ hm1 hcur.1
                                          rw [hinfo] at hi1
                                          cases hi1
                                          rw [hpos] at hp1
                                          cases hp1
                                          obtain ⟨i2, p2, hi2, hp2, _, hnot2, _⟩ :=
                                            remove_spec 0 cardAffinity _ _ hm2 hcpl.1
                                          rw [hcoupled] at hi2
                                          cases hi2
                                          rw [hcpos] at hp2
                                          cases hp2
                                          obtain ⟨e1, he1, hca1⟩ := hcur.2 cardAffinity _ position
                                            hinfo (List.getElem?_mem hpos)
                                          rw [hdev] at he1
                                          cases he1
                                          obtain ⟨e2, he2, hca2⟩ := hcpl.2 cardAffinity _ cpos
                                            hcoupled (List.getElem?_mem hcpos)
                                          rw [hdc] at he2
                                          cases he2
                                          have hlt1 : position < (w.devices cur).length :=
                                            (List.getElem?_eq_some_iff.mp hdev).1
                                          refine ⟨position, cpos, device, dc, partnerRole, hpartner,
                                            hdev, hdc, ?_, ?_, hca1.trans hca2.symm, hacc, hacc2,
                                            ?_, ?_, ?_, ?_⟩
                                          · rw [criteria_logSelection, hfcr, hecr, hdcr, hccr, hbcr,
                                              hacr, mapGet_mapSet_ne _ _ _ _ hne]
                                            exact mapGet_mapSet_self _ _ _ _ hrole
                                          · rw [criteria_logSelection, hfcr, hecr]
                                            apply mapGet_mapSet_self _ _ _ partnerRole
                                            rw [hdcr, hccr, hbcr, hacr,
                                              mapGet_mapSet_ne _ _ _ _ (Ne.symm hne)]
                                            exact hpartner
                                          · rw [devices_logSelection, hfdev, hedev,
                                              hddev2 cur hdiff, hcdev, hbdev, hadev,
                                              List.getElem?_set_self hlt1]
                                          · rw [devices_logSelection, hfdev, hedev, hddev, hcdev,
                                              hbdev2 cpl (fun e => hdiff e.symm), hadev,
                                              List.getElem?_set_self hlt]
                                          · rw [affinityMap_logSelection,
                                              hfmap2 cur hdiff, hemap, hdmap, hcmap]
                                            exact hnot1
                                          · rw [affinityMap_logSelection, hfmap]
                                            exact hnot2
                      · exact ih h
              · exact ih h


/-- C7. Whenever `FindProperCoupleDevicesFromDifferentCardAffinityMaps` returns
true with `requiredCoupleOfDevices = true` on two different well-formed
collections, for a role whose declared partner is another role: the
`SelectedDeviceInterface` of the current role is the name of a device of
`devicesSlice`, that of the partner the name of a device of
`coupledDevicesSlice`; the two devices have the same `CardAffinity` key, each
is acceptable for its own role, both are flagged `CheckedAgainstCriteria`
afterwards and both positions have left the groups of their maps. -/
theorem C7_proper_couple_from_different_maps (mapOrder : Nat → List String → List String)
    (cur cpl : DeviceCapabilityType) (pf : String) (w w1 : World) (role : CriteriaList)
    (hdiff : cur ≠ cpl)
    (hcur : affinityMapWellFormed (w.devices cur) (w.affinityMap cur))
    (hcpl : affinityMapWellFormed (w.devices cpl) (w.affinityMap cpl))
    (hrole : mapGet w.criteriaListsMap pf = some role)
    (hne : role.CardAffinityPfCouple ≠ pf)
    (h : FindProperCoupleDevicesFromDifferentCardAffinityMaps mapOrder cur cpl pf true w =
      some (true, w1)) :
    ∃ (pos cpos : Nat) (d dc : SupDevice) (partnerRole : CriteriaList),
      mapGet w.criteriaListsMap role.CardAffinityPfCouple = some partnerRole ∧
      (w.devices cur)[pos]? = some d ∧ (w.devices cpl)[cpos]? = some dc ∧
      mapGet w1.criteriaListsMap pf =
        some { role with SelectedDeviceInterface := d.InterfaceName } ∧
      mapGet w1.criteriaListsMap role.CardAffinityPfCouple =
        some { partnerRole with SelectedDeviceInterface := dc.InterfaceName } ∧
      d.CardAffinity = dc.CardAffinity ∧
      acceptable role d ∧ acceptable partnerRole dc ∧
      (w1.devices cur)[pos]? = some { d with CheckedAgainstCriteria := true } ∧
      (w1.devices cpl)[cpos]? = some { dc with CheckedAgainstCriteria := true } ∧
      ¬ isMember (w1.affinityMap cur) pos ∧ ¬ isMember (w1.affinityMap cpl) cpos := by
  unfold FindProperCoupleDevicesFromDifferentCardAffinityMaps at h
  have hcur2 : affinityMapWellFormed (w.tick.devices cur) (w.tick.affinityMap cur) := by
    rw [devices_tick, affinityMap_tick]
    exact hcur
  have hcpl2 : affinityMapWellFormed (w.tick.devices cpl) (w.tick.affinityMap cpl) := by
    rw [devices_tick, affinityMap_tick]
    exact hcpl
  have := findProperCouple_loop_true cur cpl pf w.tick w1 hdiff hcur2 hcpl2 role hrole hne _ h
  rw [devices_tick] at this
  exact this

theorem mem_of_mapGet {V : Type} (m : GoMap V) (k : String) (v : V)
    (h : mapGet m k = some v) : (k, v) ∈ m := by
  induction m with
  | nil => simp [mapGet] at h
  | cons e m ih =>
    obtain ⟨k0, v0⟩ := e
    by_cases h0 : k0 = k
    · simp only [mapGet, h0, if_true, Option.some.injEq] at h
      simp [h0, h]
    · simp only [mapGet, h0, if_false] at h
      exact List.mem_cons_of_mem _ (ih h)

theorem mem_affinityMembers (m : GoMap CardAffinityDevicesInfo) (k : String)
    (info : CardAffinityDevicesInfo) (p : Nat) (he : (k, info) ∈ m)
    (hp : p ∈ info.DevicesIndexesSlice) : p ∈ affinityMembers m := by
  induction m with
  | nil => simp at he
  | cons e m ih =>
    obtain ⟨k0, v0⟩ := e
    rcases List.mem_cons.mp he with h | h
    · cases h
      exact List.mem_append_left _ hp
    · exact List.mem_append_right _ (ih h)

theorem affinityMembers_cross (m : GoMap CardAffinityDevicesInfo)
    (hnd : (affinityMembers m).Nodup) (k1 k2 : String) (i1 i2 : CardAffinityDevicesInfo)
    (p : Nat) (h1 : (k1, i1) ∈ m) (h2 : (k2, i2) ∈ m) (hp1 : p ∈ i1.DevicesIndexesSlice)
    (hp2 : p ∈ i2.DevicesIndexesSlice) : k1 = k2 := by
  induction m with
  | nil => simp at h1
  | cons e m ih =>
    obtain ⟨k0, v0⟩ := e
    simp only [affinityMembers] at hnd
    obtain ⟨_, hrest, hdisj⟩ := List.nodup_append.mp hnd
    rcases List.mem_cons.mp h1 with e1 | e1 <;> rcases List.mem_cons.mp h2 with e2 | e2
    · cases e1
      cases e2
      rfl
    · cases e1
      exact absurd (mem_affinityMembers m k2 i2 p e2 hp2) (fun hm => hdisj hp1 hm)
    · cases e2
      exact absurd (mem_affinityMembers m k1 i1 p e1 hp1) (fun hm => hdisj hp2 hm)
    · exact ih hrest e1 e2

theorem affinityMembers_group_nodup (m : GoMap CardAffinityDevicesInfo)
    (hnd : (affinityMembers m).Nodup) (k : String) (info : CardAffinityDevicesInfo)
    (h : (k, info) ∈ m) : info.DevicesIndexesSlice.Nodup := by
  induction m with
  | nil => simp at h
  | cons e m ih =>
    obtain ⟨k0, v0⟩ := e
    simp only [affinityMembers] at hnd
    obtain ⟨hhead, hrest, _⟩ := List.nodup_append.mp hnd
    rcases List.mem_cons.mp h with e1 | e1
    · cases e1
      exact hhead
    · exact ih hrest e1

/-- The property of the list of entries gives the well-formedness used by the
theorems. -/
theorem affinityMapWellFormed_of_entries (devices : List SupDevice)
    (m : GoMap CardAffinityDevicesInfo) (h : affinityEntriesWellFormed devices m) :
    affinityMapWellFormed devices m := by
  obtain ⟨hkeys, hmem, hown⟩ := h
  refine ⟨⟨hkeys, ?_, ?_⟩, ?_⟩
  · intro key info hget
    exact affinityMembers_group_nodup m hmem key info (mem_of_mapGet m key info hget)
  · intro k1 k2 i1 i2 p h1 h2 hp1 hp2
    exact affinityMembers_cross m hmem k1 k2 i1 i2 p (mem_of_mapGet m k1 i1 h1)
      (mem_of_mapGet m k2 i2 h2) hp1 hp2
  · intro key info p hget hp
    have := hown (key, info) (mem_of_mapGet m key info hget) p hp
    cases hd : devices[p]? with
    | none => simp [hd] at this
    | some d =>
      simp only [hd, Option.map_some', Option.some.injEq] at this
      exact ⟨d, rfl, this⟩

/-- C7, witness of the test: with `pf3` requiring RRU and its partner `pf6`
requiring nothing, `pf3` gets `eth5` (RRU position 1) and `pf6` gets `eth4`
(regular position 2), both on the card `0000:31:00.x`. -/
theorem C7_witness_pf3_eth5_pf6_eth4 :
    (FindProperCoupleDevicesFromDifferentCardAffinityMaps storageOrder .RRU_CONNECTION .REGULAR
        "pf3" true testWorldSpecialCapabilities).map
      (fun r => (r.1, (mapGet r.2.criteriaListsMap "pf3").map (fun c => c.SelectedDeviceInterface),
        (mapGet r.2.criteriaListsMap "pf6").map (fun c => c.SelectedDeviceInterface),
        r.2.selectionLog)) =
      some (true, some "eth5", some "eth4", [(.RRU_CONNECTION, 1), (.REGULAR, 2)]) ∧
    ((RRU_DEVICES_SLICE[1]?).map (fun d => (d.InterfaceName, d.CardAffinity)) =
        some ("eth5", "0000:31:00.x") ∧
      (REGULAR_DEVICES_SLICE[2]?).map (fun d => (d.InterfaceName, d.CardAffinity)) =
        some ("eth4", "0000:31:00.x")) ∧
    ∃ (pos cpos : Nat) (d dc : SupDevice) (partnerRole : CriteriaList),
      mapGet testWorldSpecialCapabilities.criteriaListsMap "pf6" = some partnerRole ∧
      (testWorldSpecialCapabilities.devices .RRU_CONNECTION)[pos]? = some d ∧
      (testWorldSpecialCapabilities.devices .REGULAR)[cpos]? = some dc ∧
      d.CardAffinity = dc.CardAffinity := by
  refine ⟨by decide, by decide, ?_⟩
  obtain ⟨pos, cpos, d, dc, partnerRole, h1, h2, h3, _, _, h6, _⟩ :=
    C7_proper_couple_from_different_maps storageOrder .RRU_CONNECTION .REGULAR "pf3"
      testWorldSpecialCapabilities
      ((FindProperCoupleDevicesFromDifferentCardAffinityMaps storageOrder .RRU_CONNECTION
        .REGULAR "pf3" true testWorldSpecialCapabilities).getD
        (false, testWorldSpecialCapabilities)).2
      { testCriteria 64 "pf6" with RRUConnection := true } (by decide)
      (affinityMapWellFormed_of_entries _ _ (by decide))
      (affinityMapWellFormed_of_entries _ _ (by decide)) (by decide) (by decide) (by decide)
  exact ⟨pos, cpos, d, dc, partnerRole, h1, h2, h3, h6⟩

/-! ## The invariant of the selections with card affinity -/

theorem selectionInvariant_congr (w w2 : World)
    (hmap : ∀ c2, w2.affinityMap c2 = w.affinityMap c2)
    (hlog : w2.selectionLog = w.selectionLog) (hinv : selectionInvariant w) :
    selectionInvariant w2 := by
  obtain ⟨h1, h2, h3⟩ := hinv
  refine ⟨fun c => by rw [hmap]; exact h1 c, by rw [hlog]; exact h2, ?_⟩
  intro c i hmem
  rw [hmap]
  rw [hlog] at hmem
  exact h3 c i hmem

theorem selectionInvariant_modifyDevice (w w1 : World) (c : DeviceCapabilityType) (i : Nat)
    (f : SupDevice → SupDevice) (hinv : selectionInvariant w)
    (h : w.modifyDevice c i f = some w1) : selectionInvariant w1 := by
  obtain ⟨_, _, _, _, hmap, _, hlog, _⟩ := modifyDevice_proj w w1 c i f h
  exact selectionInvariant_congr w w1 hmap hlog hinv

theorem selectionInvariant_modifyCriteria (w w1 : World) (pf : String)
    (f : CriteriaList → CriteriaList) (hinv : selectionInvariant w)
    (h : w.modifyCriteria pf f = some w1) : selectionInvariant w1 := by
  obtain ⟨_, _, _, _, hmap, hlog, _⟩ := modifyCriteria_proj w w1 pf f h
  exact selectionInvariant_congr w w1 hmap hlog hinv

theorem selectionInvariant_setDevices (w : World) (c : DeviceCapabilityType)
    (l : List SupDevice) (hinv : selectionInvariant w) : selectionInvariant (w.setDevices c l) :=
  selectionInvariant_congr w _ (fun c2 => affinityMap_setDevices w c c2 l)
    (selectionLog_setDevices w c l) hinv

theorem selectionInvariant_tick (w : World) (hinv : selectionInvariant w) :
    selectionInvariant w.tick :=
  selectionInvariant_congr w _ (fun c2 => affinityMap_tick w c2) rfl hinv

theorem isMember_mapSet_same_slice (m : GoMap CardAffinityDevicesInfo) (key : String)
    (info info2 : CardAffinityDevicesInfo) (hget : mapGet m key = some info)
    (hslice : info2.DevicesIndexesSlice = info.DevicesIndexesSlice) (p : Nat) :
    isMember (mapSet m key info2) p ↔ isMember m p := by
  constructor
  · rintro ⟨k, i, hk, hp⟩
    by_cases hkk : key = k
    · subst hkk
      rw [mapGet_mapSet_self m key info2 info hget] at hk
      cases hk
      exact ⟨key, info, hget, hslice ▸ hp⟩
    · rw [mapGet_mapSet_ne m key k info2 hkk] at hk
      exact ⟨k, i, hk, hp⟩
  · rintro ⟨k, i, hk, hp⟩
    by_cases hkk : key = k
    · subst hkk
      rw [hget] at hk
      cases hk
      exact ⟨key, info2, mapGet_mapSet_self m key info2 info hget, hslice ▸ hp⟩
    · exact ⟨k, i, by rw [mapGet_mapSet_ne m key k info2 hkk]; exact hk, hp⟩

theorem listedAtMostOnce_mapSet_same_slice (m : GoMap CardAffinityDevicesInfo) (key : String)
    (info info2 : CardAffinityDevicesInfo) (hget : mapGet m key = some info)
    (hslice : info2.DevicesIndexesSlice = info.DevicesIndexesSlice)
    (h : listedAtMostOnce m) : listedAtMostOnce (mapSet m key info2) := by
  obtain ⟨hkeys, hgroup, hcross⟩ := h
  have conv : ∀ k i, mapGet (mapSet m key info2) k = some i →
      ∃ i0, mapGet m k = some i0 ∧ i.DevicesIndexesSlice = i0.DevicesIndexesSlice := by
    intro k i hk
    by_cases hkk : key = k
    · subst hkk
      rw [mapGet_mapSet_self m key info2 info hget] at hk
      cases hk
      exact ⟨info, hget, hslice⟩
    · rw [mapGet_mapSet_ne m key k info2 hkk] at hk
      exact ⟨i, hk, rfl⟩
  refine ⟨by rw [mapKeys_mapSet]; exact hkeys, ?_, ?_⟩
  · intro k i hk
    obtain ⟨i0, h0, hs⟩ := conv k i hk
    rw [hs]
    exact hgroup k i0 h0
  · intro k1 k2 i1 i2 p h1 h2 hp1 hp2
    obtain ⟨j1, hj1, hs1⟩ := conv k1 i1 h1
    obtain ⟨j2, hj2, hs2⟩ := conv k2 i2 h2
    exact hcross k1 k2 j1 j2 p hj1 hj2 (hs1 ▸ hp1) (hs2 ▸ hp2)

/-- Marking a group (`ChosenDeviceHasNoCardAffinity`) keeps the invariant. -/
theorem selectionInvariant_setChosen (w : World) (c : DeviceCapabilityType) (key : String)
    (info : CardAffinityDevicesInfo) (b : Bool)
    (hget : mapGet (w.affinityMap c) key = some info) (hinv : selectionInvariant w) :
    selectionInvariant (w.setAffinityMap c (mapSet (w.affinityMap c) key
      { info with ChosenDeviceHasNoCardAffinity := b })) := by
  obtain ⟨h1, h2, h3⟩ := hinv
  refine ⟨?_, by rw [selectionLog_setAffinityMap]; exact h2, ?_⟩
  · intro c2
    by_cases hc : c2 = c
    · subst hc
      rw [affinityMap_setAffinityMap_self]
      exact listedAtMostOnce_mapSet_same_slice _ key info
        { info with ChosenDeviceHasNoCardAffinity := b } hget rfl (h1 c2)
    · rw [affinityMap_setAffinityMap_ne _ _ _ _ hc]
      exact h1 c2
  · intro c2 i hmem
    rw [selectionLog_setAffinityMap] at hmem
    by_cases hc : c2 = c
    · subst hc
      rw [affinityMap_setAffinityMap_self]
      exact fun hm => h3 c2 i hmem
        ((isMember_mapSet_same_slice _ key info
          { info with ChosenDeviceHasNoCardAffinity := b } hget rfl i).mp hm)
    · rw [affinityMap_setAffinityMap_ne _ _ _ _ hc]
      exact h3 c2 i hmem

/-- Removing a listed position from its group and logging it keeps the
invariant; the facts about the new state are given by projections. -/
theorem selectionInvariant_select (w w2 : World) (c : DeviceCapabilityType) (idx p : Nat)
    (key : String) (info : CardAffinityDevicesInfo) (m1 : GoMap CardAffinityDevicesInfo)
    (hinv : selectionInvariant w)
    (hget : mapGet (w.affinityMap c) key = some info)
    (hp : info.DevicesIndexesSlice[idx]? = some p)
    (hm1 : RemoveDeviceIndexFromSlice idx key (w.affinityMap c) = some m1)
    (hmap : w2.affinityMap c = m1)
    (hmap2 : ∀ c2, c2 ≠ c → w2.affinityMap c2 = w.affinityMap c2)
    (hlog : w2.selectionLog = w.selectionLog ++ [(c, p)]) : selectionInvariant w2 := by
  obtain ⟨h1, h2, h3⟩ := hinv
  obtain ⟨i0, p0, hi0, hp0, hwf1, hnot, hother, hself, _⟩ := remove_spec idx key _ m1 hm1 (h1 c)
  rw [hget] at hi0
  cases hi0
  rw [hp] at hp0
  cases hp0
  have hsub : ∀ x, isMember m1 x → isMember (w.affinityMap c) x := by
    rintro x ⟨k, i, hk, hx⟩
    by_cases hkk : k = key
    · subst hkk
      exact ⟨k, info, hget, ((hself i hk).2.2 x).mp hx |>.1⟩
    · rw [hother k hkk] at hk
      exact ⟨k, i, hk, hx⟩
  have hpmem : isMember (w.affinityMap c) p := ⟨key, info, hget, List.getElem?_mem hp⟩
  refine ⟨?_, ?_, ?_⟩
  · intro c2
    by_cases hc : c2 = c
    · subst hc
      rw [hmap]
      exact hwf1
    · rw [hmap2 c2 hc]
      exact h1 c2
  · rw [hlog]
    refine List.Nodup.append h2 (List.nodup_singleton _) ?_
    intro x hx1 hx2
    simp only [List.mem_singleton] at hx2
    subst hx2
    exact h3 c p hx1 hpmem
  · intro c2 i hmem
    rw [hlog, List.mem_append, List.mem_singleton] at hmem
    rcases hmem with hmem | heq
    · by_cases hc : c2 = c
      · subst hc
        rw [hmap]
        exact fun hm => h3 c2 i hmem (hsub i hm)
      · rw [hmap2 c2 hc]
        exact h3 c2 i hmem
    · cases heq
      rw [hmap]
      exact hnot

theorem drop_eq_cons (l : List Nat) (idx x : Nat) (rest : List Nat)
    (h : l.drop idx = x :: rest) : l[idx]? = some x ∧ l.drop (idx + 1) = rest := by
  constructor
  · have := List.getElem?_drop (L := l) (i := idx) (j := 0)
    rw [h] at this
    simpa using this.symm
  · rw [← List.tail_drop, h]
    rfl

theorem optionalModify_proj (b : Prop) [Decidable b] (w wa : World) (c : DeviceCapabilityType)
    (i : Nat) (f : SupDevice → SupDevice)
    (h : (if b then w.modifyDevice c i f else some w) = some wa) :
    (∀ c2, wa.affinityMap c2 = w.affinityMap c2) ∧
      wa.criteriaListsMap = w.criteriaListsMap ∧ wa.selectionLog = w.selectionLog ∧
      wa.rangeCount = w.rangeCount ∧ (¬ b → wa = w) := by
  by_cases hb : b
  · simp only [hb, if_true] at h
    obtain ⟨_, _, _, _, hmap, hcr, hlog, hrc⟩ := modifyDevice_proj w wa c i f h
    exact ⟨hmap, hcr, hlog, hrc, fun hn => absurd hb hn⟩
  · simp only [hb, if_false, Option.some.injEq] at h
    subst h
    exact ⟨fun _ => rfl, rfl, rfl, rfl, fun _ => rfl⟩

/-- The loop of `SelectingDeviceFromCardAffinityIndexesSlice` keeps the invariant
of the selections. -/
theorem selecting_loop_inv (ty : CardAffinityPfCoupleType) (c : DeviceCapabilityType)
    (key pf : String) :
    ∀ (rest : List Nat) (idx : Nat) (w : World) (r : Int) (w1 : World)
      (info : CardAffinityDevicesInfo),
      selectionInvariant w → mapGet (w.affinityMap c) key = some info →
      info.DevicesIndexesSlice.drop idx = rest →
      SelectingDeviceFromCardAffinityIndexesSlice.loop ty c key pf rest idx w = some (r, w1) →
      selectionInvariant w1 := by
  intro rest
  induction rest with
  | nil =>
    intro idx w r w1 info hinv _ _ h
    simp only [SelectingDeviceFromCardAffinityIndexesSlice.loop, Option.some.injEq,
      Prod.mk.injEq] at h
    rw [← h.2]
    exact hinv
  | cons deviceIndex rest ih =>
    intro idx w r w1 info hinv hget hdrop h
    obtain ⟨hp, hdrop2⟩ := drop_eq_cons _ _ _ _ hdrop
    rw [SelectingDeviceFromCardAffinityIndexesSlice.loop] at h
    split at h
    · simp at h
    · rename_i wa hwa
      obtain ⟨hamap, hacr, halog, _, _⟩ := optionalModify_proj _ _ _ _ _ _ hwa
      have hinva : selectionInvariant wa := selectionInvariant_congr w wa hamap halog hinv
      have hgeta : mapGet (wa.affinityMap c) key = some info := by rw [hamap]; exact hget
      split at h
      · simp at h
      · rename_i device hdev
        split at h
        · simp at h
        · rename_i res hres
          split at h
          · -- a device was found
            split at h
            · -- EMPTY_MARKED_FALSE
              split at h
              · simp at h
              · rename_i info2 hinfo2
                rw [hgeta] at hinfo2
                cases hinfo2
                have hinvb := selectionInvariant_setChosen wa c key info true hgeta hinva
                dsimp only at h
                split at h
                · simp at h
                · rename_i wc hwc
                  obtain ⟨m1, hm1, hcmap, hcmap2, _, _, hclog, _⟩ :=
                    removeDeviceIndex_proj _ _ _ _ _ hwc
                  simp only [Option.some.injEq, Prod.mk.injEq] at h
                  rw [← h.2]
                  refine selectionInvariant_select _ _ c idx deviceIndex key
                    { info with ChosenDeviceHasNoCardAffinity := true } m1 hinvb ?_ hp hm1 ?_ ?_ ?_
                  · rw [affinityMap_setAffinityMap_self]
                    exact mapGet_mapSet_self _ _ _ _ hgeta
                  · rw [affinityMap_logSelection, hcmap]
                  · intro c2 h2
                    rw [affinityMap_logSelection, hcmap2 c2 h2]
                  · rw [selectionLog_logSelection, hclog]
            · -- CURRENT_PF_SMALLER_THAN_COUPLED
              split at h
              · simp at h
              · rename_i criteriaList _
                split at h
                · simp at h
                · rename_i wb hwb
                  obtain ⟨_, _, _, _, hbmap, hblog, _⟩ := modifyCriteria_proj _ _ _ _ hwb
                  have hinvb : selectionInvariant wb :=
                    selectionInvariant_congr wa wb hbmap hblog hinva
                  split at h
                  · simp at h
                  · rename_i info2 hinfo2
                    split at h
                    · simp at h
                    · rename_i devices _
                      split at h
                      · simp at h
                      · rename_i wc hwc
                        obtain ⟨m1, hm1, hcmap, hcmap2, _, _, hclog, _⟩ :=
                          removeDeviceIndex_proj _ _ _ _ _ hwc
                        simp only [Option.some.injEq, Prod.mk.injEq] at h
                        rw [← h.2]
                        have hinvd := selectionInvariant_setDevices wb c devices hinvb
                        refine selectionInvariant_select _ _ c idx deviceIndex key info m1 hinvd
                          ?_ hp hm1 ?_ ?_ ?_
                        · rw [affinityMap_setDevices, hbmap]
                          exact hgeta
                        · rw [affinityMap_logSelection, hcmap]
                        · intro c2 h2
                          rw [affinityMap_logSelection, hcmap2 c2 h2]
                        · rw [selectionLog_logSelection, hclog]
            · -- CURRENT_PF_BIGGER_THAN_COUPLED
              split at h
              · simp at h
              · rename_i wb hwb
                obtain ⟨_, _, _, _, hbmap, _, hblog, _⟩ := modifyDevice_proj _ _ _ _ _ hwb
                have hinvb : selectionInvariant wb :=
                  selectionInvariant_congr wa wb hbmap hblog hinva
                split at h
                · simp at h
                · rename_i wc hwc
                  obtain ⟨m1, hm1, hcmap, hcmap2, _, _, hclog, _⟩ :=
                    removeDeviceIndex_proj _ _ _ _ _ hwc
                  simp only [Option.some.injEq, Prod.mk.injEq] at h
                  rw [← h.2]
                  refine selectionInvariant_select _ _ c idx deviceIndex key info m1 hinvb
                    ?_ hp hm1 ?_ ?_ ?_
                  · rw [hbmap]
                    exact hgeta
                  · rw [affinityMap_logSelection, hcmap]
                  · intro c2 h2
                    rw [affinityMap_logSelection, hcmap2 c2 h2]
                  · rw [selectionLog_logSelection, hclog]
            · -- EMPTY_MARKED_TRUE
              split at h
              · simp at h
              · rename_i wc hwc
                obtain ⟨m1, hm1, hcmap, hcmap2, _, _, hclog, _⟩ :=
                  removeDeviceIndex_proj _ _ _ _ _ hwc
                simp only [Option.some.injEq, Prod.mk.injEq] at h
                rw [← h.2]
                refine selectionInvariant_select _ _ c idx deviceIndex key info m1 hinva
                  hgeta hp hm1 ?_ ?_ ?_
                · rw [affinityMap_logSelection, hcmap]
                · intro c2 h2
                  rw [affinityMap_logSelection, hcmap2 c2 h2]
                · rw [selectionLog_logSelection, hclog]
          · -- the device does not fit: next position of the group
            split at h
            · simp at h
            · rename_i wb hwb
              obtain ⟨hbmap, _, hblog, _, _⟩ := optionalModify_proj _ _ _ _ _ _ hwb
              have hinvb : selectionInvariant wb :=
                selectionInvariant_congr wa wb hbmap hblog hinva
              exact ih (idx + 1) wb r w1 info hinvb (by rw [hbmap]; exact hgeta) hdrop2 h

theorem rangeCount_logSelection (w : World) (c : DeviceCapabilityType) (i : Nat) :
    (w.logSelection c i).rangeCount = w.rangeCount := rfl

theorem rangeCount_setAffinityMap (w : World) (c : DeviceCapabilityType)
    (m : GoMap CardAffinityDevicesInfo) : (w.setAffinityMap c m).rangeCount = w.rangeCount := by
  cases c <;> rfl

theorem rangeCount_setDevices (w : World) (c : DeviceCapabilityType)
    (ds : List SupDevice) : (w.setDevices c ds).rangeCount = w.rangeCount := by
  cases c <;> rfl

theorem groupShrunk_of_remove (m m1 : GoMap CardAffinityDevicesInfo) (key : String)
    (info : CardAffinityDevicesInfo) (idx p : Nat) (hwf : listedAtMostOnce m)
    (hget : mapGet m key = some info) (hp : info.DevicesIndexesSlice[idx]? = some p)
    (hm1 : RemoveDeviceIndexFromSlice idx key m = some m1) : groupShrunk m m1 key info p := by
  obtain ⟨i0, p0, hi0, hp0, _, _, hother, hself, _⟩ := remove_spec idx key m m1 hm1 hwf
  rw [hget] at hi0
  cases hi0
  rw [hp] at hp0
  cases hp0
  exact ⟨hother, fun info1 h1 => (hself info1 h1).2.2⟩

/-- The result of the loop of `SelectingDeviceFromCardAffinityIndexesSlice`: on
failure nothing but device flags has changed (and nothing at all unless the
type is `CURRENT_PF_BIGGER_THAN_COUPLED`); on success the returned position is
one of the positions visited, it has left its group and is logged, and for the
type `CURRENT_PF_SMALLER_THAN_COUPLED` the card affinity of the device is stored
in the criteria list of the coupled PF. -/
theorem selecting_loop_result (ty : CardAffinityPfCoupleType) (c : DeviceCapabilityType)
    (key pf : String) :
    ∀ (rest : List Nat) (idx : Nat) (w : World) (r : Int) (w1 : World)
      (info : CardAffinityDevicesInfo),
      listedAtMostOnce (w.affinityMap c) → mapGet (w.affinityMap c) key = some info →
      info.DevicesIndexesSlice.drop idx = rest →
      SelectingDeviceFromCardAffinityIndexesSlice.loop ty c key pf rest idx w = some (r, w1) →
      (r = -1 ∧ (ty ≠ .CURRENT_PF_BIGGER_THAN_COUPLED → w1 = w) ∧
        (∀ c2, w1.affinityMap c2 = w.affinityMap c2) ∧
        w1.criteriaListsMap = w.criteriaListsMap ∧ w1.selectionLog = w.selectionLog ∧
        w1.rangeCount = w.rangeCount) ∨
      (∃ p : Nat, r = (p : Int) ∧ p ∈ rest ∧
        groupShrunk (w.affinityMap c) (w1.affinityMap c) key info p ∧
        (∀ c2, c2 ≠ c → w1.affinityMap c2 = w.affinityMap c2) ∧
        w1.selectionLog = w.selectionLog ++ [(c, p)] ∧ w1.rangeCount = w.rangeCount ∧
        (ty ≠ .CURRENT_PF_SMALLER_THAN_COUPLED → w1.criteriaListsMap = w.criteriaListsMap) ∧
        (ty = .CURRENT_PF_SMALLER_THAN_COUPLED →
          ∃ cl coupled d, mapGet w.criteriaListsMap pf = some cl ∧
            mapGet w.criteriaListsMap cl.CardAffinityPfCouple = some coupled ∧
            (w.devices c)[p]? = some d ∧
            w1.criteriaListsMap = mapSet w.criteriaListsMap cl.CardAffinityPfCouple
              { coupled with CardAffinity := d.CardAffinity })) := by
  intro rest
  induction rest with
  | nil =>
    intro idx w r w1 info _ _ _ h
    simp only [SelectingDeviceFromCardAffinityIndexesSlice.loop, Option.some.injEq,
      Prod.mk.injEq] at h
    obtain ⟨rfl, rfl⟩ := h
    exact Or.inl ⟨rfl, fun _ => rfl, fun _ => rfl, rfl, rfl, rfl⟩
  | cons deviceIndex rest ih =>
    intro idx w r w1 info hwf hget hdrop h
    obtain ⟨hp, hdrop2⟩ := drop_eq_cons _ _ _ _ hdrop
    rw [SelectingDeviceFromCardAffinityIndexesSlice.loop] at h
    split at h
    · simp at h
    · rename_i wa hwa
      obtain ⟨hamap, hacr, halog, harc, hasame⟩ := optionalModify_proj _ _ _ _ _ _ hwa
      have hgeta : mapGet (wa.affinityMap c) key = some info := by rw [hamap]; exact hget
      have hwfa : listedAtMostOnce (wa.affinityMap c) := by rw [hamap]; exact hwf
      split at h
      · simp at h
      · rename_i device hdev
        split at h
        · simp at h
        · rename_i res hres
          split at h
          · -- a device was found
            right
            split at h
            · -- EMPTY_MARKED_FALSE
              split at h
              · simp at h
              · rename_i info2 hinfo2
                rw [hgeta] at hinfo2
                cases hinfo2
                dsimp only at h
                split at h
                · simp at h
                · rename_i wc hwc
                  obtain ⟨m1, hm1, hcmap, hcmap2, _, hccr, hclog, hcrc⟩ :=
                    removeDeviceIndex_proj _ _ _ _ _ hwc
                  rw [affinityMap_setAffinityMap_self] at hm1
                  simp only [Option.some.injEq, Prod.mk.injEq] at h
                  obtain ⟨rfl, rfl⟩ := h
                  have hsh := groupShrunk_of_remove _ m1 key
                    { info with ChosenDeviceHasNoCardAffinity := true } idx deviceIndex
                    (listedAtMostOnce_mapSet_same_slice _ key info
                      { info with ChosenDeviceHasNoCardAffinity := true } hgeta rfl hwfa)
                    (mapGet_mapSet_self _ _ _ _ hgeta) hp hm1
                  refine ⟨deviceIndex, rfl, List.mem_cons_self _ _, ?_, ?_, ?_, ?_, ?_, ?_⟩
                  · rw [affinityMap_logSelection, hcmap, ← hamap]
                    refine ⟨fun k hk => ?_, hsh.2⟩
                    rw [hsh.1 k hk, mapGet_mapSet_ne _ _ _ _ (Ne.symm hk)]
                  · intro c2 h2
                    rw [affinityMap_logSelection, hcmap2 c2 h2,
                      affinityMap_setAffinityMap_ne _ _ _ _ h2, hamap]
                  · rw [selectionLog_logSelection, hclog, selectionLog_setAffinityMap, halog]
                  · rw [rangeCount_logSelection, hcrc, rangeCount_setAffinityMap, harc]
                  · intro _
                    rw [criteria_logSelection, hccr, criteria_setAffinityMap, hacr]
                  · intro hty
                    exact absurd hty (by decide)
            · -- CURRENT_PF_SMALLER_THAN_COUPLED
              have hwa2 : wa = w := hasame (by decide)
              subst hwa2
              split at h
              · simp at h
              · rename_i criteriaList hcl
                split at h
                · simp at h
                · rename_i wb hwb
                  obtain ⟨coupled, hcoupled, hbcr, hbdev, hbmap, hblog, hbrc⟩ :=
                    modifyCriteria_proj _ _ _ _ hwb
                  split at h
                  · simp at h
                  · rename_i info2 hinfo2
                    split at h
                    · simp at h
                    · rename_i devices _
                      split at h
                      · simp at h
                      · rename_i wc hwc
                        obtain ⟨m1, hm1, hcmap, hcmap2, _, hccr, hclog, hcrc⟩ :=
                          removeDeviceIndex_proj _ _ _ _ _ hwc
                        rw [affinityMap_setDevices, hbmap] at hm1
                        simp only [Option.some.injEq, Prod.mk.injEq] at h
                        obtain ⟨rfl, rfl⟩ := h
                        have hsh := groupShrunk_of_remove _ m1 key info idx deviceIndex hwf hget
                          hp hm1
                        refine ⟨deviceIndex, rfl, List.mem_cons_self _ _, ?_, ?_, ?_, ?_, ?_, ?_⟩
                        · rw [affinityMap_logSelection, hcmap]
                          exact hsh
                        · intro c2 h2
                          rw [affinityMap_logSelection, hcmap2 c2 h2, affinityMap_setDevices,
                            hbmap]
                        · rw [selectionLog_logSelection, hclog, selectionLog_setDevices, hblog]
                        · rw [rangeCount_logSelection, hcrc, rangeCount_setDevices, hbrc]
                        · intro hty
                          exact absurd rfl hty
                        · intro _
                          refine ⟨criteriaList, coupled, device, hcl, hcoupled, hdev, ?_⟩
                          rw [criteria_logSelection, hccr, criteria_setDevices, hbcr]
            · -- CURRENT_PF_BIGGER_THAN_COUPLED
              split at h
              · simp at h
              · rename_i wb hwb
                obtain ⟨_, _, _, _, hbmap, hbcr, hblog, hbrc⟩ := modifyDevice_proj _ _ _ _ _ hwb
                split at h
                · simp at h
                · rename_i wc hwc
                  obtain ⟨m1, hm1, hcmap, hcmap2, _, hccr, hclog, hcrc⟩ :=
                    removeDeviceIndex_proj _ _ _ _ _ hwc
                  rw [hbmap, hamap] at hm1
                  simp only [Option.some.injEq, Prod.mk.injEq] at h
                  obtain ⟨rfl, rfl⟩ := h
                  have hsh := groupShrunk_of_remove _ m1 key info idx deviceIndex hwf hget hp hm1
                  refine ⟨deviceIndex, rfl, List.mem_cons_self _ _, ?_, ?_, ?_, ?_, ?_, ?_⟩
                  · rw [affinityMap_logSelection, hcmap]
                    exact hsh
                  · intro c2 h2
                    rw [affinityMap_logSelection, hcmap2 c2 h2, hbmap, hamap]
                  · rw [selectionLog_logSelection, hclog, hblog, halog]
                  · rw [rangeCount_logSelection, hcrc, hbrc, harc]
                  · intro _
                    rw [criteria_logSelection, hccr, hbcr, hacr]
                  · intro hty
                    exact absurd hty (by decide)
            · -- EMPTY_MARKED_TRUE
              split at h
              · simp at h
              · rename_i wc hwc
                obtain ⟨m1, hm1, hcmap, hcmap2, _, hccr, hclog, hcrc⟩ :=
                  removeDeviceIndex_proj _ _ _ _ _ hwc
                rw [hamap] at hm1
                simp only [Option.some.injEq, Prod.mk.injEq] at h
                obtain ⟨rfl, rfl⟩ := h
                have hsh := groupShrunk_of_remove _ m1 key info idx deviceIndex hwf hget hp hm1
                refine ⟨deviceIndex, rfl, List.mem_cons_self _ _, ?_, ?_, ?_, ?_, ?_, ?_⟩
                · rw [affinityMap_logSelection, hcmap]
                  exact hsh
                · intro c2 h2
                  rw [affinityMap_logSelection, hcmap2 c2 h2, hamap]
                · rw [selectionLog_logSelection, hclog, halog]
                · rw [rangeCount_logSelection, hcrc, harc]
                · intro _
                  rw [criteria_logSelection, hccr, hacr]
                · intro hty
                  exact absurd hty (by decide)
          · -- the device does not fit: next position of the group
            split at h
            · simp at h
            · rename_i wb hwb
              obtain ⟨hbmap, hbcr, hblog, hbrc, hbsame⟩ := optionalModify_proj _ _ _ _ _ _ hwb
              have hmapwb : ∀ c2, wb.affinityMap c2 = w.affinityMap c2 :=
                fun c2 => (hbmap c2).trans (hamap c2)
              rcases ih (idx + 1) wb r w1 info (by rw [hmapwb]; exact hwf)
                (by rw [hmapwb]; exact hget) hdrop2 h with
                ⟨hr, hsame, hmap, hcr, hlog, hrc⟩ | ⟨p, hr, hmem, hsh, hmap2, hlog, hrc, hcr, hsm⟩
              · left
                refine ⟨hr, ?_, fun c2 => (hmap c2).trans (hmapwb c2),
                  hcr.trans (hbcr.trans hacr), hlog.trans (hblog.trans halog),
                  hrc.trans (hbrc.trans harc)⟩
                intro hty
                rw [hsame hty, hbsame hty, hasame hty]
              · right
                refine ⟨p, hr, List.mem_cons_of_mem _ hmem, ?_, ?_, ?_, ?_, ?_, ?_⟩
                · rw [← hmapwb c]
                  exact hsh
                · intro c2 h2
                  rw [hmap2 c2 h2, hmapwb]
                · rw [hlog, hblog, halog]
                · rw [hrc, hbrc, harc]
                · intro hty
                  rw [hcr hty, hbcr, hacr]
                · intro hty
                  have e1 : wa = w := hasame (by rw [hty]; decide)
                  have e2 : wb = wa := hbsame (by rw [hty]; decide)
                  rw [← e1, ← e2]
                  exact hsm hty

theorem groupsOnlyShrink_refl (c : DeviceCapabilityType) (b : String) (w : World) :
    groupsOnlyShrink c b w w :=
  ⟨rfl, fun _ info h => ⟨info, h, fun _ hx => hx⟩⟩

/-- A returned position is one of the positions the loop has visited. -/
theorem selecting_loop_mem (ty : CardAffinityPfCoupleType) (c : DeviceCapabilityType)
    (key pf : String) :
    ∀ (rest : List Nat) (idx : Nat) (w : World) (r : Int) (w1 : World),
      SelectingDeviceFromCardAffinityIndexesSlice.loop ty c key pf rest idx w = some (r, w1) →
      0 ≤ r → ∃ p : Nat, p ∈ rest ∧ r = (p : Int) := by
  intro rest
  induction rest with
  | nil =>
    intro idx w r w1 h hr
    simp only [SelectingDeviceFromCardAffinityIndexesSlice.loop, Option.some.injEq,
      Prod.mk.injEq] at h
    omega
  | cons deviceIndex rest ih =>
    intro idx w r w1 h hr
    rw [SelectingDeviceFromCardAffinityIndexesSlice.loop] at h
    split at h
    · simp at h
    · split at h
      · simp at h
      · split at h
        · simp at h
        · split at h
          · refine ⟨deviceIndex, List.mem_cons_self _ _, ?_⟩
            split at h
            · split at h
              · simp at h
              · dsimp only at h
                split at h
                · simp at h
                · simp only [Option.some.injEq, Prod.mk.injEq] at h
                  exact h.1.symm
            · split at h
              · simp at h
              · split at h
                · simp at h
                · split at h
                  · simp at h
                  · split at h
                    · simp at h
                    · split at h
                      · simp at h
                      · simp only [Option.some.injEq, Prod.mk.injEq] at h
                        exact h.1.symm
            · split at h
              · simp at h
              · split at h
                · simp at h
                · simp only [Option.some.injEq, Prod.mk.injEq] at h
                  exact h.1.symm
            · split at h
              · simp at h
              · simp only [Option.some.injEq, Prod.mk.injEq] at h
                exact h.1.symm
          · split at h
            · simp at h
            · obtain ⟨p, hp, hrp⟩ := ih _ _ _ _ h hr
              exact ⟨p, List.mem_cons_of_mem _ hp, hrp⟩

/-- A successful scan with a type other than `CURRENT_PF_BIGGER_THAN_COUPLED` is a
successful selection from one group of the state the scan started in: the groups
that failed before have left the state as it was. -/
theorem scan_success (ty : CardAffinityPfCoupleType)
    (hty : ty ≠ .CURRENT_PF_BIGGER_THAN_COUPLED) (c : DeviceCapabilityType) (pf : String)
    (visit : CardAffinityDevicesInfo → Bool) :
    ∀ (keys : List String) (w : World) (r : Int) (w1 : World),
      listedAtMostOnce (w.affinityMap c) →
      CheckDevicesAgainstCriteriaListWithCardAffinity.scan ty c pf visit keys w = some (r, w1) →
      0 ≤ r →
      ∃ key info, key ∈ keys ∧ mapGet (w.affinityMap c) key = some info ∧ visit info = true ∧
        SelectingDeviceFromCardAffinityIndexesSlice.loop ty c key pf info.DevicesIndexesSlice 0 w
          = some (r, w1) := by
  intro keys
  induction keys with
  | nil =>
    intro w r w1 _ h hr
    simp only [CheckDevicesAgainstCriteriaListWithCardAffinity.scan, Option.some.injEq,
      Prod.mk.injEq] at h
    omega
  | cons key rest ih =>
    intro w r w1 hwf h hr
    rw [CheckDevicesAgainstCriteriaListWithCardAffinity.scan] at h
    split at h
    · obtain ⟨k, info, hk, hrest⟩ := ih w r w1 hwf h hr
      exact ⟨k, info, List.mem_cons_of_mem _ hk, hrest⟩
    · rename_i info hinfo
      split at h
      · rename_i hvisit
        simp only [SelectingDeviceFromCardAffinityIndexesSlice, hinfo] at h
        split at h
        · simp at h
        · rename_i r0 w0 hsel
          split at h
          · simp only [Option.some.injEq, Prod.mk.injEq] at h
            obtain ⟨rfl, rfl⟩ := h
            exact ⟨key, info, List.mem_cons_self _ _, hinfo, hvisit, hsel⟩
          · rename_i hneg
            rcases selecting_loop_result ty c key pf _ 0 w r0 w0 info hwf hinfo rfl hsel with
              ⟨_, hsame, _⟩ | ⟨p, hp, _⟩
            · rw [hsame hty] at h
              obtain ⟨k, info2, hk, hrest⟩ := ih w r w1 hwf h hr
              exact ⟨k, info2, List.mem_cons_of_mem _ hk, hrest⟩
            · omega
      · obtain ⟨k, info2, hk, hrest⟩ := ih w r w1 hwf h hr
        exact ⟨k, info2, List.mem_cons_of_mem _ hk, hrest⟩

theorem goStringLess_asymm (a b : String) (h : goStringLess a b) : ¬ goStringLess b a := by
  rw [goStringLess_iff] at h ⊢
  exact lt_asymm h

theorem not_goStringLess_empty (a : String) : ¬ goStringLess a "" := by
  unfold goStringLess
  simp

theorem groupsOnlyShrink_trans (c : DeviceCapabilityType) (b : String) (w1 w2 w3 : World)
    (h12 : groupsOnlyShrink c b w1 w2) (h23 : groupsOnlyShrink c b w2 w3) :
    groupsOnlyShrink c b w1 w3 := by
  refine ⟨h23.1.trans h12.1, ?_⟩
  intro key info hinfo
  obtain ⟨info2, hinfo2, hsub2⟩ := h23.2 key info hinfo
  obtain ⟨info1, hinfo1, hsub1⟩ := h12.2 key info2 hinfo2
  exact ⟨info1, hinfo1, fun x hx => hsub1 x (hsub2 x hx)⟩

theorem groupsOnlyShrink_of_eq (c : DeviceCapabilityType) (b : String) (w1 w2 : World)
    (hcr : w2.criteriaListsMap = w1.criteriaListsMap)
    (hmap : w2.affinityMap c = w1.affinityMap c) : groupsOnlyShrink c b w1 w2 := by
  refine ⟨by rw [hcr], ?_⟩
  intro key info hinfo
  rw [hmap] at hinfo
  exact ⟨info, hinfo, fun _ hx => hx⟩

/-- The loop of `SelectingDeviceFromCardAffinityIndexesSlice` for a role whose
coupled PF is not `b` leaves the criteria list of `b` alone and adds no position
to a group. -/
theorem selecting_loop_shrinks (ty : CardAffinityPfCoupleType) (c : DeviceCapabilityType)
    (key pf b : String) (rest : List Nat) (idx : Nat) (w : World) (r : Int) (w1 : World)
    (info : CardAffinityDevicesInfo) (hwf : listedAtMostOnce (w.affinityMap c))
    (hget : mapGet (w.affinityMap c) key = some info)
    (hdrop : info.DevicesIndexesSlice.drop idx = rest)
    (hb : ∀ cl, mapGet w.criteriaListsMap pf = some cl → cl.CardAffinityPfCouple ≠ b)
    (h : SelectingDeviceFromCardAffinityIndexesSlice.loop ty c key pf rest idx w = some (r, w1)) :
    groupsOnlyShrink c b w w1 := by
  rcases selecting_loop_result ty c key pf rest idx w r w1 info hwf hget hdrop h with
    ⟨_, _, hmap, hcr, _, _⟩ | ⟨p, _, _, hsh, _, _, _, hcr, hsm⟩
  · exact groupsOnlyShrink_of_eq c b w w1 hcr (hmap c)
  · constructor
    · by_cases hty : ty = .CURRENT_PF_SMALLER_THAN_COUPLED
      · obtain ⟨cl, coupled, d, hcl, _, _, hcr1⟩ := hsm hty
        rw [hcr1]
        exact mapGet_mapSet_ne _ _ _ _ (hb cl hcl)
      · rw [hcr hty]
    · intro k info1 hinfo1
      by_cases hk : k = key
      · subst hk
        exact ⟨info, hget, fun x hx => ((hsh.2 info1 hinfo1 x).mp hx).1⟩
      · rw [hsh.1 k hk] at hinfo1
        exact ⟨info1, hinfo1, fun _ hx => hx⟩

/-- A scan with a type other than `CURRENT_PF_BIGGER_THAN_COUPLED` that finds
nothing leaves the state as it was. -/
theorem scan_failure (ty : CardAffinityPfCoupleType)
    (hty : ty ≠ .CURRENT_PF_BIGGER_THAN_COUPLED) (c : DeviceCapabilityType) (pf : String)
    (visit : CardAffinityDevicesInfo → Bool) :
    ∀ (keys : List String) (w : World) (r : Int) (w1 : World),
      listedAtMostOnce (w.affinityMap c) →
      CheckDevicesAgainstCriteriaListWithCardAffinity.scan ty c pf visit keys w = some (r, w1) →
      ¬ 0 ≤ r → w1 = w := by
  intro keys
  induction keys with
  | nil =>
    intro w r w1 _ h _
    simp only [CheckDevicesAgainstCriteriaListWithCardAffinity.scan, Option.some.injEq,
      Prod.mk.injEq] at h
    exact h.2.symm
  | cons key rest ih =>
    intro w r w1 hwf h hr
    rw [CheckDevicesAgainstCriteriaListWithCardAffinity.scan] at h
    split at h
    · exact ih w r w1 hwf h hr
    · rename_i info hinfo
      split at h
      · simp only [SelectingDeviceFromCardAffinityIndexesSlice, hinfo] at h
        split at h
        · simp at h
        · rename_i r0 w0 hsel
          split at h
          · rename_i hpos
            simp only [Option.some.injEq, Prod.mk.injEq] at h
            rw [h.1] at hpos
            exact absurd hpos hr
          · rename_i hneg
            rcases selecting_loop_result ty c key pf _ 0 w r0 w0 info hwf hinfo rfl hsel with
              ⟨_, hsame, _⟩ | ⟨p, hp, _⟩
            · rw [hsame hty] at h
              exact ih w r w1 hwf h hr
            · omega
      · exact ih w r w1 hwf h hr

/-- A scan for a role whose coupled PF is not `b` leaves the criteria list of `b`
alone and adds no position to a group. -/
theorem scan_shrinks (ty : CardAffinityPfCoupleType)
    (hty : ty ≠ .CURRENT_PF_BIGGER_THAN_COUPLED) (c : DeviceCapabilityType) (pf b : String)
    (visit : CardAffinityDevicesInfo → Bool) (keys : List String) (w : World) (r : Int)
    (w1 : World) (hwf : listedAtMostOnce (w.affinityMap c))
    (hb : ∀ cl, mapGet w.criteriaListsMap pf = some cl → cl.CardAffinityPfCouple ≠ b)
    (h : CheckDevicesAgainstCriteriaListWithCardAffinity.scan ty c pf visit keys w =
      some (r, w1)) : groupsOnlyShrink c b w w1 := by
  by_cases hr : 0 ≤ r
  · obtain ⟨key, info, _, hinfo, _, hsel⟩ := scan_success ty hty c pf visit keys w r w1 hwf h hr
    exact selecting_loop_shrinks ty c key pf b _ 0 w r w1 info hwf hinfo rfl hb hsel
  · rw [scan_failure ty hty c pf visit keys w r w1 hwf h hr]
    exact groupsOnlyShrink_refl c b w

/-- Go: `CheckDevicesAgainstCriteriaListWithCardAffinity` for a role whose coupled
PF is not `b` leaves the criteria list of `b` alone and adds no position to a
group of the card affinity map. -/
theorem checkWithCardAffinity_shrinks (mapOrder : Nat → List String → List String)
    (c : DeviceCapabilityType) (pf b : String) (w : World) (r : Int) (w1 : World)
    (hwf : listedAtMostOnce (w.affinityMap c))
    (hb : ∀ cl, mapGet w.criteriaListsMap pf = some cl → cl.CardAffinityPfCouple ≠ b)
    (h : CheckDevicesAgainstCriteriaListWithCardAffinity mapOrder c pf w = some (r, w1)) :
    groupsOnlyShrink c b w w1 := by
  have htick : groupsOnlyShrink c b w w.tick :=
    groupsOnlyShrink_of_eq c b w w.tick rfl (affinityMap_tick w c)
  unfold CheckDevicesAgainstCriteriaListWithCardAffinity at h
  split at h
  · simp at h
  · split at h
    · split at h
      · simp at h
      · rename_i r0 w0 hscan
        have h0 := scan_shrinks _ (by decide) c pf b _ _ w.tick r0 w0
          (by rw [affinityMap_tick]; exact hwf) hb hscan
        split at h
        · simp only [Option.some.injEq, Prod.mk.injEq] at h
          rw [← h.2]
          exact groupsOnlyShrink_trans c b _ _ _ htick h0
        · rename_i hneg
          have hw0 : w0 = w.tick := scan_failure _ (by decide) c pf _ _ w.tick r0 w0
            (by rw [affinityMap_tick]; exact hwf) hscan hneg
          subst hw0
          have h1 := scan_shrinks _ (by decide) c pf b _ _ w.tick.tick r w1
            (by rw [affinityMap_tick, affinityMap_tick]; exact hwf) hb h
          exact groupsOnlyShrink_trans c b _ _ _ htick
            (groupsOnlyShrink_trans c b _ _ _
              (groupsOnlyShrink_of_eq c b w.tick w.tick.tick rfl (affinityMap_tick w.tick c)) h1)
    · split at h
      · exact groupsOnlyShrink_trans c b _ _ _ htick
          (scan_shrinks _ (by decide) c pf b _ _ w.tick r w1
            (by rw [affinityMap_tick]; exact hwf) hb h)
      · split at h
        · simp only [Option.some.injEq, Prod.mk.injEq] at h
          rw [← h.2]
          exact groupsOnlyShrink_refl c b w
        · simp only [SelectingDeviceFromCardAffinityIndexesSlice] at h
          split at h
          · simp at h
          · rename_i info hinfo
            exact selecting_loop_shrinks _ c _ pf b _ 0 w r w1 info hwf hinfo rfl hb h

/-- C6: two partner roles `a < b` on the same collection `c`, whose card
affinity map is well formed. If `CheckDevicesAgainstCriteriaListWithCardAffinity`
returns `i ≥ 0` for `a`, and a later call for `b` (in a state whose groups have
only shrunk since, and where the criteria list of `b` is as the first call has
left it) returns `j ≥ 0`, then `i ≠ j` and the devices at `i` and `j` have the
same `CardAffinity`, for every enumeration `mapOrder` of the map. -/
theorem C6_partner_on_same_card (mapOrder : Nat → List String → List String)
    (c : DeviceCapabilityType) (a b : String) (ca cb : CriteriaList) (w w1 w2 w3 : World)
    (i j : Int)
    (hwf : affinityMapWellFormed (w.devices c) (w.affinityMap c))
    (ha : mapGet w.criteriaListsMap a = some ca) (hb : mapGet w.criteriaListsMap b = some cb)
    (hab : ca.CardAffinityPfCouple = b) (hba : cb.CardAffinityPfCouple = a)
    (hlt : goStringLess a b) (hane : a ≠ "")
    (h1 : CheckDevicesAgainstCriteriaListWithCardAffinity mapOrder c a w = some (i, w1))
    (hi : 0 ≤ i) (hlater : groupsOnlyShrink c b w1 w2)
    (h2 : CheckDevicesAgainstCriteriaListWithCardAffinity mapOrder c b w2 = some (j, w3))
    (hj : 0 ≤ j) :
    i ≠ j ∧ ∃ di dj, (w.devices c)[i.toNat]? = some di ∧ (w.devices c)[j.toNat]? = some dj ∧
      di.CardAffinity = dj.CardAffinity := by
  have hlt2 : goStringLess a ca.CardAffinityPfCouple := by rw [hab]; exact hlt
  have hbne : ¬ ca.CardAffinityPfCouple = "" := by
    intro h
    rw [h] at hlt2
    exact not_goStringLess_empty a hlt2
  -- the first call
  simp only [CheckDevicesAgainstCriteriaListWithCardAffinity, ha, if_neg hbne,
    if_pos hlt2] at h1
  obtain ⟨key, info, _, hinfo, _, hsel⟩ :=
    scan_success _ (by decide) c a _ _ w.tick i w1 (by rw [affinityMap_tick]; exact hwf.1) h1 hi
  rw [affinityMap_tick] at hinfo
  rcases selecting_loop_result _ c key a _ 0 w.tick i w1 info
    (by rw [affinityMap_tick]; exact hwf.1) (by rw [affinityMap_tick]; exact hinfo) rfl hsel with
    ⟨hneg, _⟩ | ⟨p, hip, hp, hsh, _, _, _, _, hsm⟩
  · omega
  obtain ⟨cl, coupled, d, hcl, hcoupled, hd, hcr⟩ := hsm rfl
  rw [criteria_tick] at hcl hcoupled hcr
  rw [devices_tick] at hd
  rw [ha] at hcl
  cases hcl
  rw [hab, hb] at hcoupled
  cases hcoupled
  rw [hab] at hcr
  rw [affinityMap_tick] at hsh
  obtain ⟨dp, hdp, hdpkey⟩ := hwf.2 key info p hinfo hp
  rw [hd] at hdp
  cases hdp
  -- the later call
  have hb2 : mapGet w2.criteriaListsMap b = some { cb with CardAffinity := d.CardAffinity } := by
    rw [hlater.1, hcr]
    exact mapGet_mapSet_self _ _ _ _ hb
  have hane2 : ¬ (cb.CardAffinityPfCouple = "") := by rw [hba]; exact hane
  have hnlt : ¬ goStringLess b cb.CardAffinityPfCouple := by
    rw [hba]
    exact goStringLess_asymm a b hlt
  simp only [CheckDevicesAgainstCriteriaListWithCardAffinity, hb2, if_neg hane2,
    if_neg hnlt] at h2
  split at h2
  · simp only [Option.some.injEq, Prod.mk.injEq] at h2
    omega
  · simp only [SelectingDeviceFromCardAffinityIndexesSlice] at h2
    split at h2
    · simp at h2
    · rename_i info2 hinfo2
      obtain ⟨q, hq, hjq⟩ := selecting_loop_mem _ c _ _ _ 0 w2 j w3 h2 hj
      rw [hdpkey] at hinfo2
      obtain ⟨info1, hinfo1, hsub⟩ := hlater.2 key info2 hinfo2
      obtain ⟨hqmem, hqp⟩ := (hsh.2 info1 hinfo1 q).mp (hsub q hq)
      obtain ⟨dq, hdq, hdqkey⟩ := hwf.2 key info q hinfo hqmem
      subst hip hjq
      refine ⟨?_, d, dq, ?_, ?_, ?_⟩
      · intro h
        exact hqp (by omega)
      · simpa using hd
      · simpa using hdq
      · rw [hdpkey, hdqkey]

/-- Witness for C6 on the test fixture: with an enumeration that visits
`0000:ff:00.x` first, `pf3` gets position 6 and `pf6`, called after `pf4` and
`pf5`, gets position 7. -/
theorem C6_witness_pf3_pf6_group_ff :
    (CheckDevicesAgainstCriteriaListWithCardAffinity ffFirstOrder .REGULAR "pf3" testWorld).map
        Prod.fst = some 6 ∧
    (CheckDevicesAgainstCriteriaListWithCardAffinity ffFirstOrder .REGULAR "pf6"
        (afterCalls ffFirstOrder .REGULAR ["pf3", "pf4", "pf5"] testWorld)).map
        Prod.fst = some 7 ∧
    ((6 : Int) ≠ 7 ∧ ∃ di dj, (testWorld.devices .REGULAR)[(6 : Int).toNat]? = some di ∧
      (testWorld.devices .REGULAR)[(7 : Int).toNat]? = some dj ∧
      di.CardAffinity = dj.CardAffinity) :=
  ⟨by decide, by decide,
    C6_partner_on_same_card ffFirstOrder .REGULAR "pf3" "pf6" (testCriteria 64 "pf6")
      (testCriteria 64 "pf3") testWorld
      (afterCalls ffFirstOrder .REGULAR ["pf3"] testWorld)
      (afterCalls ffFirstOrder .REGULAR ["pf3", "pf4", "pf5"] testWorld)
      (afterCalls ffFirstOrder .REGULAR ["pf3", "pf4", "pf5", "pf6"] testWorld)
      6 7 (affinityMapWellFormed_of_entries _ _ (by decide)) (by decide) (by decide) (by decide)
      (by decide) (by decide) (by decide) (by decide) (by decide)
      (groupsOnlyShrink_trans _ _ _ (afterCalls ffFirstOrder .REGULAR ["pf3", "pf4"] testWorld) _
        (checkWithCardAffinity_shrinks ffFirstOrder .REGULAR "pf4" "pf6" _ 1 _
          (affinityMapWellFormed_of_entries
            ((afterCalls ffFirstOrder .REGULAR ["pf3"] testWorld).devices .REGULAR) _
            (by decide)).1
          (by decide) (by decide))
        (checkWithCardAffinity_shrinks ffFirstOrder .REGULAR "pf5" "pf6" _ 3 _
          (affinityMapWellFormed_of_entries
            ((afterCalls ffFirstOrder .REGULAR ["pf3", "pf4"] testWorld).devices .REGULAR) _
            (by decide)).1
          (by decide) (by decide)))
      (by decide) (by decide)⟩

theorem selectionInvariant_removeAndLog (w w1 : World) (c : DeviceCapabilityType) (idx p : Nat)
    (key : String) (info : CardAffinityDevicesInfo) (hinv : selectionInvariant w)
    (hget : mapGet (w.affinityMap c) key = some info)
    (hp : info.DevicesIndexesSlice[idx]? = some p)
    (h : (w.removeDeviceIndex c idx key).map (fun w3 : World => w3.logSelection c p) = some w1) :
    selectionInvariant w1 := by
  obtain ⟨m1, hm1, hmap, hmap2, _, _, hlog, _⟩ := removeAndLog_proj w w1 c idx p key h
  exact selectionInvariant_select w w1 c idx p key info m1 hinv hget hp hm1 hmap hmap2 hlog

theorem selectionInvariant_removeThenLog (w w1 : World) (c : DeviceCapabilityType) (idx p : Nat)
    (key : String) (info : CardAffinityDevicesInfo) (hinv : selectionInvariant w)
    (hget : mapGet (w.affinityMap c) key = some info)
    (hp : info.DevicesIndexesSlice[idx]? = some p)
    (h : w.removeDeviceIndex c idx key = some w1) :
    selectionInvariant (w1.logSelection c p) := by
  apply selectionInvariant_removeAndLog w _ c idx p key info hinv hget hp
  rw [h]
  rfl

/-- A scan of `CheckDevicesAgainstCriteriaListWithCardAffinity` keeps the
invariant of the selections. -/
theorem scan_inv (ty : CardAffinityPfCoupleType) (c : DeviceCapabilityType) (pf : String)
    (visit : CardAffinityDevicesInfo → Bool) :
    ∀ (keys : List String) (w : World) (r : Int) (w1 : World),
      selectionInvariant w →
      CheckDevicesAgainstCriteriaListWithCardAffinity.scan ty c pf visit keys w = some (r, w1) →
      selectionInvariant w1 := by
  intro keys
  induction keys with
  | nil =>
    intro w r w1 hinv h
    simp only [CheckDevicesAgainstCriteriaListWithCardAffinity.scan, Option.some.injEq,
      Prod.mk.injEq] at h
    rw [← h.2]
    exact hinv
  | cons key rest ih =>
    intro w r w1 hinv h
    rw [CheckDevicesAgainstCriteriaListWithCardAffinity.scan] at h
    split at h
    · exact ih w r w1 hinv h
    · rename_i info hinfo
      split at h
      · simp only [SelectingDeviceFromCardAffinityIndexesSlice, hinfo] at h
        split at h
        · simp at h
        · rename_i r0 w0 hsel
          have hinv0 := selecting_loop_inv ty c key pf _ 0 w r0 w0 info hinv hinfo rfl hsel
          split at h
          · simp only [Option.some.injEq, Prod.mk.injEq] at h
            rw [← h.2]
            exact hinv0
          · exact ih w0 r w1 hinv0 h
      · exact ih w r w1 hinv h

/-- Go: `CheckDevicesAgainstCriteriaListWithCardAffinity` keeps the invariant of
the selections. -/
theorem checkWithCardAffinity_inv (mapOrder : Nat → List String → List String)
    (c : DeviceCapabilityType) (pf : String) (w : World) (r : Int) (w1 : World)
    (hinv : selectionInvariant w)
    (h : CheckDevicesAgainstCriteriaListWithCardAffinity mapOrder c pf w = some (r, w1)) :
    selectionInvariant w1 := by
  unfold CheckDevicesAgainstCriteriaListWithCardAffinity at h
  split at h
  · simp at h
  · split at h
    · split at h
      · simp at h
      · rename_i r0 w0 hscan
        have hinv0 := scan_inv _ c pf _ _ _ r0 w0 (selectionInvariant_tick w hinv) hscan
        split at h
        · simp only [Option.some.injEq, Prod.mk.injEq] at h
          rw [← h.2]
          exact hinv0
        · exact scan_inv _ c pf _ _ _ r w1 (selectionInvariant_tick w0 hinv0) h
    · split at h
      · exact scan_inv _ c pf _ _ _ r w1 (selectionInvariant_tick w hinv) h
      · split at h
        · simp only [Option.some.injEq, Prod.mk.injEq] at h
          rw [← h.2]
          exact hinv
        · simp only [SelectingDeviceFromCardAffinityIndexesSlice] at h
          split at h
          · simp at h
          · rename_i info hinfo
            exact selecting_loop_inv _ c _ pf _ 0 w r w1 info hinv hinfo rfl h

/-- The loop of `FindProperCoupleDevicesFromDifferentCardAffinityMaps` keeps the
invariant of the selections. -/
theorem findProperCouple_loop_inv (cur cpl : DeviceCapabilityType) (pf : String)
    (required : Bool) :
    ∀ (keys : List String) (w : World) (b : Bool) (w1 : World),
      selectionInvariant w →
      FindProperCoupleDevicesFromDifferentCardAffinityMaps.loop cur cpl pf required keys w =
        some (b, w1) →
      selectionInvariant w1 := by
  intro keys
  induction keys with
  | nil =>
    intro w b w1 hinv h
    simp only [FindProperCoupleDevicesFromDifferentCardAffinityMaps.loop, Option.some.injEq,
      Prod.mk.injEq] at h
    rw [← h.2]
    exact hinv
  | cons key rest ih =>
    intro w b w1 hinv h
    rw [FindProperCoupleDevicesFromDifferentCardAffinityMaps.loop] at h
    split at h
    · exact ih w b w1 hinv h
    · rename_i info hinfo
      split at h
      · exact ih w b w1 hinv h
      · rename_i coupledInfo _
        split at h
        · simp at h
        · rename_i position hposition
          split at h
          · simp at h
          · split at h
            · simp at h
            · split at h
              · split at h
                · -- a couple of devices is required
                  split at h
                  · simp at h
                  · split at h
                    · simp at h
                    · split at h
                      · simp at h
                      · split at h
                        · simp at h
                        · split at h
                          · split at h
                            · simp at h
                            · rename_i wa hwa
                              have hinva := selectionInvariant_modifyCriteria _ _ _ _ hinv hwa
                              obtain ⟨_, _, _, _, hamap, _, _⟩ := modifyCriteria_proj _ _ _ _ hwa
                              split at h
                              · simp at h
                              · rename_i wb hwb
                                have hinvb := selectionInvariant_modifyDevice _ _ _ _ _ hinva hwb
                                obtain ⟨_, _, _, _, hbmap, _, _, _⟩ :=
                                  modifyDevice_proj _ _ _ _ _ hwb
                                split at h
                                · simp at h
                                · rename_i wc hwc
                                  have hinvc := selectionInvariant_removeAndLog wb wc cur 0
                                    position key info hinvb
                                    (by rw [hbmap, hamap]; exact hinfo) hposition hwc
                                  split at h
                                  · simp at h
                                  · rename_i coupledInfo3 hci3
                                    split at h
                                    · simp at h
                                    · rename_i coupledPosition3 hcp3
                                      split at h
                                      · simp at h
                                      · rename_i wd hwd
                                        have hinvd :=
                                          selectionInvariant_modifyDevice _ _ _ _ _ hinvc hwd
                                        obtain ⟨_, _, _, _, hdmap, _, _, _⟩ :=
                                          modifyDevice_proj _ _ _ _ _ hwd
                                        split at h
                                        · simp at h
                                        · split at h
                                          · simp at h
                                          · rename_i we hwe
                                            have hinve :=
                                              selectionInvariant_modifyCriteria _ _ _ _ hinvd hwe
                                            obtain ⟨_, _, _, _, hemap, _, _⟩ :=
                                              modifyCriteria_proj _ _ _ _ hwe
                                            split at h
                                            · simp at h
                                            · rename_i wf hwf
                                              simp only [Option.some.injEq, Prod.mk.injEq] at h
                                              rw [← h.2]
                                              exact selectionInvariant_removeThenLog we wf cpl 0
                                                coupledPosition3 key coupledInfo3 hinve
                                                (by rw [hemap, hdmap]; exact hci3) hcp3 hwf
                          · exact ih w b w1 hinv h
                · -- a single device
                  split at h
                  · simp at h
                  · rename_i wa hwa
                    have hinva := selectionInvariant_modifyCriteria _ _ _ _ hinv hwa
                    obtain ⟨_, _, _, _, hamap, _, _⟩ := modifyCriteria_proj _ _ _ _ hwa
                    split at h
                    · simp at h
                    · rename_i wb hwb
                      have hinvb := selectionInvariant_modifyDevice _ _ _ _ _ hinva hwb
                      obtain ⟨_, _, _, _, hbmap, _, _, _⟩ := modifyDevice_proj _ _ _ _ _ hwb
                      split at h
                      · simp at h
                      · rename_i wc hwc
                        have hinvc := selectionInvariant_removeAndLog wb wc cur 0
                          position key info hinvb
                          (by rw [hbmap, hamap]; exact hinfo) hposition hwc
                        split at h
                        · simp at h
                        · rename_i coupledInfo3 hci3
                          simp only [Option.some.injEq, Prod.mk.injEq] at h
                          rw [← h.2]
                          exact selectionInvariant_setChosen wc cpl key coupledInfo3 true hci3 hinvc
              · exact ih w b w1 hinv h

/-- Go: `FindProperCoupleDevicesFromDifferentCardAffinityMaps` keeps the invariant
of the selections. -/
theorem findProperCouple_inv (mapOrder : Nat → List String → List String)
    (cur cpl : DeviceCapabilityType) (pf : String) (required : Bool) (w : World) (b : Bool)
    (w1 : World) (hinv : selectionInvariant w)
    (h : FindProperCoupleDevicesFromDifferentCardAffinityMaps mapOrder cur cpl pf required w =
      some (b, w1)) : selectionInvariant w1 :=
  findProperCouple_loop_inv cur cpl pf required _ _ b w1 (selectionInvariant_tick w hinv) h

/-- Go: `FindDevicesForPfCoupleWithSpecialCapability` keeps the invariant of the
selections. -/
theorem findDevicesForPfCouple_inv (mapOrder : Nat → List String → List String)
    (c : DeviceCapabilityType) (pf : String) (w : World) (b : Bool) (w1 : World)
    (hinv : selectionInvariant w)
    (h : FindDevicesForPfCoupleWithSpecialCapability mapOrder c pf w = some (b, w1)) :
    selectionInvariant w1 := by
  unfold FindDevicesForPfCoupleWithSpecialCapability at h
  split at h
  · simp at h
  · dsimp only at h
    split at h
    · simp at h
    · rename_i r0 w0 hfirst
      have hinv0 := checkWithCardAffinity_inv mapOrder c _ w r0 w0 hinv hfirst
      split at h
      · split at h
        · simp at h
        · rename_i r2 w2 hsecond
          have hinv2 := checkWithCardAffinity_inv mapOrder c _ w0 r2 w2 hinv0 hsecond
          split at h
          · split at h
            · simp at h
            · split at h
              · simp at h
              · rename_i w3 hw3
                have hinv3 := selectionInvariant_modifyCriteria _ _ _ _ hinv2 hw3
                split at h
                · simp at h
                · split at h
                  · simp at h
                  · rename_i w4 hw4
                    simp only [Option.some.injEq, Prod.mk.injEq] at h
                    rw [← h.2]
                    exact selectionInvariant_modifyCriteria _ _ _ _ hinv3 hw4
          · simp only [Option.some.injEq, Prod.mk.injEq] at h
            rw [← h.2]
            exact hinv2
      · simp only [Option.some.injEq, Prod.mk.injEq] at h
        rw [← h.2]
        exact hinv0

/-- The position found by the loop of lines 951-960 holds the device index. -/
theorem findIndex_spec (x : Nat) :
    ∀ (l : List Nat) (k idx : Nat), findIndexInDevicesIndexesSlice l k x = some idx →
      ∃ j, idx = k + j ∧ l[j]? = some x := by
  intro l
  induction l with
  | nil =>
    intro k idx h
    simp [findIndexInDevicesIndexesSlice] at h
  | cons y rest ih =>
    intro k idx h
    rw [findIndexInDevicesIndexesSlice] at h
    split at h
    · rename_i hy
      simp only [Option.some.injEq] at h
      exact ⟨0, by omega, by simp [hy]⟩
    · obtain ⟨j, hj, hx⟩ := ih (k + 1) idx h
      exact ⟨j + 1, by omega, by simpa using hx⟩

/-- The loop of `TreatmentOFCardAffinityWithCapabilities` keeps the invariant of
the selections. -/
theorem treatment_loop_inv (mapOrder : Nat → List String → List String)
    (target other ty : DeviceCapabilityType) :
    ∀ (pfs : List String) (w : World) (b : Bool) (w1 : World),
      selectionInvariant w →
      TreatmentOFCardAffinityWithCapabilities.loop mapOrder target other ty pfs w =
        some (b, w1) →
      selectionInvariant w1 := by
  intro pfs
  induction pfs with
  | nil =>
    intro w b w1 hinv h
    simp only [TreatmentOFCardAffinityWithCapabilities.loop, Option.some.injEq,
      Prod.mk.injEq] at h
    rw [← h.2]
    exact hinv
  | cons pf rest ih =>
    intro w b w1 hinv h
    rw [TreatmentOFCardAffinityWithCapabilities.loop] at h
    split at h
    · simp at h
    · split at h
      · exact ih w b w1 hinv h
      · split at h
        · split at h
          · -- no coupled PF
            split at h
            · simp at h
            · rename_i wa hwa
              exact ih wa b w1 (findProperCouple_inv _ _ _ _ _ _ _ _ hinv hwa) h
            · rename_i wa hwa
              have hinva := findProperCouple_inv _ _ _ _ _ _ _ _ hinv hwa
              split at h
              · simp at h
              · rename_i wb hwb
                exact ih wb b w1 (findProperCouple_inv _ _ _ _ _ _ _ _ hinva hwb) h
              · rename_i wb hwb
                have hinvb := findProperCouple_inv _ _ _ _ _ _ _ _ hinva hwb
                split at h
                · simp at h
                · rename_i deviceIndex _
                  split at h
                  · split at h
                    · simp at h
                    · rename_i device _
                      split at h
                      · simp at h
                      · rename_i info hinfo
                        split at h
                        · simp at h
                        · rename_i w6 hw6
                          have hinv6 : selectionInvariant w6 := by
                            split at hw6
                            · simp only [Option.some.injEq] at hw6
                              rw [← hw6]
                              exact hinvb
                            · rename_i idx hidx
                              obtain ⟨j, hj, hx⟩ := findIndex_spec _ _ _ _ hidx
                              have hidx2 : info.DevicesIndexesSlice[idx]? =
                                  some deviceIndex.toNat := by
                                rw [hj, Nat.zero_add]
                                exact hx
                              split at hw6
                              · simp at hw6
                              · rename_i w3 hw3
                                have hinv3 := selectionInvariant_modifyCriteria _ _ _ _ hinvb hw3
                                obtain ⟨_, _, _, _, h3map, _, _⟩ :=
                                  modifyCriteria_proj _ _ _ _ hw3
                                split at hw6
                                · simp at hw6
                                · rename_i w4 hw4
                                  have hinv4 := selectionInvariant_removeAndLog w3 w4 target idx
                                    deviceIndex.toNat device.CardAffinity info hinv3
                                    (by rw [h3map]; exact hinfo) hidx2 hw4
                                  exact selectionInvariant_modifyDevice _ _ _ _ _ hinv4 hw6
                          split at h
                          · simp at h
                          · split at h
                            · exact ih w6 b w1 hinv6 h
                            · simp only [Option.some.injEq, Prod.mk.injEq] at h
                              rw [← h.2]
                              exact hinv6
                  · simp only [Option.some.injEq, Prod.mk.injEq] at h
                    rw [← h.2]
                    exact hinvb
          · -- a coupled PF
            split at h
            · simp at h
            · split at h
              · split at h
                · simp at h
                · rename_i wa hwa
                  exact ih wa b w1 (findDevicesForPfCouple_inv _ _ _ _ _ _ hinv hwa) h
                · rename_i wa hwa
                  simp only [Option.some.injEq, Prod.mk.injEq] at h
                  rw [← h.2]
                  exact findDevicesForPfCouple_inv _ _ _ _ _ _ hinv hwa
              · split at h
                · split at h
                  · simp at h
                  · rename_i wa hwa
                    exact ih wa b w1 (findProperCouple_inv _ _ _ _ _ _ _ _ hinv hwa) h
                  · rename_i wa hwa
                    simp only [Option.some.injEq, Prod.mk.injEq] at h
                    rw [← h.2]
                    exact findProperCouple_inv _ _ _ _ _ _ _ _ hinv hwa
                · split at h
                  · simp at h
                  · rename_i wa hwa
                    exact ih wa b w1 (findProperCouple_inv _ _ _ _ _ _ _ _ hinv hwa) h
                  · rename_i wa hwa
                    have hinva := findProperCouple_inv _ _ _ _ _ _ _ _ hinv hwa
                    split at h
                    · simp at h
                    · rename_i wb hwb
                      exact ih wb b w1 (findProperCouple_inv _ _ _ _ _ _ _ _ hinva hwb) h
                    · rename_i wb hwb
                      have hinvb := findProperCouple_inv _ _ _ _ _ _ _ _ hinva hwb
                      split at h
                      · simp at h
                      · rename_i wc hwc
                        exact ih wc b w1 (findDevicesForPfCouple_inv _ _ _ _ _ _ hinvb hwc) h
                      · rename_i wc hwc
                        simp only [Option.some.injEq, Prod.mk.injEq] at h
                        rw [← h.2]
                        exact findDevicesForPfCouple_inv _ _ _ _ _ _ hinvb hwc
        · exact ih w b w1 hinv h

/-- The loop of `CheckDevicesAgainstCriteria` with card affinity keeps the
invariant of the selections. -/
theorem loop_cardAffinity_inv (mapOrder : Nat → List String → List String) (g : Globals)
    (hAff : g.USE_OF_CARD_AFFINITY_CAPABILITY = true) :
    ∀ (pfs : List String) (s : Nat) (out : String) (w : World) (str : String) (w1 : World),
      selectionInvariant w →
      CheckDevicesAgainstCriteria.loop mapOrder g pfs s out w = some (str, w1) →
      selectionInvariant w1 := by
  intro pfs
  induction pfs with
  | nil =>
    intro s out w str w1 hinv h
    simp only [CheckDevicesAgainstCriteria.loop, Option.some.injEq, Prod.mk.injEq] at h
    rw [← h.2]
    exact hinv
  | cons pf rest ih =>
    intro s out w str w1 hinv h
    rw [CheckDevicesAgainstCriteria.loop] at h
    simp only [hAff, if_true] at h
    split at h
    · simp at h
    · split at h
      · split at h
        · simp at h
        · rename_i r0 w0 hcheck
          have hinv0 := checkWithCardAffinity_inv mapOrder _ pf w r0 w0 hinv hcheck
          split at h
          · split at h
            · simp at h
            · split at h
              · simp only [Option.some.injEq, Prod.mk.injEq] at h
                rw [← h.2]
                exact hinv0
              · exact ih _ _ w0 str w1 hinv0 h
          · simp only [Option.some.injEq, Prod.mk.injEq] at h
            rw [← h.2]
            exact hinv0
      · split at h
        · simp only [Option.some.injEq, Prod.mk.injEq] at h
          rw [← h.2]
          exact hinv
        · exact ih _ _ w str w1 hinv h

theorem validate_eq_step (cl : CriteriaList) (pf : String) (v : ValidationState)
    (hcl : mapGet v.criteriaListsMap pf = some cl) (hdev : ¬ cl.DeviceId.length = 0)
    (hboth : ¬ (cl.PTPSupport = true ∧ cl.RRUConnection = true))
    (hlen : 0 < cl.CardAffinityPfCouple.length) :
    match validateStep v.criteriaListsMap pf with
    | some m1 => (ValidateCardAffinityCouplesInYamlFile cl pf v).1 = none ∧
        (ValidateCardAffinityCouplesInYamlFile cl pf v).2.criteriaListsMap = m1
    | none => (ValidateCardAffinityCouplesInYamlFile cl pf v).1 ≠ none := by
  unfold validateStep ValidateCardAffinityCouplesInYamlFile
  simp only [hcl, hdev, hboth, hlen, if_true, if_false]
  by_cases h1 : cl.CardAffinityPfCouple = pf
  · simp [h1]
  · simp only [h1, if_false]
    cases h2 : mapGet v.criteriaListsMap cl.CardAffinityPfCouple with
    | none => simp
    | some coupled =>
      simp only
      by_cases h3 : 0 < coupled.CardAffinityPfCouple.length
      · simp only [h3, if_true]
        by_cases h4 : coupled.CardAffinityPfCouple = pf
        · simp [h4]
        · simp [h4]
      · simp [h3]

/-- One iteration of the loop of `YamlFileValidation` on a key whose entry passes
the first two checks: the flags are updated, which leaves the role map alone,
and the couple of the entry is validated. -/
theorem yaml_loop_cons (pf : String) (rest : List String) (v : ValidationState)
    (cl : CriteriaList) (hcl : mapGet v.criteriaListsMap pf = some cl)
    (hdev : ¬ cl.DeviceId.length = 0)
    (hboth : ¬ (cl.PTPSupport = true ∧ cl.RRUConnection = true)) :
    ∃ v2 : ValidationState, v2.criteriaListsMap = v.criteriaListsMap ∧
      YamlFileValidation.loop (pf :: rest) v =
        (if 0 < cl.CardAffinityPfCouple.length then
          match ValidateCardAffinityCouplesInYamlFile cl pf v2 with
          | (some err, v3) => (some err, v3)
          | (none, v3) => YamlFileValidation.loop rest v3
        else YamlFileValidation.loop rest v2) := by
  rw [YamlFileValidation.loop]
  simp only [hcl, hdev, hboth, if_false]
  refine ⟨_, ?_, rfl⟩
  split <;> split <;> rfl

/-- The loop of `YamlFileValidation` and its reduction to the role map agree:
the loop returns no error exactly when the reduction returns a map, which is
then the map the loop leaves. -/
theorem loop_validateAll :
    ∀ (keys : List String) (v : ValidationState),
      match validateAll keys v.criteriaListsMap with
      | some mf => (YamlFileValidation.loop keys v).1 = none ∧
          (YamlFileValidation.loop keys v).2.criteriaListsMap = mf
      | none => (YamlFileValidation.loop keys v).1 ≠ none := by
  intro keys
  induction keys with
  | nil =>
    intro v
    simp [validateAll, YamlFileValidation.loop]
  | cons pf rest ih =>
    intro v
    rw [validateAll]
    cases hcl : mapGet v.criteriaListsMap pf with
    | none =>
      have hs : validateStep v.criteriaListsMap pf = some v.criteriaListsMap := by
        simp [validateStep, hcl]
      rw [hs, YamlFileValidation.loop]
      simp only [hcl]
      exact ih v
    | some cl =>
      by_cases hdev : cl.DeviceId.length = 0
      · have hs : validateStep v.criteriaListsMap pf = none := by
          simp [validateStep, hcl, hdev]
        rw [hs, YamlFileValidation.loop]
        simp [hcl, hdev]
      · by_cases hboth : cl.PTPSupport = true ∧ cl.RRUConnection = true
        · have hs : validateStep v.criteriaListsMap pf = none := by
            simp [validateStep, hcl, hdev, hboth]
          rw [hs, YamlFileValidation.loop]
          simp [hcl, hdev, hboth]
        · obtain ⟨v2, hv2, heq⟩ := yaml_loop_cons pf rest v cl hcl hdev hboth
          rw [heq]
          by_cases hlen : 0 < cl.CardAffinityPfCouple.length
          · simp only [hlen, if_true]
            have hv := validate_eq_step cl pf v2 (hv2.symm ▸ hcl) hdev hboth hlen
            rw [hv2] at hv
            cases hs : validateStep v.criteriaListsMap pf with
            | none =>
              rw [hs] at hv
              simp only at hv ⊢
              split
              · simp
              · rename_i v3 hval
                rw [hval] at hv
                exact absurd rfl hv
            | some m1 =>
              rw [hs] at hv
              simp only at hv ⊢
              cases hval : ValidateCardAffinityCouplesInYamlFile cl pf v2 with
              | mk e v3 =>
                rw [hval] at hv
                obtain ⟨he, hm⟩ := hv
                simp only at he hm
                subst he
                simp only
                have := ih v3
                rw [hm] at this
                exact this
          · have hs : validateStep v.criteriaListsMap pf = some v.criteriaListsMap := by
              simp [validateStep, hcl, hdev, hboth, hlen]
            simp only [hlen, if_false, hs]
            have := ih v2
            rw [hv2] at this
            exact this

theorem string_ne_empty_iff (s : String) : s ≠ "" ↔ 0 < s.length := by
  rw [Ne, ← string_length_eq_zero]
  omega

/-- What a successful iteration has checked and what it leaves. -/
theorem validateStep_spec (m m1 : GoMap CriteriaList) (pf : String)
    (h : validateStep m pf = some m1) :
    (mapGet m pf = none ∧ m1 = m) ∨
    ∃ cl, mapGet m pf = some cl ∧ cl.DeviceId ≠ [] ∧
      ¬ (cl.PTPSupport = true ∧ cl.RRUConnection = true) ∧
      ((cl.CardAffinityPfCouple = "" ∧ m1 = m) ∨
        (cl.CardAffinityPfCouple ≠ "" ∧ cl.CardAffinityPfCouple ≠ pf ∧
          ∃ coupled, mapGet m cl.CardAffinityPfCouple = some coupled ∧
            ((coupled.CardAffinityPfCouple ≠ "" ∧ coupled.CardAffinityPfCouple = pf ∧ m1 = m) ∨
              (coupled.CardAffinityPfCouple = "" ∧
                m1 = mapSet m cl.CardAffinityPfCouple
                  { coupled with CardAffinityPfCouple := pf })))) := by
  unfold validateStep at h
  split at h
  · left
    rename_i hnone
    simp only [Option.some.injEq] at h
    exact ⟨hnone, h.symm⟩
  · rename_i cl hcl
    right
    split at h
    · simp at h
    · rename_i hdev
      split at h
      · simp at h
      · rename_i hboth
        refine ⟨cl, hcl, ?_, hboth, ?_⟩
        · intro hnil
          rw [hnil] at hdev
          exact hdev rfl
        · split at h
          · rename_i hlen
            right
            split at h
            · simp at h
            · rename_i hself
              split at h
              · rename_i coupled hcoupled
                refine ⟨(string_ne_empty_iff _).mpr hlen, hself, coupled, hcoupled, ?_⟩
                split at h
                · rename_i hclen
                  split at h
                  · simp at h
                  · rename_i hback
                    simp only [Option.some.injEq] at h
                    left
                    exact ⟨(string_ne_empty_iff _).mpr hclen, not_not.mp hback, h.symm⟩
                · rename_i hclen
                  simp only [Option.some.injEq] at h
                  right
                  refine ⟨?_, h.symm⟩
                  by_contra hne
                  exact hclen ((string_ne_empty_iff _).mp hne)
              · simp at h
          · rename_i hlen
            simp only [Option.some.injEq] at h
            left
            refine ⟨?_, h.symm⟩
            by_contra hne
            exact hlen ((string_ne_empty_iff _).mp hne)

theorem coupleFrame_refl (m : GoMap CriteriaList) : coupleFrame m m :=
  fun _ => ⟨fun h => h, fun cl h => ⟨cl, h, rfl, fun _ => rfl⟩⟩

theorem coupleFrame_trans (m0 m1 m2 : GoMap CriteriaList) (h01 : coupleFrame m0 m1)
    (h12 : coupleFrame m1 m2) : coupleFrame m0 m2 := by
  intro k
  refine ⟨fun h => (h12 k).1 ((h01 k).1 h), ?_⟩
  intro cl0 hcl0
  obtain ⟨cl1, h1, he1, hc1⟩ := (h01 k).2 cl0 hcl0
  obtain ⟨cl2, h2, he2, hc2⟩ := (h12 k).2 cl1 h1
  refine ⟨cl2, h2, ?_, ?_⟩
  · rw [he2, he1]
  · intro hne
    have e1 := hc1 hne
    subst e1
    exact hc2 hne

/-- Filling in the coupled PF of an entry that declares none stays in the frame. -/
theorem coupleFrame_fill (m : GoMap CriteriaList) (p pf : String) (coupled : CriteriaList)
    (hcoupled : mapGet m p = some coupled) (hempty : coupled.CardAffinityPfCouple = "") :
    coupleFrame m (mapSet m p { coupled with CardAffinityPfCouple := pf }) := by
  intro k
  by_cases hk : p = k
  · subst hk
    refine ⟨fun hn => by rw [hcoupled] at hn; exact absurd hn (by simp), ?_⟩
    intro cl0 hcl0
    rw [hcoupled] at hcl0
    cases hcl0
    exact ⟨_, mapGet_mapSet_self _ _ _ _ hcoupled, rfl, fun hne => absurd hempty hne⟩
  · refine ⟨fun hn => by rw [mapGet_mapSet_ne _ _ _ _ hk]; exact hn, ?_⟩
    intro cl0 hcl0
    exact ⟨cl0, by rw [mapGet_mapSet_ne _ _ _ _ hk]; exact hcl0, rfl, fun _ => rfl⟩

theorem validateStep_frame (m m1 : GoMap CriteriaList) (pf : String)
    (h : validateStep m pf = some m1) : coupleFrame m m1 := by
  rcases validateStep_spec m m1 pf h with ⟨_, rfl⟩ | ⟨cl, _, _, _, ⟨_, rfl⟩ |
    ⟨_, _, coupled, hcoupled, ⟨_, _, rfl⟩ | ⟨hempty, rfl⟩⟩⟩
  · exact coupleFrame_refl _
  · exact coupleFrame_refl _
  · exact coupleFrame_refl _
  · exact coupleFrame_fill m _ pf coupled hcoupled hempty

/-- After its own iteration the partnership of the visited role is symmetric. -/
theorem validateStep_symmetric_self (m m1 : GoMap CriteriaList) (pf : String)
    (h : validateStep m pf = some m1) :
    ∀ cl, mapGet m1 pf = some cl → cl.CardAffinityPfCouple ≠ "" →
      cl.CardAffinityPfCouple ≠ pf ∧
      ∃ cp, mapGet m1 cl.CardAffinityPfCouple = some cp ∧ cp.CardAffinityPfCouple = pf := by
  intro cl1 hcl1 hne1
  rcases validateStep_spec m m1 pf h with ⟨hnone, rfl⟩ | ⟨cl, hcl, _, _, ⟨hempty, rfl⟩ |
    ⟨_, hself, coupled, hcoupled, ⟨_, hback, rfl⟩ | ⟨hempty, rfl⟩⟩⟩
  · rw [hnone] at hcl1
    exact absurd hcl1 (by simp)
  · rw [hcl] at hcl1
    cases hcl1
    exact absurd hempty hne1
  · rw [hcl] at hcl1
    cases hcl1
    exact ⟨hself, coupled, hcoupled, hback⟩
  · rw [mapGet_mapSet_ne _ _ _ _ hself, hcl] at hcl1
    cases hcl1
    exact ⟨hself, _, mapGet_mapSet_self _ _ _ _ hcoupled, rfl⟩

/-- An iteration keeps the partnership of a role symmetric: no role is named
by the empty string, so the entry that the iteration fills in was nobody's
partner before. -/
theorem validateStep_symmetric_other (m m1 : GoMap CriteriaList) (pf r : String)
    (hnames : mapGet m "" = none) (h : validateStep m pf = some m1)
    (hsym : ∀ cl, mapGet m r = some cl → cl.CardAffinityPfCouple ≠ "" →
      cl.CardAffinityPfCouple ≠ r ∧
      ∃ cp, mapGet m cl.CardAffinityPfCouple = some cp ∧ cp.CardAffinityPfCouple = r) :
    ∀ cl, mapGet m1 r = some cl → cl.CardAffinityPfCouple ≠ "" →
      cl.CardAffinityPfCouple ≠ r ∧
      ∃ cp, mapGet m1 cl.CardAffinityPfCouple = some cp ∧ cp.CardAffinityPfCouple = r := by
  rcases validateStep_spec m m1 pf h with ⟨_, rfl⟩ | ⟨cl, hcl, _, _, ⟨_, rfl⟩ |
    ⟨_, hself, coupled, hcoupled, ⟨_, _, rfl⟩ | ⟨hempty, rfl⟩⟩⟩
  · exact hsym
  · exact hsym
  · exact hsym
  · intro cl1 hcl1 hne1
    by_cases hr : cl.CardAffinityPfCouple = r
    · -- `r` is the entry that has been filled in
      subst hr
      rw [mapGet_mapSet_self _ _ _ _ hcoupled] at hcl1
      cases hcl1
      refine ⟨fun e => hself e.symm, cl, ?_, rfl⟩
      rw [mapGet_mapSet_ne _ _ _ _ (fun e => hself e)]
      exact hcl
    · rw [mapGet_mapSet_ne _ _ _ _ hr] at hcl1
      obtain ⟨hne, cp, hcp, hback⟩ := hsym cl1 hcl1 hne1
      refine ⟨hne, ?_⟩
      by_cases hq : cl.CardAffinityPfCouple = cl1.CardAffinityPfCouple
      · -- the partner of `r` would be the entry filled in: it named nobody
        exfalso
        rw [← hq, hcoupled] at hcp
        cases hcp
        rw [hempty] at hback
        rw [← hback, hnames] at hcl1
        exact absurd hcl1 (by simp)
      · exact ⟨cp, by rw [mapGet_mapSet_ne _ _ _ _ hq]; exact hcp, hback⟩

/-- A run of the reduced loop that returns a map: the map is in the frame of
the initial one, the partnership of every visited role is symmetric in it, and
every visited role has passed the two checks of its own entry. -/
theorem validateAll_spec :
    ∀ (keys : List String) (m mf : GoMap CriteriaList), mapGet m "" = none →
      validateAll keys m = some mf →
      coupleFrame m mf ∧
      (∀ r, (∀ cl, mapGet m r = some cl → cl.CardAffinityPfCouple ≠ "" →
          cl.CardAffinityPfCouple ≠ r ∧
          ∃ cp, mapGet m cl.CardAffinityPfCouple = some cp ∧ cp.CardAffinityPfCouple = r) →
        ∀ cl, mapGet mf r = some cl → cl.CardAffinityPfCouple ≠ "" →
          cl.CardAffinityPfCouple ≠ r ∧
          ∃ cp, mapGet mf cl.CardAffinityPfCouple = some cp ∧ cp.CardAffinityPfCouple = r) ∧
      (∀ r, r ∈ keys → ∀ cl, mapGet mf r = some cl → cl.CardAffinityPfCouple ≠ "" →
          cl.CardAffinityPfCouple ≠ r ∧
          ∃ cp, mapGet mf cl.CardAffinityPfCouple = some cp ∧ cp.CardAffinityPfCouple = r) ∧
      (∀ r, r ∈ keys → ∀ cl, mapGet m r = some cl → cl.DeviceId ≠ [] ∧
          ¬ (cl.PTPSupport = true ∧ cl.RRUConnection = true)) := by
  intro keys
  induction keys with
  | nil =>
    intro m mf _ h
    simp only [validateAll, Option.some.injEq] at h
    subst h
    exact ⟨coupleFrame_refl _, fun _ hs => hs, fun _ hr => absurd hr (by simp),
      fun _ hr => absurd hr (by simp)⟩
  | cons pf rest ih =>
    intro m mf hnames h
    rw [validateAll] at h
    split at h
    · simp at h
    · rename_i m1 hstep
      have hfr1 := validateStep_frame m m1 pf hstep
      have hnames1 : mapGet m1 "" = none := (hfr1 "").1 hnames
      obtain ⟨hfr, hkeep, hvisited, hchecked⟩ := ih m1 mf hnames1 h
      refine ⟨coupleFrame_trans _ _ _ hfr1 hfr, ?_, ?_, ?_⟩
      · intro r hs
        exact hkeep r (validateStep_symmetric_other m m1 pf r hnames hstep hs)
      · intro r hr
        rcases List.mem_cons.mp hr with rfl | hr
        · exact hkeep _ (validateStep_symmetric_self m m1 _ hstep)
        · exact hvisited r hr
      · intro r hr cl hcl
        rcases List.mem_cons.mp hr with rfl | hr
        · rcases validateStep_spec m m1 _ hstep with ⟨hnone, _⟩ | ⟨cl2, hcl2, hd, hb, _⟩
          · rw [hnone] at hcl
            exact absurd hcl (by simp)
          · rw [hcl] at hcl2
            cases hcl2
            exact ⟨hd, hb⟩
        · obtain ⟨cl1, hcl1, he, _⟩ := (hfr1 r).2 cl hcl
          obtain ⟨hd, hb⟩ := hchecked r hr cl1 hcl1
          rw [he] at hd hb
          exact ⟨hd, hb⟩

theorem partlyCompleted_refl (m0 : GoMap CriteriaList) : partlyCompleted m0 m0 :=
  fun _ => ⟨fun h => h, fun _ h => Or.inl h⟩

theorem key_ne_empty (m : GoMap CriteriaList) (hnames : mapGet m "" = none) (k : String)
    (cl : CriteriaList) (hk : mapGet m k = some cl) : k ≠ "" := by
  rintro rfl
  rw [hnames] at hk
  exact absurd hk (by simp)

/-- On a role map in the middle of the validation of an accepted role map, the
iteration of every key returns no error and leaves such a map. -/
theorem validateStep_total (m0 m : GoMap CriteriaList) (pf : String) (hvalid : yamlValid m0)
    (hnames : mapGet m0 "" = none) (hpc : partlyCompleted m0 m) :
    ∃ m1, validateStep m pf = some m1 ∧ partlyCompleted m0 m1 := by
  obtain ⟨_, hdevs, hboths, hpartner, hunique⟩ := hvalid
  unfold validateStep
  cases hcl : mapGet m pf with
  | none => exact ⟨m, rfl, hpc⟩
  | some cl =>
    simp only
    cases hcl0 : mapGet m0 pf with
    | none =>
      rw [(hpc pf).1 hcl0] at hcl
      exact absurd hcl (by simp)
    | some cl0 =>
      have hpfne : pf ≠ "" := key_ne_empty m0 hnames pf cl0 hcl0
      have hpflen : 0 < pf.length := (string_ne_empty_iff _).mp hpfne
      have hshape : cl = cl0 ∨ (cl0.CardAffinityPfCouple = "" ∧
          ∃ r cr0, mapGet m0 r = some cr0 ∧ cr0.CardAffinityPfCouple = pf ∧
            cl = { cl0 with CardAffinityPfCouple := r }) := by
        rcases (hpc pf).2 cl0 hcl0 with h | ⟨he, r, cr0, hr, hc, h⟩
        · rw [hcl] at h
          exact Or.inl (Option.some.inj h)
        · rw [hcl] at h
          exact Or.inr ⟨he, r, cr0, hr, hc, Option.some.inj h⟩
      have hdev : ¬ cl.DeviceId.length = 0 := by
        have hd := hdevs pf cl0 hcl0
        have e : cl.DeviceId = cl0.DeviceId := by
          rcases hshape with h | ⟨_, _, _, _, _, h⟩ <;> rw [h]
        rw [e]
        intro hz
        exact hd (List.length_eq_zero.mp hz)
      have hboth : ¬ (cl.PTPSupport = true ∧ cl.RRUConnection = true) := by
        have hb := hboths pf cl0 hcl0
        have e1 : cl.PTPSupport = cl0.PTPSupport := by
          rcases hshape with h | ⟨_, _, _, _, _, h⟩ <;> rw [h]
        have e2 : cl.RRUConnection = cl0.RRUConnection := by
          rcases hshape with h | ⟨_, _, _, _, _, h⟩ <;> rw [h]
        rw [e1, e2]
        exact hb
      simp only [hdev, hboth, if_false]
      by_cases hlen : 0 < cl.CardAffinityPfCouple.length
      · simp only [hlen, if_true]
        have hne : cl.CardAffinityPfCouple ≠ "" := (string_ne_empty_iff _).mpr hlen
        rcases hshape with rfl | ⟨hempty0, r, cr0, hr, hc, rfl⟩
        · -- the entry is the declared one
          obtain ⟨hself, cp0, hcp0, hback⟩ := hpartner pf cl hcl0 hne
          simp only [hself, if_false]
          rcases (hpc cl.CardAffinityPfCouple).2 cp0 hcp0 with hcp | ⟨hce, r, cr0, hr, hc, hcp⟩
          · rw [hcp]
            simp only
            by_cases hclen : 0 < cp0.CardAffinityPfCouple.length
            · have hcne : cp0.CardAffinityPfCouple ≠ "" := (string_ne_empty_iff _).mpr hclen
              have hb : cp0.CardAffinityPfCouple = pf := by
                rcases hback with h | h
                · exact absurd h hcne
                · exact h
              simp only [hb, hpflen, if_true, ne_eq, not_true_eq_false, if_false]
              exact ⟨m, rfl, hpc⟩
            · have hce : cp0.CardAffinityPfCouple = "" := by
                by_contra hx
                exact hclen ((string_ne_empty_iff _).mp hx)
              simp only [hclen, if_false]
              refine ⟨_, rfl, ?_⟩
              intro k
              by_cases hk : cl.CardAffinityPfCouple = k
              · subst hk
                refine ⟨fun hn => by rw [hcp0] at hn; exact absurd hn (by simp), ?_⟩
                intro c0 hc0
                rw [hcp0] at hc0
                cases hc0
                exact Or.inr ⟨hce, pf, cl, hcl0, rfl, mapGet_mapSet_self _ _ _ _ hcp⟩
              · refine ⟨fun hn => by rw [mapGet_mapSet_ne _ _ _ _ hk]; exact (hpc k).1 hn, ?_⟩
                intro c0 hc0
                rcases (hpc k).2 c0 hc0 with h | ⟨he, r, cr0, hr, hc, h⟩
                · exact Or.inl (by rw [mapGet_mapSet_ne _ _ _ _ hk]; exact h)
                · exact Or.inr ⟨he, r, cr0, hr, hc, by
                    rw [mapGet_mapSet_ne _ _ _ _ hk]; exact h⟩
          · -- the partner has been filled in: by the role that names it, which is `pf`
            have hrpf : r = pf := by
              refine (hunique pf r cl cr0 hcl0 hr hne ?_).symm
              rw [hc]
            subst hrpf
            rw [hcp]
            simp only
            have hrlen : 0 < r.length := (string_ne_empty_iff _).mp hpfne
            simp only [hrlen, if_true, ne_eq, not_true_eq_false, if_false]
            exact ⟨m, rfl, hpc⟩
        · -- the entry has been filled in with the role `r` that names `pf`
          simp only at hlen hne ⊢
          have hrself : r ≠ pf := by
            rintro rfl
            rw [hcl0] at hr
            cases hr
            rw [hempty0] at hc
            exact hpfne hc.symm
          simp only [hrself, if_false]
          have hcr : mapGet m r = some cr0 := by
            rcases (hpc r).2 cr0 hr with h | ⟨he, _⟩
            · exact h
            · rw [hc] at he
              exact absurd he hpfne
          rw [hcr]
          simp only
          have hclen : 0 < cr0.CardAffinityPfCouple.length := by
            rw [hc]
            exact (string_ne_empty_iff _).mp hpfne
          simp only [hc, hpflen, if_true, ne_eq, not_true_eq_false, if_false]
          exact ⟨m, rfl, hpc⟩
      · simp only [hlen, if_false]
        exact ⟨m, rfl, hpc⟩

theorem validateAll_total (m0 : GoMap CriteriaList) (hvalid : yamlValid m0)
    (hnames : mapGet m0 "" = none) :
    ∀ (keys : List String) (m : GoMap CriteriaList), partlyCompleted m0 m →
      ∃ mf, validateAll keys m = some mf := by
  intro keys
  induction keys with
  | nil => exact fun m _ => ⟨m, rfl⟩
  | cons pf rest ih =>
    intro m hpc
    obtain ⟨m1, hstep, hpc1⟩ := validateStep_total m0 m pf hvalid hnames hpc
    rw [validateAll, hstep]
    exact ih m1 hpc1

/-- Go: `YamlFileValidation` returns `nil` exactly when the role map is not empty
and the reduced loop returns a map, which is then the map the function leaves. -/
theorem yaml_eq_validateAll (order : List String) (v : ValidationState) :
    (YamlFileValidation order v).1 = none ↔
      (v.criteriaListsMap ≠ [] ∧ ∃ mf, validateAll order v.criteriaListsMap = some mf ∧
        (YamlFileValidation order v).2.criteriaListsMap = mf) := by
  unfold YamlFileValidation
  have hloop := loop_validateAll order v
  by_cases hlen : v.criteriaListsMap.length = 0
  · simp only [hlen, if_true]
    constructor
    · intro h
      simp at h
    · rintro ⟨hne, _⟩
      exact absurd (List.length_eq_zero.mp hlen) hne
  · simp only [hlen, if_false]
    have hne : v.criteriaListsMap ≠ [] := fun e => hlen (by rw [e]; rfl)
    cases hall : validateAll order v.criteriaListsMap with
    | none =>
      rw [hall] at hloop
      simp only at hloop
      constructor
      · intro h
        exact absurd h hloop
      · rintro ⟨_, mf, hmf, _⟩
        exact absurd hmf (by simp)
    | some mf =>
      rw [hall] at hloop
      simp only at hloop
      constructor
      · intro _
        exact ⟨hne, mf, rfl, hloop.2⟩
      · intro _
        exact hloop.1

/-- C11, counterexample: on the role map `testRoleNamedByEmptyString`, enumerated
in the order `""`, `b`, `a`, `YamlFileValidation` returns `nil` and the map it
leaves is not symmetric: the role `""` keeps `a` as its coupled PF and the
coupled PF of `a` is `b`. Filling in the name `""` as the coupled PF of `a`
(line 241) leaves `a` without one, so `b` is filled in later. -/
theorem C11_counterexample_role_named_by_empty_string :
    ["", "b", "a"].Perm (mapKeys testRoleNamedByEmptyString) ∧
    (YamlFileValidation ["", "b", "a"] (initialValidationState testRoleNamedByEmptyString)).1 =
      none ∧
    ¬ partnershipSymmetric (YamlFileValidation ["", "b", "a"]
      (initialValidationState testRoleNamedByEmptyString)).2.criteriaListsMap := by
  refine ⟨by decide, by decide, ?_⟩
  intro hsym
  have hrole : mapGet (YamlFileValidation ["", "b", "a"]
      (initialValidationState testRoleNamedByEmptyString)).2.criteriaListsMap "" =
      some (testCriteria 64 "a") := by decide
  obtain ⟨_, cp, hcp, hback⟩ := hsym "" (testCriteria 64 "a") hrole (by decide)
  have hpartner : mapGet (YamlFileValidation ["", "b", "a"]
      (initialValidationState testRoleNamedByEmptyString)).2.criteriaListsMap "a" =
      some (testCriteria 64 "b") := by decide
  have e : (testCriteria 64 "a").CardAffinityPfCouple = "a" := rfl
  rw [e, hpartner] at hcp
  rw [← Option.some.inj hcp] at hback
  exact absurd hback (by decide)

/-- C11, amended. Whenever `YamlFileValidation` returns `nil` on a role map in
which no role is named by the empty string (assumption 1 of
`ValidateCardAffinityCouplesInYamlFile`), the partnership relation of the map it leaves is
symmetric: the coupled PF `p` of a role `r` that has one differs from `r`, is a
role of the map, and has `r` as its coupled PF. A role that declared a coupled
PF keeps its entry, and the entry of its partner is the declared one with the
role filled in as coupled PF. This holds for every order in which the `range`
statement enumerates the map. -/
theorem C11_partnership_symmetric (order : List String) (v : ValidationState)
    (horder : order.Perm (mapKeys v.criteriaListsMap))
    (hnames : "" ∉ mapKeys v.criteriaListsMap)
    (h : (YamlFileValidation order v).1 = none) :
    partnershipSymmetric (YamlFileValidation order v).2.criteriaListsMap ∧
    ∀ r cl, mapGet v.criteriaListsMap r = some cl → cl.CardAffinityPfCouple ≠ "" →
      mapGet (YamlFileValidation order v).2.criteriaListsMap r = some cl ∧
      ∃ cp0, mapGet v.criteriaListsMap cl.CardAffinityPfCouple = some cp0 ∧
        mapGet (YamlFileValidation order v).2.criteriaListsMap cl.CardAffinityPfCouple =
          some { cp0 with CardAffinityPfCouple := r } := by
  obtain ⟨_, mf, hall, hmf⟩ := (yaml_eq_validateAll order v).mp h
  rw [hmf]
  obtain ⟨hfr, _, hvisited, _⟩ :=
    validateAll_spec order _ mf (mapGet_none_of_not_mem _ "" hnames) hall
  have hsym : partnershipSymmetric mf := by
    intro r cl hcl hne
    have hr : r ∈ order := by
      cases h0 : mapGet v.criteriaListsMap r with
      | none =>
        rw [(hfr r).1 h0] at hcl
        exact absurd hcl (by simp)
      | some cl0 => exact horder.symm.subset (mem_mapKeys_of_mapGet _ r cl0 h0)
    exact hvisited r hr cl hcl hne
  refine ⟨hsym, ?_⟩
  intro r cl hcl hne
  obtain ⟨cl1, hcl1, _, hsame⟩ := (hfr r).2 cl hcl
  have e := hsame hne
  subst e
  refine ⟨hcl1, ?_⟩
  obtain ⟨_, cp, hcp, hback⟩ := hsym r cl1 hcl1 hne
  cases h0 : mapGet v.criteriaListsMap cl1.CardAffinityPfCouple with
  | none =>
    rw [(hfr _).1 h0] at hcp
    exact absurd hcp (by simp)
  | some cp0 =>
    obtain ⟨cp1, hcp1, he, _⟩ := (hfr _).2 cp0 h0
    rw [hcp] at hcp1
    cases hcp1
    refine ⟨cp0, rfl, ?_⟩
    rw [hcp, he, hback]

/-- C11, witness: the fixture of the tests with the partners of `pf3` and `pf7`
declared on one side only, enumerated from `pf8` down to `pf1`: the validation
returns `nil` and has filled in `pf3` as the coupled PF of `pf6` and `pf7` as
the coupled PF of `pf8`. -/
theorem C11_witness_one_sided_couples :
    (YamlFileValidation ["pf8", "pf7", "pf6", "pf5", "pf4", "pf3", "pf2", "pf1"]
      (initialValidationState testOneSidedCouples)).1 = none ∧
    (mapGet testOneSidedCouples "pf6").map (fun cl => cl.CardAffinityPfCouple) = some "" ∧
    (mapGet (YamlFileValidation ["pf8", "pf7", "pf6", "pf5", "pf4", "pf3", "pf2", "pf1"]
      (initialValidationState testOneSidedCouples)).2.criteriaListsMap "pf6").map
        (fun cl => cl.CardAffinityPfCouple) = some "pf3" ∧
    (mapGet (YamlFileValidation ["pf8", "pf7", "pf6", "pf5", "pf4", "pf3", "pf2", "pf1"]
      (initialValidationState testOneSidedCouples)).2.criteriaListsMap "pf8").map
        (fun cl => cl.CardAffinityPfCouple) = some "pf7" ∧
    partnershipSymmetric
      (YamlFileValidation ["pf8", "pf7", "pf6", "pf5", "pf4", "pf3", "pf2", "pf1"]
        (initialValidationState testOneSidedCouples)).2.criteriaListsMap :=
  ⟨by decide, by decide, by decide, by decide,
    (C11_partnership_symmetric ["pf8", "pf7", "pf6", "pf5", "pf4", "pf3", "pf2", "pf1"]
      (initialValidationState testOneSidedCouples) (by decide) (by decide) (by decide)).1⟩

/-- C12, counterexample: on the role map `testRoleNamedByEmptyString` the verdict
of `YamlFileValidation` depends on the order of the enumeration: it returns
`nil` when the role `""` is visited first and an error when `b` is visited
first. The map names `a` as partner from two roles, so the verdict `nil` is
also not the one of the stated conditions. -/
theorem C12_counterexample_verdict_depends_on_order :
    (["", "b", "a"].Perm (mapKeys testRoleNamedByEmptyString) ∧
      ["b", "", "a"].Perm (mapKeys testRoleNamedByEmptyString)) ∧
    (YamlFileValidation ["", "b", "a"] (initialValidationState testRoleNamedByEmptyString)).1 =
      none ∧
    (YamlFileValidation ["b", "", "a"] (initialValidationState testRoleNamedByEmptyString)).1 ≠
      none ∧
    ¬ yamlValid testRoleNamedByEmptyString := by
  refine ⟨by decide, by decide, by decide, ?_⟩
  intro hvalid
  have h := hvalid.2.2.2.2 "" "b" (testCriteria 64 "a") (testCriteria 64 "a") (by decide)
    (by decide) (by decide) rfl
  exact absurd h (by decide)

/-- C12, amended. On a role map in which no role is named by the empty string
(assumption 1 of `ValidateCardAffinityCouplesInYamlFile`), `YamlFileValidation`
returns `nil` if and only if the map is not empty, every role lists a device
identifier, no role requires both PTP and RRU, every declared partner is a
different declared role whose own declared partner is empty or the declaring
role, and no role is named as partner by two roles. The verdict is therefore the
same for any two orders in which the `range` statement enumerates the map. -/
theorem C12_validation_verdict (order order2 : List String) (v : ValidationState)
    (horder : order.Perm (mapKeys v.criteriaListsMap))
    (horder2 : order2.Perm (mapKeys v.criteriaListsMap))
    (hnames : "" ∉ mapKeys v.criteriaListsMap) :
    ((YamlFileValidation order v).1 = none ↔ yamlValid v.criteriaListsMap) ∧
    ((YamlFileValidation order v).1 = none ↔ (YamlFileValidation order2 v).1 = none) := by
  have hempty := mapGet_none_of_not_mem _ "" hnames
  have key : ∀ o : List String, o.Perm (mapKeys v.criteriaListsMap) →
      ((YamlFileValidation o v).1 = none ↔ yamlValid v.criteriaListsMap) := by
    intro o ho
    constructor
    · intro h
      obtain ⟨hne, mf, hall, _⟩ := (yaml_eq_validateAll o v).mp h
      obtain ⟨hfr, _, hvisited, hchecked⟩ := validateAll_spec o _ mf hempty hall
      have hmem : ∀ r cl, mapGet v.criteriaListsMap r = some cl → r ∈ o :=
        fun r cl hcl => ho.symm.subset (mem_mapKeys_of_mapGet _ r cl hcl)
      have hkept : ∀ r cl, mapGet v.criteriaListsMap r = some cl →
          cl.CardAffinityPfCouple ≠ "" → mapGet mf r = some cl := by
        intro r cl hcl hcne
        obtain ⟨cl1, hcl1, _, hsame⟩ := (hfr r).2 cl hcl
        rw [hcl1, hsame hcne]
      refine ⟨hne, fun r cl hcl => (hchecked r (hmem r cl hcl) cl hcl).1,
        fun r cl hcl => (hchecked r (hmem r cl hcl) cl hcl).2, ?_, ?_⟩
      · intro r cl hcl hcne
        obtain ⟨hself, cp, hcp, hback⟩ :=
          hvisited r (hmem r cl hcl) cl (hkept r cl hcl hcne) hcne
        refine ⟨hself, ?_⟩
        cases h0 : mapGet v.criteriaListsMap cl.CardAffinityPfCouple with
        | none =>
          rw [(hfr _).1 h0] at hcp
          exact absurd hcp (by simp)
        | some cp0 =>
          refine ⟨cp0, rfl, ?_⟩
          by_cases hc0 : cp0.CardAffinityPfCouple = ""
          · exact Or.inl hc0
          · right
            rw [hkept _ cp0 h0 hc0] at hcp
            cases hcp
            exact hback
      · intro r1 r2 cl1 cl2 h1 h2 hcne heq
        obtain ⟨_, cp1, hcp1, hback1⟩ :=
          hvisited r1 (hmem r1 cl1 h1) cl1 (hkept r1 cl1 h1 hcne) hcne
        obtain ⟨_, cp2, hcp2, hback2⟩ :=
          hvisited r2 (hmem r2 cl2 h2) cl2 (hkept r2 cl2 h2 (heq ▸ hcne)) (heq ▸ hcne)
        rw [heq, hcp2] at hcp1
        cases hcp1
        rw [← hback1, ← hback2]
    · intro hvalid
      obtain ⟨mf, hall⟩ := validateAll_total _ hvalid hempty o _ (partlyCompleted_refl _)
      have hloop := loop_validateAll o v
      rw [hall] at hloop
      unfold YamlFileValidation
      have hlen : ¬ v.criteriaListsMap.length = 0 := fun hz =>
        hvalid.1 (List.length_eq_zero.mp hz)
      simp only [hlen, if_false]
      exact hloop.1
  exact ⟨key order horder, (key order horder).trans (key order2 horder2).symm⟩

/-- C12, witnesses: the role map of the tests is accepted in both orders, and the
map in which `pf1` and `pf2` both name `pf4`, which names nobody, is rejected. -/
theorem C12_witness_accepted_and_two_suitors :
    ((YamlFileValidation ["pf1", "pf2", "pf3", "pf4", "pf5", "pf6", "pf7", "pf8"]
        (initialValidationState CRITERIA_LISTS_MAP_WITH_CARD_AFFINITY)).1 = none ∧
      (YamlFileValidation ["pf8", "pf7", "pf6", "pf5", "pf4", "pf3", "pf2", "pf1"]
        (initialValidationState CRITERIA_LISTS_MAP_WITH_CARD_AFFINITY)).1 = none ∧
      yamlValid CRITERIA_LISTS_MAP_WITH_CARD_AFFINITY) ∧
    ((YamlFileValidation ["pf1", "pf2", "pf3", "pf4", "pf5", "pf6", "pf7", "pf8"]
        (initialValidationState testTwoSuitors)).1 ≠ none ∧
      (YamlFileValidation ["pf8", "pf7", "pf6", "pf5", "pf4", "pf3", "pf2", "pf1"]
        (initialValidationState testTwoSuitors)).1 ≠ none ∧
      ¬ yamlValid testTwoSuitors) :=
  ⟨⟨by decide, by decide,
      (C12_validation_verdict ["pf1", "pf2", "pf3", "pf4", "pf5", "pf6", "pf7", "pf8"]
        ["pf8", "pf7", "pf6", "pf5", "pf4", "pf3", "pf2", "pf1"]
        (initialValidationState CRITERIA_LISTS_MAP_WITH_CARD_AFFINITY) (by decide) (by decide)
        (by decide)).1.mp (by decide)⟩,
    ⟨by decide, by decide,
      fun hv => absurd ((C12_validation_verdict
        ["pf1", "pf2", "pf3", "pf4", "pf5", "pf6", "pf7", "pf8"]
        ["pf8", "pf7", "pf6", "pf5", "pf4", "pf3", "pf2", "pf1"]
        (initialValidationState testTwoSuitors) (by decide) (by decide)
        (by decide)).1.mpr hv) (by decide)⟩⟩

theorem mapsSatisfy_congr (P : GoMap CardAffinityDevicesInfo → Prop) (w w2 : World)
    (hmap : ∀ c, w2.affinityMap c = w.affinityMap c) (h : mapsSatisfy P w) :
    mapsSatisfy P w2 := fun c => by rw [hmap]; exact h c

theorem mapsSatisfy_modifyDevice (P : GoMap CardAffinityDevicesInfo → Prop) (w w1 : World)
    (c : DeviceCapabilityType) (i : Nat) (f : SupDevice → SupDevice) (hinv : mapsSatisfy P w)
    (h : w.modifyDevice c i f = some w1) : mapsSatisfy P w1 := by
  obtain ⟨_, _, _, _, hmap, _, _, _⟩ := modifyDevice_proj w w1 c i f h
  exact mapsSatisfy_congr P w w1 hmap hinv

theorem mapsSatisfy_modifyCriteria (P : GoMap CardAffinityDevicesInfo → Prop) (w w1 : World)
    (pf : String) (f : CriteriaList → CriteriaList) (hinv : mapsSatisfy P w)
    (h : w.modifyCriteria pf f = some w1) : mapsSatisfy P w1 := by
  obtain ⟨_, _, _, _, hmap, _, _⟩ := modifyCriteria_proj w w1 pf f h
  exact mapsSatisfy_congr P w w1 hmap hinv

theorem mapsSatisfy_tick (P : GoMap CardAffinityDevicesInfo → Prop) (w : World)
    (hinv : mapsSatisfy P w) : mapsSatisfy P w.tick :=
  mapsSatisfy_congr P w _ (fun c => affinityMap_tick w c) hinv

theorem mapsSatisfy_optionalModify (P : GoMap CardAffinityDevicesInfo → Prop) (b : Prop)
    [Decidable b] (w wa : World) (c : DeviceCapabilityType) (i : Nat)
    (f : SupDevice → SupDevice) (hinv : mapsSatisfy P w)
    (h : (if b then w.modifyDevice c i f else some w) = some wa) : mapsSatisfy P wa := by
  obtain ⟨hmap, _, _, _, _⟩ := optionalModify_proj b w wa c i f h
  exact mapsSatisfy_congr P w wa hmap hinv

theorem mapsSatisfy_remove (P : GoMap CardAffinityDevicesInfo → Prop)
    (hP : closedUnderSelection P) (w w1 : World) (c : DeviceCapabilityType) (idx : Nat)
    (key : String) (hinv : mapsSatisfy P w) (h : w.removeDeviceIndex c idx key = some w1) :
    mapsSatisfy P w1 := by
  obtain ⟨m1, hm1, hmap, hmap2, _, _, _, _⟩ := removeDeviceIndex_proj w w1 c idx key h
  intro c2
  by_cases hc : c2 = c
  · subst hc
    rw [hmap]
    exact hP.1 idx key _ m1 (hinv c2) hm1
  · rw [hmap2 c2 hc]
    exact hinv c2

theorem mapsSatisfy_logSelection (P : GoMap CardAffinityDevicesInfo → Prop) (w : World)
    (c : DeviceCapabilityType) (p : Nat) (hinv : mapsSatisfy P w) :
    mapsSatisfy P (w.logSelection c p) :=
  mapsSatisfy_congr P w _ (fun c2 => affinityMap_logSelection w c c2 p) hinv

theorem mapsSatisfy_removeAndLog (P : GoMap CardAffinityDevicesInfo → Prop)
    (hP : closedUnderSelection P) (w w1 : World) (c : DeviceCapabilityType) (idx p : Nat)
    (key : String) (hinv : mapsSatisfy P w)
    (h : (w.removeDeviceIndex c idx key).map (fun w3 : World => w3.logSelection c p) = some w1) :
    mapsSatisfy P w1 := by
  obtain ⟨w0, hw0, rfl⟩ := Option.map_eq_some'.mp h
  exact mapsSatisfy_logSelection P w0 c p (mapsSatisfy_remove P hP w w0 c idx key hinv hw0)

theorem mapsSatisfy_setChosen (P : GoMap CardAffinityDevicesInfo → Prop)
    (hP : closedUnderSelection P) (w : World) (c : DeviceCapabilityType) (key : String)
    (info : CardAffinityDevicesInfo) (b : Bool) (hinv : mapsSatisfy P w)
    (hget : mapGet (w.affinityMap c) key = some info) :
    mapsSatisfy P (w.setAffinityMap c (mapSet (w.affinityMap c) key
      { info with ChosenDeviceHasNoCardAffinity := b })) := by
  intro c2
  by_cases hc : c2 = c
  · subst hc
    rw [affinityMap_setAffinityMap_self]
    exact hP.2 _ key info b (hinv c2) hget
  · rw [affinityMap_setAffinityMap_ne _ _ _ _ hc]
    exact hinv c2

theorem mapsSatisfy_setDevices (P : GoMap CardAffinityDevicesInfo → Prop) (w : World)
    (c : DeviceCapabilityType) (l : List SupDevice) (hinv : mapsSatisfy P w) :
    mapsSatisfy P (w.setDevices c l) :=
  mapsSatisfy_congr P w _ (fun c2 => affinityMap_setDevices w c c2 l) hinv

/-- The loop of `SelectingDeviceFromCardAffinityIndexesSlice` keeps `P`. -/
theorem selecting_loop_maps (P : GoMap CardAffinityDevicesInfo → Prop)
    (hP : closedUnderSelection P) (ty : CardAffinityPfCoupleType) (c : DeviceCapabilityType)
    (key pf : String) :
    ∀ (rest : List Nat) (idx : Nat) (w : World) (r : Int) (w1 : World),
      mapsSatisfy P w →
      SelectingDeviceFromCardAffinityIndexesSlice.loop ty c key pf rest idx w = some (r, w1) →
      mapsSatisfy P w1 := by
  intro rest
  induction rest with
  | nil =>
    intro idx w r w1 hinv h
    simp only [SelectingDeviceFromCardAffinityIndexesSlice.loop, Option.some.injEq,
      Prod.mk.injEq] at h
    rw [← h.2]
    exact hinv
  | cons deviceIndex rest ih =>
    intro idx w r w1 hinv h
    rw [SelectingDeviceFromCardAffinityIndexesSlice.loop] at h
    split at h
    · simp at h
    · rename_i wa hwa
      have hinva := mapsSatisfy_optionalModify P _ _ _ _ _ _ hinv hwa
      split at h
      · simp at h
      · split at h
        · simp at h
        · split at h
          · split at h
            · -- EMPTY_MARKED_FALSE
              split at h
              · simp at h
              · rename_i info2 hinfo2
                have hinvb := mapsSatisfy_setChosen P hP wa c key info2 true hinva hinfo2
                dsimp only at h
                split at h
                · simp at h
                · rename_i wc hwc
                  simp only [Option.some.injEq, Prod.mk.injEq] at h
                  rw [← h.2]
                  exact mapsSatisfy_logSelection P wc c deviceIndex
                    (mapsSatisfy_remove P hP _ wc c idx key hinvb hwc)
            · -- CURRENT_PF_SMALLER_THAN_COUPLED
              split at h
              · simp at h
              · split at h
                · simp at h
                · rename_i wb hwb
                  have hinvb := mapsSatisfy_modifyCriteria P _ _ _ _ hinva hwb
                  split at h
                  · simp at h
                  · split at h
                    · simp at h
                    · rename_i devices _
                      split at h
                      · simp at h
                      · rename_i wc hwc
                        simp only [Option.some.injEq, Prod.mk.injEq] at h
                        rw [← h.2]
                        exact mapsSatisfy_logSelection P wc c deviceIndex
                          (mapsSatisfy_remove P hP _ wc c idx key
                            (mapsSatisfy_setDevices P wb c devices hinvb) hwc)
            · -- CURRENT_PF_BIGGER_THAN_COUPLED
              split at h
              · simp at h
              · rename_i wb hwb
                have hinvb := mapsSatisfy_modifyDevice P _ _ _ _ _ hinva hwb
                split at h
                · simp at h
                · rename_i wc hwc
                  simp only [Option.some.injEq, Prod.mk.injEq] at h
                  rw [← h.2]
                  exact mapsSatisfy_logSelection P wc c deviceIndex
                    (mapsSatisfy_remove P hP _ wc c idx key hinvb hwc)
            · -- EMPTY_MARKED_TRUE
              split at h
              · simp at h
              · rename_i wc hwc
                simp only [Option.some.injEq, Prod.mk.injEq] at h
                rw [← h.2]
                exact mapsSatisfy_logSelection P wc c deviceIndex
                  (mapsSatisfy_remove P hP _ wc c idx key hinva hwc)
          · split at h
            · simp at h
            · rename_i wb hwb
              exact ih (idx + 1) wb r w1 (mapsSatisfy_optionalModify P _ _ _ _ _ _ hinva hwb) h

/-- A scan of `CheckDevicesAgainstCriteriaListWithCardAffinity` keeps `P`. -/
theorem scan_maps (P : GoMap CardAffinityDevicesInfo → Prop) (hP : closedUnderSelection P)
    (ty : CardAffinityPfCoupleType) (c : DeviceCapabilityType) (pf : String)
    (visit : CardAffinityDevicesInfo → Bool) :
    ∀ (keys : List String) (w : World) (r : Int) (w1 : World),
      mapsSatisfy P w →
      CheckDevicesAgainstCriteriaListWithCardAffinity.scan ty c pf visit keys w = some (r, w1) →
      mapsSatisfy P w1 := by
  intro keys
  induction keys with
  | nil =>
    intro w r w1 hinv h
    simp only [CheckDevicesAgainstCriteriaListWithCardAffinity.scan, Option.some.injEq,
      Prod.mk.injEq] at h
    rw [← h.2]
    exact hinv
  | cons key rest ih =>
    intro w r w1 hinv h
    rw [CheckDevicesAgainstCriteriaListWithCardAffinity.scan] at h
    split at h
    · exact ih w r w1 hinv h
    · rename_i info hinfo
      split at h
      · simp only [SelectingDeviceFromCardAffinityIndexesSlice, hinfo] at h
        split at h
        · simp at h
        · rename_i r0 w0 hsel
          have hinv0 := selecting_loop_maps P hP ty c key pf _ 0 w r0 w0 hinv hsel
          split at h
          · simp only [Option.some.injEq, Prod.mk.injEq] at h
            rw [← h.2]
            exact hinv0
          · exact ih w0 r w1 hinv0 h
      · exact ih w r w1 hinv h

/-- Go: `CheckDevicesAgainstCriteriaListWithCardAffinity` keeps `P`. -/
theorem checkWithCardAffinity_maps (P : GoMap CardAffinityDevicesInfo → Prop)
    (hP : closedUnderSelection P) (mapOrder : Nat → List String → List String)
    (c : DeviceCapabilityType) (pf : String) (w : World) (r : Int) (w1 : World)
    (hinv : mapsSatisfy P w)
    (h : CheckDevicesAgainstCriteriaListWithCardAffinity mapOrder c pf w = some (r, w1)) :
    mapsSatisfy P w1 := by
  unfold CheckDevicesAgainstCriteriaListWithCardAffinity at h
  split at h
  · simp at h
  · split at h
    · split at h
      · simp at h
      · rename_i r0 w0 hscan
        have hinv0 := scan_maps P hP _ c pf _ _ _ r0 w0 (mapsSatisfy_tick P w hinv) hscan
        split at h
        · simp only [Option.some.injEq, Prod.mk.injEq] at h
          rw [← h.2]
          exact hinv0
        · exact scan_maps P hP _ c pf _ _ _ r w1 (mapsSatisfy_tick P w0 hinv0) h
    · split at h
      · exact scan_maps P hP _ c pf _ _ _ r w1 (mapsSatisfy_tick P w hinv) h
      · split at h
        · simp only [Option.some.injEq, Prod.mk.injEq] at h
          rw [← h.2]
          exact hinv
        · simp only [SelectingDeviceFromCardAffinityIndexesSlice] at h
          split at h
          · simp at h
          · exact selecting_loop_maps P hP _ c _ pf _ 0 w r w1 hinv h

/-- The loop of `FindProperCoupleDevicesFromDifferentCardAffinityMaps` keeps the
property `P`. -/
theorem findProperCouple_loop_maps (P : GoMap CardAffinityDevicesInfo → Prop)
    (hP : closedUnderSelection P) (cur cpl : DeviceCapabilityType) (pf : String)
    (required : Bool) :
    ∀ (keys : List String) (w : World) (b : Bool) (w1 : World),
      mapsSatisfy P w →
      FindProperCoupleDevicesFromDifferentCardAffinityMaps.loop cur cpl pf required keys w =
        some (b, w1) →
      mapsSatisfy P w1 := by
  intro keys
  induction keys with
  | nil =>
    intro w b w1 hinv h
    simp only [FindProperCoupleDevicesFromDifferentCardAffinityMaps.loop, Option.some.injEq,
      Prod.mk.injEq] at h
    rw [← h.2]
    exact hinv
  | cons key rest ih =>
    intro w b w1 hinv h
    rw [FindProperCoupleDevicesFromDifferentCardAffinityMaps.loop] at h
    split at h
    · exact ih w b w1 hinv h
    · rename_i info hinfo
      split at h
      · exact ih w b w1 hinv h
      · rename_i coupledInfo _
        split at h
        · simp at h
        · rename_i position hposition
          split at h
          · simp at h
          · split at h
            · simp at h
            · split at h
              · split at h
                · -- a couple of devices is required
                  split at h
                  · simp at h
                  · split at h
                    · simp at h
                    · split at h
                      · simp at h
                      · split at h
                        · simp at h
                        · split at h
                          · split at h
                            · simp at h
                            · rename_i wa hwa
                              have hinva := mapsSatisfy_modifyCriteria P _ _ _ _ hinv hwa
                              split at h
                              · simp at h
                              · rename_i wb hwb
                                have hinvb := mapsSatisfy_modifyDevice P _ _ _ _ _ hinva hwb
                                split at h
                                · simp at h
                                · rename_i wc hwc
                                  have hinvc := mapsSatisfy_removeAndLog P hP wb wc cur 0 position key hinvb hwc
                                  split at h
                                  · simp at h
                                  · rename_i coupledInfo3 hci3
                                    split at h
                                    · simp at h
                                    · rename_i coupledPosition3 hcp3
                                      split at h
                                      · simp at h
                                      · rename_i wd hwd
                                        have hinvd :=
                                          mapsSatisfy_modifyDevice P _ _ _ _ _ hinvc hwd
                                        split at h
                                        · simp at h
                                        · split at h
                                          · simp at h
                                          · rename_i we hwe
                                            have hinve :=
                                              mapsSatisfy_modifyCriteria P _ _ _ _ hinvd hwe
                                            split at h
                                            · simp at h
                                            · rename_i wf hwf
                                              simp only [Option.some.injEq, Prod.mk.injEq] at h
                                              rw [← h.2]
                                              exact mapsSatisfy_logSelection P wf cpl coupledPosition3
                                                (mapsSatisfy_remove P hP we wf cpl 0 key hinve hwf)
                          · exact ih w b w1 hinv h
                · -- a single device
                  split at h
                  · simp at h
                  · rename_i wa hwa
                    have hinva := mapsSatisfy_modifyCriteria P _ _ _ _ hinv hwa
                    split at h
                    · simp at h
                    · rename_i wb hwb
                      have hinvb := mapsSatisfy_modifyDevice P _ _ _ _ _ hinva hwb
                      split at h
                      · simp at h
                      · rename_i wc hwc
                        have hinvc := mapsSatisfy_removeAndLog P hP wb wc cur 0 position key hinvb hwc
                        split at h
                        · simp at h
                        · rename_i coupledInfo3 hci3
                          simp only [Option.some.injEq, Prod.mk.injEq] at h
                          rw [← h.2]
                          exact mapsSatisfy_setChosen P hP wc cpl key coupledInfo3 true hinvc hci3
              · exact ih w b w1 hinv h

/-- Go: `FindProperCoupleDevicesFromDifferentCardAffinityMaps` keeps the property `P`. -/
theorem findProperCouple_maps (P : GoMap CardAffinityDevicesInfo → Prop)
    (hP : closedUnderSelection P) (mapOrder : Nat → List String → List String)
    (cur cpl : DeviceCapabilityType) (pf : String) (required : Bool) (w : World) (b : Bool)
    (w1 : World) (hinv : mapsSatisfy P w)
    (h : FindProperCoupleDevicesFromDifferentCardAffinityMaps mapOrder cur cpl pf required w =
      some (b, w1)) : mapsSatisfy P w1 :=
  findProperCouple_loop_maps P hP cur cpl pf required _ _ b w1 (mapsSatisfy_tick P w hinv) h

/-- Go: `FindDevicesForPfCoupleWithSpecialCapability` keeps the property `P`. -/
theorem findDevicesForPfCouple_maps (P : GoMap CardAffinityDevicesInfo → Prop)
    (hP : closedUnderSelection P) (mapOrder : Nat → List String → List String)
    (c : DeviceCapabilityType) (pf : String) (w : World) (b : Bool) (w1 : World)
    (hinv : mapsSatisfy P w)
    (h : FindDevicesForPfCoupleWithSpecialCapability mapOrder c pf w = some (b, w1)) :
    mapsSatisfy P w1 := by
  unfold FindDevicesForPfCoupleWithSpecialCapability at h
  split at h
  · simp at h
  · dsimp only at h
    split at h
    · simp at h
    · rename_i r0 w0 hfirst
      have hinv0 := checkWithCardAffinity_maps P hP mapOrder c _ w r0 w0 hinv hfirst
      split at h
      · split at h
        · simp at h
        · rename_i r2 w2 hsecond
          have hinv2 := checkWithCardAffinity_maps P hP mapOrder c _ w0 r2 w2 hinv0 hsecond
          split at h
          · split at h
            · simp at h
            · split at h
              · simp at h
              · rename_i w3 hw3
                have hinv3 := mapsSatisfy_modifyCriteria P _ _ _ _ hinv2 hw3
                split at h
                · simp at h
                · split at h
                  · simp at h
                  · rename_i w4 hw4
                    simp only [Option.some.injEq, Prod.mk.injEq] at h
                    rw [← h.2]
                    exact mapsSatisfy_modifyCriteria P _ _ _ _ hinv3 hw4
          · simp only [Option.some.injEq, Prod.mk.injEq] at h
            rw [← h.2]
            exact hinv2
      · simp only [Option.some.injEq, Prod.mk.injEq] at h
        rw [← h.2]
        exact hinv0

/-- The loop of `TreatmentOFCardAffinityWithCapabilities` keeps the property `P`. -/
theorem treatment_loop_maps (P : GoMap CardAffinityDevicesInfo → Prop)
    (hP : closedUnderSelection P) (mapOrder : Nat → List String → List String)
    (target other ty : DeviceCapabilityType) :
    ∀ (pfs : List String) (w : World) (b : Bool) (w1 : World),
      mapsSatisfy P w →
      TreatmentOFCardAffinityWithCapabilities.loop mapOrder target other ty pfs w =
        some (b, w1) →
      mapsSatisfy P w1 := by
  intro pfs
  induction pfs with
  | nil =>
    intro w b w1 hinv h
    simp only [TreatmentOFCardAffinityWithCapabilities.loop, Option.some.injEq,
      Prod.mk.injEq] at h
    rw [← h.2]
    exact hinv
  | cons pf rest ih =>
    intro w b w1 hinv h
    rw [TreatmentOFCardAffinityWithCapabilities.loop] at h
    split at h
    · simp at h
    · split at h
      · exact ih w b w1 hinv h
      · split at h
        · split at h
          · -- no coupled PF
            split at h
            · simp at h
            · rename_i wa hwa
              exact ih wa b w1 (findProperCouple_maps P hP _ _ _ _ _ _ _ _ hinv hwa) h
            · rename_i wa hwa
              have hinva := findProperCouple_maps P hP _ _ _ _ _ _ _ _ hinv hwa
              split at h
              · simp at h
              · rename_i wb hwb
                exact ih wb b w1 (findProperCouple_maps P hP _ _ _ _ _ _ _ _ hinva hwb) h
              · rename_i wb hwb
                have hinvb := findProperCouple_maps P hP _ _ _ _ _ _ _ _ hinva hwb
                split at h
                · simp at h
                · rename_i deviceIndex _
                  split at h
                  · split at h
                    · simp at h
                    · rename_i device _
                      split at h
                      · simp at h
                      · rename_i info hinfo
                        split at h
                        · simp at h
                        · rename_i w6 hw6
                          have hinv6 : mapsSatisfy P w6 := by
                            split at hw6
                            · simp only [Option.some.injEq] at hw6
                              rw [← hw6]
                              exact hinvb
                            · rename_i idx hidx
                              split at hw6
                              · simp at hw6
                              · rename_i w3 hw3
                                have hinv3 := mapsSatisfy_modifyCriteria P _ _ _ _ hinvb hw3
                                split at hw6
                                · simp at hw6
                                · rename_i w4 hw4
                                  have hinv4 := mapsSatisfy_removeAndLog P hP w3 w4 target idx
                                    deviceIndex.toNat device.CardAffinity hinv3 hw4
                                  exact mapsSatisfy_modifyDevice P _ _ _ _ _ hinv4 hw6
                          split at h
                          · simp at h
                          · split at h
                            · exact ih w6 b w1 hinv6 h
                            · simp only [Option.some.injEq, Prod.mk.injEq] at h
                              rw [← h.2]
                              exact hinv6
                  · simp only [Option.some.injEq, Prod.mk.injEq] at h
                    rw [← h.2]
                    exact hinvb
          · -- a coupled PF
            split at h
            · simp at h
            · split at h
              · split at h
                · simp at h
                · rename_i wa hwa
                  exact ih wa b w1 (findDevicesForPfCouple_maps P hP _ _ _ _ _ _ hinv hwa) h
                · rename_i wa hwa
                  simp only [Option.some.injEq, Prod.mk.injEq] at h
                  rw [← h.2]
                  exact findDevicesForPfCouple_maps P hP _ _ _ _ _ _ hinv hwa
              · split at h
                · split at h
                  · simp at h
                  · rename_i wa hwa
                    exact ih wa b w1 (findProperCouple_maps P hP _ _ _ _ _ _ _ _ hinv hwa) h
                  · rename_i wa hwa
                    simp only [Option.some.injEq, Prod.mk.injEq] at h
                    rw [← h.2]
                    exact findProperCouple_maps P hP _ _ _ _ _ _ _ _ hinv hwa
                · split at h
                  · simp at h
                  · rename_i wa hwa
                    exact ih wa b w1 (findProperCouple_maps P hP _ _ _ _ _ _ _ _ hinv hwa) h
                  · rename_i wa hwa
                    have hinva := findProperCouple_maps P hP _ _ _ _ _ _ _ _ hinv hwa
                    split at h
                    · simp at h
                    · rename_i wb hwb
                      exact ih wb b w1 (findProperCouple_maps P hP _ _ _ _ _ _ _ _ hinva hwb) h
                    · rename_i wb hwb
                      have hinvb := findProperCouple_maps P hP _ _ _ _ _ _ _ _ hinva hwb
                      split at h
                      · simp at h
                      · rename_i wc hwc
                        exact ih wc b w1 (findDevicesForPfCouple_maps P hP _ _ _ _ _ _ hinvb hwc) h
                      · rename_i wc hwc
                        simp only [Option.some.injEq, Prod.mk.injEq] at h
                        rw [← h.2]
                        exact findDevicesForPfCouple_maps P hP _ _ _ _ _ _ hinvb hwc
        · exact ih w b w1 hinv h

/-- Go: `CheckDevicesAgainstCriteriaListWithNoCardAffinity` writes no card
affinity map. -/
theorem noCardAffinity_maps (g : Globals) (ptr : Option CriteriaList) (out : String) (s : Nat)
    (w : World) (found : Bool) (out1 : String) (s1 : Nat) (w1 : World)
    (h : CheckDevicesAgainstCriteriaListWithNoCardAffinity g ptr out s w =
      some (found, out1, s1, w1)) : ∀ c, w1.affinityMap c = w.affinityMap c := by
  cases ptr with
  | none => simp [CheckDevicesAgainstCriteriaListWithNoCardAffinity] at h
  | some role =>
    rw [noCardAffinity_eq] at h
    cases hf : firstAcceptable role (w.devices (roleCollection role)) with
    | none =>
      simp only [hf, Option.some.injEq, Prod.mk.injEq] at h
      intro c
      rw [← h.2.2.2]
    | some i =>
      simp only [hf] at h
      cases hd : (w.devices (roleCollection role))[i]? with
      | none => simp [hd] at h
      | some d =>
        simp only [hd, Option.some.injEq, Prod.mk.injEq] at h
        intro c
        rw [← h.2.2.2, affinityMap_logSelection, affinityMap_setDevices]

/-- The loop of `CheckDevicesAgainstCriteria` keeps the property `P`, in both
modes. -/
theorem loop_maps (P : GoMap CardAffinityDevicesInfo → Prop)
    (hP : closedUnderSelection P) (mapOrder : Nat → List String → List String) (g : Globals) :
    ∀ (pfs : List String) (s : Nat) (out : String) (w : World) (str : String) (w1 : World),
      mapsSatisfy P w →
      CheckDevicesAgainstCriteria.loop mapOrder g pfs s out w = some (str, w1) →
      mapsSatisfy P w1 := by
  intro pfs
  induction pfs with
  | nil =>
    intro s out w str w1 hinv h
    simp only [CheckDevicesAgainstCriteria.loop, Option.some.injEq, Prod.mk.injEq] at h
    rw [← h.2]
    exact hinv
  | cons pf rest ih =>
    intro s out w str w1 hinv h
    rw [CheckDevicesAgainstCriteria.loop] at h
    split at h
    · split at h
      · simp at h
      · split at h
        · split at h
          · simp at h
          · rename_i r0 w0 hcheck
            have hinv0 := checkWithCardAffinity_maps P hP mapOrder _ pf w r0 w0 hinv hcheck
            split at h
            · split at h
              · simp at h
              · dsimp only at h
                split at h
                · simp only [Option.some.injEq, Prod.mk.injEq] at h
                  rw [← h.2]
                  exact hinv0
                · exact ih _ _ w0 str w1 hinv0 h
            · simp only [Option.some.injEq, Prod.mk.injEq] at h
              rw [← h.2]
              exact hinv0
        · dsimp only at h
          split at h
          · simp only [Option.some.injEq, Prod.mk.injEq] at h
            rw [← h.2]
            exact hinv
          · exact ih _ _ w str w1 hinv h
    · split at h
      · simp at h
      · rename_i found out1 s1 w0 hstep
        have hinv0 : mapsSatisfy P w0 :=
          mapsSatisfy_congr P w w0 (noCardAffinity_maps g _ out s w found out1 s1 w0 hstep) hinv
        split at h
        · split at h
          · simp only [Option.some.injEq, Prod.mk.injEq] at h
            rw [← h.2]
            exact hinv0
          · exact ih _ _ w0 str w1 hinv0 h
        · simp only [Option.some.injEq, Prod.mk.injEq] at h
          rw [← h.2]
          exact hinv0

/-- Go: `CheckDevicesAgainstCriteria` keeps the property `P`, in both modes and
for every enumeration of the maps. -/
theorem pass_maps (P : GoMap CardAffinityDevicesInfo → Prop)
    (hP : closedUnderSelection P) (mapOrder : Nat → List String → List String) (g : Globals)
    (w : World) (str : String) (w1 : World) (hinv : mapsSatisfy P w)
    (h : CheckDevicesAgainstCriteria mapOrder g w = some (str, w1)) : mapsSatisfy P w1 := by
  have hinit := mapsSatisfy_tick P w hinv
  unfold CheckDevicesAgainstCriteria at h
  dsimp only at h
  split at h
  · simp at h
  · rename_i wa hwa
    simp only [Option.some.injEq, Prod.mk.injEq] at h
    rw [← h.2]
    split at hwa
    · exact treatment_loop_maps P hP _ _ _ _ _ _ _ _ hinit hwa
    · simp at hwa
  · rename_i wa hwa
    have hinva : mapsSatisfy P wa := by
      split at hwa
      · exact treatment_loop_maps P hP _ _ _ _ _ _ _ _ hinit hwa
      · simp only [Option.some.injEq, Prod.mk.injEq] at hwa
        rw [← hwa.2]
        exact hinit
    split at h
    · simp at h
    · rename_i wb hwb
      simp only [Option.some.injEq, Prod.mk.injEq] at h
      rw [← h.2]
      split at hwb
      · exact treatment_loop_maps P hP _ _ _ _ _ _ _ _ hinva hwb
      · simp at hwb
    · rename_i wb hwb
      have hinvb : mapsSatisfy P wb := by
        split at hwb
        · exact treatment_loop_maps P hP _ _ _ _ _ _ _ _ hinva hwb
        · simp only [Option.some.injEq, Prod.mk.injEq] at hwb
          rw [← hwb.2]
          exact hinva
      exact loop_maps P hP mapOrder g _ _ _ _ str w1 hinvb h

theorem mem_mapSet {V : Type} (m : GoMap V) (k : String) (v : V) (e : String × V)
    (h : e ∈ mapSet m k v) : e ∈ m ∨ e = (k, v) := by
  induction m with
  | nil => simp [mapSet] at h
  | cons e0 m ih =>
    obtain ⟨k0, v0⟩ := e0
    rw [mapSet] at h
    split at h
    · rename_i hk
      rcases List.mem_cons.mp h with h | h
      · right
        rw [h, hk]
      · left
        exact List.mem_cons_of_mem _ h
    · rcases List.mem_cons.mp h with h | h
      · left
        rw [h]
        exact List.mem_cons_self _ _
      · rcases ih h with h | h
        · left
          exact List.mem_cons_of_mem _ h
        · right
          exact h

theorem mem_mapDelete {V : Type} (m : GoMap V) (k : String) (e : String × V)
    (h : e ∈ mapDelete m k) : e ∈ m := by
  induction m with
  | nil => simp [mapDelete] at h
  | cons e0 m ih =>
    obtain ⟨k0, v0⟩ := e0
    rw [mapDelete] at h
    split at h
    · exact List.mem_cons_of_mem _ h
    · rcases List.mem_cons.mp h with h | h
      · rw [h]
        exact List.mem_cons_self _ _
      · exact List.mem_cons_of_mem _ (ih h)

/-- Go: `RemoveDeviceIndexFromSlice` leaves no group empty: the key is deleted
when the last position is removed. -/
theorem groupsNonEmpty_remove (idx : Nat) (key : String)
    (m m1 : GoMap CardAffinityDevicesInfo) (hm : groupsNonEmpty m)
    (h : RemoveDeviceIndexFromSlice idx key m = some m1) : groupsNonEmpty m1 := by
  unfold RemoveDeviceIndexFromSlice at h
  split at h
  · simp at h
  · split at h
    · simp at h
    · split at h
      · dsimp only at h
        split at h
        · simp only [Option.some.injEq] at h
          subst h
          exact fun e he => hm e (mem_mapDelete _ _ e he)
        · rename_i hlen
          simp only [Option.some.injEq] at h
          subst h
          intro e he
          rcases mem_mapSet _ _ _ e he with h1 | h1
          · exact hm e h1
          · rw [h1]
            intro hnil
            simp only at hnil
            rw [hnil] at hlen
            exact hlen rfl
      · simp at h

theorem groupsNonEmpty_setChosen (m : GoMap CardAffinityDevicesInfo) (key : String)
    (info : CardAffinityDevicesInfo) (b : Bool) (hm : groupsNonEmpty m)
    (hget : mapGet m key = some info) :
    groupsNonEmpty (mapSet m key { info with ChosenDeviceHasNoCardAffinity := b }) := by
  intro e he
  rcases mem_mapSet _ _ _ e he with h1 | h1
  · exact hm e h1
  · rw [h1]
    exact hm (key, info) (mem_of_mapGet m key info hget)

theorem groupsNonEmpty_closed : closedUnderSelection groupsNonEmpty :=
  ⟨fun idx key m m1 hm h => groupsNonEmpty_remove idx key m m1 hm h,
    fun m key info b hm hget => groupsNonEmpty_setChosen m key info b hm hget⟩

/-- Go: `UpdatingCardAffinityMap` leaves no group empty: it creates a group with
one position or appends a position to a group. -/
theorem groupsNonEmpty_update (cardAffinity : String) (devicesSlice : List SupDevice)
    (m : GoMap CardAffinityDevicesInfo) (hm : groupsNonEmpty m) :
    groupsNonEmpty (UpdatingCardAffinityMap cardAffinity devicesSlice m) := by
  unfold UpdatingCardAffinityMap
  split
  · intro e he
    rcases mem_mapSet _ _ _ e he with h1 | h1
    · exact hm e h1
    · rw [h1]
      simp
  · intro e he
    rcases List.mem_append.mp he with h1 | h1
    · exact hm e h1
    · rw [List.mem_singleton.mp h1]
      simp

/-- C13. No card affinity map ever holds a group with an empty list of
positions: if every group of a map lists a position, it is still so after
`UpdatingCardAffinityMap` and after `RemoveDeviceIndexFromSlice`, hence after
every function of a matching pass that writes a map and after the pass itself,
in both modes and for every enumeration of the maps. -/
theorem C13_no_empty_group :
    (∀ cardAffinity devicesSlice m, groupsNonEmpty m →
      groupsNonEmpty (UpdatingCardAffinityMap cardAffinity devicesSlice m)) ∧
    (∀ idx key m m1, groupsNonEmpty m → RemoveDeviceIndexFromSlice idx key m = some m1 →
      groupsNonEmpty m1) ∧
    (∀ ty c key pf w r w1, mapsSatisfy groupsNonEmpty w →
      SelectingDeviceFromCardAffinityIndexesSlice ty c key pf w = some (r, w1) →
      mapsSatisfy groupsNonEmpty w1) ∧
    (∀ mapOrder c pf w r w1, mapsSatisfy groupsNonEmpty w →
      CheckDevicesAgainstCriteriaListWithCardAffinity mapOrder c pf w = some (r, w1) →
      mapsSatisfy groupsNonEmpty w1) ∧
    (∀ mapOrder cur cpl pf required w b w1, mapsSatisfy groupsNonEmpty w →
      FindProperCoupleDevicesFromDifferentCardAffinityMaps mapOrder cur cpl pf required w =
        some (b, w1) → mapsSatisfy groupsNonEmpty w1) ∧
    (∀ mapOrder c pf w b w1, mapsSatisfy groupsNonEmpty w →
      FindDevicesForPfCoupleWithSpecialCapability mapOrder c pf w = some (b, w1) →
      mapsSatisfy groupsNonEmpty w1) ∧
    (∀ mapOrder keys target other ty w b w1, mapsSatisfy groupsNonEmpty w →
      TreatmentOFCardAffinityWithCapabilities mapOrder keys target other ty w = some (b, w1) →
      mapsSatisfy groupsNonEmpty w1) ∧
    (∀ mapOrder g w str w1, mapsSatisfy groupsNonEmpty w →
      CheckDevicesAgainstCriteria mapOrder g w = some (str, w1) →
      mapsSatisfy groupsNonEmpty w1) := by
  refine ⟨groupsNonEmpty_update, groupsNonEmpty_remove, ?_, ?_, ?_, ?_, ?_, ?_⟩
  · intro ty c key pf w r w1 hinv h
    unfold SelectingDeviceFromCardAffinityIndexesSlice at h
    split at h
    · simp at h
    · exact selecting_loop_maps _ groupsNonEmpty_closed ty c key pf _ 0 w r w1 hinv h
  · intro mapOrder c pf w r w1 hinv h
    exact checkWithCardAffinity_maps _ groupsNonEmpty_closed mapOrder c pf w r w1 hinv h
  · intro mapOrder cur cpl pf required w b w1 hinv h
    exact findProperCouple_maps _ groupsNonEmpty_closed mapOrder cur cpl pf required w b w1 hinv h
  · intro mapOrder c pf w b w1 hinv h
    exact findDevicesForPfCouple_maps _ groupsNonEmpty_closed mapOrder c pf w b w1 hinv h
  · intro mapOrder keys target other ty w b w1 hinv h
    exact treatment_loop_maps _ groupsNonEmpty_closed mapOrder target other ty keys w b w1 hinv h
  · intro mapOrder g w str w1 hinv h
    exact pass_maps _ groupsNonEmpty_closed mapOrder g w str w1 hinv h

/-- C13, witness: the steps of `Test_RemoveDeviceIndexFromSlice` (position 0 is
added under a new key and removed again, which deletes the key), and the pass of
the test with the special capabilities, whose final maps hold no empty group. -/
theorem C13_witness_add_remove_and_pass :
    UpdatingCardAffinityMap "0000:cc:00.x" [] [] = [("0000:cc:00.x", ⟨[0], false⟩)] ∧
    groupsNonEmpty (UpdatingCardAffinityMap "0000:cc:00.x" [] []) ∧
    RemoveDeviceIndexFromSlice 0 "0000:cc:00.x" [("0000:cc:00.x", ⟨[0], false⟩)] = some [] ∧
    groupsNonEmpty ([] : GoMap CardAffinityDevicesInfo) ∧
    mapsSatisfy groupsNonEmpty
      ((CheckDevicesAgainstCriteria storageOrder ⟨8, true, true, true⟩
        testWorldSpecialCapabilities).getD ("", testWorld)).2 :=
  ⟨by decide,
    C13_no_empty_group.1 "0000:cc:00.x" [] [] (by decide),
    by decide,
    C13_no_empty_group.2.1 0 "0000:cc:00.x" [("0000:cc:00.x", ⟨[0], false⟩)] [] (by decide)
      (by decide),
    C13_no_empty_group.2.2.2.2.2.2.2 storageOrder ⟨8, true, true, true⟩
      testWorldSpecialCapabilities
      ((CheckDevicesAgainstCriteria storageOrder ⟨8, true, true, true⟩
        testWorldSpecialCapabilities).getD ("", testWorld)).1
      ((CheckDevicesAgainstCriteria storageOrder ⟨8, true, true, true⟩
        testWorldSpecialCapabilities).getD ("", testWorld)).2
      (fun c => by cases c <;> decide) (by decide)⟩

/-- A position returned by `CheckDevicesAgainstSpecificCriteriaList` holds an
acceptable device. -/
theorem returned_acceptable (role : CriteriaList) (devices : List SupDevice) (i : Nat)
    (h : CheckDevicesAgainstSpecificCriteriaList (some role) devices = some (i : Int)) :
    ∃ d, devices[i]? = some d ∧ acceptable role d := by
  rw [check_eq_firstAcceptable] at h
  cases hf : firstAcceptable role devices with
  | none =>
    rw [hf] at h
    simp only [Option.some.injEq] at h
    omega
  | some j =>
    rw [hf] at h
    simp only [Option.some.injEq, Nat.cast_inj] at h
    subst h
    exact firstAcceptable_some role devices j hf

/-- C14, evaluation at the failing input: the role asks for port 0 and at least
100 VFs; of the devices `eth6` (port 1) and `eth10` (port 0) of the test fixture,
which both support 128 VFs, the function returns position 0, the device on port
1. A required port 1 is enforced (of `eth10` and `eth11` the second is returned),
and so is a required NUMA node 0, whose check compares with the sentinel -1. -/
theorem C14_port_zero_not_enforced :
    CheckDevicesAgainstSpecificCriteriaList
        (some { testCriteria 100 "" with SpecificPortNumber := 0 })
        ((REGULAR_DEVICES_SLICE.drop 3).take 2) = some 0 ∧
    ((REGULAR_DEVICES_SLICE.drop 3).take 2).map
        (fun d => (d.InterfaceName, d.SpecificPortNumber)) = [("eth6", 1), ("eth10", 0)] ∧
    CheckDevicesAgainstSpecificCriteriaList
        (some { testCriteria 100 "" with SpecificPortNumber := 1 })
        ((REGULAR_DEVICES_SLICE.drop 4).take 2) = some 1 ∧
    ((REGULAR_DEVICES_SLICE.drop 4).take 2).map
        (fun d => (d.InterfaceName, d.SpecificPortNumber)) = [("eth10", 0), ("eth11", 1)] ∧
    CheckDevicesAgainstSpecificCriteriaList
        (some { testCriteria 64 "" with NUMALocation := 0 }) REGULAR_DEVICES_SLICE = some 2 ∧
    (REGULAR_DEVICES_SLICE.take 3).map (fun d => (d.InterfaceName, d.NUMALocation)) =
      [("eth0", 1), ("eth3", 1), ("eth4", 0)] := by
  decide

/-- C15, counterexample: the role lists the driver `driver2` only, and the
function returns position 0 of the devices of `Test_CheckDevicesAgainstCriteria`:
`eth0`, whose driver is unknown (the empty string) and so not in the list. -/
theorem C15_counterexample_unknown_driver :
    ¬ ∀ (role : CriteriaList) (devices : List SupDevice) (i : Nat) (d : SupDevice),
      CheckDevicesAgainstSpecificCriteriaList (some role) devices = some (i : Int) →
      devices[i]? = some d → role.Driver ≠ [] → d.Driver ∈ role.Driver := by
  intro h
  have := h { testCriteria 0 "" with Driver := ["driver2"] } testDevicesInfoSlice 0
    (mkDev "eth0" "" "1593" "" 0 64 2 (-1) "" false false false (-1) "" false false)
    (by decide) (by decide) (by decide)
  exact absurd this (by decide)

/-- C15, amended. For every role with a non-empty `DeviceId` list, every device
returned by `CheckDevicesAgainstSpecificCriteriaList` has a `DeviceId` that is
empty (unknown) or one of the listed identifiers; likewise its `Driver` is empty
or in the `Driver` list of the role, and its `ConnectorType` is empty or in the
`ConnectorType` list of the role, whenever those lists are non-empty. -/
theorem C15_membership_filters (role : CriteriaList) (devices : List SupDevice) (i : Nat)
    (d : SupDevice)
    (h : CheckDevicesAgainstSpecificCriteriaList (some role) devices = some (i : Int))
    (hd : devices[i]? = some d) :
    (role.DeviceId ≠ [] → d.DeviceId = "" ∨ d.DeviceId ∈ role.DeviceId) ∧
    (role.Driver ≠ [] → d.Driver = "" ∨ d.Driver ∈ role.Driver) ∧
    (role.ConnectorType ≠ [] → d.ConnectorType = "" ∨ d.ConnectorType ∈ role.ConnectorType) := by
  obtain ⟨d1, hd1, _, _, hid, hdr, _, _, _, _, hco, _, _⟩ := returned_acceptable role devices i h
  rw [hd] at hd1
  cases hd1
  refine ⟨fun hne => ?_, fun hne => ?_, fun hne => ?_⟩
  · rcases hid with h1 | h1
    · exact absurd h1 hne
    · exact h1
  · rcases hdr with h1 | h1
    · exact absurd h1 hne
    · exact h1
  · rcases hco with h1 | h1
    · exact absurd h1 hne
    · exact h1

/-- C15, witness: `pf5` of the test lists six device identifiers, the driver
`driver2` and the connector type `SATA`; the function returns position 13,
`eth13`, whose three values are in the lists. -/
theorem C15_witness_pf5_eth13 :
    CheckDevicesAgainstSpecificCriteriaList (some testPf5) testDevicesInfoSlice = some 13 ∧
    (testDevicesInfoSlice[13]?).map (fun d => (d.DeviceId, d.Driver, d.ConnectorType)) =
      some ("0d58", "driver2", "SATA") ∧
    ((testPf5.DeviceId ≠ [] → "0d58" = "" ∨ "0d58" ∈ testPf5.DeviceId) ∧
      (testPf5.Driver ≠ [] → "driver2" = "" ∨ "driver2" ∈ testPf5.Driver) ∧
      (testPf5.ConnectorType ≠ [] → "SATA" = "" ∨ "SATA" ∈ testPf5.ConnectorType)) :=
  ⟨by decide, by decide,
    C15_membership_filters testPf5 testDevicesInfoSlice 13
      (mkDev "eth13" "" "0d58" "driver2" 40000 64 1 0 "SATA" true false false 3 "0000:cc:00.x"
        false false) (by decide) (by decide)⟩

/-- C16, evaluation at the failing input: ten roles `pf1`, ..., `pf10`, each
accepting one device only (`pfk` accepts `ethk`). `sort.Strings` puts `pf10`
before `pf2`, so `pf10` is matched second and the second line of the output is
its device `eth10`, for every enumeration of the map. -/
theorem C16_pf10_matched_before_pf2 :
    sortStrings (mapKeys tenRolesMap) =
      ["pf1", "pf10", "pf2", "pf3", "pf4", "pf5", "pf6", "pf7", "pf8", "pf9"] ∧
    (CheckDevicesAgainstCriteria storageOrder ⟨10, false, false, false⟩ tenRolesWorld).map
        Prod.fst = some "eth1\neth10\neth2\neth3\neth4\neth5\neth6\neth7\neth8\neth9\n" ∧
    (CheckDevicesAgainstCriteria reverseOrder ⟨10, false, false, false⟩ tenRolesWorld).map
        Prod.fst = some "eth1\neth10\neth2\neth3\neth4\neth5\neth6\neth7\neth8\neth9\n" := by
  decide

/-- C18, evaluation at the failing input: the fixture of
`Test_CheckDevicesAgainstCriteriaListWithCardAffinity`, whose map is well formed,
with the roles `pf1`, `pf2`, `pf3`, `pf6` matched in that order. When the keys
are enumerated in storage order every role gets a device (`pf6` gets position
7); when they are enumerated in reverse, `pf3` takes position 8 of the group
`0000:gg:00.x`, whose other device supports 63 VFs only, and `pf6` gets -1.
The whole pass succeeds in the first order and fails in the second. -/
theorem C18_outcome_depends_on_enumeration :
    affinityEntriesWellFormed (testWorld.devices .REGULAR) (testWorld.affinityMap .REGULAR) ∧
    (CheckDevicesAgainstCriteriaListWithCardAffinity storageOrder .REGULAR "pf6"
      (afterCalls storageOrder .REGULAR ["pf1", "pf2", "pf3"] testWorld)).map Prod.fst =
        some 7 ∧
    (CheckDevicesAgainstCriteriaListWithCardAffinity reverseOrder .REGULAR "pf3"
      (afterCalls reverseOrder .REGULAR ["pf1", "pf2"] testWorld)).map Prod.fst = some 8 ∧
    (CheckDevicesAgainstCriteriaListWithCardAffinity reverseOrder .REGULAR "pf6"
      (afterCalls reverseOrder .REGULAR ["pf1", "pf2", "pf3"] testWorld)).map Prod.fst =
        some (-1) ∧
    (CheckDevicesAgainstCriteria storageOrder ⟨4, true, false, false⟩ testWorldFourRoles).map
        Prod.fst = some "eth6\neth10\neth12\neth13\n" ∧
    (CheckDevicesAgainstCriteria reverseOrder ⟨4, true, false, false⟩ testWorldFourRoles).map
        Prod.fst = some "" := by
  decide

theorem mapGet_perm {V : Type} (m1 m2 : GoMap V) (hperm : m1.Perm m2)
    (hnodup : (mapKeys m1).Nodup) (k : String) : mapGet m1 k = mapGet m2 k := by
  induction hperm with
  | nil => rfl
  | cons e _ ih =>
    obtain ⟨k0, v0⟩ := e
    simp only [mapGet]
    split
    · rfl
    · exact ih (List.nodup_cons.mp hnodup).2
  | swap e1 e2 l =>
    obtain ⟨k1, v1⟩ := e1
    obtain ⟨k2, v2⟩ := e2
    simp only [mapGet]
    have hne : k2 ≠ k1 := by
      intro e
      have := (List.nodup_cons.mp hnodup).1
      simp [mapKeys, e] at this
    by_cases h1 : k1 = k
    · have h2 : ¬ k2 = k := fun e => hne (e.trans h1.symm)
      simp [h1, h2]
    · simp [h1]
  | trans h12 _ ih1 ih2 =>
    have hnodup2 := (List.Perm.nodup_iff (List.Perm.map Prod.fst h12)).mp hnodup
    exact (ih1 hnodup).trans (ih2 hnodup2)

theorem sortStrings_congr (l1 l2 : List String) (hperm : l1.Perm l2) :
    sortStrings l1 = sortStrings l2 :=
  List.eq_of_perm_of_sorted (((sortStrings_perm l1).trans hperm).trans (sortStrings_perm l2).symm)
    (sortStrings_sorted l1) (sortStrings_sorted l2)

/-- Without card affinity the loop of `CheckDevicesAgainstCriteria` gives the same
output string and the same devices on two states that hold the same roles and
the same devices, whatever the enumerations. -/
theorem loop_noCardAffinity_congr (mapOrder1 mapOrder2 : Nat → List String → List String)
    (g : Globals) (hAff : g.USE_OF_CARD_AFFINITY_CAPABILITY = false) :
    ∀ (keys : List String) (s : Nat) (out : String) (w w2 : World),
      (∀ k, mapGet w.criteriaListsMap k = mapGet w2.criteriaListsMap k) →
      w.devices = w2.devices →
      (CheckDevicesAgainstCriteria.loop mapOrder1 g keys s out w).map passResult =
        (CheckDevicesAgainstCriteria.loop mapOrder2 g keys s out w2).map passResult := by
  intro keys
  induction keys with
  | nil =>
    intro s out w w2 _ hdev
    simp only [CheckDevicesAgainstCriteria.loop, Option.map_some', passResult, hdev]
  | cons pf rest ih =>
    intro s out w w2 hcr hdev
    rw [CheckDevicesAgainstCriteria.loop, CheckDevicesAgainstCriteria.loop]
    simp only [hAff, Bool.false_eq_true, if_false, ← hcr pf]
    cases hrole : mapGet w.criteriaListsMap pf with
    | none => simp [CheckDevicesAgainstCriteriaListWithNoCardAffinity]
    | some role =>
      rw [noCardAffinity_eq, noCardAffinity_eq, ← hdev]
      cases hf : firstAcceptable role (w.devices (roleCollection role)) with
      | none => simp [passResult, hdev]
      | some i =>
        simp only
        cases hd : (w.devices (roleCollection role))[i]? with
        | none => simp
        | some d =>
          simp only
          have hdev1 : ((w.setDevices (roleCollection role) ((w.devices (roleCollection role)).set i
              { d with CheckedAgainstCriteria := true })).logSelection (roleCollection role)
                i).devices =
            ((w2.setDevices (roleCollection role) ((w.devices (roleCollection role)).set i
              { d with CheckedAgainstCriteria := true })).logSelection (roleCollection role)
                i).devices := by
            rw [devices_logSelection, devices_logSelection, devices_setDevices,
              devices_setDevices, hdev]
          simp only [eq_self_iff_true, if_true]
          split
          · simp only [Option.map_some', passResult, hdev1]
          · apply ih
            · intro k
              rw [criteria_logSelection, criteria_logSelection, criteria_setDevices,
                criteria_setDevices]
              exact hcr k
            · exact hdev1

/-- C17. With card affinity disabled, the result of `CheckDevicesAgainstCriteria`
is determined by the set of (role name, criteria) pairs and the three device
collections alone: two role maps with the same entries, enumerated in any two
orders, give the same output string and the same final devices (flags
included), and the function returns. -/
theorem C17_no_affinity_deterministic (mapOrder1 mapOrder2 : Nat → List String → List String)
    (g : Globals) (w w2 : World)
    (hAff : g.USE_OF_CARD_AFFINITY_CAPABILITY = false)
    (hnodup : (mapKeys w.criteriaListsMap).Nodup)
    (hentries : w2.criteriaListsMap.Perm w.criteriaListsMap)
    (hdevices : w2.devices = w.devices)
    (horder1 : (mapOrder1 w.rangeCount (mapKeys w.criteriaListsMap)).Perm
      (mapKeys w.criteriaListsMap))
    (horder2 : (mapOrder2 w2.rangeCount (mapKeys w2.criteriaListsMap)).Perm
      (mapKeys w2.criteriaListsMap)) :
    (CheckDevicesAgainstCriteria mapOrder1 g w).map passResult =
      (CheckDevicesAgainstCriteria mapOrder2 g w2).map passResult ∧
    ∃ r, CheckDevicesAgainstCriteria mapOrder1 g w = some r := by
  have hkeys : (mapKeys w2.criteriaListsMap).Perm (mapKeys w.criteriaListsMap) :=
    List.Perm.map Prod.fst hentries
  have hsorted : sortStrings (mapOrder2 w2.rangeCount (mapKeys w2.criteriaListsMap)) =
      sortStrings (mapOrder1 w.rangeCount (mapKeys w.criteriaListsMap)) :=
    sortStrings_congr _ _ ((horder2.trans hkeys).trans horder1.symm)
  constructor
  · unfold CheckDevicesAgainstCriteria
    simp only [hAff, Bool.false_eq_true, false_and, if_false, hsorted]
    apply loop_noCardAffinity_congr mapOrder1 mapOrder2 g hAff
    · intro k
      rw [criteria_tick, criteria_tick]
      exact (mapGet_perm _ _ hentries
        ((List.Perm.nodup_iff hkeys).mpr hnodup) k).symm
    · rw [devices_tick, devices_tick, hdevices]
  · unfold CheckDevicesAgainstCriteria
    simp only [hAff, Bool.false_eq_true, false_and, if_false]
    apply loop_noCardAffinity_total mapOrder1 g hAff
    intro k hk
    rw [criteria_tick]
    exact horder1.subset ((sortStrings_mem _ k).mp hk)

/-- C17, witness: the fixture of the tests with eight devices required, once
with the role map stored and enumerated from `pf1` to `pf8`, once stored and
enumerated from `pf8` to `pf1`: the same eight lines and the same devices. -/
theorem C17_witness_two_enumerations :
    (CheckDevicesAgainstCriteria storageOrder ⟨8, false, false, false⟩ testWorld).map Prod.fst =
      some "eth4\neth6\neth0\neth3\neth10\neth11\neth12\neth13\n" ∧
    ((CheckDevicesAgainstCriteria storageOrder ⟨8, false, false, false⟩ testWorld).map passResult =
      (CheckDevicesAgainstCriteria reverseOrder ⟨8, false, false, false⟩
        { testWorld with criteriaListsMap := CRITERIA_LISTS_MAP_WITH_CARD_AFFINITY.reverse }).map
        passResult ∧
      ∃ r, CheckDevicesAgainstCriteria storageOrder ⟨8, false, false, false⟩ testWorld = some r) :=
  ⟨by decide,
    C17_no_affinity_deterministic storageOrder reverseOrder ⟨8, false, false, false⟩ testWorld
      { testWorld with criteriaListsMap := CRITERIA_LISTS_MAP_WITH_CARD_AFFINITY.reverse }
      rfl (by decide) (by decide) rfl (by decide) (by decide)⟩

/-- C19. `CheckDevicesAgainstCriteriaListWithNoCardAffinity` returns false for a
role requiring PTP whenever the PTP collection is empty, and for a role
requiring RRU and not PTP whenever the RRU collection is empty, whatever the
regular collection holds; and whenever it returns false, the output string, the
counter of the successes and the whole state (every device flag included) are
as they were. -/
theorem C19_failure_changes_nothing (g : Globals) (role : CriteriaList) (out : String)
    (s : Nat) (w : World) :
    (role.PTPSupport = true → w.ptpDevicesSlice = [] →
      CheckDevicesAgainstCriteriaListWithNoCardAffinity g (some role) out s w =
        some (false, out, s, w)) ∧
    (role.PTPSupport = false → role.RRUConnection = true → w.rruDevicesSlice = [] →
      CheckDevicesAgainstCriteriaListWithNoCardAffinity g (some role) out s w =
        some (false, out, s, w)) ∧
    (∀ out1 s1 w1, CheckDevicesAgainstCriteriaListWithNoCardAffinity g (some role) out s w =
        some (false, out1, s1, w1) → out1 = out ∧ s1 = s ∧ w1 = w) := by
  refine ⟨?_, ?_, ?_⟩
  · intro hptp hnil
    rw [noCardAffinity_eq]
    have hc : roleCollection role = .PTP_SUPPORT := by simp [roleCollection, hptp]
    have hd : w.devices .PTP_SUPPORT = [] := hnil
    rw [hc, hd]
    rfl
  · intro hptp hrru hnil
    rw [noCardAffinity_eq]
    have hc : roleCollection role = .RRU_CONNECTION := by simp [roleCollection, hptp, hrru]
    have hd : w.devices .RRU_CONNECTION = [] := hnil
    rw [hc, hd]
    rfl
  · intro out1 s1 w1 h
    rw [noCardAffinity_eq] at h
    cases hf : firstAcceptable role (w.devices (roleCollection role)) with
    | none =>
      simp only [hf, Option.some.injEq, Prod.mk.injEq, true_and] at h
      exact ⟨h.1.symm, h.2.1.symm, h.2.2.symm⟩
    | some i =>
      simp only [hf] at h
      cases hd : (w.devices (roleCollection role))[i]? with
      | none => simp [hd] at h
      | some d => simp [hd] at h

/-- C19, witness of the test: `pf8` requiring PTP, then RRU, on the fixture
without its PTP and RRU devices (the ten regular devices are there) returns
false and changes nothing; and `pf8` with a link speed of 70000, which no
device reaches, returns false and leaves the three lines of the output and the
counter 3 as they were. -/
theorem C19_witness_pf8_without_ptp_and_rru :
    CheckDevicesAgainstCriteriaListWithNoCardAffinity ⟨8, false, false, false⟩
        (some { testCriteria 64 "" with PTPSupport := true }) "" 0
        { testWorld with ptpDevicesSlice := [], rruDevicesSlice := [] } =
      some (false, "", 0, { testWorld with ptpDevicesSlice := [], rruDevicesSlice := [] }) ∧
    CheckDevicesAgainstCriteriaListWithNoCardAffinity ⟨8, false, false, false⟩
        (some { testCriteria 64 "" with RRUConnection := true }) "" 0
        { testWorld with ptpDevicesSlice := [], rruDevicesSlice := [] } =
      some (false, "", 0, { testWorld with ptpDevicesSlice := [], rruDevicesSlice := [] }) ∧
    CheckDevicesAgainstCriteriaListWithNoCardAffinity ⟨8, false, false, false⟩
        (some { testCriteria 64 "" with LinkSpeed := 70000 }) "eth2\neth1\neth0\n" 3 testWorld =
      some (false, "eth2\neth1\neth0\n", 3, testWorld) ∧
    ("eth2\neth1\neth0\n" = "eth2\neth1\neth0\n" ∧ 3 = 3 ∧ testWorld = testWorld) :=
  ⟨(C19_failure_changes_nothing ⟨8, false, false, false⟩
      { testCriteria 64 "" with PTPSupport := true } "" 0
      { testWorld with ptpDevicesSlice := [], rruDevicesSlice := [] }).1 (by decide) (by decide),
    (C19_failure_changes_nothing ⟨8, false, false, false⟩
      { testCriteria 64 "" with RRUConnection := true } "" 0
      { testWorld with ptpDevicesSlice := [], rruDevicesSlice := [] }).2.1 (by decide)
      (by decide) (by decide),
    by decide,
    (C19_failure_changes_nothing ⟨8, false, false, false⟩
      { testCriteria 64 "" with LinkSpeed := 70000 } "eth2\neth1\neth0\n" 3 testWorld).2.2
      "eth2\neth1\neth0\n" 3 testWorld (by decide)⟩

theorem utf8Bytes_length (c : Char) : (utf8Bytes c).length = c.utf8Size := by
  have hle : ∀ (n : Nat) (h : n < UInt32.size), (c.val ≤ UInt32.ofNatCore n h) ↔ c.toNat ≤ n :=
    fun _ _ => Iff.rfl
  unfold utf8Bytes Char.utf8Size
  simp only [hle]
  repeat' split
  all_goals first | rfl | (exfalso; omega)

theorem char_eq_of_toNat (c d : Char) (h : c.toNat = d.toNat) : c = d := by
  rw [← Char.ofNat_toNat c, ← Char.ofNat_toNat d, h]

theorem utf8Bytes_ascii (c : Char) (h : c.toNat < 128) : utf8Bytes c = [c.toNat] := by
  unfold utf8Bytes
  rw [if_pos h]

/-- The encoding of a character that is not ASCII ends with two bytes of the
upper half. -/
theorem utf8Bytes_multi (c : Char) (h : ¬ c.toNat < 128) :
    ∃ front b1 b2, utf8Bytes c = front ++ [b1, b2] ∧ 128 ≤ b1 ∧ 128 ≤ b2 ∧
      ∀ b ∈ front, 128 ≤ b := by
  unfold utf8Bytes
  rw [if_neg h]
  split
  · exact ⟨[], _, _, rfl, by omega, by omega, by simp⟩
  · split
    · refine ⟨[_], _, _, rfl, by omega, by omega, ?_⟩
      intro b hb
      simp at hb
      omega
    · refine ⟨[_, _], _, _, rfl, by omega, by omega, ?_⟩
      intro b hb
      simp at hb
      omega

theorem goBytes_append (a b : List Char) : goBytes (a ++ b) = goBytes a ++ goBytes b := by
  induction a with
  | nil => rfl
  | cons c rest ih => simp [goBytes, ih]

theorem mem_utf8Bytes_dot (c : Char) : 46 ∈ utf8Bytes c ↔ c = '.' := by
  by_cases h : c.toNat < 128
  · rw [utf8Bytes_ascii c h]
    constructor
    · intro hm
      apply char_eq_of_toNat
      simp at hm
      rw [← hm]
      rfl
    · intro e
      rw [e]
      decide
  · obtain ⟨front, b1, b2, hb, h1, h2, hf⟩ := utf8Bytes_multi c h
    rw [hb]
    constructor
    · intro hm
      simp at hm
      rcases hm with hm | hm | hm
      · have := hf 46 hm
        omega
      · omega
      · omega
    · intro e
      rw [e] at h
      exact absurd (by decide) h

theorem mem_goBytes_dot (l : List Char) : 46 ∈ goBytes l ↔ '.' ∈ l := by
  induction l with
  | nil => simp [goBytes]
  | cons c rest ih =>
    simp only [goBytes, List.mem_append, List.mem_cons, ih, mem_utf8Bytes_dot]
    constructor
    · rintro (h | h)
      · exact Or.inl h.symm
      · exact Or.inr h
    · rintro (h | h)
      · exact Or.inl h.symm
      · exact Or.inr h

/-- The number of bytes of `goBytes` is the size in bytes of the string. -/
theorem goBytes_length (s : String) : (goBytes s.toList).length = s.utf8ByteSize := by
  cases s with
  | mk data =>
    show (goBytes data).length = String.utf8ByteSize.go data
    induction data with
    | nil => rfl
    | cons c rest ih =>
      show (utf8Bytes c ++ goBytes rest).length = String.utf8ByteSize.go rest + c.utf8Size
      rw [List.length_append, ih, utf8Bytes_length]
      omega

theorem lastIndexFrom_not_mem (sep : Nat) :
    ∀ (l : List Nat) (i : Nat), sep ∉ l → lastIndexFrom sep l i = -1 := by
  intro l
  induction l with
  | nil => intro i _; rfl
  | cons c rest ih =>
    intro i h
    have h1 : ¬ c = sep := fun e => h (by rw [e]; exact List.mem_cons_self _ _)
    have h2 : sep ∉ rest := fun e => h (List.mem_cons_of_mem _ e)
    simp [lastIndexFrom, ih (i + 1) h2, h1]

theorem lastIndexFrom_last (sep : Nat) (post : List Nat) (hpost : sep ∉ post) :
    ∀ (pre : List Nat) (i : Nat),
      lastIndexFrom sep (pre ++ sep :: post) i = ((i + pre.length : Nat) : Int) := by
  intro pre
  induction pre with
  | nil =>
    intro i
    simp [lastIndexFrom, lastIndexFrom_not_mem sep post (i + 1) hpost]
  | cons c rest ih =>
    intro i
    rw [List.cons_append, lastIndexFrom]
    rw [ih (i + 1)]
    have hnn : ((i + 1 + rest.length : Nat) : Int) ≥ 0 := Int.ofNat_nonneg _
    rw [if_pos hnn, List.length_cons]
    congr 1
    omega

/-- The decomposition of a list at the last occurrence of the separator. -/
theorem exists_last_occurrence (sep : Nat) :
    ∀ l : List Nat, sep ∈ l → ∃ pre post, l = pre ++ sep :: post ∧ sep ∉ post := by
  intro l
  induction l with
  | nil => intro h; simp at h
  | cons c rest ih =>
    intro h
    by_cases hr : sep ∈ rest
    · obtain ⟨pre, post, hl, hp⟩ := ih hr
      exact ⟨c :: pre, post, by rw [hl]; rfl, hp⟩
    · have hc : c = sep := by
        rcases List.mem_cons.mp h with h1 | h1
        · exact h1.symm
        · exact absurd h1 hr
      exact ⟨[], rest, by rw [hc]; rfl, hr⟩

/-- The bytes of a list of characters that ends with a character `c`. -/
theorem goBytes_concat (init : List Char) (c : Char) :
    goBytes (init ++ [c]) = goBytes init ++ utf8Bytes c := by
  rw [goBytes_append]
  simp [goBytes]

/-- The last byte of a text is `.` only if its last character is `.`. -/
theorem getLast?_goBytes_dot (l : List Char) (h : (goBytes l).getLast? = some 46) :
    ∃ init, l = init ++ ['.'] := by
  have hne : l ≠ [] := by
    intro e
    rw [e] at h
    simp [goBytes] at h
  refine ⟨l.dropLast, ?_⟩
  have hsplit := List.dropLast_append_getLast hne
  have hb : goBytes l = goBytes l.dropLast ++ utf8Bytes (l.getLast hne) := by
    rw [← goBytes_concat, hsplit]
  by_cases ha : (l.getLast hne).toNat < 128
  · rw [hb, utf8Bytes_ascii _ ha, List.getLast?_concat] at h
    have hc : l.getLast hne = '.' := by
      apply char_eq_of_toNat
      rw [Option.some.inj h]
      rfl
    rw [← hc]
    exact hsplit.symm
  · obtain ⟨front, b1, b2, hm, _, h2, _⟩ := utf8Bytes_multi _ ha
    rw [hb, hm] at h
    have e : goBytes l.dropLast ++ (front ++ [b1, b2]) =
        (goBytes l.dropLast ++ front ++ [b1]) ++ [b2] := by simp
    rw [e, List.getLast?_concat] at h
    have := Option.some.inj h
    omega

/-- A bus address is valid when it has at least 5 bytes and ends with a `.`
followed by one character of one byte other than `.`. -/
theorem validBusInfo_iff (s : String) :
    validBusInfo s ↔ 5 ≤ (goBytes s.toList).length ∧
      ∃ pre c, s.toList = pre ++ ['.', c] ∧ c ≠ '.' ∧ c.toNat < 128 := by
  unfold validBusInfo
  constructor
  · rintro ⟨hlen, hdot, hlast⟩
    refine ⟨hlen, ?_⟩
    have hne : s.toList ≠ [] := by
      intro e
      rw [e] at hlen
      simp [goBytes] at hlen
    have hsplit := List.dropLast_append_getLast hne
    have hb : goBytes s.toList = goBytes s.toList.dropLast ++ utf8Bytes (s.toList.getLast hne) := by
      rw [← goBytes_concat, hsplit]
    by_cases ha : (s.toList.getLast hne).toNat < 128
    · rw [hb, utf8Bytes_ascii _ ha] at hdot hlast
      rw [List.dropLast_concat] at hdot
      rw [List.getLast?_concat] at hlast
      obtain ⟨init, hinit⟩ := getLast?_goBytes_dot _ hdot
      refine ⟨init, s.toList.getLast hne, ?_, ?_, ha⟩
      · calc s.toList = s.toList.dropLast ++ [s.toList.getLast hne] := hsplit.symm
          _ = init ++ ['.', s.toList.getLast hne] := by rw [hinit]; simp
      · intro e
        apply hlast
        rw [e]
        rfl
    · exfalso
      obtain ⟨front, b1, b2, hm, h1, _, _⟩ := utf8Bytes_multi _ ha
      rw [hb, hm] at hdot
      have e : goBytes s.toList.dropLast ++ (front ++ [b1, b2]) =
          (goBytes s.toList.dropLast ++ front ++ [b1]) ++ [b2] := by simp
      rw [e, List.dropLast_concat, List.getLast?_concat] at hdot
      have := Option.some.inj hdot
      omega
  · rintro ⟨hlen, pre, c, hl, hc, ha⟩
    have hb : goBytes s.toList = (goBytes pre ++ [46]) ++ [c.toNat] := by
      rw [hl]
      have e : pre ++ ['.', c] = (pre ++ ['.']) ++ [c] := by simp
      rw [e, goBytes_concat, goBytes_concat, utf8Bytes_ascii c ha]
      rfl
    refine ⟨hlen, ?_, ?_⟩
    · rw [hb, List.dropLast_concat, List.getLast?_concat]
    · rw [hb, List.getLast?_concat]
      intro e
      apply hc
      apply char_eq_of_toNat
      rw [Option.some.inj e]
      rfl

theorem goSliceTo_append (rest : List Char) (k : Nat) :
    ∀ pre : List Char,
      goSliceTo (pre ++ rest) ((goBytes pre).length + k) = pre ++ goSliceTo rest k := by
  intro pre
  induction pre with
  | nil => simp [goBytes]
  | cons c pre ih =>
    have hle : (utf8Bytes c).length ≤ (goBytes (c :: pre)).length + k := by
      simp only [goBytes, List.length_append]
      omega
    have hsub : (goBytes (c :: pre)).length + k - (utf8Bytes c).length =
        (goBytes pre).length + k := by
      simp only [goBytes, List.length_append]
      omega
    rw [List.cons_append, goSliceTo, if_pos hle, hsub, ih]
    rfl

theorem string_mk_append_x (l : List Char) : String.mk l ++ "x" = String.mk (l ++ ['x']) := rfl

theorem getDeviceCardAffinity_valid (s n : String) (h : validBusInfo s) :
    GetDeviceCardAffinity s n = String.mk (s.toList.dropLast ++ ['x']) := by
  obtain ⟨hlen, pre, c, hl, hc, ha⟩ := (validBusInfo_iff s).mp h
  have hcne : c.toNat ≠ 46 := by
    intro e
    apply hc
    apply char_eq_of_toNat
    rw [e]
    rfl
  have hb : goBytes s.toList = goBytes pre ++ 46 :: [c.toNat] := by
    rw [hl]
    have e : pre ++ ['.', c] = (pre ++ ['.']) ++ [c] := by simp
    rw [e, goBytes_concat, goBytes_concat, utf8Bytes_ascii c ha]
    simp
    rfl
  have hidx : lastIndexFrom 46 (goBytes s.toList) 0 = (((goBytes pre).length : Nat) : Int) := by
    rw [hb, lastIndexFrom_last 46 [c.toNat] (by simpa using Ne.symm hcne) (goBytes pre) 0]
    simp
  have hblen : (goBytes s.toList).length = (goBytes pre).length + 2 := by
    rw [hb]
    simp
  have hdrop : s.toList.dropLast = pre ++ ['.'] := by
    rw [hl]
    have : pre ++ ['.', c] = (pre ++ ['.']) ++ [c] := by simp
    rw [this, List.dropLast_concat]
  unfold GetDeviceCardAffinity
  have hcond : ¬ ((goBytes s.toList).length < 5 ∨ (goBytes s.toList).contains 46 = false) := by
    intro hor
    rcases hor with h1 | h1
    · omega
    · rw [hb] at h1
      simp at h1
  rw [if_neg hcond]
  simp only [hidx, hblen]
  have hlen3 : ¬ (((goBytes pre).length + 2 : Nat) : Int) ≠ (((goBytes pre).length : Nat) : Int) + 2 := by
    simp
  rw [if_neg hlen3, string_mk_append_x, hdrop]
  congr 1
  have : ((((goBytes pre).length : Nat) : Int) + 1).toNat = (goBytes pre).length + 1 := by omega
  rw [this, hl, goSliceTo_append]
  congr 1
  have h1 : (utf8Bytes '.').length ≤ 1 := by decide
  have h2 : ¬ (utf8Bytes c).length ≤ 1 - (utf8Bytes '.').length := by
    rw [utf8Bytes_ascii c ha]
    have : (utf8Bytes '.').length = 1 := by decide
    rw [this]
    simp
  rw [goSliceTo, if_pos h1, goSliceTo, if_neg h2]

theorem getDeviceCardAffinity_invalid (s n : String) (h : ¬ validBusInfo s) :
    GetDeviceCardAffinity s n = "" := by
  unfold GetDeviceCardAffinity
  split
  · rfl
  · rename_i hcond
    dsimp only
    split
    · rfl
    · rename_i hlen
      exfalso
      apply h
      have h5 : 5 ≤ (goBytes s.toList).length := by
        by_contra hx
        exact hcond (Or.inl (by omega))
      have hdot : 46 ∈ goBytes s.toList := by
        by_contra hx
        apply hcond
        right
        simpa using hx
      obtain ⟨pre, post, hl, hp⟩ := exists_last_occurrence 46 (goBytes s.toList) hdot
      have hidx := lastIndexFrom_last 46 post hp pre 0
      rw [← hl] at hidx
      rw [hidx] at hlen
      have hslen : (goBytes s.toList).length = pre.length + 1 + post.length := by
        rw [hl]
        simp
        omega
      have hpost : post.length = 1 := by
        have := not_not.mp hlen
        omega
      obtain ⟨b, hb⟩ := List.length_eq_one.mp hpost
      have hl2 : goBytes s.toList = (pre ++ [46]) ++ [b] := by
        rw [hl, hb]
        simp
      refine ⟨h5, ?_, ?_⟩
      · rw [hl2, List.dropLast_concat, List.getLast?_concat]
      · rw [hl2, List.getLast?_concat]
        intro e
        apply hp
        rw [hb, Option.some.inj e]
        exact List.mem_singleton_self _

theorem utf8Bytes_ne_nil (c : Char) : utf8Bytes c ≠ [] := by
  unfold utf8Bytes
  repeat' split
  all_goals simp

theorem goSliceTo_zero (l : List Char) : goSliceTo l 0 = [] := by
  cases l with
  | nil => rfl
  | cons c rest =>
    have h : ¬ (utf8Bytes c).length ≤ 0 := by
      have := List.length_pos.mpr (utf8Bytes_ne_nil c)
      omega
    rw [goSliceTo, if_neg h]

/-- The byte after a byte `.` ends a character: the text of the bytes up to and
including that byte is made of these bytes. -/
theorem goBytes_goSliceTo : ∀ (l : List Char) (i : Nat), (goBytes l)[i]? = some 46 →
    goBytes (goSliceTo l (i + 1)) = (goBytes l).take (i + 1) := by
  intro l
  induction l with
  | nil => intro i h; simp [goBytes] at h
  | cons c rest ih =>
    intro i h
    rw [goBytes] at h ⊢
    by_cases hi : i < (utf8Bytes c).length
    · rw [List.getElem?_append_left hi] at h
      have hmem : 46 ∈ utf8Bytes c := by
        obtain ⟨hlt, hget⟩ := List.getElem?_eq_some.mp h
        rw [← hget]
        exact List.getElem_mem _
      have hc := (mem_utf8Bytes_dot c).mp hmem
      subst hc
      have hb : utf8Bytes '.' = [46] := by decide
      rw [hb] at hi ⊢
      have hi0 : i = 0 := by simpa using hi
      subst hi0
      have h1 : ([46] : List Nat).length ≤ 0 + 1 := by simp
      rw [goSliceTo, hb, if_pos h1]
      simp [goSliceTo_zero, goBytes, hb]
    · have hle : (utf8Bytes c).length ≤ i + 1 := by omega
      rw [List.getElem?_append_right (by omega)] at h
      have hsub : i + 1 - (utf8Bytes c).length = (i - (utf8Bytes c).length) + 1 := by omega
      rw [goSliceTo, if_pos hle, hsub, goBytes, ih _ h, List.take_append_eq_append_take]
      have ht : List.take (i + 1) (utf8Bytes c) = utf8Bytes c :=
        List.take_of_length_le hle
      rw [ht, hsub]

/-- The embedding of `GetDeviceCardAffinity` on texts returns the text of the
bytes that the function computes on the bytes of its argument. -/
theorem getDeviceCardAffinity_bytes (deviceBusInfo networkDeviceInterface : String) :
    goBytes (GetDeviceCardAffinity deviceBusInfo networkDeviceInterface).toList =
      GetDeviceCardAffinityBytes (goBytes deviceBusInfo.toList) := by
  unfold GetDeviceCardAffinity GetDeviceCardAffinityBytes
  split
  · rfl
  · rename_i hcond
    dsimp only
    split
    · rfl
    · have hdot : 46 ∈ goBytes deviceBusInfo.toList := by
        by_contra hx
        apply hcond
        right
        simpa using hx
      obtain ⟨pre, post, hl, hp⟩ := exists_last_occurrence 46 (goBytes deviceBusInfo.toList) hdot
      have hidx := lastIndexFrom_last 46 post hp pre 0
      rw [← hl] at hidx
      rw [hidx]
      have hn : ((((0 + pre.length : Nat) : Int) + 1).toNat) = pre.length + 1 := by omega
      rw [hn, string_mk_append_x]
      show goBytes (goSliceTo deviceBusInfo.toList (pre.length + 1) ++ ['x']) = _
      have hat : (goBytes deviceBusInfo.toList)[pre.length]? = some 46 := by
        rw [hl, List.getElem?_append_right (Nat.le_refl _)]
        simp
      rw [goBytes_append, goBytes_goSliceTo _ _ hat]
      rfl

/-- On the bytes of any Go string, valid UTF-8 or not, `GetDeviceCardAffinity`
returns the bytes with the last one replaced by `x` when the address is valid,
and the empty string otherwise. -/
theorem getDeviceCardAffinityBytes_spec (bytes : List Nat) :
    (validBusInfoBytes bytes → GetDeviceCardAffinityBytes bytes = bytes.dropLast ++ [120]) ∧
    (¬ validBusInfoBytes bytes → GetDeviceCardAffinityBytes bytes = []) := by
  constructor
  · rintro ⟨hlen, hdot, hlast⟩
    have hne : bytes ≠ [] := by
      intro e
      rw [e] at hlen
      simp at hlen
    have hsplit := List.dropLast_append_getLast hne
    have hne2 : bytes.dropLast ≠ [] := by
      intro e
      rw [e] at hdot
      simp at hdot
    have hsplit2 := List.dropLast_append_getLast hne2
    have hd : bytes.dropLast.getLast hne2 = 46 := by
      rw [List.getLast?_eq_getLast _ hne2] at hdot
      exact Option.some.inj hdot
    have hb : bytes.getLast hne ≠ 46 := by
      intro e
      apply hlast
      rw [List.getLast?_eq_getLast _ hne, e]
    rw [hd] at hsplit2
    have hl : bytes = bytes.dropLast.dropLast ++ 46 :: [bytes.getLast hne] := by
      calc bytes = bytes.dropLast ++ [bytes.getLast hne] := hsplit.symm
        _ = (bytes.dropLast.dropLast ++ [46]) ++ [bytes.getLast hne] := by rw [hsplit2]
        _ = bytes.dropLast.dropLast ++ 46 :: [bytes.getLast hne] := by simp
    generalize bytes.dropLast.dropLast = pre at hl hsplit2
    generalize bytes.getLast hne = b at hl hb
    have hidx : lastIndexFrom 46 bytes 0 = ((pre.length : Nat) : Int) := by
      rw [hl, lastIndexFrom_last 46 [b] (by simpa using Ne.symm hb) pre 0]
      simp
    have hblen : bytes.length = pre.length + 2 := by
      rw [hl]
      simp
    unfold GetDeviceCardAffinityBytes
    have hcond : ¬ (bytes.length < 5 ∨ bytes.contains 46 = false) := by
      intro hor
      rcases hor with h1 | h1
      · omega
      · rw [hl] at h1
        simp at h1
    rw [if_neg hcond]
    simp only [hidx, hblen]
    have hlen3 : ¬ ((pre.length + 2 : Nat) : Int) ≠ ((pre.length : Nat) : Int) + 2 := by
      simp
    rw [if_neg hlen3, ← hsplit2]
    congr 1
    have : (((pre.length : Nat) : Int) + 1).toNat = pre.length + 1 := by omega
    have e : pre ++ [46, b] = (pre ++ [46]) ++ [b] := by simp
    rw [this, hl, e]
    exact List.take_left' (by simp)
  · intro h
    unfold GetDeviceCardAffinityBytes
    split
    · rfl
    · rename_i hcond
      dsimp only
      split
      · rfl
      · rename_i hlen
        exfalso
        apply h
        have h5 : 5 ≤ bytes.length := by
          by_contra hx
          exact hcond (Or.inl (by omega))
        have hdot : 46 ∈ bytes := by
          by_contra hx
          apply hcond
          right
          simpa using hx
        obtain ⟨pre, post, hl, hp⟩ := exists_last_occurrence 46 bytes hdot
        have hidx := lastIndexFrom_last 46 post hp pre 0
        rw [← hl] at hidx
        rw [hidx] at hlen
        have hslen : bytes.length = pre.length + 1 + post.length := by
          rw [hl]
          simp
          omega
        have hpost : post.length = 1 := by
          have := not_not.mp hlen
          omega
        obtain ⟨b, hb⟩ := List.length_eq_one.mp hpost
        have hl2 : bytes = (pre ++ [46]) ++ [b] := by
          rw [hl, hb]
          simp
        refine ⟨h5, ?_, ?_⟩
        · rw [hl2, List.dropLast_concat, List.getLast?_concat]
        · rw [hl2, List.getLast?_concat]
          intro e
          apply hp
          rw [hb, Option.some.inj e]
          exact List.mem_singleton_self _

/-- The bytes of a text of ASCII characters are the codes of its characters. -/
theorem goBytes_ascii : ∀ l : List Char, (∀ c ∈ l, c.toNat < 128) →
    goBytes l = l.map Char.toNat := by
  intro l
  induction l with
  | nil => intro _; rfl
  | cons c rest ih =>
    intro h
    rw [goBytes, utf8Bytes_ascii c (h c (List.mem_cons_self _ _)),
      ih (fun d hd => h d (List.mem_cons_of_mem _ hd))]
    rfl

/-- For a bus address of ASCII characters the two units agree. -/
theorem validBusInfo_ascii (s : String) (h : ∀ c ∈ s.toList, c.toNat < 128) :
    validBusInfo s ↔ validBusInfoInCharacters s := by
  unfold validBusInfo validBusInfoInCharacters
  rw [goBytes_ascii _ h]
  have hlen : (s.toList.map Char.toNat).length = s.length := by
    rw [List.length_map]
    rfl
  have hl : ∀ l : List Char, (l.map Char.toNat).getLast? = some 46 ↔ l.getLast? = some '.' := by
    intro l
    rw [List.getLast?_map]
    cases l.getLast? with
    | none => simp
    | some c =>
      simp only [Option.map_some', Option.some.injEq]
      constructor
      · intro e
        apply char_eq_of_toNat
        rw [e]
        rfl
      · intro e
        rw [e]
        rfl
  rw [hlen, ← List.map_dropLast, hl, Ne, hl]

/-- C20. `GetDeviceCardAffinity(bus, _)` returns the bus address with its final
character replaced by `x` exactly when the address has at least 5 characters
and its last `.` is the second-to-last character; for every other input it
returns the empty string. Two valid addresses that differ in the final
character only get the same key. The characters are counted as the source
counts them, with `len` and `strings.LastIndex`: a character is a byte
(`validBusInfo`). For an address of ASCII characters, as a PCI bus address is,
this is the count of the characters of the text (`validBusInfoInCharacters`).
The bytes of the returned text are those that the function computes on the
bytes of the address (`GetDeviceCardAffinityBytes`), and on the bytes of any Go
string, whether they encode a text or not, the function returns the bytes with
the last one replaced by `x` when the address is valid and no byte otherwise. -/
theorem C20_card_affinity_key (deviceBusInfo networkDeviceInterface : String) :
    (validBusInfo deviceBusInfo →
      GetDeviceCardAffinity deviceBusInfo networkDeviceInterface =
        String.mk (deviceBusInfo.toList.dropLast ++ ['x'])) ∧
    (¬ validBusInfo deviceBusInfo →
      GetDeviceCardAffinity deviceBusInfo networkDeviceInterface = "") ∧
    (GetDeviceCardAffinity deviceBusInfo networkDeviceInterface ≠ "" ↔
      validBusInfo deviceBusInfo) ∧
    (∀ other otherInterface : String, validBusInfo deviceBusInfo → validBusInfo other →
      other.toList.dropLast = deviceBusInfo.toList.dropLast →
      GetDeviceCardAffinity other otherInterface =
        GetDeviceCardAffinity deviceBusInfo networkDeviceInterface) ∧
    ((∀ c ∈ deviceBusInfo.toList, c.toNat < 128) →
      (validBusInfo deviceBusInfo ↔ validBusInfoInCharacters deviceBusInfo)) ∧
    goBytes (GetDeviceCardAffinity deviceBusInfo networkDeviceInterface).toList =
      GetDeviceCardAffinityBytes (goBytes deviceBusInfo.toList) ∧
    (∀ bytes : List Nat,
      (validBusInfoBytes bytes → GetDeviceCardAffinityBytes bytes = bytes.dropLast ++ [120]) ∧
      (¬ validBusInfoBytes bytes → GetDeviceCardAffinityBytes bytes = [])) := by
  refine ⟨getDeviceCardAffinity_valid _ _, getDeviceCardAffinity_invalid _ _, ?_, ?_,
    validBusInfo_ascii _, getDeviceCardAffinity_bytes _ _, getDeviceCardAffinityBytes_spec⟩
  · constructor
    · intro hne
      by_contra hv
      exact hne (getDeviceCardAffinity_invalid _ _ hv)
    · intro hv
      rw [getDeviceCardAffinity_valid _ _ hv]
      intro e
      have hdata := congrArg String.data e
      have hlen := congrArg List.length hdata
      rw [List.length_append] at hlen
      exact absurd hlen (by
        show ¬ (deviceBusInfo.toList.dropLast.length + 1 = 0)
        omega)
  · intro other otherInterface hv hv2 hsame
    rw [getDeviceCardAffinity_valid _ _ hv, getDeviceCardAffinity_valid _ _ hv2, hsame]

/-- C20, witnesses of the test: `0000:cc:00.1` gives `0000:cc:00.x`, as does
`0000:cc:00.0`; `Eyal` and `0000:cc:00.1EYAL` give the empty string. The address
`0000:cc:00.1` is made of ASCII characters and is valid in both counts. The
address `é:.1` has 5 bytes, of which the last `.` is the second-to-last, and
gives `é:.x`. The bytes `0:.`, 255, `.1`, which encode no text, give the same
bytes with `x` for the last one. -/
theorem C20_witness_test_addresses :
    GetDeviceCardAffinity "0000:cc:00.1" "eth0" = "0000:cc:00.x" ∧
    GetDeviceCardAffinity "0000:cc:00.0" "eth1" = GetDeviceCardAffinity "0000:cc:00.1" "eth0" ∧
    GetDeviceCardAffinity "Eyal" "eth0" = "" ∧
    GetDeviceCardAffinity "0000:cc:00.1EYAL" "eth0" = "" ∧
    (validBusInfo "0000:cc:00.1" ↔ validBusInfoInCharacters "0000:cc:00.1") ∧
    (goBytes "é:.1".toList = [195, 169, 58, 46, 49] ∧
      GetDeviceCardAffinity "é:.1" "eth0" = "é:.x") ∧
    GetDeviceCardAffinityBytes [48, 58, 46, 255, 46, 49] = [48, 58, 46, 255, 46, 120] :=
  ⟨(C20_card_affinity_key "0000:cc:00.1" "eth0").1 (by decide),
    (C20_card_affinity_key "0000:cc:00.1" "eth0").2.2.2.1 "0000:cc:00.0" "eth1" (by decide)
      (by decide) (by decide),
    (C20_card_affinity_key "Eyal" "eth0").2.1 (by decide),
    (C20_card_affinity_key "0000:cc:00.1EYAL" "eth0").2.1 (by decide),
    (C20_card_affinity_key "0000:cc:00.1" "eth0").2.2.2.2.1 (by decide),
    ⟨by decide, (C20_card_affinity_key "é:.1" "eth0").1 (by decide)⟩,
    ((C20_card_affinity_key "" "").2.2.2.2.2.2 [48, 58, 46, 255, 46, 49]).1 (by decide)⟩

/-- C21. `UpdateOutputString(i, name, out)` with requirement `n`: for every index
`i` with `1 ≤ i ≤ n` the output string becomes its previous value followed by
`name` and a newline; for `i = 0` or `i > n` it becomes empty, whatever it
held. -/
theorem C21_update_output_string (n i : Nat) (name out : String) :
    (1 ≤ i ∧ i ≤ n → UpdateOutputString n i name out = out ++ name ++ "\n") ∧
    (i = 0 ∨ n < i → UpdateOutputString n i name out = "") := by
  constructor
  · rintro ⟨h1, h2⟩
    unfold UpdateOutputString
    rw [if_pos ⟨h1, h2⟩, String.append_assoc]
  · intro h
    unfold UpdateOutputString
    rw [if_neg]
    rintro ⟨h1, h2⟩
    omega

/-- C21, witness of `Test_UpdateOutputString` (requirement 4): the indices 1 to 4
build `eth0\neth1\neth2\neth3\n`, index 5 clears it, and so does index 0. -/
theorem C21_witness_four_devices :
    UpdateOutputString 4 1 "eth0" "" = "eth0\n" ∧
    UpdateOutputString 4 2 "eth1" "eth0\n" = "eth0\neth1\n" ∧
    UpdateOutputString 4 3 "eth2" "eth0\neth1\n" = "eth0\neth1\neth2\n" ∧
    UpdateOutputString 4 4 "eth3" "eth0\neth1\neth2\n" = "eth0\neth1\neth2\neth3\n" ∧
    UpdateOutputString 4 5 "eth4" "eth0\neth1\neth2\neth3\n" = "" ∧
    UpdateOutputString 4 0 "eth4" "eth0\neth1\neth2\neth3\n" = "" :=
  ⟨(C21_update_output_string 4 1 "eth0" "").1 (by decide),
    (C21_update_output_string 4 2 "eth1" "eth0\n").1 (by decide),
    (C21_update_output_string 4 3 "eth2" "eth0\neth1\n").1 (by decide),
    (C21_update_output_string 4 4 "eth3" "eth0\neth1\neth2\n").1 (by decide),
    (C21_update_output_string 4 5 "eth4" "eth0\neth1\neth2\neth3\n").2 (by decide),
    (C21_update_output_string 4 0 "eth4" "eth0\neth1\neth2\neth3\n").2 (by decide)⟩

/-- Removing by swapping with the last element: the slice that is left is the
old one without the element at `idx`, up to the order. -/
theorem swapRemove_perm (l : List Nat) (idx last : Nat) (hidx : idx < l.length)
    (hl : l.getLast? = some last) :
    ((l.set idx last).dropLast).Perm (l.eraseIdx idx) ∧
      ((l.set idx last).dropLast).length + 1 = l.length ∧
      (∀ j, j ≠ idx → j + 1 < l.length → ((l.set idx last).dropLast)[j]? = l[j]?) ∧
      (idx + 1 < l.length → ((l.set idx last).dropLast)[idx]? = some last) := by
  obtain ⟨init, rfl⟩ := List.getLast?_eq_some_iff.mp hl
  rw [List.length_append, List.length_singleton] at hidx
  by_cases hlt : idx < init.length
  · rw [List.set_append_left _ _ hlt, List.dropLast_concat,
      List.eraseIdx_append_of_lt_length hlt]
    refine ⟨?_, by simp, ?_, ?_⟩
    · obtain ⟨a, x, b, rfl, rfl⟩ : ∃ a x b, init = a ++ x :: b ∧ idx = a.length := by
        refine ⟨init.take idx, init[idx], init.drop (idx + 1), ?_, ?_⟩
        · rw [← List.drop_eq_getElem_cons hlt, List.take_append_drop]
        · rw [List.length_take]
          omega
      rw [List.set_append_right _ _ (le_refl _), Nat.sub_self, List.set_cons_zero,
        List.eraseIdx_append_of_length_le (le_refl _), Nat.sub_self, List.eraseIdx_cons_zero,
        List.append_assoc]
      exact List.Perm.append_left a (List.perm_append_singleton last b).symm
    · intro j hj hjl
      rw [List.length_append, List.length_singleton] at hjl
      rw [List.getElem?_set_ne (fun e => hj e.symm), List.getElem?_append_left (by omega)]
    · intro _
      rw [List.getElem?_set_self hlt]
  · have he : idx = init.length := by omega
    subst he
    rw [List.set_append_right _ _ (le_refl _), Nat.sub_self, List.set_cons_zero,
      List.dropLast_concat, List.eraseIdx_append_of_length_le (le_refl _), Nat.sub_self,
      List.eraseIdx_cons_zero, List.append_nil]
    refine ⟨List.Perm.refl _, by simp, ?_, ?_⟩
    · intro j _ hjl
      rw [List.length_append, List.length_singleton] at hjl
      rw [List.getElem?_append_left (by omega)]
    · intro h
      rw [List.length_append, List.length_singleton] at h
      omega

/-- What `RemoveDeviceIndexFromSlice` does at a position of a group that is
present: it returns, the group loses the element at the position, whose place
the last element takes, and is deleted when nothing is left; the other groups
and the flag of the group stay. -/
theorem remove_at_position (pos : Nat) (key : String)
    (m : GoMap CardAffinityDevicesInfo) (info : CardAffinityDevicesInfo)
    (hkeys : (mapKeys m).Nodup) (hget : mapGet m key = some info)
    (hpos : pos < info.DevicesIndexesSlice.length) :
    ∃ m1, RemoveDeviceIndexFromSlice pos key m = some m1 ∧
      (∀ k, k ≠ key → mapGet m1 k = mapGet m k) ∧
      (mapGet m1 key = none ↔ info.DevicesIndexesSlice.length = 1) ∧
      (info.DevicesIndexesSlice.length ≠ 1 →
        ∃ info1, mapGet m1 key = some info1 ∧
          info1.ChosenDeviceHasNoCardAffinity = info.ChosenDeviceHasNoCardAffinity ∧
          info1.DevicesIndexesSlice.Perm (info.DevicesIndexesSlice.eraseIdx pos) ∧
          info1.DevicesIndexesSlice.length + 1 = info.DevicesIndexesSlice.length ∧
          (∀ j, j ≠ pos → j + 1 < info.DevicesIndexesSlice.length →
            info1.DevicesIndexesSlice[j]? = info.DevicesIndexesSlice[j]?) ∧
          (pos + 1 < info.DevicesIndexesSlice.length →
            info1.DevicesIndexesSlice[pos]? = info.DevicesIndexesSlice.getLast?)) := by
  have hne : info.DevicesIndexesSlice ≠ [] := by
    intro e
    rw [e] at hpos
    exact absurd hpos (by simp)
  obtain ⟨last, hlast⟩ : ∃ last, info.DevicesIndexesSlice.getLast? = some last :=
    ⟨info.DevicesIndexesSlice.getLast hne, List.getLast?_eq_getLast _ hne⟩
  obtain ⟨hperm, hlen, hkeep, hmoved⟩ := swapRemove_perm info.DevicesIndexesSlice pos last hpos hlast
  unfold RemoveDeviceIndexFromSlice
  simp only [hget, hlast, hpos, if_true]
  by_cases hone : info.DevicesIndexesSlice.length = 1
  · have hempty : ((info.DevicesIndexesSlice.set pos last).dropLast).length = 0 := by omega
    rw [if_pos hempty]
    refine ⟨_, rfl, fun k hk => mapGet_mapDelete_ne m key k (fun e => hk e.symm), ?_, ?_⟩
    · exact ⟨fun _ => hone, fun _ => mapGet_mapDelete_self m key hkeys⟩
    · intro h
      exact absurd hone h
  · have hempty : ¬ ((info.DevicesIndexesSlice.set pos last).dropLast).length = 0 := by omega
    rw [if_neg hempty]
    refine ⟨_, rfl, fun k hk => mapGet_mapSet_ne m key k _ (fun e => hk e.symm), ?_, ?_⟩
    · constructor
      · intro hn
        rw [mapGet_mapSet_self m key _ info hget] at hn
        exact absurd hn (by simp)
      · intro h
        exact absurd h hone
    · intro _
      refine ⟨_, mapGet_mapSet_self m key _ info hget, rfl, hperm, hlen, hkeep, ?_⟩
      intro h
      exact hmoved h

/-- C30. `RemoveDeviceIndexFromSlice(pos, key, map)`, for `key` present and `pos`
smaller than the length of the group, returns and leaves the group `key` holding
exactly the previous positions minus the one that stood at `pos` (the last
element takes its place, the other elements stay where they were, the length
drops by one), deletes `key` if and only if that was the only position, and
changes neither another group nor the flag `ChosenDeviceHasNoCardAffinity` of
the group. -/
theorem C30_remove_device_index (pos : Nat) (key : String)
    (m : GoMap CardAffinityDevicesInfo) (info : CardAffinityDevicesInfo)
    (hkeys : (mapKeys m).Nodup) (hget : mapGet m key = some info)
    (hpos : pos < info.DevicesIndexesSlice.length) :
    ∃ m1, RemoveDeviceIndexFromSlice pos key m = some m1 ∧
      (∀ k, k ≠ key → mapGet m1 k = mapGet m k) ∧
      (mapGet m1 key = none ↔ info.DevicesIndexesSlice.length = 1) ∧
      (info.DevicesIndexesSlice.length ≠ 1 →
        ∃ info1, mapGet m1 key = some info1 ∧
          info1.ChosenDeviceHasNoCardAffinity = info.ChosenDeviceHasNoCardAffinity ∧
          info1.DevicesIndexesSlice.Perm (info.DevicesIndexesSlice.eraseIdx pos) ∧
          info1.DevicesIndexesSlice.length + 1 = info.DevicesIndexesSlice.length ∧
          (∀ j, j ≠ pos → j + 1 < info.DevicesIndexesSlice.length →
            info1.DevicesIndexesSlice[j]? = info.DevicesIndexesSlice[j]?) ∧
          (pos + 1 < info.DevicesIndexesSlice.length →
            info1.DevicesIndexesSlice[pos]? = info.DevicesIndexesSlice.getLast?)) := by
  obtain ⟨m1, hm1, hother, hnone, hsome⟩ := remove_at_position pos key m info hkeys hget hpos
  exact ⟨m1, hm1, hother, hnone, hsome⟩

/-- C30, witness: `Test_RemoveDeviceIndexFromSlice` (the only position of
`0000:cc:00.x` is removed and the key deleted), and the removal of position 0 of
the group `0000:b1:00.x` of the fixture, which holds the positions 1 and 3: the
group is left with position 3 and the other groups are as they were. -/
theorem C30_witness_last_position_and_swap :
    RemoveDeviceIndexFromSlice 0 "0000:cc:00.x" [("0000:cc:00.x", ⟨[0], false⟩)] = some [] ∧
    RemoveDeviceIndexFromSlice 0 "0000:b1:00.x" testCardAffinityMap =
      some [ ("0000:cc:00.x", ⟨[0], false⟩), ("0000:31:00.x", ⟨[2], false⟩),
        ("0000:b1:00.x", ⟨[3], false⟩), ("0000:ee:00.x", ⟨[4, 5], false⟩),
        ("0000:ff:00.x", ⟨[6, 7], false⟩), ("0000:gg:00.x", ⟨[8, 9], false⟩) ] ∧
    ∃ m1, RemoveDeviceIndexFromSlice 0 "0000:b1:00.x" testCardAffinityMap = some m1 ∧
      (∀ k, k ≠ "0000:b1:00.x" → mapGet m1 k = mapGet testCardAffinityMap k) ∧
      (mapGet m1 "0000:b1:00.x" = none ↔ [1, 3].length = 1) ∧
      ([1, 3].length ≠ 1 →
        ∃ info1 : CardAffinityDevicesInfo, mapGet m1 "0000:b1:00.x" = some info1 ∧
          info1.ChosenDeviceHasNoCardAffinity = false ∧
          info1.DevicesIndexesSlice.Perm ([1, 3].eraseIdx 0) ∧
          info1.DevicesIndexesSlice.length + 1 = [1, 3].length ∧
          (∀ j, j ≠ 0 → j + 1 < [1, 3].length → info1.DevicesIndexesSlice[j]? = [1, 3][j]?) ∧
          (0 + 1 < [1, 3].length → info1.DevicesIndexesSlice[0]? = [1, 3].getLast?)) :=
  ⟨by decide, by decide,
    C30_remove_device_index 0 "0000:b1:00.x" testCardAffinityMap ⟨[1, 3], false⟩ (by decide)
      (by decide) (by decide)⟩

/-- The loop of lines 557-559 flags the devices of the group and no other. -/
theorem markCardAffinityCouples_spec : ∀ (l : List Nat) (devices devices1 : List SupDevice),
    markCardAffinityCouples l devices = some devices1 →
    devices1.length = devices.length ∧
    ∀ x, devices1[x]? = (devices[x]?).map
      (fun d => if x ∈ l then { d with IsCardAffinityCouple := true } else d) := by
  intro l
  induction l with
  | nil =>
    intro devices devices1 h
    simp only [markCardAffinityCouples, Option.some.injEq] at h
    subst h
    refine ⟨rfl, fun x => ?_⟩
    cases devices[x]? <;> simp
  | cons i rest ih =>
    intro devices devices1 h
    rw [markCardAffinityCouples] at h
    split at h
    · simp at h
    · rename_i d1 hd1
      unfold modifyDevice at hd1
      split at hd1
      · simp at hd1
      · rename_i d hd
        simp only [Option.some.injEq] at hd1
        subst hd1
        obtain ⟨hlen, hget⟩ := ih _ _ h
        refine ⟨by rw [hlen, List.length_set], fun x => ?_⟩
        rw [hget x]
        by_cases hx : x = i
        · subst hx
          rw [List.getElem?_set_self (List.getElem?_eq_some_iff.mp hd).1, hd]
          simp only [Option.map_some', List.mem_cons, true_or, if_true]
          split <;> rfl
        · rw [List.getElem?_set_ne (fun e => hx e.symm)]
          cases devices[x]? with
          | none => rfl
          | some dx =>
            simp only [Option.map_some', List.mem_cons, hx, false_or]

/-- A selection of a type other than `CURRENT_PF_BIGGER_THAN_COUPLED` that
succeeds is the step of the loop at one position of the group, taken in the
state the loop started in; the positions before it were rejected. -/
theorem selecting_loop_found (ty : CardAffinityPfCoupleType)
    (hty : ty ≠ .CURRENT_PF_BIGGER_THAN_COUPLED) (c : DeviceCapabilityType)
    (key pf : String) :
    ∀ (rest : List Nat) (idx : Nat) (w : World) (r : Int) (w1 : World),
      SelectingDeviceFromCardAffinityIndexesSlice.loop ty c key pf rest idx w = some (r, w1) →
      0 ≤ r →
      ∃ j p, rest[j]? = some p ∧
        SelectingDeviceFromCardAffinityIndexesSlice.loop ty c key pf [p] (idx + j) w =
          some (r, w1) ∧
        ∀ j2 p2, j2 < j → rest[j2]? = some p2 →
          SelectingDeviceFromCardAffinityIndexesSlice.loop ty c key pf [p2] (idx + j2) w =
            some (-1, w) := by
  intro rest
  induction rest with
  | nil =>
    intro idx w r w1 h hr
    simp only [SelectingDeviceFromCardAffinityIndexesSlice.loop, Option.some.injEq,
      Prod.mk.injEq] at h
    omega
  | cons p rest ih =>
    intro idx w r w1 h hr
    have hstep : ∀ (tail : List Nat),
        SelectingDeviceFromCardAffinityIndexesSlice.loop ty c key pf (p :: tail) idx w =
          match (w.devices c)[p]? with
          | none => none
          | some device =>
            match CheckDevicesAgainstSpecificCriteriaList (mapGet w.criteriaListsMap pf)
                [device] with
            | none => none
            | some res =>
              if res = 0 then
                SelectingDeviceFromCardAffinityIndexesSlice.loop ty c key pf [p] idx w
              else
                SelectingDeviceFromCardAffinityIndexesSlice.loop ty c key pf tail (idx + 1) w := by
      intro tail
      rw [SelectingDeviceFromCardAffinityIndexesSlice.loop]
      simp only [if_neg hty]
      cases hdev : (w.devices c)[p]? with
      | none => rfl
      | some device =>
        simp only []
        cases hres : CheckDevicesAgainstSpecificCriteriaList (mapGet w.criteriaListsMap pf)
            [device] with
        | none => rfl
        | some res =>
          simp only []
          by_cases h0 : res = 0
          · rw [if_pos h0, if_pos h0, SelectingDeviceFromCardAffinityIndexesSlice.loop]
            simp only [if_neg hty, hdev, hres, if_pos h0]
          · rw [if_neg h0, if_neg h0]
    rw [hstep rest] at h
    cases hdev : (w.devices c)[p]? with
    | none => simp [hdev] at h
    | some device =>
      simp only [hdev] at h
      cases hres : CheckDevicesAgainstSpecificCriteriaList (mapGet w.criteriaListsMap pf)
          [device] with
      | none => simp [hres] at h
      | some res =>
        simp only [hres] at h
        by_cases h0 : res = 0
        · rw [if_pos h0] at h
          refine ⟨0, p, by simp, h, ?_⟩
          intro j2 p2 hj
          omega
        · rw [if_neg h0] at h
          obtain ⟨j, q, hq, hrun, hbefore⟩ := ih (idx + 1) w r w1 h hr
          refine ⟨j + 1, q, by simpa using hq, ?_, ?_⟩
          · rw [← hrun]
            congr 1
            omega
          · intro j2 p2 hj hp2
            cases j2 with
            | zero =>
              simp only [List.getElem?_cons_zero, Option.some.injEq] at hp2
              subst hp2
              rw [Nat.add_zero, hstep []]
              simp only [hdev, hres, if_neg h0,
                SelectingDeviceFromCardAffinityIndexesSlice.loop]
            | succ j3 =>
              have := hbefore j3 p2 (by omega) (by simpa using hp2)
              rw [← this]
              congr 1
              omega

/-- The step of the loop of `SelectingDeviceFromCardAffinityIndexesSlice` of
type `CURRENT_PF_SMALLER_THAN_COUPLED` that selects the device at position `p`:
what it reads and what it writes. -/
theorem selecting_single_smaller (c : DeviceCapabilityType) (key pf : String) (p i : Nat)
    (w : World) (r : Int) (w1 : World)
    (h : SelectingDeviceFromCardAffinityIndexesSlice.loop .CURRENT_PF_SMALLER_THAN_COUPLED c
      key pf [p] i w = some (r, w1)) (hr : 0 ≤ r) :
    ∃ (d : SupDevice) (role partner : CriteriaList) (info : CardAffinityDevicesInfo)
      (devices1 : List SupDevice) (m1 : GoMap CardAffinityDevicesInfo),
      r = (p : Int) ∧ (w.devices c)[p]? = some d ∧ mapGet w.criteriaListsMap pf = some role ∧
      acceptable role d ∧
      mapGet w.criteriaListsMap role.CardAffinityPfCouple = some partner ∧
      mapGet (w.affinityMap c) key = some info ∧
      markCardAffinityCouples info.DevicesIndexesSlice (w.devices c) = some devices1 ∧
      RemoveDeviceIndexFromSlice i key (w.affinityMap c) = some m1 ∧
      w1.criteriaListsMap = mapSet w.criteriaListsMap role.CardAffinityPfCouple
        { partner with CardAffinity := d.CardAffinity } ∧
      w1.devices c = devices1 ∧ (∀ c2, c2 ≠ c → w1.devices c2 = w.devices c2) ∧
      w1.affinityMap c = m1 ∧ (∀ c2, c2 ≠ c → w1.affinityMap c2 = w.affinityMap c2) := by
  rw [SelectingDeviceFromCardAffinityIndexesSlice.loop] at h
  simp only [if_neg (show CardAffinityPfCoupleType.CURRENT_PF_SMALLER_THAN_COUPLED ≠
    .CURRENT_PF_BIGGER_THAN_COUPLED by decide)] at h
  split at h
  · simp at h
  · rename_i device hdev
    split at h
    · simp at h
    · rename_i res hres
      split at h
      · rename_i h0
        subst h0
        obtain ⟨role0, hrole0, hacc⟩ := check_single_zero _ _ hres
        split at h
        · simp at h
        · rename_i criteriaList hcl
          rw [hcl] at hrole0
          cases hrole0
          split at h
          · simp at h
          · rename_i wb hwb
            obtain ⟨coupled, hcoupled, hbcr, hbdev, hbmap, _, _⟩ :=
              modifyCriteria_proj _ _ _ _ hwb
            split at h
            · simp at h
            · rename_i info2 hinfo2
              split at h
              · simp at h
              · rename_i devices hdevices
                split at h
                · simp at h
                · rename_i wc hwc
                  obtain ⟨m1, hm1, hcmap, hcmap2, hcdev, hccr, _, _⟩ :=
                    removeDeviceIndex_proj _ _ _ _ _ hwc
                  rw [affinityMap_setDevices, hbmap] at hm1
                  rw [hbmap] at hinfo2
                  rw [hbdev] at hdevices
                  simp only [Option.some.injEq, Prod.mk.injEq] at h
                  obtain ⟨rfl, rfl⟩ := h
                  refine ⟨device, role0, coupled, info2, devices, m1, rfl, hdev, hcl, hacc,
                    hcoupled, hinfo2, hdevices, hm1, ?_, ?_, ?_, ?_, ?_⟩
                  · rw [criteria_logSelection, hccr, criteria_setDevices, hbcr]
                  · rw [devices_logSelection, hcdev, devices_setDevices_self]
                  · intro c2 h2
                    rw [devices_logSelection, hcdev, devices_setDevices_ne _ _ _ _ h2, hbdev]
                  · rw [affinityMap_logSelection, hcmap]
                  · intro c2 h2
                    rw [affinityMap_logSelection, hcmap2 c2 h2, affinityMap_setDevices, hbmap]
      · simp only [SelectingDeviceFromCardAffinityIndexesSlice.loop, Option.some.injEq,
          Prod.mk.injEq] at h
        omega

/-- The loop of lines 557-559 faults unless every position of the group is a
position of the slice. -/
theorem markCardAffinityCouples_valid : ∀ (l : List Nat) (ds ds1 : List SupDevice),
    markCardAffinityCouples l ds = some ds1 → ∀ y ∈ l, y < ds.length := by
  intro l
  induction l with
  | nil => intro _ _ _ y hy; simp at hy
  | cons a rest ih =>
    intro ds ds1 hm y hy
    rw [markCardAffinityCouples] at hm
    split at hm
    · simp at hm
    · rename_i ds2 hds2
      unfold modifyDevice at hds2
      split at hds2
      · simp at hds2
      · rename_i da hda
        simp only [Option.some.injEq] at hds2
        subst hds2
        rcases List.mem_cons.mp hy with e | e
        · rw [e]
          exact (List.getElem?_eq_some_iff.mp hda).1
        · have := ih _ _ hm y e
          rwa [List.length_set] at this

/-- C25. When `SelectingDeviceFromCardAffinityIndexesSlice` succeeds with the type
`CURRENT_PF_SMALLER_THAN_COUPLED` on the group `key`, the returned position `p`
is a position of the group that holds an acceptable device `d`, and afterwards:
the criteria list of the coupled PF has the card affinity of `d` and no other
criteria list has changed; every device whose position was in the group is
flagged `IsCardAffinityCouple` and no device has changed otherwise; the group
holds its previous positions without `p` (it is deleted when `p` was alone) and
keeps its flag; no other group and no other map has changed. -/
theorem C25_selection_for_smaller_role (c : DeviceCapabilityType) (key pf : String)
    (w : World) (r : Int) (w1 : World) (info : CardAffinityDevicesInfo)
    (hkeys : (mapKeys (w.affinityMap c)).Nodup)
    (hget : mapGet (w.affinityMap c) key = some info)
    (h : SelectingDeviceFromCardAffinityIndexesSlice .CURRENT_PF_SMALLER_THAN_COUPLED c key pf w =
      some (r, w1))
    (hr : 0 ≤ r) :
    ∃ (j p : Nat) (d : SupDevice) (role partner : CriteriaList),
      r = (p : Int) ∧ info.DevicesIndexesSlice[j]? = some p ∧ (w.devices c)[p]? = some d ∧
      mapGet w.criteriaListsMap pf = some role ∧ acceptable role d ∧
      mapGet w.criteriaListsMap role.CardAffinityPfCouple = some partner ∧
      mapGet w1.criteriaListsMap role.CardAffinityPfCouple =
        some { partner with CardAffinity := d.CardAffinity } ∧
      (∀ k, k ≠ role.CardAffinityPfCouple →
        mapGet w1.criteriaListsMap k = mapGet w.criteriaListsMap k) ∧
      (∀ x, x ∈ info.DevicesIndexesSlice → ∃ dx, (w.devices c)[x]? = some dx ∧
        (w1.devices c)[x]? = some { dx with IsCardAffinityCouple := true }) ∧
      (∀ x, x ∉ info.DevicesIndexesSlice → (w1.devices c)[x]? = (w.devices c)[x]?) ∧
      (∀ c2, c2 ≠ c → w1.devices c2 = w.devices c2) ∧
      (∀ k, k ≠ key → mapGet (w1.affinityMap c) k = mapGet (w.affinityMap c) k) ∧
      (mapGet (w1.affinityMap c) key = none ↔ info.DevicesIndexesSlice.length = 1) ∧
      (info.DevicesIndexesSlice.length ≠ 1 →
        ∃ info1, mapGet (w1.affinityMap c) key = some info1 ∧
          info1.ChosenDeviceHasNoCardAffinity = info.ChosenDeviceHasNoCardAffinity ∧
          info1.DevicesIndexesSlice.Perm (info.DevicesIndexesSlice.eraseIdx j)) ∧
      (∀ c2, c2 ≠ c → w1.affinityMap c2 = w.affinityMap c2) := by
  unfold SelectingDeviceFromCardAffinityIndexesSlice at h
  rw [hget] at h
  obtain ⟨j, p, hj, hrun, _⟩ := selecting_loop_found _ (by decide) c key pf _ 0 w r w1 h hr
  rw [Nat.zero_add] at hrun
  obtain ⟨d, role, partner, info2, devices1, m1, hrp, hd, hrole, hacc, hpartner, hinfo2, hmark,
    hrem, hcr, hdev, hdev2, hmap, hmap2⟩ := selecting_single_smaller c key pf p j w r w1 hrun hr
  rw [hget] at hinfo2
  cases hinfo2
  obtain ⟨hlen, hflag⟩ := markCardAffinityCouples_spec _ _ _ hmark
  have hjlt : j < info.DevicesIndexesSlice.length := (List.getElem?_eq_some_iff.mp hj).1
  obtain ⟨m2, hm2, hother, hnone, hsome⟩ := remove_at_position j key _ info hkeys hget hjlt
  rw [hrem] at hm2
  cases hm2
  refine ⟨j, p, d, role, partner, hrp, hj, hd, hrole, hacc, hpartner, ?_, ?_, ?_, ?_, hdev2, ?_,
    ?_, ?_, hmap2⟩
  · rw [hcr]
    exact mapGet_mapSet_self _ _ _ _ hpartner
  · intro k hk
    rw [hcr]
    exact mapGet_mapSet_ne _ _ _ _ (Ne.symm hk)
  · intro x hx
    have hlt := markCardAffinityCouples_valid _ _ _ hmark x hx
    have hdx : (w.devices c)[x]? = some ((w.devices c)[x]) := List.getElem?_eq_getElem hlt
    refine ⟨_, hdx, ?_⟩
    rw [hdev, hflag x, hdx]
    simp only [Option.map_some', if_pos hx]
  · intro x hx
    rw [hdev, hflag x]
    simp only [if_neg hx]
    cases (w.devices c)[x]? <;> rfl
  · intro k hk
    rw [hmap]
    exact hother k hk
  · rw [hmap]
    exact hnone
  · intro hne
    obtain ⟨info1, h1, h2, h3, _⟩ := hsome hne
    exact ⟨info1, by rw [hmap]; exact h1, h2, h3⟩

/-- C25, witness of `Test_SelectingDeviceFromCardAffinityIndexesSlice`: `pf3`
(coupled PF `pf6`) on the group `0000:ff:00.x`, which holds the positions 6 and
7, returns 6, stores `0000:ff:00.x` in the criteria list of `pf6`, flags the
devices at 6 and 7 and leaves the group with position 7. -/
theorem C25_witness_pf3_group_ff :
    (SelectingDeviceFromCardAffinityIndexesSlice .CURRENT_PF_SMALLER_THAN_COUPLED .REGULAR
        "0000:ff:00.x" "pf3" testWorld).map
      (fun r => (r.1, (mapGet r.2.criteriaListsMap "pf6").map (fun cl => cl.CardAffinity),
        mapGet (r.2.affinityMap .REGULAR) "0000:ff:00.x",
        ((r.2.devices .REGULAR)[6]?).map (fun d => d.IsCardAffinityCouple),
        ((r.2.devices .REGULAR)[7]?).map (fun d => d.IsCardAffinityCouple))) =
      some (6, some "0000:ff:00.x", some ⟨[7], false⟩, some true, some true) ∧
    ∃ (j p : Nat) (d : SupDevice), (6 : Int) = (p : Int) ∧
      [6, 7][j]? = some p ∧ (testWorld.devices .REGULAR)[p]? = some d ∧
      acceptable (testCriteria 64 "pf6") d := by
  refine ⟨by decide, ?_⟩
  obtain ⟨j, p, d, role, partner, h1, h2, h3, h4, h5, _⟩ :=
    C25_selection_for_smaller_role .REGULAR "0000:ff:00.x" "pf3" testWorld 6
      ((SelectingDeviceFromCardAffinityIndexesSlice .CURRENT_PF_SMALLER_THAN_COUPLED .REGULAR
        "0000:ff:00.x" "pf3" testWorld).getD (0, testWorld)).2 ⟨[6, 7], false⟩
      (by decide) (by decide) (by decide) (by decide)
  have hrole : role = testCriteria 64 "pf6" := by
    have : mapGet testWorld.criteriaListsMap "pf3" = some (testCriteria 64 "pf6") := by decide
    rw [this] at h4
    exact (Option.some.inj h4).symm
  rw [hrole] at h5
  exact ⟨j, p, d, h1, h2, h3, h5⟩

/-- The loop of `SelectingDeviceFromCardAffinityIndexesSlice` of type
`CURRENT_PF_BIGGER_THAN_COUPLED`: the device it returns is flagged
`IsCardAffinityCouple` when the loop ends (line 564). -/
theorem selecting_loop_bigger_flag (c : DeviceCapabilityType) (key pf : String) :
    ∀ (rest : List Nat) (idx : Nat) (w : World) (r : Int) (w1 : World),
      SelectingDeviceFromCardAffinityIndexesSlice.loop .CURRENT_PF_BIGGER_THAN_COUPLED c key pf
        rest idx w = some (r, w1) →
      0 ≤ r →
      ∃ (p : Nat) (d : SupDevice), r = (p : Int) ∧ p ∈ rest ∧ (w1.devices c)[p]? = some d ∧
        d.IsCardAffinityCouple = true := by
  intro rest
  induction rest with
  | nil =>
    intro idx w r w1 h hr
    simp only [SelectingDeviceFromCardAffinityIndexesSlice.loop, Option.some.injEq,
      Prod.mk.injEq] at h
    omega
  | cons p rest ih =>
    intro idx w r w1 h hr
    rw [SelectingDeviceFromCardAffinityIndexesSlice.loop] at h
    simp only [if_true] at h
    split at h
    · simp at h
    · rename_i wa hwa
      split at h
      · simp at h
      · rename_i device hdev
        split at h
        · simp at h
        · rename_i res hres
          split at h
          · split at h
            · simp at h
            · rename_i wb hwb
              obtain ⟨d0, hd0, hbdev, _⟩ := modifyDevice_proj _ _ _ _ _ hwb
              split at h
              · simp at h
              · rename_i wc hwc
                obtain ⟨m1, _, _, _, hcdev, _⟩ := removeDeviceIndex_proj _ _ _ _ _ hwc
                simp only [Option.some.injEq, Prod.mk.injEq] at h
                obtain ⟨rfl, rfl⟩ := h
                refine ⟨p, { d0 with IsCardAffinityCouple := true }, rfl,
                  List.mem_cons_self _ _, ?_, rfl⟩
                rw [devices_logSelection, hcdev, hbdev,
                  List.getElem?_set_self (List.getElem?_eq_some_iff.mp hd0).1]
          · split at h
            · simp at h
            · rename_i wb hwb
              obtain ⟨q, d, hq, hmem, hd, hflag⟩ := ih (idx + 1) wb r w1 h hr
              exact ⟨q, d, hq, List.mem_cons_of_mem _ hmem, hd, hflag⟩

/-- C26, counterexample: after `pf3` has taken position 6 of the group
`0000:ff:00.x`, the selection for `pf6` (coupled PF `pf3`, which is smaller) on
that group returns position 7, and the device at position 7 has
`IsCardAffinityCouple = true` after the call. -/
theorem C26_counterexample_pf6_position_7 :
    ¬ ∀ (c : DeviceCapabilityType) (key pf : String) (w : World) (r : Int) (w1 : World)
        (p : Nat) (d : SupDevice),
      SelectingDeviceFromCardAffinityIndexesSlice .CURRENT_PF_BIGGER_THAN_COUPLED c key pf w =
        some (r, w1) →
      r = (p : Int) → (w1.devices c)[p]? = some d → d.IsCardAffinityCouple = false := by
  intro h
  have := h .REGULAR "0000:ff:00.x" "pf6" testWorldAfterPf3 7
    ((SelectingDeviceFromCardAffinityIndexesSlice .CURRENT_PF_BIGGER_THAN_COUPLED .REGULAR
      "0000:ff:00.x" "pf6" testWorldAfterPf3).getD (0, testWorld)).2 7
    (mkDev "eth13" "0000:ff:00.1" "159b" "ice" 25000 128 0 1 "" false false false 1
      "0000:ff:00.x" false true)
    (by decide) (by decide) (by decide)
  exact absurd this (by decide)

/-- C26, amended. When a role whose coupled PF is smaller (type
`CURRENT_PF_BIGGER_THAN_COUPLED`) is matched from the group keyed by its
inherited card affinity, the consumed device stays marked as reserved: after a
successful `SelectingDeviceFromCardAffinityIndexesSlice` of that type the
returned device has `IsCardAffinityCouple = true` (the flag is cleared only
while the device is checked, and set again on the match). -/
theorem C26_consumed_device_stays_flagged (c : DeviceCapabilityType) (key pf : String)
    (w : World) (r : Int) (w1 : World)
    (h : SelectingDeviceFromCardAffinityIndexesSlice .CURRENT_PF_BIGGER_THAN_COUPLED c key pf w =
      some (r, w1))
    (hr : 0 ≤ r) :
    ∃ (p : Nat) (d : SupDevice), r = (p : Int) ∧ (w1.devices c)[p]? = some d ∧
      d.IsCardAffinityCouple = true := by
  unfold SelectingDeviceFromCardAffinityIndexesSlice at h
  split at h
  · simp at h
  · obtain ⟨p, d, hp, _, hd, hflag⟩ := selecting_loop_bigger_flag c key pf _ 0 w r w1 h hr
    exact ⟨p, d, hp, hd, hflag⟩

/-- C26, witness of `Test_SelectingDeviceFromCardAffinityIndexesSlice`: `pf6` on
the group `0000:ff:00.x` after `pf3` returns position 7, whose device `eth13` is
flagged after the call. -/
theorem C26_witness_pf6_group_ff :
    (SelectingDeviceFromCardAffinityIndexesSlice .CURRENT_PF_BIGGER_THAN_COUPLED .REGULAR
        "0000:ff:00.x" "pf6" testWorldAfterPf3).map
      (fun r => (r.1, ((r.2.devices .REGULAR)[7]?).map
        (fun d => (d.InterfaceName, d.IsCardAffinityCouple)))) =
      some (7, some ("eth13", true)) ∧
    ∃ (p : Nat) (d : SupDevice), (7 : Int) = (p : Int) ∧
      (((SelectingDeviceFromCardAffinityIndexesSlice .CURRENT_PF_BIGGER_THAN_COUPLED .REGULAR
        "0000:ff:00.x" "pf6" testWorldAfterPf3).getD (0, testWorld)).2.devices .REGULAR)[p]? =
        some d ∧ d.IsCardAffinityCouple = true :=
  ⟨by decide,
    C26_consumed_device_stays_flagged .REGULAR "0000:ff:00.x" "pf6" testWorldAfterPf3 7
      ((SelectingDeviceFromCardAffinityIndexesSlice .CURRENT_PF_BIGGER_THAN_COUPLED .REGULAR
        "0000:ff:00.x" "pf6" testWorldAfterPf3).getD (0, testWorld)).2 (by decide) (by decide)⟩

/-- `RemoveDeviceIndexFromSlice` returns when the key is present and the
position is one of the group. -/
theorem remove_total (idx : Nat) (key : String) (m : GoMap CardAffinityDevicesInfo)
    (info : CardAffinityDevicesInfo) (hget : mapGet m key = some info)
    (hidx : idx < info.DevicesIndexesSlice.length) :
    ∃ m1, RemoveDeviceIndexFromSlice idx key m = some m1 := by
  have hne : info.DevicesIndexesSlice ≠ [] := by
    intro e
    rw [e] at hidx
    exact absurd hidx (by simp)
  unfold RemoveDeviceIndexFromSlice
  simp only [hget, List.getLast?_eq_getLast _ hne, hidx, if_true]
  split
  · exact ⟨_, rfl⟩
  · exact ⟨_, rfl⟩

/-- The step of the loop of `SelectingDeviceFromCardAffinityIndexesSlice` of
type `EMPTY_MARKED_TRUE` that selects the device at position `p`. -/
theorem selecting_single_marked_true (c : DeviceCapabilityType) (key pf : String) (p i : Nat)
    (w : World) (r : Int) (w1 : World)
    (h : SelectingDeviceFromCardAffinityIndexesSlice.loop .EMPTY_MARKED_TRUE c key pf [p] i w =
      some (r, w1)) (hr : 0 ≤ r) :
    ∃ (d : SupDevice) (role : CriteriaList) (m1 : GoMap CardAffinityDevicesInfo),
      r = (p : Int) ∧ (w.devices c)[p]? = some d ∧ mapGet w.criteriaListsMap pf = some role ∧
      acceptable role d ∧
      RemoveDeviceIndexFromSlice i key (w.affinityMap c) = some m1 ∧
      w1.criteriaListsMap = w.criteriaListsMap ∧ w1.devices = w.devices ∧
      w1.affinityMap c = m1 ∧ (∀ c2, c2 ≠ c → w1.affinityMap c2 = w.affinityMap c2) := by
  rw [SelectingDeviceFromCardAffinityIndexesSlice.loop] at h
  simp only [if_neg (show CardAffinityPfCoupleType.EMPTY_MARKED_TRUE ≠
    .CURRENT_PF_BIGGER_THAN_COUPLED by decide)] at h
  split at h
  · simp at h
  · rename_i device hdev
    split at h
    · simp at h
    · rename_i res hres
      split at h
      · rename_i h0
        subst h0
        obtain ⟨role0, hrole0, hacc⟩ := check_single_zero _ _ hres
        split at h
        · simp at h
        · rename_i wc hwc
          obtain ⟨m1, hm1, hcmap, hcmap2, hcdev, hccr, _, _⟩ :=
            removeDeviceIndex_proj _ _ _ _ _ hwc
          simp only [Option.some.injEq, Prod.mk.injEq] at h
          obtain ⟨rfl, rfl⟩ := h
          refine ⟨device, role0, m1, rfl, hdev, hrole0, hacc, hm1, ?_, ?_, ?_, ?_⟩
          · rw [criteria_logSelection, hccr]
          · rw [devices_logSelection, hcdev]
          · rw [affinityMap_logSelection, hcmap]
          · intro c2 h2
            rw [affinityMap_logSelection, hcmap2 c2 h2]
      · simp only [SelectingDeviceFromCardAffinityIndexesSlice.loop, Option.some.injEq,
          Prod.mk.injEq] at h
        omega

/-- The step of the loop of `SelectingDeviceFromCardAffinityIndexesSlice` of
type `EMPTY_MARKED_FALSE` that selects the device at position `p`: the group is
marked before the position is removed. -/
theorem selecting_single_marked_false (c : DeviceCapabilityType) (key pf : String) (p i : Nat)
    (w : World) (r : Int) (w1 : World)
    (h : SelectingDeviceFromCardAffinityIndexesSlice.loop .EMPTY_MARKED_FALSE c key pf [p] i w =
      some (r, w1)) (hr : 0 ≤ r) :
    ∃ (d : SupDevice) (role : CriteriaList) (info : CardAffinityDevicesInfo)
      (m1 : GoMap CardAffinityDevicesInfo),
      r = (p : Int) ∧ (w.devices c)[p]? = some d ∧ mapGet w.criteriaListsMap pf = some role ∧
      acceptable role d ∧ mapGet (w.affinityMap c) key = some info ∧
      RemoveDeviceIndexFromSlice i key (mapSet (w.affinityMap c) key
        { info with ChosenDeviceHasNoCardAffinity := true }) = some m1 ∧
      w1.criteriaListsMap = w.criteriaListsMap ∧ w1.devices = w.devices ∧
      w1.affinityMap c = m1 ∧ (∀ c2, c2 ≠ c → w1.affinityMap c2 = w.affinityMap c2) := by
  rw [SelectingDeviceFromCardAffinityIndexesSlice.loop] at h
  simp only [if_neg (show CardAffinityPfCoupleType.EMPTY_MARKED_FALSE ≠
    .CURRENT_PF_BIGGER_THAN_COUPLED by decide)] at h
  split at h
  · simp at h
  · rename_i device hdev
    split at h
    · simp at h
    · rename_i res hres
      split at h
      · rename_i h0
        subst h0
        obtain ⟨role0, hrole0, hacc⟩ := check_single_zero _ _ hres
        split at h
        · simp at h
        · rename_i info2 hinfo2
          split at h
          · simp at h
          · rename_i wc hwc
            obtain ⟨m1, hm1, hcmap, hcmap2, hcdev, hccr, _, _⟩ :=
              removeDeviceIndex_proj _ _ _ _ _ hwc
            rw [affinityMap_setAffinityMap_self] at hm1
            simp only [Option.some.injEq, Prod.mk.injEq] at h
            obtain ⟨rfl, rfl⟩ := h
            refine ⟨device, role0, info2, m1, rfl, hdev, hrole0, hacc, hinfo2, hm1, ?_, ?_, ?_, ?_⟩
            · rw [criteria_logSelection, hccr, criteria_setAffinityMap]
            · rw [devices_logSelection, hcdev, devices_setAffinityMap]
            · rw [affinityMap_logSelection, hcmap]
            · intro c2 h2
              rw [affinityMap_logSelection, hcmap2 c2 h2,
                affinityMap_setAffinityMap_ne _ _ _ _ h2]
      · simp only [SelectingDeviceFromCardAffinityIndexesSlice.loop, Option.some.injEq,
          Prod.mk.injEq] at h
        omega

/-- The loop of `SelectingDeviceFromCardAffinityIndexesSlice` for a role without
coupled PF returns when the positions of the group are positions of the slice;
it finds a device when the group holds an acceptable one, and leaves the state
as it was when it finds none. -/
theorem selecting_loop_empty_complete (ty : CardAffinityPfCoupleType)
    (hty : ty = .EMPTY_MARKED_TRUE ∨ ty = .EMPTY_MARKED_FALSE) (c : DeviceCapabilityType)
    (key pf : String) (role : CriteriaList) (info : CardAffinityDevicesInfo) :
    ∀ (rest : List Nat) (idx : Nat) (w : World),
      mapGet w.criteriaListsMap pf = some role →
      mapGet (w.affinityMap c) key = some info →
      info.DevicesIndexesSlice.drop idx = rest →
      (∀ p, p ∈ rest → p < (w.devices c).length) →
      ∃ r w1, SelectingDeviceFromCardAffinityIndexesSlice.loop ty c key pf rest idx w =
          some (r, w1) ∧
        (holdsAcceptable role (w.devices c) rest → 0 ≤ r) ∧ (¬ 0 ≤ r → w1 = w) := by
  have hne : ty ≠ .CURRENT_PF_BIGGER_THAN_COUPLED := by
    rcases hty with rfl | rfl <;> decide
  intro rest
  induction rest with
  | nil =>
    intro idx w _ _ _ _
    refine ⟨-1, w, rfl, ?_, fun _ => rfl⟩
    rintro ⟨p, hp, _⟩
    simp at hp
  | cons p rest ih =>
    intro idx w hrole hget hdrop hvalid
    obtain ⟨hp, hdrop2⟩ := drop_eq_cons _ _ _ _ hdrop
    have hidx : idx < info.DevicesIndexesSlice.length := (List.getElem?_eq_some_iff.mp hp).1
    have hlt : p < (w.devices c).length := hvalid p (List.mem_cons_self _ _)
    have hdev : (w.devices c)[p]? = some ((w.devices c)[p]) := List.getElem?_eq_getElem hlt
    obtain ⟨res, hres, _⟩ := check_total role [(w.devices c)[p]]
    obtain ⟨hiff, _⟩ := check_single role _ res hres
    rw [SelectingDeviceFromCardAffinityIndexesSlice.loop]
    simp only [if_neg hne, hdev, hrole, hres]
    by_cases h0 : res = 0
    · rw [if_pos h0]
      rcases hty with rfl | rfl
      · obtain ⟨m1, hm1⟩ := remove_total idx key _ info hget hidx
        simp only [World.removeDeviceIndex, hm1]
        exact ⟨_, _, rfl, fun _ => Int.natCast_nonneg _,
          fun hn => absurd (Int.natCast_nonneg _) hn⟩
      · obtain ⟨m1, hm1⟩ := remove_total idx key
          (mapSet (w.affinityMap c) key { info with ChosenDeviceHasNoCardAffinity := true })
          { info with ChosenDeviceHasNoCardAffinity := true }
          (mapGet_mapSet_self _ _ _ _ hget) hidx
        simp only [hget, World.removeDeviceIndex, affinityMap_setAffinityMap_self, hm1]
        exact ⟨_, _, rfl, fun _ => Int.natCast_nonneg _,
          fun hn => absurd (Int.natCast_nonneg _) hn⟩
    · rw [if_neg h0]
      obtain ⟨r, w1, hrun, hfound, hsame⟩ := ih (idx + 1) w hrole hget hdrop2
        (fun q hq => hvalid q (List.mem_cons_of_mem _ hq))
      refine ⟨r, w1, hrun, ?_, hsame⟩
      rintro ⟨q, hq, d, hd, hacc⟩
      apply hfound
      rcases List.mem_cons.mp hq with e | e
      · subst e
        rw [hdev] at hd
        cases hd
        exact absurd (hiff.mpr hacc) h0
      · exact ⟨q, e, d, hd, hacc⟩

/-- A scan of the card affinity map for a role without coupled PF returns when
the positions of the groups are positions of the slice. It returns a position
when a group that it visits holds an acceptable device, the position then comes
from the selection on one visited group of the state the scan started in, and a
scan that finds nothing returns -1 and leaves the state as it was. -/
theorem scan_empty_complete (ty : CardAffinityPfCoupleType)
    (hty : ty = .EMPTY_MARKED_TRUE ∨ ty = .EMPTY_MARKED_FALSE) (c : DeviceCapabilityType)
    (pf : String) (role : CriteriaList) (visit : CardAffinityDevicesInfo → Bool) :
    ∀ (keys : List String) (w : World),
      mapGet w.criteriaListsMap pf = some role →
      (∀ key info p, mapGet (w.affinityMap c) key = some info → p ∈ info.DevicesIndexesSlice →
        p < (w.devices c).length) →
      ∃ r w1, CheckDevicesAgainstCriteriaListWithCardAffinity.scan ty c pf visit keys w =
          some (r, w1) ∧
        ((∃ key info, key ∈ keys ∧ mapGet (w.affinityMap c) key = some info ∧
          visit info = true ∧ holdsAcceptable role (w.devices c) info.DevicesIndexesSlice) →
          0 ≤ r) ∧
        (0 ≤ r → ∃ key info, key ∈ keys ∧ mapGet (w.affinityMap c) key = some info ∧
          visit info = true ∧
          SelectingDeviceFromCardAffinityIndexesSlice.loop ty c key pf info.DevicesIndexesSlice
            0 w = some (r, w1)) ∧
        (¬ 0 ≤ r → r = -1 ∧ w1 = w) := by
  intro keys
  induction keys with
  | nil =>
    intro w _ _
    refine ⟨-1, w, rfl, ?_, ?_, fun _ => ⟨rfl, rfl⟩⟩
    · rintro ⟨key, _, hk, _⟩
      simp at hk
    · intro h
      omega
  | cons key rest ih =>
    intro w hrole hvalid
    obtain ⟨r, w1, hrun, hfound, hsound, hfail⟩ := ih w hrole hvalid
    have skip : (∀ info, mapGet (w.affinityMap c) key = some info → visit info = true →
        ¬ holdsAcceptable role (w.devices c) info.DevicesIndexesSlice) →
        CheckDevicesAgainstCriteriaListWithCardAffinity.scan ty c pf visit rest w =
          CheckDevicesAgainstCriteriaListWithCardAffinity.scan ty c pf visit (key :: rest) w →
        ∃ r w1, CheckDevicesAgainstCriteriaListWithCardAffinity.scan ty c pf visit (key :: rest) w =
          some (r, w1) ∧
        ((∃ key2 info, key2 ∈ key :: rest ∧ mapGet (w.affinityMap c) key2 = some info ∧
          visit info = true ∧ holdsAcceptable role (w.devices c) info.DevicesIndexesSlice) →
          0 ≤ r) ∧
        (0 ≤ r → ∃ key2 info, key2 ∈ key :: rest ∧ mapGet (w.affinityMap c) key2 = some info ∧
          visit info = true ∧
          SelectingDeviceFromCardAffinityIndexesSlice.loop ty c key2 pf info.DevicesIndexesSlice
            0 w = some (r, w1)) ∧
        (¬ 0 ≤ r → r = -1 ∧ w1 = w) := by
      intro hnot heq
      refine ⟨r, w1, by rw [← heq]; exact hrun, ?_, ?_, hfail⟩
      · rintro ⟨key2, info, hk, hget, hv, hacc⟩
        apply hfound
        rcases List.mem_cons.mp hk with e | e
        · subst e
          exact absurd hacc (hnot info hget hv)
        · exact ⟨key2, info, e, hget, hv, hacc⟩
      · intro hr
        obtain ⟨key2, info, hk, hrest⟩ := hsound hr
        exact ⟨key2, info, List.mem_cons_of_mem _ hk, hrest⟩
    cases hget : mapGet (w.affinityMap c) key with
    | none =>
      apply skip
      · intro info hinfo
        rw [hget] at hinfo
        exact absurd hinfo (by simp)
      · rw [CheckDevicesAgainstCriteriaListWithCardAffinity.scan.eq_2]
        simp only [hget]
    | some info =>
      by_cases hv : visit info = true
      · obtain ⟨r0, w0, hsel, hfound0, hsame0⟩ := selecting_loop_empty_complete ty hty c key pf
          role info info.DevicesIndexesSlice 0 w hrole hget rfl
          (fun p hp => hvalid key info p hget hp)
        have hselect : SelectingDeviceFromCardAffinityIndexesSlice ty c key pf w =
            some (r0, w0) := by
          unfold SelectingDeviceFromCardAffinityIndexesSlice
          simp only [hget]
          exact hsel
        by_cases hr0 : 0 ≤ r0
        · refine ⟨r0, w0, ?_, fun _ => hr0, ?_, fun hn => absurd hr0 hn⟩
          · rw [CheckDevicesAgainstCriteriaListWithCardAffinity.scan.eq_2]
            simp only [hget, hv, if_true, hselect]
            rw [if_pos (by exact hr0)]
          · intro _
            exact ⟨key, info, List.mem_cons_self _ _, hget, hv, hsel⟩
        · have hw0 : w0 = w := hsame0 hr0
          subst hw0
          apply skip
          · intro info2 hinfo2 _ hacc
            rw [hget] at hinfo2
            cases hinfo2
            exact hr0 (hfound0 hacc)
          · rw [CheckDevicesAgainstCriteriaListWithCardAffinity.scan.eq_2]
            simp only [hget, hv, if_true, hselect]
            rw [if_neg (by exact hr0)]
      · apply skip
        · intro info2 hinfo2 hv2
          rw [hget] at hinfo2
          cases hinfo2
          exact absurd hv2 hv
        · rw [CheckDevicesAgainstCriteriaListWithCardAffinity.scan.eq_2]
          simp only [hget, hv, Bool.false_eq_true, if_false]

/-- A successful selection from a marked group for a role without coupled PF:
the position comes from the group, holds an acceptable device and leaves the
group; nothing else changes. -/
theorem selecting_marked_true_result (c : DeviceCapabilityType) (key pf : String) (w : World)
    (r : Int) (w1 : World) (info : CardAffinityDevicesInfo)
    (hkeys : (mapKeys (w.affinityMap c)).Nodup)
    (hget : mapGet (w.affinityMap c) key = some info)
    (h : SelectingDeviceFromCardAffinityIndexesSlice.loop .EMPTY_MARKED_TRUE c key pf
      info.DevicesIndexesSlice 0 w = some (r, w1)) (hr : 0 ≤ r) :
    ∃ (j p : Nat) (d : SupDevice) (role : CriteriaList),
      r = (p : Int) ∧ info.DevicesIndexesSlice[j]? = some p ∧ (w.devices c)[p]? = some d ∧
      mapGet w.criteriaListsMap pf = some role ∧ acceptable role d ∧
      w1.criteriaListsMap = w.criteriaListsMap ∧ w1.devices = w.devices ∧
      (∀ k, k ≠ key → mapGet (w1.affinityMap c) k = mapGet (w.affinityMap c) k) ∧
      (mapGet (w1.affinityMap c) key = none ↔ info.DevicesIndexesSlice.length = 1) ∧
      (info.DevicesIndexesSlice.length ≠ 1 →
        ∃ info1, mapGet (w1.affinityMap c) key = some info1 ∧
          info1.ChosenDeviceHasNoCardAffinity = info.ChosenDeviceHasNoCardAffinity ∧
          info1.DevicesIndexesSlice.Perm (info.DevicesIndexesSlice.eraseIdx j)) ∧
      (∀ c2, c2 ≠ c → w1.affinityMap c2 = w.affinityMap c2) := by
  obtain ⟨j, p, hj, hrun, _⟩ := selecting_loop_found _ (by decide) c key pf _ 0 w r w1 h hr
  rw [Nat.zero_add] at hrun
  obtain ⟨d, role, m1, hrp, hd, hrole, hacc, hrem, hcr, hdev, hmap, hmap2⟩ :=
    selecting_single_marked_true c key pf p j w r w1 hrun hr
  have hjlt : j < info.DevicesIndexesSlice.length := (List.getElem?_eq_some_iff.mp hj).1
  obtain ⟨m2, hm2, hother, hnone, hsome⟩ := remove_at_position j key _ info hkeys hget hjlt
  rw [hrem] at hm2
  cases hm2
  refine ⟨j, p, d, role, hrp, hj, hd, hrole, hacc, hcr, hdev, ?_, ?_, ?_, hmap2⟩
  · intro k hk
    rw [hmap]
    exact hother k hk
  · rw [hmap]
    exact hnone
  · intro hne
    obtain ⟨info1, h1, h2, h3, _⟩ := hsome hne
    exact ⟨info1, by rw [hmap]; exact h1, h2, h3⟩

/-- A successful selection from a group that is not marked, for a role without
coupled PF: the position comes from the group, holds an acceptable device and
leaves the group, which is marked from then on; nothing else changes. -/
theorem selecting_marked_false_result (c : DeviceCapabilityType) (key pf : String) (w : World)
    (r : Int) (w1 : World) (info : CardAffinityDevicesInfo)
    (hkeys : (mapKeys (w.affinityMap c)).Nodup)
    (hget : mapGet (w.affinityMap c) key = some info)
    (h : SelectingDeviceFromCardAffinityIndexesSlice.loop .EMPTY_MARKED_FALSE c key pf
      info.DevicesIndexesSlice 0 w = some (r, w1)) (hr : 0 ≤ r) :
    ∃ (j p : Nat) (d : SupDevice) (role : CriteriaList),
      r = (p : Int) ∧ info.DevicesIndexesSlice[j]? = some p ∧ (w.devices c)[p]? = some d ∧
      mapGet w.criteriaListsMap pf = some role ∧ acceptable role d ∧
      w1.criteriaListsMap = w.criteriaListsMap ∧ w1.devices = w.devices ∧
      (∀ k, k ≠ key → mapGet (w1.affinityMap c) k = mapGet (w.affinityMap c) k) ∧
      (mapGet (w1.affinityMap c) key = none ↔ info.DevicesIndexesSlice.length = 1) ∧
      (info.DevicesIndexesSlice.length ≠ 1 →
        ∃ info1, mapGet (w1.affinityMap c) key = some info1 ∧
          info1.ChosenDeviceHasNoCardAffinity = true ∧
          info1.DevicesIndexesSlice.Perm (info.DevicesIndexesSlice.eraseIdx j)) ∧
      (∀ c2, c2 ≠ c → w1.affinityMap c2 = w.affinityMap c2) := by
  obtain ⟨j, p, hj, hrun, _⟩ := selecting_loop_found _ (by decide) c key pf _ 0 w r w1 h hr
  rw [Nat.zero_add] at hrun
  obtain ⟨d, role, info2, m1, hrp, hd, hrole, hacc, hinfo2, hrem, hcr, hdev, hmap, hmap2⟩ :=
    selecting_single_marked_false c key pf p j w r w1 hrun hr
  rw [hget] at hinfo2
  cases hinfo2
  have hjlt : j < info.DevicesIndexesSlice.length := (List.getElem?_eq_some_iff.mp hj).1
  obtain ⟨m2, hm2, hother, hnone, hsome⟩ := remove_at_position j key
    (mapSet (w.affinityMap c) key { info with ChosenDeviceHasNoCardAffinity := true })
    { info with ChosenDeviceHasNoCardAffinity := true }
    (by rw [mapKeys_mapSet]; exact hkeys) (mapGet_mapSet_self _ _ _ _ hget) hjlt
  rw [hrem] at hm2
  cases hm2
  refine ⟨j, p, d, role, hrp, hj, hd, hrole, hacc, hcr, hdev, ?_, ?_, ?_, hmap2⟩
  · intro k hk
    rw [hmap, hother k hk]
    exact mapGet_mapSet_ne _ _ _ _ (Ne.symm hk)
  · rw [hmap]
    exact hnone
  · intro hne
    obtain ⟨info1, h1, h2, h3, _⟩ := hsome hne
    exact ⟨info1, by rw [hmap]; exact h1, h2, h3⟩

/-- C27. For a role without coupled PF, `CheckDevicesAgainstCriteriaListWithCardAffinity`
returns, and prefers the marked groups: if a group with
`ChosenDeviceHasNoCardAffinity = true` holds an acceptable device, the returned
position comes from such a group; otherwise, if a group with more than one
position holds an acceptable device, the returned position comes from such a
group, which is marked from then on; otherwise the result is -1 and nothing has
changed. On success the returned position has left its group and no other group
has changed. This holds for every order in which the two `range` statements
enumerate the map. -/
theorem C27_role_without_partner_prefers_marked_groups
    (mapOrder : Nat → List String → List String) (c : DeviceCapabilityType) (pf : String)
    (w : World) (role : CriteriaList)
    (horder : ∀ n keys, (mapOrder n keys).Perm keys)
    (hrole : mapGet w.criteriaListsMap pf = some role)
    (hempty : role.CardAffinityPfCouple = "")
    (hkeys : (mapKeys (w.affinityMap c)).Nodup)
    (hvalid : ∀ key info p, mapGet (w.affinityMap c) key = some info →
      p ∈ info.DevicesIndexesSlice → p < (w.devices c).length) :
    ∃ r w1, CheckDevicesAgainstCriteriaListWithCardAffinity mapOrder c pf w = some (r, w1) ∧
      ((∃ key info, mapGet (w.affinityMap c) key = some info ∧
          info.ChosenDeviceHasNoCardAffinity = true ∧
          holdsAcceptable role (w.devices c) info.DevicesIndexesSlice) →
        ∃ (key : String) (info : CardAffinityDevicesInfo) (j p : Nat) (d : SupDevice), r = (p : Int) ∧
          mapGet (w.affinityMap c) key = some info ∧
          info.ChosenDeviceHasNoCardAffinity = true ∧
          info.DevicesIndexesSlice[j]? = some p ∧ (w.devices c)[p]? = some d ∧
          acceptable role d ∧
          (∀ k, k ≠ key → mapGet (w1.affinityMap c) k = mapGet (w.affinityMap c) k) ∧
          (mapGet (w1.affinityMap c) key = none ↔ info.DevicesIndexesSlice.length = 1) ∧
          (info.DevicesIndexesSlice.length ≠ 1 →
            ∃ info1, mapGet (w1.affinityMap c) key = some info1 ∧
              info1.ChosenDeviceHasNoCardAffinity = true ∧
              info1.DevicesIndexesSlice.Perm (info.DevicesIndexesSlice.eraseIdx j))) ∧
      ((¬ ∃ key info, mapGet (w.affinityMap c) key = some info ∧
          info.ChosenDeviceHasNoCardAffinity = true ∧
          holdsAcceptable role (w.devices c) info.DevicesIndexesSlice) →
        (∃ key info, mapGet (w.affinityMap c) key = some info ∧
          1 < info.DevicesIndexesSlice.length ∧
          holdsAcceptable role (w.devices c) info.DevicesIndexesSlice) →
        ∃ (key : String) (info : CardAffinityDevicesInfo) (j p : Nat) (d : SupDevice), r = (p : Int) ∧
          mapGet (w.affinityMap c) key = some info ∧
          1 < info.DevicesIndexesSlice.length ∧
          info.DevicesIndexesSlice[j]? = some p ∧ (w.devices c)[p]? = some d ∧
          acceptable role d ∧
          (∀ k, k ≠ key → mapGet (w1.affinityMap c) k = mapGet (w.affinityMap c) k) ∧
          ∃ info1, mapGet (w1.affinityMap c) key = some info1 ∧
            info1.ChosenDeviceHasNoCardAffinity = true ∧
            info1.DevicesIndexesSlice.Perm (info.DevicesIndexesSlice.eraseIdx j)) ∧
      ((¬ ∃ key info, mapGet (w.affinityMap c) key = some info ∧
          info.ChosenDeviceHasNoCardAffinity = true ∧
          holdsAcceptable role (w.devices c) info.DevicesIndexesSlice) →
        (¬ ∃ key info, mapGet (w.affinityMap c) key = some info ∧
          1 < info.DevicesIndexesSlice.length ∧
          holdsAcceptable role (w.devices c) info.DevicesIndexesSlice) →
        r = -1 ∧ w1.devices = w.devices ∧ (∀ c2, w1.affinityMap c2 = w.affinityMap c2) ∧
          w1.criteriaListsMap = w.criteriaListsMap) := by
  -- the first scan: the marked groups
  obtain ⟨r1, w1, hrun1, hfound1, hsound1, hfail1⟩ := scan_empty_complete .EMPTY_MARKED_TRUE
    (Or.inl rfl) c pf role (fun info => info.ChosenDeviceHasNoCardAffinity)
    (mapOrder w.rangeCount (mapKeys (w.affinityMap c))) w.tick
    (by rw [criteria_tick]; exact hrole)
    (by
      intro key info p hget hp
      rw [affinityMap_tick] at hget
      rw [devices_tick]
      exact hvalid key info p hget hp)
  have hmem1 : ∀ key info, mapGet (w.affinityMap c) key = some info →
      key ∈ mapOrder w.rangeCount (mapKeys (w.affinityMap c)) := fun key info hget =>
    (horder _ _).symm.subset (mem_mapKeys_of_mapGet _ key info hget)
  have hstart : CheckDevicesAgainstCriteriaListWithCardAffinity mapOrder c pf w =
      if r1 ≥ 0 then some (r1, w1)
      else CheckDevicesAgainstCriteriaListWithCardAffinity.scan .EMPTY_MARKED_FALSE c pf
        (fun info => decide (1 < info.DevicesIndexesSlice.length))
        (mapOrder w1.rangeCount (mapKeys (w1.affinityMap c))) w1.tick := by
    unfold CheckDevicesAgainstCriteriaListWithCardAffinity
    simp only [hrole, hempty, eq_self_iff_true, if_true, hrun1]
  by_cases hr1 : 0 ≤ r1
  · -- a marked group gave a device
    rw [if_pos (by exact hr1)] at hstart
    obtain ⟨key, info, _, hget, hv, hloop⟩ := hsound1 hr1
    obtain ⟨j, p, d, role0, hrp, hj, hd, hrole0, hacc, _, _, hother, hnone, hsome, _⟩ :=
      selecting_marked_true_result c key pf w.tick r1 w1 info
        (by rw [affinityMap_tick]; exact hkeys) hget hloop hr1
    rw [criteria_tick, hrole] at hrole0
    cases hrole0
    rw [affinityMap_tick] at hget hother
    rw [devices_tick] at hd
    have hmarked : ∃ key info, mapGet (w.affinityMap c) key = some info ∧
        info.ChosenDeviceHasNoCardAffinity = true ∧
        holdsAcceptable role (w.devices c) info.DevicesIndexesSlice :=
      ⟨key, info, hget, hv, p, List.getElem?_mem hj, d, hd, hacc⟩
    refine ⟨r1, w1, hstart, ?_, fun hn => absurd hmarked hn, fun hn => absurd hmarked hn⟩
    intro _
    refine ⟨key, info, j, p, d, hrp, hget, hv, hj, hd, hacc, hother, hnone, ?_⟩
    intro hne
    obtain ⟨info1, h1, h2, h3⟩ := hsome hne
    exact ⟨info1, h1, h2.trans hv, h3⟩
  · -- no marked group holds an acceptable device
    obtain ⟨_, hw1⟩ := hfail1 hr1
    subst hw1
    rw [if_neg (by exact hr1)] at hstart
    have hnomarked : ¬ ∃ key info, mapGet (w.affinityMap c) key = some info ∧
        info.ChosenDeviceHasNoCardAffinity = true ∧
        holdsAcceptable role (w.devices c) info.DevicesIndexesSlice := by
      rintro ⟨key, info, hget, hv, hacc⟩
      apply hr1
      apply hfound1
      refine ⟨key, info, hmem1 key info hget, by rw [affinityMap_tick]; exact hget, hv, ?_⟩
      rw [devices_tick]
      exact hacc
    obtain ⟨r2, w2, hrun2, hfound2, hsound2, hfail2⟩ := scan_empty_complete .EMPTY_MARKED_FALSE
      (Or.inr rfl) c pf role (fun info => decide (1 < info.DevicesIndexesSlice.length))
      (mapOrder w.tick.rangeCount (mapKeys (w.tick.affinityMap c))) w.tick.tick
      (by rw [criteria_tick, criteria_tick]; exact hrole)
      (by
        intro key info p hget hp
        rw [affinityMap_tick, affinityMap_tick] at hget
        rw [devices_tick, devices_tick]
        exact hvalid key info p hget hp)
    rw [hrun2] at hstart
    refine ⟨r2, w2, hstart, fun hm => absurd hm hnomarked, ?_, ?_⟩
    · intro _ hbig
      have hr2 : 0 ≤ r2 := by
        apply hfound2
        obtain ⟨key, info, hget, hlen, hacc⟩ := hbig
        refine ⟨key, info, ?_, by rw [affinityMap_tick, affinityMap_tick]; exact hget,
          by simpa using hlen, ?_⟩
        · rw [affinityMap_tick]
          exact (horder _ _).symm.subset (mem_mapKeys_of_mapGet _ key info hget)
        · rw [devices_tick, devices_tick]
          exact hacc
      obtain ⟨key, info, _, hget, hv, hloop⟩ := hsound2 hr2
      obtain ⟨j, p, d, role0, hrp, hj, hd, hrole0, hacc, _, _, hother, _, hsome, _⟩ :=
        selecting_marked_false_result c key pf w.tick.tick r2 w2 info
          (by rw [affinityMap_tick, affinityMap_tick]; exact hkeys) hget hloop hr2
      rw [criteria_tick, criteria_tick, hrole] at hrole0
      cases hrole0
      rw [affinityMap_tick, affinityMap_tick] at hget hother
      rw [devices_tick, devices_tick] at hd
      have hlen : 1 < info.DevicesIndexesSlice.length := by simpa using hv
      exact ⟨key, info, j, p, d, hrp, hget, hlen, hj, hd, hacc, hother,
        hsome (by omega)⟩
    · intro _ hnobig
      have hr2 : ¬ 0 ≤ r2 := by
        intro hr2
        obtain ⟨key, info, _, hget, hv, hloop⟩ := hsound2 hr2
        obtain ⟨j, p, d, role0, _, hj, hd, hrole0, hacc, _⟩ :=
          selecting_marked_false_result c key pf w.tick.tick r2 w2 info
            (by rw [affinityMap_tick, affinityMap_tick]; exact hkeys) hget hloop hr2
        rw [criteria_tick, criteria_tick, hrole] at hrole0
        cases hrole0
        rw [affinityMap_tick, affinityMap_tick] at hget
        rw [devices_tick, devices_tick] at hd
        exact hnobig ⟨key, info, hget, by simpa using hv, p, List.getElem?_mem hj, d, hd, hacc⟩
      obtain ⟨hm1, hw2⟩ := hfail2 hr2
      subst hw2
      refine ⟨hm1, ?_, ?_, ?_⟩
      · rw [devices_tick, devices_tick]
      · intro c2
        rw [affinityMap_tick, affinityMap_tick]
      · rw [criteria_tick, criteria_tick]

/-- C27, witness of `Test_CheckDevicesAgainstCriteriaListWithCardAffinity`: no
group of the fixture is marked, so `pf1` (at least 100 VFs, no coupled PF) gets
a position of a group of two, here position 3 of `0000:b1:00.x`, which is left
marked with position 1; `pf2` then finds no acceptable device in that marked
group and gets position 4 of `0000:ee:00.x`. -/
theorem C27_witness_pf1_pf2 :
    (CheckDevicesAgainstCriteriaListWithCardAffinity storageOrder .REGULAR "pf1" testWorld).map
      (fun r => (r.1, mapGet (r.2.affinityMap .REGULAR) "0000:b1:00.x")) =
      some (3, some ⟨[1], true⟩) ∧
    (CheckDevicesAgainstCriteriaListWithCardAffinity storageOrder .REGULAR "pf2"
        (afterCalls storageOrder .REGULAR ["pf1"] testWorld)).map
      (fun r => (r.1, mapGet (r.2.affinityMap .REGULAR) "0000:ee:00.x")) =
      some (4, some ⟨[5], true⟩) ∧
    ∃ r w1, CheckDevicesAgainstCriteriaListWithCardAffinity storageOrder .REGULAR "pf1"
        testWorld = some (r, w1) ∧
      ∃ (key : String) (info : CardAffinityDevicesInfo) (j p : Nat) (d : SupDevice),
        r = (p : Int) ∧ mapGet (testWorld.affinityMap .REGULAR) key = some info ∧
        1 < info.DevicesIndexesSlice.length ∧ info.DevicesIndexesSlice[j]? = some p ∧
        (testWorld.devices .REGULAR)[p]? = some d ∧ acceptable (testCriteria 100 "") d ∧
        ∃ info1, mapGet (w1.affinityMap .REGULAR) key = some info1 ∧
          info1.ChosenDeviceHasNoCardAffinity = true := by
  refine ⟨by decide, by decide, ?_⟩
  obtain ⟨r, w1, hrun, _, hbig, _⟩ :=
    C27_role_without_partner_prefers_marked_groups storageOrder .REGULAR "pf1" testWorld
      (testCriteria 100 "") (fun _ _ => List.Perm.refl _) (by decide) (by decide) (by decide)
      (fun key info p hget hp => by
        obtain ⟨d, hd, _⟩ :=
          (affinityMapWellFormed_of_entries (testWorld.devices .REGULAR)
            (testWorld.affinityMap .REGULAR) (by decide)).2 key info p hget hp
        exact (List.getElem?_eq_some_iff.mp hd).1)
  have hnomarked : ¬ ∃ key info, mapGet (testWorld.affinityMap .REGULAR) key = some info ∧
      info.ChosenDeviceHasNoCardAffinity = true ∧
      holdsAcceptable (testCriteria 100 "") (testWorld.devices .REGULAR)
        info.DevicesIndexesSlice := by
    rintro ⟨key, info, hget, hv, _⟩
    have hall : ∀ e ∈ testWorld.affinityMap .REGULAR,
        e.2.ChosenDeviceHasNoCardAffinity = false := by decide
    have := hall _ (mem_of_mapGet _ key info hget)
    rw [hv] at this
    exact absurd this (by decide)
  obtain ⟨key, info, j, p, d, hrp, hget, hlen, hj, hd, hacc, _, info1, h1, h2, _⟩ :=
    hbig hnomarked
      ⟨"0000:b1:00.x", ⟨[1, 3], false⟩, by decide, by decide, 3, by decide,
        mkDev "eth6" "0000:b1:00.1" "159b" "ice" 25000 128 0 1 "" false false false 1
          "0000:b1:00.x" false false, by decide, by decide⟩
  exact ⟨r, w1, hrun, key, info, j, p, d, hrp, hget, hlen, hj, hd, hacc, info1, h1, h2⟩

/-- A search of `FindProperCoupleDevicesFromDifferentCardAffinityMaps` that fails
leaves the state as it was. -/
theorem findProperCouple_loop_false (cur cpl : DeviceCapabilityType) (pf : String)
    (required : Bool) :
    ∀ (keys : List String) (w w1 : World),
      FindProperCoupleDevicesFromDifferentCardAffinityMaps.loop cur cpl pf required keys w =
        some (false, w1) → w1 = w := by
  intro keys
  induction keys with
  | nil =>
    intro w w1 h
    simp only [FindProperCoupleDevicesFromDifferentCardAffinityMaps.loop, Option.some.injEq,
      Prod.mk.injEq, true_and] at h
    exact h.symm
  | cons key rest ih =>
    intro w w1 h
    rw [FindProperCoupleDevicesFromDifferentCardAffinityMaps.loop] at h
    repeat' split at h
    all_goals first
      | exact ih w w1 h
      | (exfalso; simp at h)

/-- C28, counterexample: `pf3` requires an RRU connection and its coupled PF
`pf6` requires PTP support on port 1. The only RRU device and PTP device that
share a card affinity are `eth2` and `eth7` (port 0), so the search in the two
maps fails; the search of a couple in the RRU map alone would succeed (`eth8`
and `eth17` of the group `0000:hh:00.x`), but
`TreatmentOFCardAffinityWithCapabilities` returns false without trying it. -/
theorem C28_counterexample_no_fallback :
    ¬ ∀ (mapOrder : Nat → List String → List String) (pf : String) (w w1 : World)
        (role partner : CriteriaList),
      mapGet w.criteriaListsMap pf = some role → role.SelectedDeviceInterface = "" →
      role.RRUConnection = true → role.CardAffinityPfCouple ≠ "" →
      mapGet w.criteriaListsMap role.CardAffinityPfCouple = some partner →
      partner.RRUConnection = false → partner.PTPSupport = true →
      FindProperCoupleDevicesFromDifferentCardAffinityMaps mapOrder .RRU_CONNECTION
        .PTP_SUPPORT pf true w = some (false, w1) →
      (TreatmentOFCardAffinityWithCapabilities mapOrder [pf] .RRU_CONNECTION .PTP_SUPPORT
        .RRU_CONNECTION w).map Prod.fst =
      (FindDevicesForPfCoupleWithSpecialCapability mapOrder .RRU_CONNECTION pf w1).map
        Prod.fst := by
  intro h
  have := h storageOrder "pf3" testWorldRruWithPtpPartner testWorldRruWithPtpPartner.tick
    { testCriteria 64 "pf6" with RRUConnection := true }
    { testCriteria 64 "pf3" with PTPSupport := true, SpecificPortNumber := 1 }
    (by decide) (by decide) (by decide) (by decide) (by decide) (by decide) (by decide)
    (by decide)
  exact absurd this (by decide)

/-- C28, amended. For a role requiring RRU whose coupled PF requires PTP (and
not RRU), when no RRU device and PTP device sharing a card affinity satisfy the
two roles, `TreatmentOFCardAffinityWithCapabilities` reports failure for that
role without a further search and without any change of the roles, the devices
or the groups: the search of a couple in the RRU map alone is not tried. -/
theorem C28_rru_role_with_ptp_partner (mapOrder : Nat → List String → List String)
    (target other : DeviceCapabilityType) (pf : String) (rest : List String) (w w1 : World)
    (role partner : CriteriaList)
    (hrole : mapGet w.criteriaListsMap pf = some role)
    (hfree : role.SelectedDeviceInterface = "")
    (hrru : role.RRUConnection = true)
    (hcouple : role.CardAffinityPfCouple ≠ "")
    (hpartner : mapGet w.criteriaListsMap role.CardAffinityPfCouple = some partner)
    (hnorru : partner.RRUConnection = false) (hptp : partner.PTPSupport = true)
    (hsearch : FindProperCoupleDevicesFromDifferentCardAffinityMaps mapOrder target other pf
      true w = some (false, w1)) :
    TreatmentOFCardAffinityWithCapabilities mapOrder (pf :: rest) target other .RRU_CONNECTION w =
      some (false, w1) ∧
    w1 = w.tick := by
  constructor
  · unfold TreatmentOFCardAffinityWithCapabilities
    rw [TreatmentOFCardAffinityWithCapabilities.loop]
    simp only [hrole, hfree, ne_eq, not_true_eq_false, if_false, hrru, and_self, true_or,
      if_true, hcouple, hpartner, hnorru, Bool.false_eq_true, and_false, false_or, hptp,
      reduceCtorEq, false_and, hsearch]
  · unfold FindProperCoupleDevicesFromDifferentCardAffinityMaps at hsearch
    exact findProperCouple_loop_false _ _ _ _ _ _ _ hsearch

/-- C28, witness: on the fixture with `pf3` requiring RRU and `pf6` requiring
PTP on port 1, the call for the sorted roles returns false at `pf3` and leaves
`pf3` and `pf6` without a device. -/
theorem C28_witness_pf3_rru_pf6_ptp :
    (TreatmentOFCardAffinityWithCapabilities storageOrder
        ["pf1", "pf2", "pf3", "pf4", "pf5", "pf6", "pf7", "pf8"] .RRU_CONNECTION .PTP_SUPPORT
        .RRU_CONNECTION testWorldRruWithPtpPartner).map
      (fun r => (r.1, (mapGet r.2.criteriaListsMap "pf3").map
          (fun cl => cl.SelectedDeviceInterface),
        (mapGet r.2.criteriaListsMap "pf6").map (fun cl => cl.SelectedDeviceInterface))) =
      some (false, some "", some "") ∧
    (FindDevicesForPfCoupleWithSpecialCapability storageOrder .RRU_CONNECTION "pf3"
        testWorldRruWithPtpPartner.tick).map
      (fun r => (r.1, (mapGet r.2.criteriaListsMap "pf3").map
          (fun cl => cl.SelectedDeviceInterface),
        (mapGet r.2.criteriaListsMap "pf6").map (fun cl => cl.SelectedDeviceInterface))) =
      some (true, some "eth8", some "eth17") ∧
    (TreatmentOFCardAffinityWithCapabilities storageOrder ["pf3", "pf4"]
        .RRU_CONNECTION .PTP_SUPPORT .RRU_CONNECTION testWorldRruWithPtpPartner =
      some (false, testWorldRruWithPtpPartner.tick) ∧
      testWorldRruWithPtpPartner.tick = testWorldRruWithPtpPartner.tick) :=
  ⟨by decide, by decide,
    C28_rru_role_with_ptp_partner storageOrder .RRU_CONNECTION .PTP_SUPPORT "pf3" ["pf4"]
      testWorldRruWithPtpPartner testWorldRruWithPtpPartner.tick
      { testCriteria 64 "pf6" with RRUConnection := true }
      { testCriteria 64 "pf3" with PTPSupport := true, SpecificPortNumber := 1 }
      (by decide) (by decide) (by decide) (by decide) (by decide) (by decide) (by decide)
      (by decide)⟩

/-- C22. `GetDevicePtpSupport` returns false whenever the link was down on entry
and a change of the link state fails: if bringing the link up fails it returns
false without launching the probe; if the restoration of the link to down after
the probe is attempted and fails, it returns false whatever the probe found; the
restoration is attempted on both branches of the `select` statement when the
link was brought up and the call has not faulted. When the link was not down on
entry no change of the link state is attempted. -/
theorem C22_link_state_change_failures (answers : PtpProbeAnswers)
    (linkState : LinkStateType) :
    (linkState = LINK_STATE_DOWN → answers.changeLinkStateUp = false →
      GetDevicePtpSupport answers linkState = ([.changeLinkState true], some false)) ∧
    (PtpProbeEvent.changeLinkState false ∈ (GetDevicePtpSupport answers linkState).1 →
      answers.changeLinkStateDown = false →
      (GetDevicePtpSupport answers linkState).2 = some false) ∧
    (linkState = LINK_STATE_DOWN → answers.changeLinkStateUp = true →
      (answers.startFails = false ∨ answers.timeoutFirst = true) →
      PtpProbeEvent.changeLinkState false ∈ (GetDevicePtpSupport answers linkState).1) ∧
    (linkState ≠ LINK_STATE_DOWN →
      ∀ up, PtpProbeEvent.changeLinkState up ∉ (GetDevicePtpSupport answers linkState).1) := by
  obtain ⟨up, down, start, reads, timeout⟩ := answers
  refine ⟨?_, ?_, ?_, ?_⟩
  · intro h1 h2
    simp only at h2
    subst h1 h2
    simp [GetDevicePtpSupport]
  · intro hmem hdown
    simp only at hdown
    subst hdown
    by_cases hls : linkState = LINK_STATE_DOWN
    · subst hls
      cases up <;> cases start <;> cases timeout <;>
        simp [GetDevicePtpSupport] at hmem ⊢
    · cases up <;> cases start <;> cases timeout <;>
        simp [GetDevicePtpSupport, hls] at hmem ⊢
  · intro hls hup hnofault
    simp only at hup hnofault
    subst hls hup
    cases down <;> cases start <;> cases timeout <;>
      simp [GetDevicePtpSupport] at hnofault ⊢
  · intro hls upFlag
    cases up <;> cases down <;> cases start <;> cases timeout <;> cases upFlag <;>
      simp [GetDevicePtpSupport, hls]

set_option maxRecDepth 16384 in
/-- C22, witness: the case of `Test_GetDevicePtpSupport` (the link of `Eyal`
cannot be brought up: false, no probe), and a call with the link down on entry
in which the probe reads the line of a foreign master and the restoration of
the link fails: false although the goroutine sent true. -/
theorem C22_witness_link_up_and_restoration_failures :
    GetDevicePtpSupport ⟨false, true, false, [], false⟩ LINK_STATE_DOWN =
      ([.changeLinkState true], some false) ∧
    ptpGoroutine ⟨true, false, false, ["ptp4l: new foreign master 00a0c9"], false⟩ = true ∧
    (GetDevicePtpSupport ⟨true, false, false, ["ptp4l: new foreign master 00a0c9"], false⟩
      LINK_STATE_DOWN).2 = some false ∧
    (GetDevicePtpSupport ⟨true, true, false, ["ptp4l: new foreign master 00a0c9"], false⟩
      LINK_STATE_DOWN) =
      ([.changeLinkState true, .launchGoroutine, .receiveResult true, .killProcess,
        .closeStdout, .changeLinkState false], some true) :=
  ⟨(C22_link_state_change_failures ⟨false, true, false, [], false⟩ LINK_STATE_DOWN).1
      (by decide) (by decide),
    by decide,
    (C22_link_state_change_failures
      ⟨true, false, false, ["ptp4l: new foreign master 00a0c9"], false⟩ LINK_STATE_DOWN).2.1
      (by decide) (by decide),
    by decide⟩

/-- C23, evaluation at the failing input: `cmd.Start()` returns an error and the
`select` statement receives the false that the goroutine sends. `cmd.Process`
is nil, and `cmd.Process.Kill()` (line 1436) faults: the call does not return.
This is the only fault of the call; on the branch of the timeout, which does
not kill the process, the same failure of `Start` is reported as false, and so
is a failure of `Read`. -/
theorem C23_start_failure_faults :
    GetDevicePtpSupport ⟨true, true, true, [], false⟩ LINK_STATE_UP =
      ([.launchGoroutine, .receiveResult false, .killProcess], none) ∧
    GetDevicePtpSupport ⟨true, true, true, [], true⟩ LINK_STATE_UP =
      ([.launchGoroutine, .closeStdout, .receiveResult false], some false) ∧
    GetDevicePtpSupport ⟨true, true, false, [], false⟩ LINK_STATE_UP =
      ([.launchGoroutine, .receiveResult false, .killProcess, .closeStdout], some false) ∧
    ∀ (answers : PtpProbeAnswers) (linkState : LinkStateType),
      (GetDevicePtpSupport answers linkState).2 = none ↔
        (answers.startFails = true ∧ answers.timeoutFirst = false ∧
          ¬ (linkState = LINK_STATE_DOWN ∧ answers.changeLinkStateUp = false)) := by
  refine ⟨by decide, by decide, by decide, ?_⟩
  intro answers linkState
  obtain ⟨up, down, start, reads, timeout⟩ := answers
  by_cases hls : linkState = LINK_STATE_DOWN
  · subst hls
    cases up <;> cases down <;> cases start <;> cases timeout <;>
      simp [GetDevicePtpSupport]
  · cases up <;> cases down <;> cases start <;> cases timeout <;>
      simp [GetDevicePtpSupport, hls]

theorem rolesAssigned_refl (T : String → Prop) (sel : Bool) (m : GoMap CriteriaList) :
    rolesAssigned T sel m m :=
  fun _ => ⟨fun h => h, fun cl h => ⟨cl, h, rfl, fun h2 => h2, fun _ => rfl, fun _ => rfl⟩⟩

theorem rolesAssigned_trans (T : String → Prop) (sel : Bool) (m m1 m2 : GoMap CriteriaList)
    (h1 : rolesAssigned T sel m m1) (h2 : rolesAssigned T sel m1 m2) :
    rolesAssigned T sel m m2 := by
  intro k
  refine ⟨fun h => (h2 k).1 ((h1 k).1 h), ?_⟩
  intro cl hcl
  obtain ⟨cl1, hcl1, hreq1, hne1, hsel1, hsame1⟩ := (h1 k).2 cl hcl
  obtain ⟨cl2, hcl2, hreq2, hne2, hsel2, hsame2⟩ := (h2 k).2 cl1 hcl1
  refine ⟨cl2, hcl2, hreq2.trans hreq1, fun h => hne2 (hne1 h),
    fun h => (hsel2 h).trans (hsel1 h), ?_⟩
  intro hT
  rw [hsame2 hT, hsame1 hT]

theorem rolesAssigned_mono (T T2 : String → Prop) (sel : Bool) (m m1 : GoMap CriteriaList)
    (hT : ∀ k, T k → T2 k) (h : rolesAssigned T sel m m1) : rolesAssigned T2 true m m1 := by
  intro k
  refine ⟨(h k).1, ?_⟩
  intro cl hcl
  obtain ⟨cl1, hcl1, hreq1, hne1, _, hsame1⟩ := (h k).2 cl hcl
  exact ⟨cl1, hcl1, hreq1, hne1, fun hf => absurd hf (by decide),
    fun hn => hsame1 (fun ht => hn (hT k ht))⟩

theorem rolesAssigned_mono_same (T T2 : String → Prop) (sel : Bool)
    (m m1 : GoMap CriteriaList) (hT : ∀ k, T k → T2 k) (h : rolesAssigned T sel m m1) :
    rolesAssigned T2 sel m m1 := by
  intro k
  refine ⟨(h k).1, ?_⟩
  intro cl hcl
  obtain ⟨cl1, hcl1, hreq1, hne1, hsel1, hsame1⟩ := (h k).2 cl hcl
  exact ⟨cl1, hcl1, hreq1, hne1, hsel1, fun hn => hsame1 (fun ht => hn (hT k ht))⟩

/-- An assignment of the card affinity to a role of `T`. -/
theorem rolesAssigned_affinity (T : String → Prop) (sel : Bool) (m : GoMap CriteriaList)
    (b : String) (cl : CriteriaList) (x : String) (hb : mapGet m b = some cl) (hT : T b) :
    rolesAssigned T sel m (mapSet m b { cl with CardAffinity := x }) := by
  intro k
  by_cases hk : k = b
  · subst hk
    refine ⟨fun h => ?_, ?_⟩
    · rw [hb] at h
      exact absurd h (by simp)
    · intro cl0 hcl0
      rw [hb] at hcl0
      cases hcl0
      exact ⟨_, mapGet_mapSet_self _ _ _ _ hb, rfl, fun h => h, fun _ => rfl,
        fun hn => absurd hT hn⟩
  · rw [mapGet_mapSet_ne _ _ _ _ (Ne.symm hk)]
    exact ⟨fun h => h, fun cl0 h => ⟨cl0, h, rfl, fun h2 => h2, fun _ => rfl, fun _ => rfl⟩⟩

/-- An assignment of a selected interface to a role of `T`. -/
theorem rolesAssigned_selected (T : String → Prop) (m : GoMap CriteriaList)
    (b : String) (cl : CriteriaList) (x : String) (hb : mapGet m b = some cl) (hT : T b)
    (hx : x ≠ "") :
    rolesAssigned T true m (mapSet m b { cl with SelectedDeviceInterface := x }) := by
  intro k
  by_cases hk : k = b
  · subst hk
    refine ⟨fun h => ?_, ?_⟩
    · rw [hb] at h
      exact absurd h (by simp)
    · intro cl0 hcl0
      rw [hb] at hcl0
      cases hcl0
      exact ⟨_, mapGet_mapSet_self _ _ _ _ hb, rfl, fun _ => hx,
        fun hf => absurd hf (by decide), fun hn => absurd hT hn⟩
  · rw [mapGet_mapSet_ne _ _ _ _ (Ne.symm hk)]
    exact ⟨fun h => h, fun cl0 h => ⟨cl0, h, rfl, fun h2 => h2, fun _ => rfl, fun _ => rfl⟩⟩

/-- Assignments keep the coupled PF that a role declares. -/
theorem coupleOf_rolesAssigned (T : String → Prop) (sel : Bool) (m m1 : GoMap CriteriaList)
    (h : rolesAssigned T sel m m1) (k : String) : coupleOf m1 k = coupleOf m k := by
  unfold coupleOf
  cases hk : mapGet m k with
  | none => rw [(h k).1 hk]
  | some cl =>
    obtain ⟨cl1, hcl1, hreq, _⟩ := (h k).2 cl hk
    rw [hcl1]
    have := congrArg CriteriaList.CardAffinityPfCouple hreq
    exact this

theorem stepOf_refl (T : String → Prop) (sel : Bool) (w : World) : stepOf T sel w w :=
  ⟨fun _ => rfl, rolesAssigned_refl T sel _⟩

theorem stepOf_trans (T : String → Prop) (sel : Bool) (w w1 w2 : World)
    (h1 : stepOf T sel w w1) (h2 : stepOf T sel w1 w2) : stepOf T sel w w2 :=
  ⟨fun c => (h2.1 c).trans (h1.1 c), rolesAssigned_trans T sel _ _ _ h1.2 h2.2⟩

theorem stepOf_mono (T T2 : String → Prop) (sel : Bool) (w w1 : World)
    (hT : ∀ k, T k → T2 k) (h : stepOf T sel w w1) : stepOf T2 true w w1 :=
  ⟨h.1, rolesAssigned_mono T T2 sel _ _ hT h.2⟩

theorem stepOf_mono_same (T T2 : String → Prop) (sel : Bool) (w w1 : World)
    (hT : ∀ k, T k → T2 k) (h : stepOf T sel w w1) : stepOf T2 sel w w1 :=
  ⟨h.1, rolesAssigned_mono_same T T2 sel _ _ hT h.2⟩

/-- A step that writes neither a device nor a criteria list. -/
theorem stepOf_same (T : String → Prop) (sel : Bool) (w w1 : World)
    (hdev : w1.devices = w.devices) (hcr : w1.criteriaListsMap = w.criteriaListsMap) :
    stepOf T sel w w1 := by
  refine ⟨fun c => by rw [hdev], ?_⟩
  rw [hcr]
  exact rolesAssigned_refl T sel _

theorem stepOf_tick (T : String → Prop) (sel : Bool) (w : World) : stepOf T sel w w.tick :=
  stepOf_same T sel w w.tick (devices_tick w) (criteria_tick w)

/-- A write of flags of one device. -/
theorem stepOf_modifyDevice (T : String → Prop) (sel : Bool) (w w1 : World)
    (c : DeviceCapabilityType) (i : Nat) (f : SupDevice → SupDevice)
    (h : w.modifyDevice c i f = some w1)
    (hf : ∀ d, (f d).InterfaceName = d.InterfaceName) : stepOf T sel w w1 := by
  obtain ⟨d, hd, hdev, hdev2, _, hcr, _, _⟩ := modifyDevice_proj _ _ _ _ _ h
  refine ⟨fun c2 => ?_, by rw [hcr]; exact rolesAssigned_refl T sel _⟩
  by_cases hc : c2 = c
  · subst hc
    rw [hdev, List.map_set, hf d]
    apply List.ext_getElem?
    intro j
    by_cases hj : j = i
    · subst hj
      rw [List.getElem?_set_self (by
        rw [List.length_map]
        exact (List.getElem?_eq_some_iff.mp hd).1), List.getElem?_map, hd]
      rfl
    · rw [List.getElem?_set_ne (fun e => hj e.symm)]
  · rw [hdev2 c2 hc]

theorem stepOf_optionalModify (T : String → Prop) (sel : Bool) (b : Prop) [Decidable b]
    (w wa : World) (c : DeviceCapabilityType) (i : Nat) (f : SupDevice → SupDevice)
    (h : (if b then w.modifyDevice c i f else some w) = some wa)
    (hf : ∀ d, (f d).InterfaceName = d.InterfaceName) : stepOf T sel w wa := by
  split at h
  · exact stepOf_modifyDevice T sel w wa c i f h hf
  · simp only [Option.some.injEq] at h
    rw [← h]
    exact stepOf_refl T sel w

/-- The loop of lines 557-559 keeps the interface names. -/
theorem markCardAffinityCouples_names : ∀ (l : List Nat) (ds ds1 : List SupDevice),
    markCardAffinityCouples l ds = some ds1 →
    ds1.map (fun d => d.InterfaceName) = ds.map (fun d => d.InterfaceName) := by
  intro l ds ds1 h
  obtain ⟨_, hget⟩ := markCardAffinityCouples_spec l ds ds1 h
  apply List.ext_getElem?
  intro j
  rw [List.getElem?_map, List.getElem?_map, hget j]
  cases ds[j]? with
  | none => rfl
  | some d =>
    simp only [Option.map_some']
    split <;> rfl

theorem stepOf_mark (T : String → Prop) (sel : Bool) (w : World) (c : DeviceCapabilityType)
    (l : List Nat) (ds : List SupDevice)
    (h : markCardAffinityCouples l (w.devices c) = some ds) :
    stepOf T sel w (w.setDevices c ds) := by
  refine ⟨fun c2 => ?_, by rw [criteria_setDevices]; exact rolesAssigned_refl T sel _⟩
  by_cases hc : c2 = c
  · subst hc
    rw [devices_setDevices_self]
    exact markCardAffinityCouples_names l _ ds h
  · rw [devices_setDevices_ne _ _ _ _ hc]

theorem stepOf_removeDeviceIndex (T : String → Prop) (sel : Bool) (w w1 : World)
    (c : DeviceCapabilityType) (idx : Nat) (key : String)
    (h : w.removeDeviceIndex c idx key = some w1) : stepOf T sel w w1 := by
  obtain ⟨_, _, _, _, hdev, hcr, _, _⟩ := removeDeviceIndex_proj _ _ _ _ _ h
  exact stepOf_same T sel w w1 hdev hcr

theorem stepOf_removeAndLog (T : String → Prop) (sel : Bool) (w w1 : World)
    (c : DeviceCapabilityType) (idx p : Nat) (key : String)
    (h : (w.removeDeviceIndex c idx key).map (fun w3 : World => w3.logSelection c p) = some w1) :
    stepOf T sel w w1 := by
  obtain ⟨_, _, _, _, hdev, hcr, _, _⟩ := removeAndLog_proj _ _ _ _ _ _ h
  exact stepOf_same T sel w w1 hdev hcr

theorem stepOf_logSelection (T : String → Prop) (sel : Bool) (w : World)
    (c : DeviceCapabilityType) (p : Nat) : stepOf T sel w (w.logSelection c p) :=
  stepOf_same T sel w _ (devices_logSelection w c p) (criteria_logSelection w c p)

theorem stepOf_setAffinityMap (T : String → Prop) (sel : Bool) (w : World)
    (c : DeviceCapabilityType) (m : GoMap CardAffinityDevicesInfo) :
    stepOf T sel w (w.setAffinityMap c m) :=
  stepOf_same T sel w _ (devices_setAffinityMap w c m) (criteria_setAffinityMap w c m)

/-- The card affinity is stored in the criteria list of a role of `T`. -/
theorem stepOf_affinity (T : String → Prop) (sel : Bool) (w w1 : World) (b x : String)
    (hT : T b)
    (h : w.modifyCriteria b (fun cl => { cl with CardAffinity := x }) = some w1) :
    stepOf T sel w w1 := by
  obtain ⟨cl, hcl, hcr, hdev, _⟩ := modifyCriteria_proj _ _ _ _ h
  refine ⟨fun c => by rw [hdev], ?_⟩
  rw [hcr]
  exact rolesAssigned_affinity T sel _ b cl x hcl hT

/-- A selected interface is stored in the criteria list of a role of `T`. -/
theorem stepOf_selected (T : String → Prop) (w w1 : World) (b x : String)
    (hT : T b) (hx : x ≠ "")
    (h : w.modifyCriteria b (fun cl => { cl with SelectedDeviceInterface := x }) = some w1) :
    stepOf T true w w1 := by
  obtain ⟨cl, hcl, hcr, hdev, _⟩ := modifyCriteria_proj _ _ _ _ h
  refine ⟨fun c => by rw [hdev], ?_⟩
  rw [hcr]
  exact rolesAssigned_selected T _ b cl x hcl hT hx

theorem namesNonEmpty_step (T : String → Prop) (sel : Bool) (w w1 : World)
    (h : stepOf T sel w w1) (hn : namesNonEmpty w) : namesNonEmpty w1 := by
  intro c d hd
  have hmem : d.InterfaceName ∈ (w1.devices c).map (fun d => d.InterfaceName) :=
    List.mem_map.mpr ⟨d, hd, rfl⟩
  rw [h.1 c] at hmem
  obtain ⟨d0, hd0, hname⟩ := List.mem_map.mp hmem
  rw [← hname]
  exact hn c d0 hd0

theorem coupleOf_step (T : String → Prop) (sel : Bool) (w w1 : World)
    (h : stepOf T sel w w1) (k : String) :
    coupleOf w1.criteriaListsMap k = coupleOf w.criteriaListsMap k :=
  coupleOf_rolesAssigned T sel _ _ h.2 k

theorem coupleOf_of_mapGet (m : GoMap CriteriaList) (k : String) (cl : CriteriaList)
    (h : mapGet m k = some cl) : coupleOf m k = cl.CardAffinityPfCouple := by
  unfold coupleOf
  rw [h]

/-- The loop of `SelectingDeviceFromCardAffinityIndexesSlice` writes flags of
devices, and the card affinity of the coupled PF; it selects no interface. -/
theorem selecting_loop_step (T : String → Prop) (sel : Bool) (ty : CardAffinityPfCoupleType)
    (c : DeviceCapabilityType) (key pf : String) (w0 : World)
    (hT : ty = .CURRENT_PF_SMALLER_THAN_COUPLED → T (coupleOf w0.criteriaListsMap pf)) :
    ∀ (rest : List Nat) (idx : Nat) (w : World) (r : Int) (w1 : World),
      stepOf T sel w0 w →
      SelectingDeviceFromCardAffinityIndexesSlice.loop ty c key pf rest idx w = some (r, w1) →
      stepOf T sel w0 w1 := by
  intro rest
  induction rest with
  | nil =>
    intro idx w r w1 hinv h
    simp only [SelectingDeviceFromCardAffinityIndexesSlice.loop, Option.some.injEq,
      Prod.mk.injEq] at h
    rw [← h.2]
    exact hinv
  | cons deviceIndex rest ih =>
    intro idx w r w1 hinv h
    rw [SelectingDeviceFromCardAffinityIndexesSlice.loop] at h
    split at h
    · simp at h
    · rename_i wa hwa
      have hinva := stepOf_trans T sel _ _ _ hinv
        (stepOf_optionalModify T sel (ty = .CURRENT_PF_BIGGER_THAN_COUPLED) _ _ _ _ _
          hwa (fun _ => rfl))
      split at h
      · simp at h
      · split at h
        · simp at h
        · split at h
          · split at h
            · -- EMPTY_MARKED_FALSE
              split at h
              · simp at h
              · rename_i info2 hinfo2
                dsimp only at h
                split at h
                · simp at h
                · rename_i wc hwc
                  simp only [Option.some.injEq, Prod.mk.injEq] at h
                  rw [← h.2]
                  exact stepOf_trans T sel _ _ _ hinva
                    (stepOf_trans T sel _ _ _ (stepOf_setAffinityMap T sel _ _ _)
                      (stepOf_trans T sel _ _ _ (stepOf_removeDeviceIndex T sel _ _ _ _ _ hwc)
                        (stepOf_logSelection T sel _ _ _)))
            · -- CURRENT_PF_SMALLER_THAN_COUPLED
              split at h
              · simp at h
              · rename_i criteriaList hcl
                split at h
                · simp at h
                · rename_i wb hwb
                  have hTb : T criteriaList.CardAffinityPfCouple := by
                    rw [← coupleOf_of_mapGet _ _ _ hcl, coupleOf_step T sel _ _ hinva]
                    exact hT rfl
                  have hinvb := stepOf_trans T sel _ _ _ hinva
                    (stepOf_affinity T sel _ _ _ _ hTb hwb)
                  split at h
                  · simp at h
                  · split at h
                    · simp at h
                    · rename_i devices hdevices
                      split at h
                      · simp at h
                      · rename_i wc hwc
                        simp only [Option.some.injEq, Prod.mk.injEq] at h
                        rw [← h.2]
                        exact stepOf_trans T sel _ _ _ hinvb
                          (stepOf_trans T sel _ _ _ (stepOf_mark T sel _ _ _ _ hdevices)
                            (stepOf_trans T sel _ _ _
                              (stepOf_removeDeviceIndex T sel _ _ _ _ _ hwc)
                              (stepOf_logSelection T sel _ _ _)))
            · -- CURRENT_PF_BIGGER_THAN_COUPLED
              split at h
              · simp at h
              · rename_i wb hwb
                have hinvb := stepOf_trans T sel _ _ _ hinva
                  (stepOf_modifyDevice T sel _ _ _ _ _ hwb (fun _ => rfl))
                split at h
                · simp at h
                · rename_i wc hwc
                  simp only [Option.some.injEq, Prod.mk.injEq] at h
                  rw [← h.2]
                  exact stepOf_trans T sel _ _ _ hinvb
                    (stepOf_trans T sel _ _ _ (stepOf_removeDeviceIndex T sel _ _ _ _ _ hwc)
                      (stepOf_logSelection T sel _ _ _))
            · -- EMPTY_MARKED_TRUE
              split at h
              · simp at h
              · rename_i wc hwc
                simp only [Option.some.injEq, Prod.mk.injEq] at h
                rw [← h.2]
                exact stepOf_trans T sel _ _ _ hinva
                  (stepOf_trans T sel _ _ _ (stepOf_removeDeviceIndex T sel _ _ _ _ _ hwc)
                    (stepOf_logSelection T sel _ _ _))
          · split at h
            · simp at h
            · rename_i wb hwb
              exact ih (idx + 1) wb r w1 (stepOf_trans T sel _ _ _ hinva
                (stepOf_optionalModify T sel (ty = .CURRENT_PF_BIGGER_THAN_COUPLED) _ _ _ _ _
                  hwb (fun _ => rfl))) h

/-- A scan of `CheckDevicesAgainstCriteriaListWithCardAffinity` selects no
interface. -/
theorem scan_step (T : String → Prop) (sel : Bool) (ty : CardAffinityPfCoupleType)
    (c : DeviceCapabilityType) (pf : String) (visit : CardAffinityDevicesInfo → Bool)
    (w0 : World)
    (hT : ty = .CURRENT_PF_SMALLER_THAN_COUPLED → T (coupleOf w0.criteriaListsMap pf)) :
    ∀ (keys : List String) (w : World) (r : Int) (w1 : World),
      stepOf T sel w0 w →
      CheckDevicesAgainstCriteriaListWithCardAffinity.scan ty c pf visit keys w = some (r, w1) →
      stepOf T sel w0 w1 := by
  intro keys
  induction keys with
  | nil =>
    intro w r w1 hinv h
    simp only [CheckDevicesAgainstCriteriaListWithCardAffinity.scan, Option.some.injEq,
      Prod.mk.injEq] at h
    rw [← h.2]
    exact hinv
  | cons key rest ih =>
    intro w r w1 hinv h
    rw [CheckDevicesAgainstCriteriaListWithCardAffinity.scan] at h
    split at h
    · exact ih w r w1 hinv h
    · rename_i info hinfo
      split at h
      · simp only [SelectingDeviceFromCardAffinityIndexesSlice, hinfo] at h
        split at h
        · simp at h
        · rename_i r0 wb hsel
          have hinv0 := selecting_loop_step T sel ty c key pf w0 hT _ 0 w r0 wb hinv hsel
          split at h
          · simp only [Option.some.injEq, Prod.mk.injEq] at h
            rw [← h.2]
            exact hinv0
          · exact ih wb r w1 hinv0 h
      · exact ih w r w1 hinv h

/-- Go: `CheckDevicesAgainstCriteriaListWithCardAffinity` writes flags of devices
and the card affinity of the coupled PF; it selects no interface. -/
theorem checkWithCardAffinity_step (T : String → Prop) (sel : Bool)
    (mapOrder : Nat → List String → List String) (c : DeviceCapabilityType) (pf : String)
    (w0 w : World) (r : Int) (w1 : World)
    (hT : coupleOf w0.criteriaListsMap pf ≠ "" → T (coupleOf w0.criteriaListsMap pf))
    (hinv : stepOf T sel w0 w)
    (h : CheckDevicesAgainstCriteriaListWithCardAffinity mapOrder c pf w = some (r, w1)) :
    stepOf T sel w0 w1 := by
  unfold CheckDevicesAgainstCriteriaListWithCardAffinity at h
  split at h
  · simp at h
  · rename_i criteriaList hcl
    have hcouple : coupleOf w0.criteriaListsMap pf = criteriaList.CardAffinityPfCouple := by
      rw [← coupleOf_step T sel _ _ hinv, coupleOf_of_mapGet _ _ _ hcl]
    split at h
    · split at h
      · simp at h
      · rename_i r0 wb hscan
        have hinv0 := scan_step T sel _ c pf _ w0 (fun e => absurd e (by decide)) _ _ r0 wb
          (stepOf_trans T sel _ _ _ hinv (stepOf_tick T sel w)) hscan
        split at h
        · simp only [Option.some.injEq, Prod.mk.injEq] at h
          rw [← h.2]
          exact hinv0
        · exact scan_step T sel _ c pf _ w0 (fun e => absurd e (by decide)) _ _ r w1
            (stepOf_trans T sel _ _ _ hinv0 (stepOf_tick T sel wb)) h
    · rename_i hne
      split at h
      · refine scan_step T sel _ c pf _ w0 (fun _ => hT ?_) _ _ r w1
          (stepOf_trans T sel _ _ _ hinv (stepOf_tick T sel w)) h
        rw [hcouple]
        exact hne
      · split at h
        · simp only [Option.some.injEq, Prod.mk.injEq] at h
          rw [← h.2]
          exact hinv
        · simp only [SelectingDeviceFromCardAffinityIndexesSlice] at h
          split at h
          · simp at h
          · exact selecting_loop_step T sel _ c _ pf w0 (fun e => absurd e (by decide)) _ 0 w r
              w1 hinv h

theorem selected_after (w wa : World) (b x : String) (hx : x ≠ "")
    (h : w.modifyCriteria b (fun cl => { cl with SelectedDeviceInterface := x }) = some wa) :
    ∃ cl1, mapGet wa.criteriaListsMap b = some cl1 ∧ cl1.SelectedDeviceInterface ≠ "" := by
  obtain ⟨cl, hcl, hcr, _⟩ := modifyCriteria_proj _ _ _ _ h
  rw [hcr]
  exact ⟨_, mapGet_mapSet_self _ _ _ _ hcl, hx⟩

theorem selected_stays (T : String → Prop) (sel : Bool) (w w1 : World) (k : String)
    (h : stepOf T sel w w1)
    (hk : ∃ cl, mapGet w.criteriaListsMap k = some cl ∧ cl.SelectedDeviceInterface ≠ "") :
    ∃ cl1, mapGet w1.criteriaListsMap k = some cl1 ∧ cl1.SelectedDeviceInterface ≠ "" := by
  obtain ⟨cl, hcl, hne⟩ := hk
  obtain ⟨cl1, hcl1, _, hkeep, _⟩ := (h.2 k).2 cl hcl
  exact ⟨cl1, hcl1, hkeep hne⟩

theorem name_of_position (w : World) (c : DeviceCapabilityType) (i : Nat) (d : SupDevice)
    (hn : namesNonEmpty w) (hd : (w.devices c)[i]? = some d) : d.InterfaceName ≠ "" :=
  hn c d (List.getElem?_mem hd)

/-- A successful search of `FindProperCoupleDevicesFromDifferentCardAffinityMaps`
selects an interface for the role, and for its coupled PF when a couple of
devices is required; it writes no other criteria list. -/
theorem findProperCouple_loop_step (T : String → Prop) (cur cpl : DeviceCapabilityType)
    (pf : String) (required : Bool) :
    ∀ (keys : List String) (w w1 : World),
      namesNonEmpty w → T pf → (required = true → T (coupleOf w.criteriaListsMap pf)) →
      FindProperCoupleDevicesFromDifferentCardAffinityMaps.loop cur cpl pf required keys w =
        some (true, w1) →
      stepOf T true w w1 ∧
        ∃ cl1, mapGet w1.criteriaListsMap pf = some cl1 ∧ cl1.SelectedDeviceInterface ≠ "" := by
  intro keys
  induction keys with
  | nil =>
    intro w w1 _ _ _ h
    simp [FindProperCoupleDevicesFromDifferentCardAffinityMaps.loop] at h
  | cons key rest ih =>
    intro w w1 hn hT hT2 h
    rw [FindProperCoupleDevicesFromDifferentCardAffinityMaps.loop] at h
    split at h
    · exact ih w w1 hn hT hT2 h
    · rename_i info hinfo
      split at h
      · exact ih w w1 hn hT hT2 h
      · rename_i coupledInfo _
        split at h
        · simp at h
        · rename_i position hposition
          split at h
          · simp at h
          · rename_i device hdevice
            have hname := name_of_position w cur position device hn hdevice
            split at h
            · simp at h
            · split at h
              · split at h
                · -- a couple of devices is required
                  rename_i hreq
                  split at h
                  · simp at h
                  · split at h
                    · simp at h
                    · split at h
                      · simp at h
                      · rename_i criteriaList hcl
                        have hTc : T criteriaList.CardAffinityPfCouple := by
                          rw [← coupleOf_of_mapGet _ _ _ hcl]
                          exact hT2 hreq
                        split at h
                        · simp at h
                        · split at h
                          · split at h
                            · simp at h
                            · rename_i wa hwa
                              have hsa := stepOf_selected T w wa pf _ hT hname hwa
                              have hsel := selected_after w wa pf _ hname hwa
                              split at h
                              · simp at h
                              · rename_i wb hwb
                                have hsb := stepOf_modifyDevice T true wa wb _ _ _ hwb
                                  (fun _ => rfl)
                                split at h
                                · simp at h
                                · rename_i wc hwc
                                  have hsc := stepOf_removeAndLog T true wb wc _ _ _ _ hwc
                                  split at h
                                  · simp at h
                                  · rename_i coupledInfo3 hci3
                                    split at h
                                    · simp at h
                                    · rename_i coupledPosition3 hcp3
                                      split at h
                                      · simp at h
                                      · rename_i wd hwd
                                        have hsd := stepOf_modifyDevice T true wc wd _ _ _ hwd
                                          (fun _ => rfl)
                                        have hwd0 : stepOf T true w wd :=
                                          stepOf_trans T true _ _ _ hsa
                                            (stepOf_trans T true _ _ _ hsb
                                              (stepOf_trans T true _ _ _ hsc hsd))
                                        split at h
                                        · simp at h
                                        · rename_i coupledDevice4 hcd4
                                          have hname4 := name_of_position wd cpl _ _
                                            (namesNonEmpty_step T true w wd hwd0 hn) hcd4
                                          split at h
                                          · simp at h
                                          · rename_i we hwe
                                            have hse := stepOf_selected T wd we _ _ hTc hname4 hwe
                                            split at h
                                            · simp at h
                                            · rename_i wf hwf
                                              simp only [Option.some.injEq, Prod.mk.injEq,
                                                true_and] at h
                                              rw [← h]
                                              have hsf := stepOf_trans T true _ _ _
                                                (stepOf_removeDeviceIndex T true we wf _ _ _ hwf)
                                                (stepOf_logSelection T true wf cpl
                                                  coupledPosition3)
                                              refine ⟨stepOf_trans T true _ _ _ hwd0
                                                (stepOf_trans T true _ _ _ hse hsf), ?_⟩
                                              exact selected_stays T true wa _ pf
                                                (stepOf_trans T true _ _ _ hsb
                                                  (stepOf_trans T true _ _ _ hsc
                                                    (stepOf_trans T true _ _ _ hsd
                                                      (stepOf_trans T true _ _ _ hse hsf))))
                                                hsel
                          · exact ih w w1 hn hT hT2 h
                · -- a single device
                  split at h
                  · simp at h
                  · rename_i wa hwa
                    have hsa := stepOf_selected T w wa pf _ hT hname hwa
                    have hsel := selected_after w wa pf _ hname hwa
                    split at h
                    · simp at h
                    · rename_i wb hwb
                      have hsb := stepOf_modifyDevice T true wa wb _ _ _ hwb (fun _ => rfl)
                      split at h
                      · simp at h
                      · rename_i wc hwc
                        have hsc := stepOf_removeAndLog T true wb wc _ _ _ _ hwc
                        split at h
                        · simp at h
                        · rename_i coupledInfo3 hci3
                          simp only [Option.some.injEq, Prod.mk.injEq, true_and] at h
                          rw [← h]
                          exact ⟨stepOf_trans T true _ _ _ hsa
                              (stepOf_trans T true _ _ _ hsb
                                (stepOf_trans T true _ _ _ hsc
                                  (stepOf_setAffinityMap T true wc cpl _))),
                            selected_stays T true wa _ pf
                              (stepOf_trans T true _ _ _ hsb
                                (stepOf_trans T true _ _ _ hsc
                                  (stepOf_setAffinityMap T true wc cpl _))) hsel⟩
              · exact ih w w1 hn hT hT2 h

/-- The body of `FindDevicesForPfCoupleWithSpecialCapability` once the smaller
and the bigger of the two roles are known. -/
theorem findDevices_body_step (T : String → Prop)
    (mapOrder : Nat → List String → List String) (c : DeviceCapabilityType)
    (first second : String) (w : World) (b : Bool) (w1 : World)
    (hn : namesNonEmpty w) (hT1 : T first) (hT2 : T second)
    (hc1 : coupleOf w.criteriaListsMap first ≠ "" → T (coupleOf w.criteriaListsMap first))
    (hc2 : coupleOf w.criteriaListsMap second ≠ "" → T (coupleOf w.criteriaListsMap second))
    (h : (match CheckDevicesAgainstCriteriaListWithCardAffinity mapOrder c first w with
      | none => none
      | some (deviceIndex, w1) =>
        if deviceIndex ≥ 0 then
          match CheckDevicesAgainstCriteriaListWithCardAffinity mapOrder c second w1 with
          | none => none
          | some (coupledDeviceIndex, w2) =>
            if coupledDeviceIndex ≥ 0 then
              match (w2.devices c)[deviceIndex.toNat]? with
              | none => none
              | some device =>
              match w2.modifyCriteria first
                  (fun cl => { cl with SelectedDeviceInterface := device.InterfaceName }) with
              | none => none
              | some w3 =>
              match (w3.devices c)[coupledDeviceIndex.toNat]? with
              | none => none
              | some coupledDevice =>
              match w3.modifyCriteria second
                  (fun cl => { cl with SelectedDeviceInterface := coupledDevice.InterfaceName })
                  with
              | none => none
              | some w4 => some (true, w4)
            else some (false, w2)
        else some (false, w1)) = some (b, w1)) :
    (b = false → stepOf T false w w1) ∧
    (b = true → stepOf T true w w1 ∧
      (∃ cl1, mapGet w1.criteriaListsMap first = some cl1 ∧ cl1.SelectedDeviceInterface ≠ "") ∧
      ∃ cl1, mapGet w1.criteriaListsMap second = some cl1 ∧
        cl1.SelectedDeviceInterface ≠ "") := by
  split at h
  · simp at h
  · rename_i r0 wa hfirst
    have hsa := checkWithCardAffinity_step T false mapOrder c first w w r0 wa hc1
      (stepOf_refl T false w) hfirst
    split at h
    · split at h
      · simp at h
      · rename_i r2 wb hsecond
        have hsb := checkWithCardAffinity_step T false mapOrder c second w wa r2 wb hc2 hsa
          hsecond
        split at h
        · split at h
          · simp at h
          · rename_i device hdevice
            have hnb := namesNonEmpty_step T false w wb hsb hn
            have hname := name_of_position wb c _ device hnb hdevice
            split at h
            · simp at h
            · rename_i wc hwc
              have hsc := stepOf_selected T wb wc first _ hT1 hname hwc
              have hselc := selected_after wb wc first _ hname hwc
              split at h
              · simp at h
              · rename_i coupledDevice hcd
                have hnc := namesNonEmpty_step T true wb wc hsc hnb
                have hname2 := name_of_position wc c _ coupledDevice hnc hcd
                split at h
                · simp at h
                · rename_i wd hwd
                  have hsd := stepOf_selected T wc wd second _ hT2 hname2 hwd
                  simp only [Option.some.injEq, Prod.mk.injEq] at h
                  obtain ⟨hb, hw⟩ := h
                  subst hb hw
                  refine ⟨fun hf => absurd hf (by decide), fun _ => ⟨?_, ?_, ?_⟩⟩
                  · exact stepOf_trans T true _ _ _
                      (stepOf_mono T T false w wb (fun _ ht => ht) hsb)
                      (stepOf_trans T true _ _ _ hsc hsd)
                  · exact selected_stays T true wc _ first hsd hselc
                  · exact selected_after wc _ second _ hname2 hwd
        · simp only [Option.some.injEq, Prod.mk.injEq] at h
          obtain ⟨hb, hw⟩ := h
          subst hb hw
          exact ⟨fun _ => hsb, fun hf => absurd hf (by decide)⟩
    · simp only [Option.some.injEq, Prod.mk.injEq] at h
      obtain ⟨hb, hw⟩ := h
      subst hb hw
      exact ⟨fun _ => hsa, fun hf => absurd hf (by decide)⟩

/-- Go: `FindDevicesForPfCoupleWithSpecialCapability`: a failure selects no
interface; a success selects interfaces for the role and its coupled PF. The
criteria lists it may write are those of the role, of its coupled PF and of the
coupled PF of that one. -/
theorem findDevices_step (T : String → Prop) (mapOrder : Nat → List String → List String)
    (c : DeviceCapabilityType) (pf : String) (w : World) (b : Bool) (w1 : World)
    (hn : namesNonEmpty w) (hT1 : T pf) (hT2 : T (coupleOf w.criteriaListsMap pf))
    (hT3 : coupleOf w.criteriaListsMap (coupleOf w.criteriaListsMap pf) ≠ "" →
      T (coupleOf w.criteriaListsMap (coupleOf w.criteriaListsMap pf)))
    (h : FindDevicesForPfCoupleWithSpecialCapability mapOrder c pf w = some (b, w1)) :
    (b = false → stepOf T false w w1) ∧
    (b = true → stepOf T true w w1 ∧
      ∃ cl1, mapGet w1.criteriaListsMap pf = some cl1 ∧ cl1.SelectedDeviceInterface ≠ "") := by
  unfold FindDevicesForPfCoupleWithSpecialCapability at h
  split at h
  · simp at h
  · rename_i criteriaList hcl
    have hcouple := coupleOf_of_mapGet _ _ _ hcl
    rw [hcouple] at hT2 hT3
    dsimp only at h
    by_cases hlt : goStringLess criteriaList.CardAffinityPfCouple pf
    · simp only [hlt, if_true] at h
      obtain ⟨hfalse, htrue⟩ := findDevices_body_step T mapOrder c
        criteriaList.CardAffinityPfCouple pf w b w1 hn hT2 hT1 hT3
        (fun _ => by rw [hcouple]; exact hT2) h
      exact ⟨hfalse, fun hb => ⟨(htrue hb).1, (htrue hb).2.2⟩⟩
    · simp only [hlt, if_false] at h
      obtain ⟨hfalse, htrue⟩ := findDevices_body_step T mapOrder c pf
        criteriaList.CardAffinityPfCouple w b w1 hn hT1 hT2
        (fun _ => by rw [hcouple]; exact hT2) hT3 h
      exact ⟨hfalse, fun hb => ⟨(htrue hb).1, (htrue hb).2.1⟩⟩

theorem requiresCapability_congr (ty : DeviceCapabilityType) (cl cl1 : CriteriaList)
    (h : roleRequirements cl1 = roleRequirements cl) :
    requiresCapability ty cl1 ↔ requiresCapability ty cl := by
  have h1 : cl1.RRUConnection = cl.RRUConnection := by
    have := congrArg CriteriaList.RRUConnection h
    exact this
  have h2 : cl1.PTPSupport = cl.PTPSupport := by
    have := congrArg CriteriaList.PTPSupport h
    exact this
  unfold requiresCapability
  rw [h1, h2]

/-- A resolved role stays resolved. -/
theorem roleResolved_step (T : String → Prop) (sel : Bool) (ty : DeviceCapabilityType)
    (w w1 : World) (k : String) (h : stepOf T sel w w1)
    (hres : roleResolved ty w.criteriaListsMap k) : roleResolved ty w1.criteriaListsMap k := by
  intro cl1 hcl1 hreq
  cases hk : mapGet w.criteriaListsMap k with
  | none =>
    rw [(h.2 k).1 hk] at hcl1
    exact absurd hcl1 (by simp)
  | some cl =>
    obtain ⟨cl2, hcl2, hsame, hkeep, _⟩ := (h.2 k).2 cl hk
    rw [hcl1] at hcl2
    cases hcl2
    exact hkeep (hres cl hk ((requiresCapability_congr ty cl cl1 hsame).mp hreq))

theorem touchedBy_mono (m : GoMap CriteriaList) (l l2 : List String)
    (h : ∀ q, q ∈ l → q ∈ l2) (k : String) (hk : touchedBy m l k) : touchedBy m l2 k := by
  obtain ⟨q, hq, hrest⟩ := hk
  exact ⟨q, h q hq, hrest⟩

theorem touchedBy_congr (m m1 : GoMap CriteriaList) (l : List String)
    (h : ∀ k, coupleOf m1 k = coupleOf m k) (k : String) (hk : touchedBy m1 l k) :
    touchedBy m l k := by
  obtain ⟨q, hq, hrest⟩ := hk
  refine ⟨q, hq, ?_⟩
  rw [h q, h (coupleOf m q)] at hrest
  exact hrest

/-- The loop goes on after the role `pf`. -/
theorem treatment_cons_continue (ty : DeviceCapabilityType) (pf : String) (rest : List String)
    (w wa : World) (b : Bool) (w1 : World)
    (hstep : stepOf (touchedBy w.criteriaListsMap [pf]) true w wa)
    (hres : roleResolved ty wa.criteriaListsMap pf)
    (hout : treatmentOutcome ty rest wa b w1) : treatmentOutcome ty (pf :: rest) w b w1 := by
  have hcouple : ∀ k, coupleOf wa.criteriaListsMap k = coupleOf w.criteriaListsMap k :=
    coupleOf_step _ _ _ _ hstep
  constructor
  · intro hb
    obtain ⟨hs, hall⟩ := hout.1 hb
    refine ⟨stepOf_trans _ true _ _ _
      (stepOf_mono_same _ _ true w wa (touchedBy_mono _ _ _ (fun q hq => by
        rw [List.mem_singleton] at hq
        rw [hq]
        exact List.mem_cons_self _ _)) hstep)
      (stepOf_mono_same _ _ true wa w1 (fun k hk =>
        touchedBy_mono _ _ _ (fun q hq => List.mem_cons_of_mem _ hq) k
          (touchedBy_congr _ _ _ hcouple k hk)) hs), ?_⟩
    intro k hk
    rcases List.mem_cons.mp hk with e | e
    · rw [e]
      exact roleResolved_step _ true ty wa w1 pf hs hres
    · exact hall k e
  · intro hb
    obtain ⟨pre, q, post, cl, hkeys, hs, hpre, hcl, hreq, hsel⟩ := hout.2 hb
    refine ⟨pf :: pre, q, post, cl, by rw [hkeys]; rfl, ?_, ?_, hcl, hreq, hsel⟩
    · exact stepOf_trans _ true _ _ _
        (stepOf_mono_same _ _ true w wa (touchedBy_mono _ _ _ (fun q2 hq => by
          rw [List.mem_singleton] at hq
          rw [hq]
          exact List.mem_cons_self _ _)) hstep)
        (stepOf_mono_same _ _ true wa w1 (fun k hk =>
          touchedBy_mono _ _ _ (fun q2 hq => List.mem_cons_of_mem _ hq) k
            (touchedBy_congr _ _ _ hcouple k hk)) hs)
    · intro k hk
      rcases List.mem_cons.mp hk with e | e
      · rw [e]
        exact roleResolved_step _ true ty wa w1 pf hs hres
      · exact hpre k e

/-- The loop stops at the role `pf`. -/
theorem treatment_cons_fail (ty : DeviceCapabilityType) (pf : String) (rest : List String)
    (w w1 : World) (cl : CriteriaList)
    (hstep : stepOf (touchedBy w.criteriaListsMap [pf]) false w w1)
    (hcl : mapGet w.criteriaListsMap pf = some cl) (hreq : requiresCapability ty cl)
    (hsel : cl.SelectedDeviceInterface = "") :
    treatmentOutcome ty (pf :: rest) w false w1 := by
  constructor
  · intro hb
    exact absurd hb (by decide)
  · intro _
    obtain ⟨cl1, hcl1, hsame, _, hkept, _⟩ := (hstep.2 pf).2 cl hcl
    refine ⟨[], pf, rest, cl1, rfl, stepOf_mono _ _ false w w1 (fun _ ht => ht) hstep, ?_, hcl1,
      (requiresCapability_congr ty cl cl1 hsame).mpr hreq, ?_⟩
    · intro k hk
      simp at hk
    · rw [hkept rfl, hsel]

theorem namesNonEmpty_tick (w : World) (hn : namesNonEmpty w) : namesNonEmpty w.tick := by
  intro c d hd
  rw [devices_tick] at hd
  exact hn c d hd

/-- Go: `FindProperCoupleDevicesFromDifferentCardAffinityMaps`: a failure changes
nothing; a success selects an interface for the role, and for its coupled PF
when a couple of devices is required. -/
theorem findProperCouple_step (T : String → Prop)
    (mapOrder : Nat → List String → List String) (cur cpl : DeviceCapabilityType)
    (pf : String) (required : Bool) (w : World) (b : Bool) (w1 : World)
    (hn : namesNonEmpty w) (hT : T pf)
    (hT2 : required = true → T (coupleOf w.criteriaListsMap pf))
    (h : FindProperCoupleDevicesFromDifferentCardAffinityMaps mapOrder cur cpl pf required w =
      some (b, w1)) :
    (b = false → w1 = w.tick) ∧
    (b = true → stepOf T true w w1 ∧
      ∃ cl1, mapGet w1.criteriaListsMap pf = some cl1 ∧ cl1.SelectedDeviceInterface ≠ "") := by
  unfold FindProperCoupleDevicesFromDifferentCardAffinityMaps at h
  cases b with
  | false =>
    exact ⟨fun _ => findProperCouple_loop_false _ _ _ _ _ _ _ h, fun hf => absurd hf (by decide)⟩
  | true =>
    refine ⟨fun hf => absurd hf (by decide), fun _ => ?_⟩
    obtain ⟨hs, hsel⟩ := findProperCouple_loop_step T cur cpl pf required _ w.tick w1
      (namesNonEmpty_tick w hn) hT (by rw [criteria_tick]; exact hT2) h
    exact ⟨stepOf_trans T true _ _ _ (stepOf_tick T true w) hs, hsel⟩

/-- The lines 951-960 of `TreatmentOFCardAffinityWithCapabilities`: the device
found by the plain search is handed to the role when its position is found in
its group, and nothing changes when it is not. -/
theorem treatment_inline_step (T : String → Prop) (target : DeviceCapabilityType)
    (pf : String) (w2 w6 : World) (device device6 : SupDevice) (i : Nat)
    (info : CardAffinityDevicesInfo)
    (hw6 : (match findIndexInDevicesIndexesSlice info.DevicesIndexesSlice 0 i with
      | none => some w2
      | some indexInDevicesIndexesSlice =>
        match w2.modifyCriteria pf
            (fun cl => { cl with SelectedDeviceInterface := device.InterfaceName }) with
        | none => none
        | some w3 =>
        match (w3.removeDeviceIndex target indexInDevicesIndexesSlice
            device.CardAffinity).map
            (fun w4 : World => w4.logSelection target i) with
        | none => none
        | some w4 =>
          w4.modifyDevice target i
            (fun d => { d with CheckedAgainstCriteria := true })) = some w6)
    (hdev : (w2.devices target)[i]? = some device)
    (hunchecked : device.CheckedAgainstCriteria = false)
    (hname : device.InterfaceName ≠ "") (hT : T pf)
    (hd6 : (w6.devices target)[i]? = some device6) :
    (device6.CheckedAgainstCriteria = true → stepOf T true w2 w6 ∧
      ∃ cl1, mapGet w6.criteriaListsMap pf = some cl1 ∧ cl1.SelectedDeviceInterface ≠ "") ∧
    (¬ device6.CheckedAgainstCriteria = true → w6 = w2) := by
  split at hw6
  · simp only [Option.some.injEq] at hw6
    subst hw6
    rw [hdev] at hd6
    cases hd6
    refine ⟨fun hc => ?_, fun _ => rfl⟩
    rw [hunchecked] at hc
    exact absurd hc (by decide)
  · split at hw6
    · simp at hw6
    · rename_i w3 hw3
      have hs3 := stepOf_selected T w2 w3 pf _ hT hname hw3
      have hsel3 := selected_after w2 w3 pf _ hname hw3
      split at hw6
      · simp at hw6
      · rename_i w4 hw4
        have hs4 := stepOf_removeAndLog T true w3 w4 _ _ _ _ hw4
        have hs6 := stepOf_modifyDevice T true w4 w6 _ _ _ hw6 (fun _ => rfl)
        obtain ⟨d4, hd4, hdev6, _⟩ := modifyDevice_proj _ _ _ _ _ hw6
        rw [hdev6, List.getElem?_set_self (List.getElem?_eq_some_iff.mp hd4).1] at hd6
        cases hd6
        refine ⟨fun _ => ⟨stepOf_trans T true _ _ _ hs3 (stepOf_trans T true _ _ _ hs4 hs6),
          selected_stays T true w3 w6 pf (stepOf_trans T true _ _ _ hs4 hs6) hsel3⟩,
          fun hc => absurd rfl hc⟩

theorem touchedBy_self (m : GoMap CriteriaList) (pf : String) : touchedBy m [pf] pf :=
  ⟨pf, List.mem_singleton_self pf, Or.inl rfl⟩

theorem touchedBy_couple (m : GoMap CriteriaList) (pf : String) (h : coupleOf m pf ≠ "") :
    touchedBy m [pf] (coupleOf m pf) :=
  ⟨pf, List.mem_singleton_self pf, Or.inr ⟨h, Or.inl rfl⟩⟩

theorem touchedBy_couple_couple (m : GoMap CriteriaList) (pf : String)
    (h : coupleOf m pf ≠ "") : touchedBy m [pf] (coupleOf m (coupleOf m pf)) :=
  ⟨pf, List.mem_singleton_self pf, Or.inr ⟨h, Or.inr rfl⟩⟩

/-- The loop of `TreatmentOFCardAffinityWithCapabilities`, with interface names
that are not empty: the outcome described by `treatmentOutcome`. -/
theorem treatment_loop_outcome (mapOrder : Nat → List String → List String)
    (target other ty : DeviceCapabilityType) :
    ∀ (keys : List String) (w : World) (b : Bool) (w1 : World),
      namesNonEmpty w →
      TreatmentOFCardAffinityWithCapabilities.loop mapOrder target other ty keys w =
        some (b, w1) →
      treatmentOutcome ty keys w b w1 := by
  intro keys
  induction keys with
  | nil =>
    intro w b w1 _ h
    simp only [TreatmentOFCardAffinityWithCapabilities.loop, Option.some.injEq,
      Prod.mk.injEq] at h
    obtain ⟨hb, hw⟩ := h
    subst hb hw
    refine ⟨fun _ => ⟨stepOf_refl _ true w, fun k hk => by simp at hk⟩,
      fun hf => absurd hf (by decide)⟩
  | cons pf rest ih =>
    intro w b w1 hn h
    rw [TreatmentOFCardAffinityWithCapabilities.loop] at h
    split at h
    · simp at h
    · rename_i criteriaList hcl
      have hcouple := coupleOf_of_mapGet _ _ _ hcl
      have hTpf := touchedBy_self w.criteriaListsMap pf
      -- the three ways the loop goes on
      have skip : roleResolved ty w.criteriaListsMap pf →
          TreatmentOFCardAffinityWithCapabilities.loop mapOrder target other ty rest w =
            some (b, w1) → treatmentOutcome ty (pf :: rest) w b w1 := fun hres hrun =>
        treatment_cons_continue ty pf rest w w b w1 (stepOf_refl _ true w) hres
          (ih w b w1 hn hrun)
      have go : ∀ wa, stepOf (touchedBy w.criteriaListsMap [pf]) true w wa →
          (∃ cl1, mapGet wa.criteriaListsMap pf = some cl1 ∧ cl1.SelectedDeviceInterface ≠ "") →
          TreatmentOFCardAffinityWithCapabilities.loop mapOrder target other ty rest wa =
            some (b, w1) → treatmentOutcome ty (pf :: rest) w b w1 := by
        intro wa hs hsel hrun
        refine treatment_cons_continue ty pf rest w wa b w1 hs ?_
          (ih wa b w1 (namesNonEmpty_step _ true w wa hs hn) hrun)
        intro cl1 hcl1 _
        obtain ⟨cl2, hcl2, hne⟩ := hsel
        rw [hcl1] at hcl2
        cases hcl2
        exact hne
      split at h
      · rename_i hselected
        refine skip ?_ h
        intro cl hcl2 _
        rw [hcl] at hcl2
        cases hcl2
        exact hselected
      · rename_i hfree
        have hsel : criteriaList.SelectedDeviceInterface = "" := by
          by_contra hne
          exact hfree hne
        split at h
        · rename_i hreq
          have hrequires : requiresCapability ty criteriaList := hreq
          have stop : ∀ wa, stepOf (touchedBy w.criteriaListsMap [pf]) false w wa →
              some (false, wa) = some (b, w1) → treatmentOutcome ty (pf :: rest) w b w1 := by
            intro wa hs he
            simp only [Option.some.injEq, Prod.mk.injEq] at he
            obtain ⟨hb, hw⟩ := he
            subst hb hw
            exact treatment_cons_fail ty pf rest w wa criteriaList hs hcl hrequires hsel
          split at h
          · -- no coupled PF
            split at h
            · simp at h
            · rename_i wa hwa
              obtain ⟨hs, hsl⟩ := (findProperCouple_step _ mapOrder _ _ pf false w true wa hn hTpf
                (fun hf => absurd hf (by decide)) hwa).2 rfl
              exact go wa hs hsl h
            · rename_i wa hwa
              have hwa2 := (findProperCouple_step _ mapOrder _ _ pf false w false wa hn hTpf
                (fun hf => absurd hf (by decide)) hwa).1 rfl
              subst hwa2
              have hna := namesNonEmpty_tick w hn
              have hsa := stepOf_tick (touchedBy w.criteriaListsMap [pf]) true w
              split at h
              · simp at h
              · rename_i wb hwb
                obtain ⟨hs, hsl⟩ := (findProperCouple_step _ mapOrder _ _ pf false w.tick true wb
                  hna hTpf (fun hf => absurd hf (by decide)) hwb).2 rfl
                exact go wb (stepOf_trans _ true _ _ _ hsa hs) hsl h
              · rename_i wb hwb
                have hwb2 := (findProperCouple_step _ mapOrder _ _ pf false w.tick false wb
                  hna hTpf (fun hf => absurd hf (by decide)) hwb).1 rfl
                subst hwb2
                have hnb := namesNonEmpty_tick w.tick hna
                have hsb : stepOf (touchedBy w.criteriaListsMap [pf]) true w w.tick.tick :=
                  stepOf_trans _ true _ _ _ hsa (stepOf_tick _ true w.tick)
                have hsbf : stepOf (touchedBy w.criteriaListsMap [pf]) false w w.tick.tick :=
                  stepOf_trans _ false _ _ _ (stepOf_tick _ false w) (stepOf_tick _ false w.tick)
                split at h
                · simp at h
                · rename_i deviceIndex hcheck
                  split at h
                  · rename_i hge
                    split at h
                    · simp at h
                    · rename_i device hdevice
                      have hptr : mapGet w.tick.tick.criteriaListsMap pf = some criteriaList := by
                        rw [criteria_tick, criteria_tick]
                        exact hcl
                      rw [hptr] at hcheck
                      have hidx : deviceIndex = ((deviceIndex.toNat : Nat) : Int) :=
                        (Int.toNat_of_nonneg hge).symm
                      rw [hidx] at hcheck
                      obtain ⟨d, hd, hacc⟩ := returned_acceptable criteriaList _ _ hcheck
                      rw [hdevice] at hd
                      cases hd
                      split at h
                      · simp at h
                      · rename_i info hinfo
                        split at h
                        · simp at h
                        · rename_i w6 hw6
                          split at h
                          · simp at h
                          · rename_i device6 hd6
                            obtain ⟨hyes, hno⟩ := treatment_inline_step
                              (touchedBy w.criteriaListsMap [pf]) target pf w.tick.tick w6
                              device device6 deviceIndex.toNat info hw6 hdevice hacc.1
                              (name_of_position _ _ _ _ hnb hdevice) hTpf hd6
                            split at h
                            · rename_i hchecked
                              obtain ⟨hs, hsl⟩ := hyes hchecked
                              exact go w6 (stepOf_trans _ true _ _ _ hsb hs) hsl h
                            · rename_i hchecked
                              have hw := hno hchecked
                              subst hw
                              exact stop _ hsbf h
                  · exact stop _ hsbf h
          · -- a coupled PF
            rename_i hcoupled
            have hcne : coupleOf w.criteriaListsMap pf ≠ "" := by
              rw [hcouple]
              exact hcoupled
            have hTc := touchedBy_couple w.criteriaListsMap pf hcne
            have hTcc := touchedBy_couple_couple w.criteriaListsMap pf hcne
            split at h
            · simp at h
            · split at h
              · -- the coupled PF requires the capability too
                split at h
                · simp at h
                · rename_i wa hwa
                  obtain ⟨hs, hsl⟩ := (findDevices_step _ mapOrder target pf w true wa hn hTpf
                    hTc (fun _ => hTcc) hwa).2 rfl
                  exact go wa hs hsl h
                · rename_i wa hwa
                  exact stop wa ((findDevices_step _ mapOrder target pf w false wa hn hTpf
                    hTc (fun _ => hTcc) hwa).1 rfl) h
              · split at h
                · -- RRU with a coupled PF that requires PTP
                  split at h
                  · simp at h
                  · rename_i wa hwa
                    obtain ⟨hs, hsl⟩ := (findProperCouple_step _ mapOrder _ _ pf true w true wa hn
                      hTpf (fun _ => hTc) hwa).2 rfl
                    exact go wa hs hsl h
                  · rename_i wa hwa
                    have hwa2 := (findProperCouple_step _ mapOrder _ _ pf true w false wa hn hTpf
                      (fun _ => hTc) hwa).1 rfl
                    subst hwa2
                    exact stop _ (stepOf_tick _ false w) h
                · -- the coupled PF requires no capability
                  split at h
                  · simp at h
                  · rename_i wa hwa
                    obtain ⟨hs, hsl⟩ := (findProperCouple_step _ mapOrder _ _ pf true w true wa hn
                      hTpf (fun _ => hTc) hwa).2 rfl
                    exact go wa hs hsl h
                  · rename_i wa hwa
                    have hwa2 := (findProperCouple_step _ mapOrder _ _ pf true w false wa hn hTpf
                      (fun _ => hTc) hwa).1 rfl
                    subst hwa2
                    have hna := namesNonEmpty_tick w hn
                    have hsa := stepOf_tick (touchedBy w.criteriaListsMap [pf]) true w
                    split at h
                    · simp at h
                    · rename_i wb hwb
                      obtain ⟨hs, hsl⟩ := (findProperCouple_step _ mapOrder _ _ pf true w.tick true
                        wb hna hTpf (fun _ => by rw [criteria_tick]; exact hTc) hwb).2 rfl
                      exact go wb (stepOf_trans _ true _ _ _ hsa hs) hsl h
                    · rename_i wb hwb
                      have hwb2 := (findProperCouple_step _ mapOrder _ _ pf true w.tick false wb
                        hna hTpf (fun _ => by rw [criteria_tick]; exact hTc) hwb).1 rfl
                      subst hwb2
                      have hnb := namesNonEmpty_tick w.tick hna
                      have hcr : w.tick.tick.criteriaListsMap = w.criteriaListsMap := by
                        rw [criteria_tick, criteria_tick]
                      split at h
                      · simp at h
                      · rename_i wc hwc
                        obtain ⟨hs, hsl⟩ := (findDevices_step _ mapOrder target pf w.tick.tick true
                          wc hnb hTpf (by rw [hcr]; exact hTc)
                          (fun _ => by rw [hcr]; exact hTcc) hwc).2 rfl
                        exact go wc (stepOf_trans _ true _ _ _ hsa
                          (stepOf_trans _ true _ _ _ (stepOf_tick _ true w.tick) hs)) hsl h
                      · rename_i wc hwc
                        have hs := (findDevices_step _ mapOrder target pf w.tick.tick false
                          wc hnb hTpf (by rw [hcr]; exact hTc)
                          (fun _ => by rw [hcr]; exact hTcc) hwc).1 rfl
                        exact stop wc (stepOf_trans _ false _ _ _ (stepOf_tick _ false w)
                          (stepOf_trans _ false _ _ _ (stepOf_tick _ false w.tick) hs)) h
        · rename_i hnreq
          refine skip ?_ h
          intro cl hcl2 hreq2
          rw [hcl] at hcl2
          cases hcl2
          exact absurd hreq2 hnreq

theorem partnershipSymmetric_of_entries (m : GoMap CriteriaList)
    (h : partnershipEntriesSymmetric m) : partnershipSymmetric m := by
  intro r cl hget hne
  have hmem := mem_of_mapGet m r cl hget
  obtain ⟨h1, h2⟩ := h (r, cl) hmem hne
  refine ⟨h1, ?_⟩
  cases hc : mapGet m cl.CardAffinityPfCouple with
  | none =>
    simp only at h2
    rw [hc] at h2
    simp at h2
  | some cp =>
    simp only at h2
    rw [hc] at h2
    simp only [Option.map_some', Option.some.injEq] at h2
    exact ⟨cp, rfl, h2⟩

theorem namesNonEmpty_of_slices (w : World)
    (h : ∀ c ∈ [DeviceCapabilityType.REGULAR, .PTP_SUPPORT, .RRU_CONNECTION],
      ∀ d ∈ w.devices c, d.InterfaceName ≠ "") : namesNonEmpty w := by
  intro c d hd
  refine h c ?_ d hd
  cases c <;> simp

/-- C29: with interface names that are not empty, a symmetric partnership
relation and a list of sorted roles without repetition,
`TreatmentOFCardAffinityWithCapabilities` returns true exactly when every role
of the list that requires the treated capability ends with a selected interface.
When it returns false the list splits at the role where it stopped: the roles
before it are resolved, the role itself requires the capability and its selected
interface is still empty, and a role after it whose criteria list has been
written is the coupled PF of a role visited, which comes before it in the list. -/
theorem C29_treatment_stops_at_first_unresolved_role
    (mapOrder : Nat → List String → List String) (keys : List String)
    (target other ty : DeviceCapabilityType) (w : World) (b : Bool) (w1 : World)
    (hnames : namesNonEmpty w) (hsym : partnershipSymmetric w.criteriaListsMap)
    (hkeys : keys.Nodup)
    (h : TreatmentOFCardAffinityWithCapabilities mapOrder keys target other ty w =
      some (b, w1)) :
    (b = true ↔ ∀ k, k ∈ keys → roleResolved ty w1.criteriaListsMap k) ∧
    (b = false → ∃ (pre : List String) (pf : String) (post : List String) (cl : CriteriaList),
      keys = pre ++ pf :: post ∧
      (∀ k, k ∈ pre → roleResolved ty w1.criteriaListsMap k) ∧
      mapGet w1.criteriaListsMap pf = some cl ∧ requiresCapability ty cl ∧
      cl.SelectedDeviceInterface = "" ∧
      ∀ k, k ∈ post → mapGet w1.criteriaListsMap k ≠ mapGet w.criteriaListsMap k →
        ∃ q, q ∈ pre ++ [pf] ∧ coupleOf w.criteriaListsMap q = k) := by
  have hout := treatment_loop_outcome mapOrder target other ty keys w b w1 hnames h
  have hfalse : b = false → ∃ (pre : List String) (pf : String) (post : List String)
      (cl : CriteriaList), keys = pre ++ pf :: post ∧
      (∀ k, k ∈ pre → roleResolved ty w1.criteriaListsMap k) ∧
      mapGet w1.criteriaListsMap pf = some cl ∧ requiresCapability ty cl ∧
      cl.SelectedDeviceInterface = "" ∧
      ∀ k, k ∈ post → mapGet w1.criteriaListsMap k ≠ mapGet w.criteriaListsMap k →
        ∃ q, q ∈ pre ++ [pf] ∧ coupleOf w.criteriaListsMap q = k := by
    intro hb
    obtain ⟨pre, pf, post, cl, hsplit, hstep, hpre, hcl, hreq, hsel⟩ := hout.2 hb
    refine ⟨pre, pf, post, cl, hsplit, hpre, hcl, hreq, hsel, ?_⟩
    intro k hk hmod
    by_contra hnone
    apply hmod
    have hnot : ¬ touchedBy w.criteriaListsMap (pre ++ [pf]) k := by
      rintro ⟨q, hq, hcase⟩
      have hqk : q ≠ k := by
        intro he
        rw [he] at hq
        rw [hsplit] at hkeys
        have hlist : pre ++ pf :: post = (pre ++ [pf]) ++ post := by simp
        rw [hlist] at hkeys
        exact (List.nodup_append.mp hkeys).2.2 hq hk
      rcases hcase with h1 | ⟨hne, h2 | h3⟩
      · exact hqk h1.symm
      · exact hnone ⟨q, hq, h2.symm⟩
      · apply hqk
        rw [h3]
        unfold coupleOf at hne ⊢
        cases hgq : mapGet w.criteriaListsMap q with
        | none =>
          rw [hgq] at hne
          exact absurd rfl hne
        | some clq =>
          rw [hgq] at hne
          simp only at hne ⊢
          obtain ⟨_, cp, hcp, hback⟩ := hsym q clq hgq hne
          rw [hcp]
          exact hback.symm
    cases hg : mapGet w.criteriaListsMap k with
    | none => exact (hstep.2 k).1 hg
    | some cl0 =>
      obtain ⟨cl1, hcl1, _, _, _, hsame⟩ := (hstep.2 k).2 cl0 hg
      rw [hcl1, hsame hnot]
  refine ⟨?_, hfalse⟩
  constructor
  · intro hb
    exact (hout.1 hb).2
  · intro hall
    cases hb : b with
    | true => rfl
    | false =>
      obtain ⟨pre, pf, post, cl, hsplit, _, hcl, hreq, hsel, _⟩ := hfalse hb
      exact absurd hsel (hall pf (by rw [hsplit]; simp) cl hcl hreq)

/-- C29, witness of `TestingFailureForTreatmentOFCardAffinityWithCapabilities`:
`pf1` gets eth5 and `pf2` eth2, `pf3` and its coupled PF `pf6` take eth8 and
eth17, the two devices of the group `0000:hh:00.x`, and no RRU device is left for
`pf4`: the treatment returns false, `pf4` has no selected interface, and of the
roles after `pf4` only `pf6` has been written. -/
theorem C29_witness_four_rru_roles :
    (TreatmentOFCardAffinityWithCapabilities storageOrder
        (sortStrings (mapKeys testWorldFourRruRoles.criteriaListsMap))
        .RRU_CONNECTION .PTP_SUPPORT .RRU_CONNECTION testWorldFourRruRoles).map
      (fun r => (r.1, r.2.criteriaListsMap.map (fun e => (e.1, e.2.SelectedDeviceInterface)))) =
      some (false, [("pf1", "eth5"), ("pf2", "eth2"), ("pf3", "eth8"), ("pf4", ""), ("pf5", ""),
        ("pf6", "eth17"), ("pf7", ""), ("pf8", "")]) ∧
    ∃ (pre : List String) (pf : String) (post : List String) (cl : CriteriaList),
      sortStrings (mapKeys testWorldFourRruRoles.criteriaListsMap) = pre ++ pf :: post ∧
      (∀ k, k ∈ pre → roleResolved .RRU_CONNECTION
        ((TreatmentOFCardAffinityWithCapabilities storageOrder
          (sortStrings (mapKeys testWorldFourRruRoles.criteriaListsMap))
          .RRU_CONNECTION .PTP_SUPPORT .RRU_CONNECTION testWorldFourRruRoles).getD
            (false, testWorld)).2.criteriaListsMap k) ∧
      mapGet ((TreatmentOFCardAffinityWithCapabilities storageOrder
          (sortStrings (mapKeys testWorldFourRruRoles.criteriaListsMap))
          .RRU_CONNECTION .PTP_SUPPORT .RRU_CONNECTION testWorldFourRruRoles).getD
            (false, testWorld)).2.criteriaListsMap pf = some cl ∧
      requiresCapability .RRU_CONNECTION cl ∧ cl.SelectedDeviceInterface = "" ∧
      ∀ k, k ∈ post →
        mapGet ((TreatmentOFCardAffinityWithCapabilities storageOrder
          (sortStrings (mapKeys testWorldFourRruRoles.criteriaListsMap))
          .RRU_CONNECTION .PTP_SUPPORT .RRU_CONNECTION testWorldFourRruRoles).getD
            (false, testWorld)).2.criteriaListsMap k ≠
          mapGet testWorldFourRruRoles.criteriaListsMap k →
        ∃ q, q ∈ pre ++ [pf] ∧ coupleOf testWorldFourRruRoles.criteriaListsMap q = k :=
  ⟨by decide,
    (C29_treatment_stops_at_first_unresolved_role storageOrder
      (sortStrings (mapKeys testWorldFourRruRoles.criteriaListsMap))
      .RRU_CONNECTION .PTP_SUPPORT .RRU_CONNECTION testWorldFourRruRoles false
      ((TreatmentOFCardAffinityWithCapabilities storageOrder
        (sortStrings (mapKeys testWorldFourRruRoles.criteriaListsMap))
        .RRU_CONNECTION .PTP_SUPPORT .RRU_CONNECTION testWorldFourRruRoles).getD
          (false, testWorld)).2
      (namesNonEmpty_of_slices _ (by decide))
      (partnershipSymmetric_of_entries _ (by decide))
      (by decide) (by decide)).2 rfl⟩

/-- C34: for a role that has a coupled PF whose name is smaller than its own and
whose inherited `CardAffinity` is still empty,
`CheckDevicesAgainstCriteriaListWithCardAffinity` returns -1 and leaves the whole
state as it was: no device flag, no card affinity group and no role changes. -/
theorem C34_bigger_role_without_inherited_affinity
    (mapOrder : Nat → List String → List String) (c : DeviceCapabilityType) (pf : String)
    (cl : CriteriaList) (w : World)
    (hget : mapGet w.criteriaListsMap pf = some cl)
    (hpartner : cl.CardAffinityPfCouple ≠ "")
    (hsmaller : goStringLess cl.CardAffinityPfCouple pf)
    (hempty : cl.CardAffinity = "") :
    CheckDevicesAgainstCriteriaListWithCardAffinity mapOrder c pf w = some (-1, w) := by
  have hnot : ¬ goStringLess pf cl.CardAffinityPfCouple :=
    fun h => goStringLess_asymm _ _ h hsmaller
  simp only [CheckDevicesAgainstCriteriaListWithCardAffinity, hget, if_neg hpartner,
    if_neg hnot, hempty, or_true, if_true]

/-- C34, witness of lines 432-446 of the test: with `pf7` and `pf8` asking for 130
VFs the call for `pf7` returns -1, and the call for `pf8`, whose coupled PF `pf7`
is smaller and has left no card affinity, returns -1 and changes nothing. -/
theorem C34_witness_pf8_after_pf7 :
    (CheckDevicesAgainstCriteriaListWithCardAffinity storageOrder .REGULAR "pf7"
      testWorldPf7Pf8Demanding).map Prod.fst = some (-1) ∧
    CheckDevicesAgainstCriteriaListWithCardAffinity storageOrder .REGULAR "pf8"
        (afterCalls storageOrder .REGULAR ["pf7"] testWorldPf7Pf8Demanding) =
      some (-1, afterCalls storageOrder .REGULAR ["pf7"] testWorldPf7Pf8Demanding) :=
  ⟨by decide,
    C34_bigger_role_without_inherited_affinity storageOrder .REGULAR "pf8"
      (testCriteria 130 "pf7") (afterCalls storageOrder .REGULAR ["pf7"] testWorldPf7Pf8Demanding)
      (by decide) (by decide) (by decide) (by decide)⟩

theorem set_isCouple_idem (d : SupDevice) (b b2 : Bool) :
    ({ ({ d with IsCardAffinityCouple := b } : SupDevice) with IsCardAffinityCouple := b2 } :
      SupDevice) = { d with IsCardAffinityCouple := b2 } := rfl

/-- The loop of `SelectingDeviceFromCardAffinityIndexesSlice` of type
`CURRENT_PF_BIGGER_THAN_COUPLED` over positions none of which holds a device that
fits the role once its flag is cleared: the result is -1, only device flags
change, and exactly the devices visited are flagged. -/
theorem selecting_loop_bigger_failure (c : DeviceCapabilityType) (key pf : String)
    (role : CriteriaList) :
    ∀ (rest : List Nat) (idx : Nat) (w : World),
      mapGet w.criteriaListsMap pf = some role →
      (∀ p, p ∈ rest → ∃ d, (w.devices c)[p]? = some d ∧
        ¬ acceptable role { d with IsCardAffinityCouple := false }) →
      ∃ w1, SelectingDeviceFromCardAffinityIndexesSlice.loop .CURRENT_PF_BIGGER_THAN_COUPLED c
          key pf rest idx w = some (-1, w1) ∧
        (∀ c2, w1.affinityMap c2 = w.affinityMap c2) ∧
        w1.criteriaListsMap = w.criteriaListsMap ∧ w1.selectionLog = w.selectionLog ∧
        w1.rangeCount = w.rangeCount ∧
        (∀ c2, c2 ≠ c → w1.devices c2 = w.devices c2) ∧
        ∀ i, (w1.devices c)[i]? = ((w.devices c)[i]?).map
          (fun d => if i ∈ rest then { d with IsCardAffinityCouple := true } else d) := by
  intro rest
  induction rest with
  | nil =>
    intro idx w _ _
    refine ⟨w, rfl, fun _ => rfl, rfl, rfl, rfl, fun _ _ => rfl, ?_⟩
    intro i
    cases (w.devices c)[i]? <;> simp
  | cons p rest ih =>
    intro idx w hrole hnone
    obtain ⟨d, hd, hnacc⟩ := hnone p (List.mem_cons_self _ _)
    -- the flag is cleared
    have hwa : ∃ wa, w.modifyDevice c p (fun d => { d with IsCardAffinityCouple := false }) =
        some wa := by
      simp only [World.modifyDevice, SriovDetection.modifyDevice, hd]
      exact ⟨_, rfl⟩
    obtain ⟨wa, hwa⟩ := hwa
    obtain ⟨d0, hd0, hadev, hadev2, hamap, hacr, halog, harc⟩ := modifyDevice_proj _ _ _ _ _ hwa
    rw [hd] at hd0
    cases hd0
    have hplt : p < (w.devices c).length := (List.getElem?_eq_some_iff.mp hd).1
    have hda : (wa.devices c)[p]? = some { d with IsCardAffinityCouple := false } := by
      rw [hadev, List.getElem?_set_self hplt]
    -- the device does not fit
    have hcheck : ∃ res, CheckDevicesAgainstSpecificCriteriaList (some role)
        [({ d with IsCardAffinityCouple := false } : SupDevice)] = some res ∧ res ≠ 0 := by
      obtain ⟨res, hres, _⟩ :=
        check_total role [({ d with IsCardAffinityCouple := false } : SupDevice)]
      refine ⟨res, hres, ?_⟩
      intro h0
      exact hnacc ((check_single role _ res hres).1.mp h0)
    obtain ⟨res, hres, hres0⟩ := hcheck
    -- the flag is set again
    have hwb : ∃ wb, wa.modifyDevice c p (fun d => { d with IsCardAffinityCouple := true }) =
        some wb := by
      simp only [World.modifyDevice, SriovDetection.modifyDevice, hda]
      exact ⟨_, rfl⟩
    obtain ⟨wb, hwb⟩ := hwb
    obtain ⟨d1, hd1, hbdev, hbdev2, hbmap, hbcr, hblog, hbrc⟩ := modifyDevice_proj _ _ _ _ _ hwb
    rw [hda] at hd1
    cases hd1
    have hbdevs : wb.devices c = (w.devices c).set p { d with IsCardAffinityCouple := true } := by
      rw [hbdev, hadev, List.set_set]
    have hroleb : mapGet wb.criteriaListsMap pf = some role := by rw [hbcr, hacr]; exact hrole
    have hnoneb : ∀ q, q ∈ rest → ∃ dq, (wb.devices c)[q]? = some dq ∧
        ¬ acceptable role { dq with IsCardAffinityCouple := false } := by
      intro q hq
      obtain ⟨dq, hdq, hnq⟩ := hnone q (List.mem_cons_of_mem _ hq)
      by_cases hqp : q = p
      · subst hqp
        rw [hd] at hdq
        cases hdq
        refine ⟨{ d with IsCardAffinityCouple := true }, ?_, hnacc⟩
        rw [hbdevs, List.getElem?_set_self hplt]
      · refine ⟨dq, ?_, hnq⟩
        rw [hbdevs, List.getElem?_set_ne (fun h => hqp h.symm)]
        exact hdq
    obtain ⟨w1, hrun, hmap, hcr, hlog, hrc, hdev2, hdev⟩ := ih (idx + 1) wb hroleb hnoneb
    refine ⟨w1, ?_, ?_, ?_, ?_, ?_, ?_, ?_⟩
    · rw [SelectingDeviceFromCardAffinityIndexesSlice.loop]
      simp only [if_true, hwa, hda, hacr, hrole, hres, if_neg hres0, hwb]
      exact hrun
    · intro c2
      rw [hmap, hbmap, hamap]
    · rw [hcr, hbcr, hacr]
    · rw [hlog, hblog, halog]
    · rw [hrc, hbrc, harc]
    · intro c2 hc2
      rw [hdev2 c2 hc2, hbdev2 c2 hc2, hadev2 c2 hc2]
    · intro i
      rw [hdev i, hbdevs]
      by_cases hip : i = p
      · subst hip
        rw [List.getElem?_set_self hplt, hd]
        simp
      · rw [List.getElem?_set_ne (fun h => hip h.symm)]
        cases (w.devices c)[i]? with
        | none => rfl
        | some di =>
          simp only [Option.map_some', List.mem_cons, hip, false_or]

/-- C38: when no device of a group fits the role (with its flag cleared, as the
selection examines it), `SelectingDeviceFromCardAffinityIndexesSlice` of type
`CURRENT_PF_BIGGER_THAN_COUPLED` returns -1, leaves the three card affinity maps
(so the membership of the group) and every role unchanged, changes no device of
another collection, and leaves every device of the group flagged
`IsCardAffinityCouple`, whether it was flagged before or not; the devices outside
the group are as before. -/
theorem C38_bigger_selection_failure_flags_group (c : DeviceCapabilityType)
    (key pf : String) (role : CriteriaList) (info : CardAffinityDevicesInfo) (w : World)
    (hrole : mapGet w.criteriaListsMap pf = some role)
    (hget : mapGet (w.affinityMap c) key = some info)
    (hnone : ∀ p, p ∈ info.DevicesIndexesSlice → ∃ d, (w.devices c)[p]? = some d ∧
      ¬ acceptable role { d with IsCardAffinityCouple := false }) :
    ∃ w1, SelectingDeviceFromCardAffinityIndexesSlice .CURRENT_PF_BIGGER_THAN_COUPLED c key pf
        w = some (-1, w1) ∧
      (∀ c2, w1.affinityMap c2 = w.affinityMap c2) ∧
      w1.criteriaListsMap = w.criteriaListsMap ∧
      (∀ c2, c2 ≠ c → w1.devices c2 = w.devices c2) ∧
      (∀ p, p ∈ info.DevicesIndexesSlice →
        ∃ d1, (w1.devices c)[p]? = some d1 ∧ d1.IsCardAffinityCouple = true) ∧
      ∀ i, (w1.devices c)[i]? = ((w.devices c)[i]?).map
        (fun d => if i ∈ info.DevicesIndexesSlice then { d with IsCardAffinityCouple := true }
          else d) := by
  obtain ⟨w1, hrun, hmap, hcr, _, _, hdev2, hdev⟩ :=
    selecting_loop_bigger_failure c key pf role info.DevicesIndexesSlice 0 w hrole hnone
  refine ⟨w1, ?_, hmap, hcr, hdev2, ?_, hdev⟩
  · simp only [SelectingDeviceFromCardAffinityIndexesSlice, hget]
    exact hrun
  · intro p hp
    obtain ⟨d, hd, _⟩ := hnone p hp
    refine ⟨{ d with IsCardAffinityCouple := true }, ?_, rfl⟩
    rw [hdev p, hd]
    simp [hp]

/-- C38, witness of lines 390-396 of `Test_SelectingDeviceFromCardAffinityIndexesSlice`:
`pf1` asks for 100 VFs and eth0, the only device of the group `0000:cc:00.x`,
supports 64: the selection returns -1 and eth0, which was not flagged, is. -/
theorem C38_witness_pf1_group_cc :
    (SelectingDeviceFromCardAffinityIndexesSlice .CURRENT_PF_BIGGER_THAN_COUPLED .REGULAR
        "0000:cc:00.x" "pf1" testWorld).map
      (fun r => (r.1, ((r.2.devices .REGULAR)[0]?).map
        (fun d => (d.InterfaceName, d.IsCardAffinityCouple)))) = some (-1, some ("eth0", true)) ∧
    ((testWorld.devices .REGULAR)[0]?).map (fun d => d.IsCardAffinityCouple) = some false ∧
    ∃ w1, SelectingDeviceFromCardAffinityIndexesSlice .CURRENT_PF_BIGGER_THAN_COUPLED .REGULAR
        "0000:cc:00.x" "pf1" testWorld = some (-1, w1) ∧
      (∀ c2, w1.affinityMap c2 = testWorld.affinityMap c2) ∧
      w1.criteriaListsMap = testWorld.criteriaListsMap ∧
      ∃ d1, (w1.devices .REGULAR)[0]? = some d1 ∧ d1.IsCardAffinityCouple = true := by
  refine ⟨by decide, by decide, ?_⟩
  obtain ⟨w1, hrun, hmap, hcr, _, hflag, _⟩ :=
    C38_bigger_selection_failure_flags_group .REGULAR "0000:cc:00.x" "pf1" (testCriteria 100 "")
      ⟨[0], false⟩ testWorld (by decide) (by decide)
      (fun p hp => by
        rw [List.mem_singleton] at hp
        subst hp
        exact ⟨mkDev "eth0" "0000:cc:00.0" "0d58" "i40e" 40000 64 1 1 "" false false false 0
          "0000:cc:00.x" false false, by decide, by decide⟩)
  exact ⟨w1, hrun, hmap, hcr, hflag 0 (List.mem_singleton_self 0)⟩

/-- The positions that `CheckDevicesAgainstCriteriaListWithCardAffinity` can
return: a position of a group of the map on entry, and for a role without
coupled PF a position of a group that is marked or lists more than one position. -/
theorem check_returns_group_member (mapOrder : Nat → List String → List String)
    (c : DeviceCapabilityType) (pf : String) (w : World) (r : Int) (w1 : World)
    (hwf : listedAtMostOnce (w.affinityMap c))
    (h : CheckDevicesAgainstCriteriaListWithCardAffinity mapOrder c pf w = some (r, w1))
    (hr : 0 ≤ r) :
    ∃ (key : String) (info : CardAffinityDevicesInfo) (p : Nat), r = (p : Int) ∧
      mapGet (w.affinityMap c) key = some info ∧ p ∈ info.DevicesIndexesSlice ∧
      ∀ cl, mapGet w.criteriaListsMap pf = some cl → cl.CardAffinityPfCouple = "" →
        info.ChosenDeviceHasNoCardAffinity = true ∨ 1 < info.DevicesIndexesSlice.length := by
  unfold CheckDevicesAgainstCriteriaListWithCardAffinity at h
  split at h
  · simp at h
  · rename_i criteriaList hcl
    have hwft : listedAtMostOnce (w.tick.affinityMap c) := by rw [affinityMap_tick]; exact hwf
    split at h
    · -- no coupled PF
      split at h
      · simp at h
      · rename_i r1 wa hscan
        split at h
        · rename_i hr1
          simp only [Option.some.injEq, Prod.mk.injEq] at h
          obtain ⟨hrr, hww⟩ := h
          subst hrr hww
          obtain ⟨key, info, _, hget, hvisit, hloop⟩ :=
            scan_success _ (by decide) c pf _ _ w.tick r1 wa hwft hscan hr1
          obtain ⟨p, hp, hrp⟩ := selecting_loop_mem _ c key pf _ 0 w.tick r1 wa hloop hr1
          rw [affinityMap_tick] at hget
          exact ⟨key, info, p, hrp, hget, hp, fun _ _ _ => Or.inl hvisit⟩
        · rename_i hr1
          have hwa := scan_failure _ (by decide) c pf _ _ w.tick r1 wa hwft hscan hr1
          subst hwa
          have hwft2 : listedAtMostOnce (w.tick.tick.affinityMap c) := by
            rw [affinityMap_tick]; exact hwft
          obtain ⟨key, info, _, hget, hvisit, hloop⟩ :=
            scan_success _ (by decide) c pf _ _ w.tick.tick r w1 hwft2 h hr
          obtain ⟨p, hp, hrp⟩ := selecting_loop_mem _ c key pf _ 0 w.tick.tick r w1 hloop hr
          rw [affinityMap_tick, affinityMap_tick] at hget
          exact ⟨key, info, p, hrp, hget, hp, fun _ _ _ => Or.inr (of_decide_eq_true hvisit)⟩
    · rename_i hcouple
      have hexcl : ∀ cl, mapGet w.criteriaListsMap pf = some cl → cl.CardAffinityPfCouple = "" →
          ∀ info : CardAffinityDevicesInfo, info.ChosenDeviceHasNoCardAffinity = true ∨
            1 < info.DevicesIndexesSlice.length := by
        intro cl hcl2 he
        rw [hcl] at hcl2
        cases hcl2
        exact absurd he hcouple
      split at h
      · -- the coupled PF is bigger
        obtain ⟨key, info, _, hget, _, hloop⟩ :=
          scan_success _ (by decide) c pf _ _ w.tick r w1 hwft h hr
        obtain ⟨p, hp, hrp⟩ := selecting_loop_mem _ c key pf _ 0 w.tick r w1 hloop hr
        rw [affinityMap_tick] at hget
        exact ⟨key, info, p, hrp, hget, hp, fun cl h1 h2 => hexcl cl h1 h2 info⟩
      · -- the coupled PF is smaller
        split at h
        · simp only [Option.some.injEq, Prod.mk.injEq] at h
          rw [← h.1] at hr
          exact absurd hr (by decide)
        · unfold SelectingDeviceFromCardAffinityIndexesSlice at h
          split at h
          · simp at h
          · rename_i info hget
            obtain ⟨p, hp, hrp⟩ := selecting_loop_mem _ c _ pf _ 0 w r w1 h hr
            exact ⟨_, info, p, hrp, hget, hp, fun cl h1 h2 => hexcl cl h1 h2 info⟩

/-- C37: every position returned by `CheckDevicesAgainstCriteriaListWithCardAffinity`
was listed in a group of the map on entry. Hence a position that is in no group
(as the one of a device with an empty card affinity key) is never returned, and
for a role without coupled PF a position that is the only one of a group that is
not marked `ChosenDeviceHasNoCardAffinity` is never returned, whatever the
filters say about its device. The map lists every position at most once. -/
theorem C37_returned_position_was_group_member (mapOrder : Nat → List String → List String)
    (c : DeviceCapabilityType) (pf : String) (w : World) (r : Int) (w1 : World)
    (hwf : listedAtMostOnce (w.affinityMap c))
    (h : CheckDevicesAgainstCriteriaListWithCardAffinity mapOrder c pf w = some (r, w1))
    (hr : 0 ≤ r) :
    isMember (w.affinityMap c) r.toNat ∧
    (∀ p : Nat, ¬ isMember (w.affinityMap c) p → r ≠ (p : Int)) ∧
    (∀ (cl : CriteriaList) (key : String) (info : CardAffinityDevicesInfo) (p : Nat),
      mapGet w.criteriaListsMap pf = some cl → cl.CardAffinityPfCouple = "" →
      mapGet (w.affinityMap c) key = some info → info.DevicesIndexesSlice = [p] →
      info.ChosenDeviceHasNoCardAffinity = false → r ≠ (p : Int)) := by
  obtain ⟨key, info, p, hrp, hget, hp, hgroup⟩ :=
    check_returns_group_member mapOrder c pf w r w1 hwf h hr
  have hmem : isMember (w.affinityMap c) p := ⟨key, info, hget, hp⟩
  refine ⟨?_, ?_, ?_⟩
  · rw [hrp, Int.toNat_ofNat]
    exact hmem
  · intro q hq hrq
    rw [hrp] at hrq
    rw [← Int.ofNat_inj.mp hrq] at hq
    exact hq hmem
  · intro cl key2 info2 q hcl hcouple hget2 hslice hunmarked hrq
    rw [hrp] at hrq
    have hpq : p = q := Int.ofNat_inj.mp hrq
    subst hpq
    have hkey : key = key2 :=
      hwf.2.2 key key2 info info2 p hget hget2 hp (by rw [hslice]; exact List.mem_singleton_self p)
    subst hkey
    rw [hget] at hget2
    cases hget2
    rcases hgroup cl hcl hcouple with hm | hl
    · rw [hunmarked] at hm
      exact absurd hm (by decide)
    · rw [hslice] at hl
      simp at hl

/-- C37, witness: for `pf5` (64 VFs, no coupled PF) the first regular device of
the fixture, eth0, passes every filter, and it is what the search of the whole
slice returns; it is the only device of the group `0000:cc:00.x`, which is not
marked, and the call with card affinity returns position 1 of the group
`0000:b1:00.x` instead. -/
theorem C37_witness_pf5_skips_eth0 :
    CheckDevicesAgainstSpecificCriteriaList (some (testCriteria 64 ""))
      (testWorld.devices .REGULAR) = some 0 ∧
    (CheckDevicesAgainstCriteriaListWithCardAffinity storageOrder .REGULAR "pf5"
      testWorld).map Prod.fst = some 1 ∧
    isMember (testWorld.affinityMap .REGULAR)
      ((CheckDevicesAgainstCriteriaListWithCardAffinity storageOrder .REGULAR "pf5"
        testWorld).getD (-1, testWorld)).1.toNat ∧
    ((CheckDevicesAgainstCriteriaListWithCardAffinity storageOrder .REGULAR "pf5"
        testWorld).getD (-1, testWorld)).1 ≠ ((0 : Nat) : Int) :=
  ⟨by decide, by decide,
    (C37_returned_position_was_group_member storageOrder .REGULAR "pf5" testWorld
      ((CheckDevicesAgainstCriteriaListWithCardAffinity storageOrder .REGULAR "pf5"
        testWorld).getD (-1, testWorld)).1
      ((CheckDevicesAgainstCriteriaListWithCardAffinity storageOrder .REGULAR "pf5"
        testWorld).getD (-1, testWorld)).2
      (affinityMapWellFormed_of_entries (testWorld.devices .REGULAR) _ (by decide)).1
      (by decide) (by decide)).1,
    (C37_returned_position_was_group_member storageOrder .REGULAR "pf5" testWorld
      ((CheckDevicesAgainstCriteriaListWithCardAffinity storageOrder .REGULAR "pf5"
        testWorld).getD (-1, testWorld)).1
      ((CheckDevicesAgainstCriteriaListWithCardAffinity storageOrder .REGULAR "pf5"
        testWorld).getD (-1, testWorld)).2
      (affinityMapWellFormed_of_entries (testWorld.devices .REGULAR) _ (by decide)).1
      (by decide) (by decide)).2.2 (testCriteria 64 "") "0000:cc:00.x" ⟨[0], false⟩ 0
      (by decide) (by decide) (by decide) rfl rfl⟩

theorem ipTo4_isSome_iff (ip : List Nat) :
    (ipTo4 ip).isSome = true ↔ isIPv4NetworkAddress (.ipNet ip) := by
  unfold ipTo4 isIPv4NetworkAddress
  constructor
  · intro h
    refine ⟨ip, rfl, ?_⟩
    by_cases h4 : ip.length = 4
    · exact Or.inl h4
    · rw [if_neg h4] at h
      split at h
      · rename_i h16
        exact Or.inr ⟨h16.1, by simpa using h16.2.1, h16.2.2⟩
      · simp at h
  · rintro ⟨ip2, he, hcase⟩
    cases he
    rcases hcase with h4 | ⟨h16, hz, h10, h11⟩
    · rw [if_pos h4]
      rfl
    · have h4 : ¬ ip.length = 4 := by omega
      rw [if_neg h4, if_pos ⟨h16, by simpa using hz, h10, h11⟩]
      rfl

theorem currentlyUsed_loop_iff : ∀ (addrs : List NetAddr),
    CheckIfDeviceCurrentlyUsed.loop addrs = true ↔ ∃ a, a ∈ addrs ∧ isIPv4NetworkAddress a := by
  intro addrs
  induction addrs with
  | nil => simp [CheckIfDeviceCurrentlyUsed.loop]
  | cons a rest ih =>
    cases a with
    | ipNet ip =>
      simp only [CheckIfDeviceCurrentlyUsed.loop, List.mem_cons]
      by_cases h4 : (ipTo4 ip).isSome = true
      · rw [if_pos h4]
        exact ⟨fun _ => ⟨.ipNet ip, Or.inl rfl, (ipTo4_isSome_iff ip).mp h4⟩, fun _ => rfl⟩
      · rw [if_neg h4, ih]
        constructor
        · rintro ⟨a, ha, hv⟩
          exact ⟨a, Or.inr ha, hv⟩
        · rintro ⟨a, ha | ha, hv⟩
          · subst ha
            exact absurd ((ipTo4_isSome_iff ip).mpr hv) h4
          · exact ⟨a, ha, hv⟩
    | other =>
      simp only [CheckIfDeviceCurrentlyUsed.loop, List.mem_cons, ih]
      constructor
      · rintro ⟨a, ha, hv⟩
        exact ⟨a, Or.inr ha, hv⟩
      · rintro ⟨a, ha | ha, hv⟩
        · subst ha
          obtain ⟨ip, he, _⟩ := hv
          cases he
        · exact ⟨a, ha, hv⟩

/-- C32: `CheckIfDeviceCurrentlyUsed` reports an interface as in use exactly when
the interface is up and either the lookup of its addresses returns an error or
one of the returned addresses is an IPv4 network address; an interface that is
not up is never reported in use, whatever the lookup answers. -/
theorem C32_currently_used_iff (networkDevice : NetInterface) :
    (CheckIfDeviceCurrentlyUsed networkDevice = true ↔
      interfaceIsUp networkDevice ∧
        (networkDevice.addrsError = true ∨
          ∃ a, a ∈ networkDevice.addrs ∧ isIPv4NetworkAddress a)) ∧
    (¬ interfaceIsUp networkDevice → CheckIfDeviceCurrentlyUsed networkDevice = false) := by
  have hup : networkDevice.Flags &&& FlagUp > 0 ↔ interfaceIsUp networkDevice := by
    unfold FlagUp interfaceIsUp
    rw [Nat.and_one_is_mod]
    omega
  have hiff : CheckIfDeviceCurrentlyUsed networkDevice = true ↔
      interfaceIsUp networkDevice ∧
        (networkDevice.addrsError = true ∨
          ∃ a, a ∈ networkDevice.addrs ∧ isIPv4NetworkAddress a) := by
    unfold CheckIfDeviceCurrentlyUsed
    by_cases h1 : networkDevice.Flags &&& FlagUp > 0
    · rw [if_pos h1]
      have hu := hup.mp h1
      cases herr : networkDevice.addrsError with
      | true => simp [hu]
      | false =>
        simp only [true_and, Bool.false_eq_true, if_false, hu, false_or]
        rw [← currentlyUsed_loop_iff]
        cases CheckIfDeviceCurrentlyUsed.loop networkDevice.addrs <;> simp
    · rw [if_neg h1]
      have hu : ¬ interfaceIsUp networkDevice := fun h => h1 (hup.mpr h)
      simp [hu]
  refine ⟨hiff, ?_⟩
  intro hdown
  cases hv : CheckIfDeviceCurrentlyUsed networkDevice with
  | false => rfl
  | true => exact absurd (hiff.mp hv).1 hdown

/-- One iteration of the loop of `DetectDevices`: an interface that fails the
basic filters changes nothing; one that passes them adds one device, with no RRU
connection and both flags clear, at the end of the collection `collectionOf`
names, and its position to the card affinity map of that collection when card
affinity is in use and the key of the device is not empty. -/
theorem iteration_spec (g : Globals) (host : HostInterface) (w w1 : World)
    (h : DetectDevices.iteration g host w = some w1) :
    ((FilteringDeviceForBasicCapabilities host).1 = false ∧ w1 = w) ∨
    ((FilteringDeviceForBasicCapabilities host).1 = true ∧
      ∃ d : SupDevice, d.RRUConnection = false ∧ d.CheckedAgainstCriteria = false ∧
        d.IsCardAffinityCouple = false ∧
        d.InterfaceName = host.networkDevice.Name ∧
        d.CardAffinity = GetDeviceCardAffinity (FilteringDeviceForBasicCapabilities host).2.1
          host.networkDevice.Name ∧
        w1.devices (collectionOf g d) = w.devices (collectionOf g d) ++ [d] ∧
        (∀ c2, c2 ≠ collectionOf g d → w1.devices c2 = w.devices c2) ∧
        w1.affinityMap (collectionOf g d) =
          (if d.CardAffinity ≠ "" ∧ g.USE_OF_CARD_AFFINITY_CAPABILITY = true then
            UpdatingCardAffinityMap d.CardAffinity (w.devices (collectionOf g d))
              (w.affinityMap (collectionOf g d))
          else w.affinityMap (collectionOf g d)) ∧
        (∀ c2, c2 ≠ collectionOf g d → w1.affinityMap c2 = w.affinityMap c2) ∧
        w1.criteriaListsMap = w.criteriaListsMap) := by
  unfold DetectDevices.iteration at h
  split at h
  · rename_i hf
    simp only [Option.some.injEq] at h
    exact Or.inl ⟨by rw [hf], h.symm⟩
  · rename_i deviceBusInfo maxVfs deviceId hf
    refine Or.inr ⟨by rw [hf], ?_⟩
    rw [hf]
    dsimp only at h ⊢
    split at h
    · simp at h
    · rename_i ptpSupport _
      split at h
      · simp at h
      · rename_i specificPort wa hwa
        simp only [Bool.false_eq_true, and_false, if_false] at h hwa
        have hwa2 : (wa.devices = w.devices ∧ wa.criteriaListsMap = w.criteriaListsMap) ∧
            ∀ c, wa.affinityMap c =
              (if c = (if g.USE_OF_PTP_SUPPORT_CAPABILITY = true ∧ ptpSupport = true then
                  DeviceCapabilityType.PTP_SUPPORT else .REGULAR) ∧
                  GetDeviceCardAffinity deviceBusInfo host.networkDevice.Name ≠ "" ∧
                  g.USE_OF_CARD_AFFINITY_CAPABILITY = true then
                UpdatingCardAffinityMap (GetDeviceCardAffinity deviceBusInfo
                  host.networkDevice.Name) (w.devices c) (w.affinityMap c)
              else w.affinityMap c) := by
          split at hwa
          · rename_i hca
            split at hwa
            · simp at hwa
            · simp only [Option.some.injEq, Prod.mk.injEq] at hwa
              obtain ⟨_, hwa⟩ := hwa
              subst hwa
              by_cases hA : g.USE_OF_CARD_AFFINITY_CAPABILITY = true
              · by_cases hP : g.USE_OF_PTP_SUPPORT_CAPABILITY = true ∧ ptpSupport = true
                · rw [if_pos hA, if_pos hP]
                  refine ⟨⟨by funext c; cases c <;> rfl, rfl⟩, ?_⟩
                  intro c
                  cases c <;> simp [World.affinityMap, World.setAffinityMap, hP, hA, hca]
                · rw [if_pos hA, if_neg hP]
                  refine ⟨⟨by funext c; cases c <;> rfl, rfl⟩, ?_⟩
                  intro c
                  cases c <;> simp [World.affinityMap, World.setAffinityMap, hP, hA, hca]
              · rw [if_neg hA]
                refine ⟨⟨rfl, rfl⟩, ?_⟩
                intro c
                rw [if_neg (fun hx => hA hx.2.2)]
          · rename_i hca
            simp only [Option.some.injEq, Prod.mk.injEq] at hwa
            obtain ⟨_, hwa⟩ := hwa
            subst hwa
            have hca2 : GetDeviceCardAffinity deviceBusInfo host.networkDevice.Name = "" := by
              by_contra hne
              exact hca hne
            refine ⟨⟨rfl, rfl⟩, ?_⟩
            intro c
            rw [if_neg (fun hx => hx.2.1 hca2)]
        obtain ⟨⟨hdev, hcr⟩, hmap⟩ := hwa2
        by_cases hP : g.USE_OF_PTP_SUPPORT_CAPABILITY = true ∧ ptpSupport = true
        · rw [if_pos hP] at h
          simp only [Option.some.injEq] at h
          subst h
          refine ⟨⟨host.networkDevice.Name, deviceBusInfo, deviceId,
            GetDeviceDriver host.driverName, GetDeviceLinkSpeed host.ethToolMap,
            maxVfs.toNat % 2 ^ 32, GetDeviceLinkState host.linkState,
            toInt8 (DetectCapabilityFromLinuxFS host.numaNode), "", false, ptpSupport, false,
            specificPort, GetDeviceCardAffinity deviceBusInfo host.networkDevice.Name, false,
            false⟩, rfl, rfl, rfl, rfl, rfl, ?_⟩
          have hcol : ∀ x1 x2 x3 x4 x5 x6 x7 x8 x9 x10 x13 x14 x15 x16,
              collectionOf g ⟨x1, x2, x3, x4, x5, x6, x7, x8, x9, x10, ptpSupport, false, x13,
                x14, x15, x16⟩ = .PTP_SUPPORT := by
            intros
            simp [collectionOf, hP]
          rw [hcol]
          refine ⟨?_, ?_, ?_, ?_, ?_⟩
          · rw [devices_setDevices, Function.update_same, hdev]
          · intro c2 hc2
            rw [devices_setDevices_ne _ _ _ _ hc2, hdev]
          · rw [show ∀ l, (wa.setDevices .PTP_SUPPORT l).affinityMap .PTP_SUPPORT =
              wa.affinityMap .PTP_SUPPORT from fun _ => rfl, hmap, if_pos hP]
            simp
          · intro c2 hc2
            rw [affinityMap_setDevices, hmap, if_pos hP, if_neg (fun hx => hc2 hx.1)]
          · rw [criteria_setDevices, hcr]
        · rw [if_neg hP] at h
          simp only [Option.some.injEq] at h
          subst h
          refine ⟨⟨host.networkDevice.Name, deviceBusInfo, deviceId,
            GetDeviceDriver host.driverName, GetDeviceLinkSpeed host.ethToolMap,
            maxVfs.toNat % 2 ^ 32, GetDeviceLinkState host.linkState,
            toInt8 (DetectCapabilityFromLinuxFS host.numaNode), "", false, ptpSupport, false,
            specificPort, GetDeviceCardAffinity deviceBusInfo host.networkDevice.Name, false,
            false⟩, rfl, rfl, rfl, rfl, rfl, ?_⟩
          have hcol : ∀ x1 x2 x3 x4 x5 x6 x7 x8 x9 x10 x13 x14 x15 x16,
              collectionOf g ⟨x1, x2, x3, x4, x5, x6, x7, x8, x9, x10, ptpSupport, false, x13,
                x14, x15, x16⟩ = .REGULAR := by
            intros
            simp only [collectionOf, Bool.false_eq_true, and_false, if_false, if_neg hP]
          rw [hcol]
          refine ⟨?_, ?_, ?_, ?_, ?_⟩
          · rw [devices_setDevices, Function.update_same, hdev]
          · intro c2 hc2
            rw [devices_setDevices_ne _ _ _ _ hc2, hdev]
          · rw [show ∀ l, (wa.setDevices .REGULAR l).affinityMap .REGULAR =
              wa.affinityMap .REGULAR from fun _ => rfl, hmap, if_neg hP]
            simp
          · intro c2 hc2
            rw [affinityMap_setDevices, hmap, if_neg hP, if_neg (fun hx => hc2 hx.1)]
          · rw [criteria_setDevices, hcr]

theorem mapGet_mapInsert {V : Type} (m : GoMap V) (k k2 : String) (v : V)
    (h : mapGet m k = none) :
    mapGet (mapInsert m k v) k2 = if k2 = k then some v else mapGet m k2 := by
  unfold mapInsert
  induction m with
  | nil =>
    simp only [List.nil_append, mapGet]
    by_cases hk : k = k2
    · rw [if_pos hk, if_pos hk.symm]
    · rw [if_neg hk, if_neg (fun e => hk e.symm)]
  | cons e m ih =>
    obtain ⟨k0, v0⟩ := e
    by_cases h0 : k0 = k
    · simp [mapGet, h0] at h
    · have hm : mapGet m k = none := by simpa [mapGet, h0] using h
      by_cases h02 : k0 = k2
      · have hne : ¬ k2 = k := fun e => h0 (h02.trans e)
        simp [mapGet, h02, hne]
      · simp only [List.cons_append, mapGet, if_neg h02]
        exact ih hm

/-- The groups of a map after `UpdatingCardAffinityMap`: the group of the key
gets the new position at its end (a new group holds nothing else and is not
marked) and the other groups stay. -/
theorem updating_spec (k : String) (ds : List SupDevice) (m : GoMap CardAffinityDevicesInfo) :
    (∀ key, key ≠ k → mapGet (UpdatingCardAffinityMap k ds m) key = mapGet m key) ∧
    (∃ info1, mapGet (UpdatingCardAffinityMap k ds m) k = some info1 ∧
      info1.DevicesIndexesSlice =
        ((mapGet m k).map (fun i => i.DevicesIndexesSlice)).getD [] ++ [ds.length % 256]) ∧
    ((mapKeys m).Nodup → (mapKeys (UpdatingCardAffinityMap k ds m)).Nodup) := by
  unfold UpdatingCardAffinityMap
  cases hg : mapGet m k with
  | some info =>
    refine ⟨?_, ?_, ?_⟩
    · intro key hkey
      exact mapGet_mapSet_ne m k key _ (fun e => hkey e.symm)
    · exact ⟨_, mapGet_mapSet_self m k _ info hg, rfl⟩
    · intro hn
      simp only []
      rw [mapKeys_mapSet]
      exact hn
  | none =>
    refine ⟨?_, ?_, ?_⟩
    · intro key hkey
      simp only []
      rw [mapGet_mapInsert m k key _ hg, if_neg hkey]
    · refine ⟨⟨[ds.length % 256], false⟩, ?_, rfl⟩
      simp only []
      rw [mapGet_mapInsert m k k _ hg, if_pos rfl]
    · intro hn
      simp only [mapInsert, mapKeys, List.map_append, List.map_cons, List.map_nil]
      refine List.Nodup.append hn (List.nodup_singleton _) ?_
      intro x hx1 hx2
      rw [List.mem_singleton] at hx2
      subst hx2
      obtain ⟨v, hv⟩ := mapGet_isSome_of_mem m x hx1
      rw [hg] at hv
      cases hv

theorem collectionOf_no_rru (g : Globals) (d : SupDevice) (h : d.RRUConnection = false) :
    collectionOf g d ≠ .RRU_CONNECTION := by
  unfold collectionOf
  rw [h]
  simp only [Bool.false_eq_true, and_false, if_false]
  split <;> simp

/-- The loop of `DetectDevices` adds nothing to the RRU collection and to its
card affinity map, and only devices without RRU connection to the others. -/
theorem detect_loop_no_rru (g : Globals) :
    ∀ (hosts : List HostInterface) (w w1 : World), DetectDevices.loop g hosts w = some w1 →
      w1.devices .RRU_CONNECTION = w.devices .RRU_CONNECTION ∧
      w1.affinityMap .RRU_CONNECTION = w.affinityMap .RRU_CONNECTION ∧
      ∀ c d, d ∈ w1.devices c → d ∈ w.devices c ∨ d.RRUConnection = false := by
  intro hosts
  induction hosts with
  | nil =>
    intro w w1 h
    simp only [DetectDevices.loop, Option.some.injEq] at h
    subst h
    exact ⟨rfl, rfl, fun _ _ hd => Or.inl hd⟩
  | cons host rest ih =>
    intro w w1 h
    rw [DetectDevices.loop] at h
    split at h
    · simp at h
    · rename_i wa hwa
      obtain ⟨h1, h2, h3⟩ := ih wa w1 h
      rcases iteration_spec g host w wa hwa with ⟨_, he⟩ | ⟨_, d, hrru, _, _, _, _, hdev, hdev2, _, hmap2, _⟩
      · subst he
        exact ⟨h1, h2, h3⟩
      · have hne := collectionOf_no_rru g d hrru
        refine ⟨by rw [h1, hdev2 _ (fun e => hne e.symm)],
          by rw [h2, hmap2 _ (fun e => hne e.symm)], ?_⟩
        intro c x hx
        rcases h3 c x hx with hxa | hxr
        · by_cases hc : c = collectionOf g d
          · subst hc
            rw [hdev, List.mem_append, List.mem_singleton] at hxa
            rcases hxa with hxa | hxa
            · exact Or.inl hxa
            · subst hxa
              exact Or.inr hrru
          · rw [hdev2 c hc] at hxa
            exact Or.inl hxa
        · exact Or.inr hxr

/-- C39: `DetectDevices` never classifies an interface as RRU-capable. For every
list of interfaces, every answer of the host and every setting of the three
capability flags, a run that returns gives an empty RRU collection, leaves
`RruCardAffinityMap` as it was, and every device of the three returned
collections has `RRUConnection = false`. -/
theorem C39_no_device_is_rru (g : Globals) (networkInterfaces : List HostInterface)
    (w w1 : World) (h : DetectDevices g networkInterfaces w = some w1) :
    w1.rruDevicesSlice = [] ∧ w1.RruCardAffinityMap = w.RruCardAffinityMap ∧
    ∀ c d, d ∈ w1.devices c → d.RRUConnection = false := by
  unfold DetectDevices at h
  obtain ⟨h1, h2, h3⟩ := detect_loop_no_rru g networkInterfaces _ w1 h
  refine ⟨h1, h2, ?_⟩
  intro c d hd
  rcases h3 c d hd with hx | hx
  · cases c <;> simp [World.devices] at hx
  · exact hx

set_option maxRecDepth 16384 in
/-- C39, witness: with the three capabilities in use, the discovery of the host of
three interfaces returns two regular devices, one PTP device and no RRU device,
and `RruCardAffinityMap` stays empty. -/
theorem C39_witness_three_interfaces :
    (DetectDevices ⟨4, true, true, true⟩ testHostInterfaces (emptyWorld [])).map
      (fun w => (w.regularDevicesSlice.map (fun d => d.InterfaceName),
        w.ptpDevicesSlice.map (fun d => d.InterfaceName))) = some (["eth0", "eth2"], ["eth1"]) ∧
    ((DetectDevices ⟨4, true, true, true⟩ testHostInterfaces (emptyWorld [])).getD
      (emptyWorld [])).rruDevicesSlice = [] ∧
    ((DetectDevices ⟨4, true, true, true⟩ testHostInterfaces (emptyWorld [])).getD
      (emptyWorld [])).RruCardAffinityMap = (emptyWorld []).RruCardAffinityMap ∧
    ∀ c d, d ∈ ((DetectDevices ⟨4, true, true, true⟩ testHostInterfaces (emptyWorld [])).getD
      (emptyWorld [])).devices c → d.RRUConnection = false :=
  ⟨by decide,
    C39_no_device_is_rru ⟨4, true, true, true⟩ testHostInterfaces (emptyWorld [])
      ((DetectDevices ⟨4, true, true, true⟩ testHostInterfaces (emptyWorld [])).getD
        (emptyWorld [])) (by decide)⟩

/-- C33, evaluation at the failing input: the bus information `0000:cc:00.a` has
at least 5 bytes and its last `.` is the second-to-last byte, so
`GetDeviceCardAffinity` returns the key `0000:cc:00.x` although the last byte is
not a decimal digit, and `DetectDevices` (line 1579) derives the specific port
number 49 for the device. -/
theorem C33_key_for_non_digit_function :
    GetDeviceCardAffinity "0000:cc:00.a" "eth0" = "0000:cc:00.x" ∧
    ("0000:cc:00.a".toList.getLast?).map Char.isDigit = some false ∧
    (DetectDevices ⟨4, true, true, true⟩ [testHost "eth0" "0000:cc:00.a" false]
      (emptyWorld [])).map (fun w => w.regularDevicesSlice.map
        (fun d => (d.CardAffinity, d.SpecificPortNumber))) = some [("0000:cc:00.x", 49)] := by
  refine ⟨by decide, by decide, by decide⟩

theorem getElem?_snoc {α : Type} (l : List α) (d x : α) (p : Nat) :
    (l ++ [d])[p]? = some x ↔ l[p]? = some x ∨ (p = l.length ∧ x = d) := by
  by_cases hp : p < l.length
  · rw [List.getElem?_append_left hp]
    constructor
    · exact Or.inl
    · rintro (h | ⟨h, _⟩)
      · exact h
      · omega
  · have hnone : l[p]? = none := List.getElem?_eq_none (by omega)
    rw [List.getElem?_append_right (by omega), hnone]
    by_cases he : p = l.length
    · subst he
      simp [eq_comm]
    · have hpos : 0 < p - l.length := by omega
      have : [d][p - l.length]? = none :=
        List.getElem?_eq_none (by rw [List.length_singleton]; omega)
      rw [this]
      simp [he]

/-- One iteration of the loop of `DetectDevices` adds at most one device, and
exactly one when the interface passes the basic filters. -/
theorem iteration_lengths (g : Globals) (host : HostInterface) (w w1 : World)
    (h : DetectDevices.iteration g host w = some w1) :
    (∀ c, (w.devices c).length ≤ (w1.devices c).length) ∧
    totalDevices w1 = totalDevices w +
      (if (FilteringDeviceForBasicCapabilities host).1 = true then 1 else 0) := by
  rcases iteration_spec g host w w1 h with ⟨hf, he⟩ | ⟨hf, d, _, _, _, _, _, hdev, hdev2, _⟩
  · subst he
    rw [hf]
    exact ⟨fun _ => Nat.le_refl _, by simp⟩
  · rw [hf, if_pos rfl]
    constructor
    · intro c
      by_cases hc : c = collectionOf g d
      · subst hc
        rw [hdev, List.length_append]
        omega
      · rw [hdev2 c hc]
    · unfold totalDevices
      cases hcol : collectionOf g d with
      | REGULAR =>
        rw [hcol] at hdev hdev2
        rw [hdev, hdev2 .PTP_SUPPORT (by decide), hdev2 .RRU_CONNECTION (by decide),
          List.length_append, List.length_singleton]
        omega
      | PTP_SUPPORT =>
        rw [hcol] at hdev hdev2
        rw [hdev, hdev2 .REGULAR (by decide), hdev2 .RRU_CONNECTION (by decide),
          List.length_append, List.length_singleton]
        omega
      | RRU_CONNECTION =>
        rw [hcol] at hdev hdev2
        rw [hdev, hdev2 .REGULAR (by decide), hdev2 .PTP_SUPPORT (by decide),
          List.length_append, List.length_singleton]
        omega

theorem detect_loop_lengths (g : Globals) :
    ∀ (hosts : List HostInterface) (w w1 : World), DetectDevices.loop g hosts w = some w1 →
      (∀ c, (w.devices c).length ≤ (w1.devices c).length) ∧
      totalDevices w1 = totalDevices w +
        (hosts.filter (fun host => (FilteringDeviceForBasicCapabilities host).1)).length := by
  intro hosts
  induction hosts with
  | nil =>
    intro w w1 h
    simp only [DetectDevices.loop, Option.some.injEq] at h
    subst h
    exact ⟨fun _ => Nat.le_refl _, by simp⟩
  | cons host rest ih =>
    intro w w1 h
    rw [DetectDevices.loop] at h
    split at h
    · simp at h
    · rename_i wa hwa
      obtain ⟨h1, h2⟩ := iteration_lengths g host w wa hwa
      obtain ⟨h3, h4⟩ := ih wa w1 h
      refine ⟨fun c => Nat.le_trans (h1 c) (h3 c), ?_⟩
      rw [h4, h2, List.filter_cons]
      by_cases hf : (FilteringDeviceForBasicCapabilities host).1 = true
      · simp only [hf, if_true, List.length_cons]
        omega
      · simp only [hf, if_false, Bool.false_eq_true]
        omega

/-- One iteration of the loop of `DetectDevices` keeps the invariant of the
discovery, as long as the collections hold fewer than 256 devices afterwards. -/
theorem iteration_invariant (g : Globals) (host : HostInterface) (w w1 : World)
    (hinv : discoveryInvariant g w) (h : DetectDevices.iteration g host w = some w1)
    (hlen : ∀ c, (w1.devices c).length < 256) : discoveryInvariant g w1 := by
  rcases iteration_spec g host w w1 h with
    ⟨_, he⟩ | ⟨_, d, _, _, _, _, _, hdev, hdev2, hmap, hmap2, _⟩
  · subst he
    exact hinv
  · obtain ⟨hkeys, hgroups, hown, hlisted, hcoll⟩ := hinv
    have hn : (w.devices (collectionOf g d)).length % 256 =
        (w.devices (collectionOf g d)).length := by
      apply Nat.mod_eq_of_lt
      have := hlen (collectionOf g d)
      rw [hdev, List.length_append, List.length_singleton] at this
      omega
    -- the groups of the map of the collection of the new device
    have hgroup : ∀ key info1, mapGet (w1.affinityMap (collectionOf g d)) key = some info1 →
        (mapGet (w.affinityMap (collectionOf g d)) key = some info1) ∨
        (key = d.CardAffinity ∧ d.CardAffinity ≠ "" ∧
          g.USE_OF_CARD_AFFINITY_CAPABILITY = true ∧
          info1.DevicesIndexesSlice =
            ((mapGet (w.affinityMap (collectionOf g d)) key).map
              (fun i => i.DevicesIndexesSlice)).getD [] ++
              [(w.devices (collectionOf g d)).length]) := by
      intro key info1 hget
      rw [hmap] at hget
      split at hget
      · rename_i hyes
        obtain ⟨hother, ⟨info2, hget2, hslice2⟩, _⟩ :=
          updating_spec d.CardAffinity (w.devices (collectionOf g d))
            (w.affinityMap (collectionOf g d))
        by_cases hk : key = d.CardAffinity
        · subst hk
          rw [hget2] at hget
          cases hget
          rw [hn] at hslice2
          exact Or.inr ⟨rfl, hyes.1, hyes.2, hslice2⟩
        · rw [hother key hk] at hget
          exact Or.inl hget
      · exact Or.inl hget
    have hold : ∀ key info, mapGet (w.affinityMap (collectionOf g d)) key = some info →
        ∀ p, p ∈ info.DevicesIndexesSlice → p < (w.devices (collectionOf g d)).length := by
      intro key info hget p hp
      obtain ⟨x, hx, _⟩ := hown _ key info p hget hp
      exact (List.getElem?_eq_some_iff.mp hx).1
    refine ⟨?_, ?_, ?_, ?_, ?_⟩
    · intro c
      by_cases hc : c = collectionOf g d
      · subst hc
        rw [hmap]
        split
        · exact (updating_spec _ _ _).2.2 (hkeys _)
        · exact hkeys _
      · rw [hmap2 c hc]
        exact hkeys c
    · intro c key info1 hget
      by_cases hc : c = collectionOf g d
      · subst hc
        rcases hgroup key info1 hget with hg | ⟨hk, hne, _, hslice⟩
        · exact hgroups _ key info1 hg
        · refine ⟨by rw [hk]; exact hne, ?_⟩
          rw [hslice]
          cases hgo : mapGet (w.affinityMap (collectionOf g d)) key with
          | none => simp
          | some info =>
            simp only [Option.map_some', Option.getD_some]
            refine List.Nodup.append (hgroups _ key info hgo).2 (List.nodup_singleton _) ?_
            intro x hx1 hx2
            rw [List.mem_singleton] at hx2
            have := hold key info hgo x hx1
            omega
      · rw [hmap2 c hc] at hget
        exact hgroups c key info1 hget
    · intro c key info1 p hget hp
      by_cases hc : c = collectionOf g d
      · subst hc
        rw [hdev]
        have hkeep : ∀ info, mapGet (w.affinityMap (collectionOf g d)) key = some info →
            p ∈ info.DevicesIndexesSlice →
            ∃ x, (w.devices (collectionOf g d) ++ [d])[p]? = some x ∧ x.CardAffinity = key := by
          intro info hg hpi
          obtain ⟨x, hx, hxk⟩ := hown _ key info p hg hpi
          exact ⟨x, (getElem?_snoc _ _ _ _).mpr (Or.inl hx), hxk⟩
        rcases hgroup key info1 hget with hg | ⟨hk, _, _, hslice⟩
        · exact hkeep info1 hg hp
        · rw [hslice, List.mem_append, List.mem_singleton] at hp
          rcases hp with hp | hp
          · cases hgo : mapGet (w.affinityMap (collectionOf g d)) key with
            | none =>
              rw [hgo] at hp
              simp at hp
            | some info =>
              rw [hgo] at hp
              exact hkeep info hgo hp
          · exact ⟨d, (getElem?_snoc _ _ _ _).mpr (Or.inr ⟨hp, rfl⟩), hk.symm⟩
      · rw [hmap2 c hc] at hget
        rw [hdev2 c hc]
        exact hown c key info1 p hget hp
    · intro hA c p x hx hxne
      by_cases hc : c = collectionOf g d
      · subst hc
        rw [hdev, getElem?_snoc] at hx
        rw [hmap]
        obtain ⟨hother, ⟨info2, hget2, hslice2⟩, _⟩ :=
          updating_spec d.CardAffinity (w.devices (collectionOf g d))
            (w.affinityMap (collectionOf g d))
        rcases hx with hx | ⟨hp, hxd⟩
        · obtain ⟨info, hg, hpi⟩ := hlisted hA _ p x hx hxne
          split
          · by_cases hk : x.CardAffinity = d.CardAffinity
            · refine ⟨info2, by rw [hk]; exact hget2, ?_⟩
              rw [hslice2, ← hk, hg]
              simp only [Option.map_some', Option.getD_some, List.mem_append]
              exact Or.inl hpi
            · exact ⟨info, by rw [hother _ hk]; exact hg, hpi⟩
          · exact ⟨info, hg, hpi⟩
        · subst hxd
          rw [if_pos ⟨hxne, hA⟩]
          refine ⟨info2, hget2, ?_⟩
          rw [hslice2, hn, hp]
          simp
      · rw [hdev2 c hc] at hx
        rw [hmap2 c hc]
        exact hlisted hA c p x hx hxne
    · intro c x hx
      by_cases hc : c = collectionOf g d
      · subst hc
        rw [hdev, List.mem_append, List.mem_singleton] at hx
        rcases hx with hx | hx
        · exact hcoll _ x hx
        · rw [hx]
      · rw [hdev2 c hc] at hx
        exact hcoll c x hx

theorem detect_loop_invariant (g : Globals) :
    ∀ (hosts : List HostInterface) (w w1 : World), discoveryInvariant g w →
      DetectDevices.loop g hosts w = some w1 → (∀ c, (w1.devices c).length < 256) →
      discoveryInvariant g w1 := by
  intro hosts
  induction hosts with
  | nil =>
    intro w w1 hinv h _
    simp only [DetectDevices.loop, Option.some.injEq] at h
    subst h
    exact hinv
  | cons host rest ih =>
    intro w w1 hinv h hlen
    rw [DetectDevices.loop] at h
    split at h
    · simp at h
    · rename_i wa hwa
      have hmono := (detect_loop_lengths g rest wa w1 h).1
      exact ih wa w1 (iteration_invariant g host w wa hinv hwa
        (fun c => Nat.lt_of_le_of_lt (hmono c) (hlen c))) h hlen

/-- C31: `DetectDevices`, started with empty card affinity maps, puts every
interface that passes the basic filters into exactly one collection, the one
`collectionOf` names (RRU first, then PTP, else regular), and, when card affinity
is in use, lists the position of every device with a non-empty key under that key
in the map of its collection. With fewer than 256 devices in each collection the
three maps are well formed after the discovery: every position listed under a
key is a position of the collection whose device has that key, no position is
listed twice, and a device with an empty key is in no group. -/
theorem C31_discovery_builds_well_formed_maps (g : Globals)
    (networkInterfaces : List HostInterface) (w w1 : World)
    (hempty : ∀ c, w.affinityMap c = [])
    (h : DetectDevices g networkInterfaces w = some w1)
    (hlen : ∀ c, (w1.devices c).length < 256) :
    (∀ c d, d ∈ w1.devices c → collectionOf g d = c) ∧
    totalDevices w1 = (networkInterfaces.filter
      (fun host => (FilteringDeviceForBasicCapabilities host).1)).length ∧
    (g.USE_OF_CARD_AFFINITY_CAPABILITY = true → ∀ c p d, (w1.devices c)[p]? = some d →
      d.CardAffinity ≠ "" →
      ∃ info, mapGet (w1.affinityMap c) d.CardAffinity = some info ∧
        p ∈ info.DevicesIndexesSlice) ∧
    (∀ c, affinityMapWellFormed (w1.devices c) (w1.affinityMap c)) ∧
    (∀ c p d, (w1.devices c)[p]? = some d → d.CardAffinity = "" →
      ¬ isMember (w1.affinityMap c) p) := by
  unfold DetectDevices at h
  have hstart : discoveryInvariant g
      ⟨w.criteriaListsMap, [], [], [], w.CardAffinityMap, w.PtpCardAffinityMap,
        w.RruCardAffinityMap, w.rangeCount, w.selectionLog⟩ := by
    have hmaps : ∀ c, World.affinityMap
        ⟨w.criteriaListsMap, [], [], [], w.CardAffinityMap, w.PtpCardAffinityMap,
          w.RruCardAffinityMap, w.rangeCount, w.selectionLog⟩ c = [] := by
      intro c
      have := hempty c
      cases c <;> exact this
    have hdevs : ∀ c, World.devices
        ⟨w.criteriaListsMap, [], [], [], w.CardAffinityMap, w.PtpCardAffinityMap,
          w.RruCardAffinityMap, w.rangeCount, w.selectionLog⟩ c = [] := by
      intro c
      cases c <;> rfl
    refine ⟨?_, ?_, ?_, ?_, ?_⟩
    · intro c
      rw [hmaps]
      exact List.nodup_nil
    · intro c key info hget
      rw [hmaps] at hget
      simp [mapGet] at hget
    · intro c key info p hget
      rw [hmaps] at hget
      simp [mapGet] at hget
    · intro _ c p d hd
      rw [hdevs] at hd
      simp at hd
    · intro c d hd
      rw [hdevs] at hd
      simp at hd
  obtain ⟨hkeys, hgroups, hown, hlisted, hcoll⟩ :=
    detect_loop_invariant g networkInterfaces _ w1 hstart h hlen
  have hcount := (detect_loop_lengths g networkInterfaces _ w1 h).2
  refine ⟨hcoll, ?_, hlisted, ?_, ?_⟩
  · rw [hcount]
    simp [totalDevices, World.devices]
  · intro c
    refine ⟨⟨hkeys c, fun key info hget => (hgroups c key info hget).2, ?_⟩, hown c⟩
    intro key1 key2 info1 info2 p h1 h2 hp1 hp2
    obtain ⟨d1, hd1, hk1⟩ := hown c key1 info1 p h1 hp1
    obtain ⟨d2, hd2, hk2⟩ := hown c key2 info2 p h2 hp2
    rw [hd1] at hd2
    cases hd2
    rw [← hk1, ← hk2]
  · rintro c p d hd hkey ⟨key, info, hget, hp⟩
    obtain ⟨d1, hd1, hk1⟩ := hown c key info p hget hp
    rw [hd] at hd1
    cases hd1
    exact (hgroups c key info hget).1 (hk1.symm.trans hkey)

set_option maxRecDepth 16384 in
/-- C31, witness: the discovery of the host of three interfaces with the three
capabilities in use. eth0 and eth2 are regular devices, listed at positions 0
and 1 under `0000:cc:00.x` and `0000:dd:00.x`; eth1 answers the PTP probe and is
position 0 of the PTP collection, listed under `0000:cc:00.x` in the map of that
collection. -/
theorem C31_witness_three_interfaces :
    (DetectDevices ⟨4, true, true, true⟩ testHostInterfaces (emptyWorld [])).map
      (fun w => (w.regularDevicesSlice.map (fun d => d.InterfaceName),
        w.ptpDevicesSlice.map (fun d => d.InterfaceName), w.CardAffinityMap,
        w.PtpCardAffinityMap)) =
      some (["eth0", "eth2"], ["eth1"],
        [("0000:cc:00.x", ⟨[0], false⟩), ("0000:dd:00.x", ⟨[1], false⟩)],
        [("0000:cc:00.x", ⟨[0], false⟩)]) ∧
    (∀ c, affinityMapWellFormed
      (((DetectDevices ⟨4, true, true, true⟩ testHostInterfaces (emptyWorld [])).getD
        (emptyWorld [])).devices c)
      (((DetectDevices ⟨4, true, true, true⟩ testHostInterfaces (emptyWorld [])).getD
        (emptyWorld [])).affinityMap c)) :=
  ⟨by decide,
    (C31_discovery_builds_well_formed_maps ⟨4, true, true, true⟩ testHostInterfaces
      (emptyWorld [])
      ((DetectDevices ⟨4, true, true, true⟩ testHostInterfaces (emptyWorld [])).getD
        (emptyWorld []))
      (fun c => by cases c <;> rfl) (by decide)
      (fun c => by cases c <;> decide)).2.2.2.1⟩

set_option maxRecDepth 16384 in
/-- C35, evaluation at the failing input. The three roles pass `YamlFileValidation`,
which turns on card affinity and PTP support. The discovery of the host gives
well-formed maps and puts eth1, whose card affinity key is empty, into the PTP
collection and into no group. In the pass, `TreatmentOFCardAffinityWithCapabilities`
finds no single PTP device for `pf1` in the maps, finds eth1 by searching the
whole PTP collection (lines 946-947) and dereferences
`PtpCardAffinityMap[""]`, which is nil (line 951): the pass faults, for both
enumerations of the maps. -/
theorem C35_empty_key_device_faults :
    YamlFileValidation (mapKeys testRolesPtpAndCouple)
        (initialValidationState testRolesPtpAndCouple) =
      (none, ⟨testRolesPtpAndCouple, true, true, false⟩) ∧
    (DetectDevices ⟨3, true, true, false⟩ testHostEmptyKey
        (emptyWorld testRolesPtpAndCouple)).map
      (fun w => (w.ptpDevicesSlice.map (fun d => (d.InterfaceName, d.CardAffinity)),
        w.PtpCardAffinityMap, w.CardAffinityMap)) =
      some ([("eth1", "")], [], [("0000:cc:00.x", ⟨[0, 1], false⟩)]) ∧
    (∀ c, affinityEntriesWellFormed
      (((DetectDevices ⟨3, true, true, false⟩ testHostEmptyKey
        (emptyWorld testRolesPtpAndCouple)).getD (emptyWorld [])).devices c)
      (((DetectDevices ⟨3, true, true, false⟩ testHostEmptyKey
        (emptyWorld testRolesPtpAndCouple)).getD (emptyWorld [])).affinityMap c)) ∧
    CheckDevicesAgainstCriteria storageOrder ⟨3, true, true, false⟩
      ((DetectDevices ⟨3, true, true, false⟩ testHostEmptyKey
        (emptyWorld testRolesPtpAndCouple)).getD (emptyWorld [])) = none ∧
    CheckDevicesAgainstCriteria reverseOrder ⟨3, true, true, false⟩
      ((DetectDevices ⟨3, true, true, false⟩ testHostEmptyKey
        (emptyWorld testRolesPtpAndCouple)).getD (emptyWorld [])) = none := by
  refine ⟨by decide, by decide, ?_, by decide, by decide⟩
  intro c
  cases c <;> decide

theorem flagsExclusive_of_invariant (w : World) (h : flagsInvariant w) : flagsExclusive w := by
  intro c d hd hboth
  obtain ⟨i, hi⟩ := List.mem_iff_getElem?.mp hd
  have := (h.2 c i d hi hboth.1).1
  rw [hboth.2] at this
  exact absurd this (by decide)

theorem flagsInvariant_congr (w w2 : World)
    (hmap : ∀ c, w2.affinityMap c = w.affinityMap c) (hdev : ∀ c, w2.devices c = w.devices c)
    (h : flagsInvariant w) : flagsInvariant w2 := by
  refine ⟨fun c => by rw [hmap]; exact h.1 c, ?_⟩
  intro c i d hd hc
  rw [hdev] at hd
  rw [hmap]
  exact h.2 c i d hd hc

theorem flagsInvariantBut_congr (c0 : DeviceCapabilityType) (i0 : Nat) (w w2 : World)
    (hmap : ∀ c, w2.affinityMap c = w.affinityMap c) (hdev : ∀ c, w2.devices c = w.devices c)
    (h : flagsInvariantBut c0 i0 w) : flagsInvariantBut c0 i0 w2 := by
  refine ⟨fun c => by rw [hmap]; exact h.1 c, ?_⟩
  intro c i d hd hc
  rw [hdev] at hd
  rw [hmap]
  exact h.2 c i d hd hc

theorem flagsInvariant_tick (w : World) (h : flagsInvariant w) : flagsInvariant w.tick :=
  flagsInvariant_congr w _ (fun c => affinityMap_tick w c) (fun c => by rw [devices_tick]) h

theorem flagsInvariant_logSelection (w : World) (c : DeviceCapabilityType) (i : Nat)
    (h : flagsInvariant w) : flagsInvariant (w.logSelection c i) :=
  flagsInvariant_congr w _ (fun c2 => by rw [affinityMap_logSelection])
    (fun c2 => by rw [devices_logSelection]) h

theorem flagsInvariant_modifyCriteria (w w1 : World) (pf : String)
    (f : CriteriaList → CriteriaList) (hinv : flagsInvariant w)
    (h : w.modifyCriteria pf f = some w1) : flagsInvariant w1 := by
  obtain ⟨_, _, _, hdev, hmap, _, _⟩ := modifyCriteria_proj w w1 pf f h
  exact flagsInvariant_congr w w1 hmap (fun c => by rw [hdev]) hinv

theorem flagsInvariantBut_modifyCriteria (c0 : DeviceCapabilityType) (i0 : Nat) (w w1 : World)
    (pf : String) (f : CriteriaList → CriteriaList) (hinv : flagsInvariantBut c0 i0 w)
    (h : w.modifyCriteria pf f = some w1) : flagsInvariantBut c0 i0 w1 := by
  obtain ⟨_, _, _, hdev, hmap, _, _⟩ := modifyCriteria_proj w w1 pf f h
  exact flagsInvariantBut_congr c0 i0 w w1 hmap (fun c => by rw [hdev]) hinv

/-- Writing `IsCardAffinityCouple` of devices whose positions are listed keeps the
invariant: a listed position holds no device with `CheckedAgainstCriteria` set. -/
theorem flagsInvariant_devices (w w1 : World) (c : DeviceCapabilityType)
    (hmap : ∀ c2, w1.affinityMap c2 = w.affinityMap c2)
    (hdev2 : ∀ c2, c2 ≠ c → w1.devices c2 = w.devices c2)
    (hdev : ∀ i d1, (w1.devices c)[i]? = some d1 → ∃ d, (w.devices c)[i]? = some d ∧
      d1.CheckedAgainstCriteria = d.CheckedAgainstCriteria ∧
      (d1.IsCardAffinityCouple = d.IsCardAffinityCouple ∨ isMember (w.affinityMap c) i))
    (h : flagsInvariant w) : flagsInvariant w1 := by
  refine ⟨fun c2 => by rw [hmap]; exact h.1 c2, ?_⟩
  intro c2 i d1 hd1 hc1
  rw [hmap]
  by_cases hc : c2 = c
  · subst hc
    obtain ⟨d, hd, hck, hfl⟩ := hdev i d1 hd1
    rw [hck] at hc1
    obtain ⟨h1, h2⟩ := h.2 c2 i d hd hc1
    refine ⟨?_, h2⟩
    rcases hfl with hfl | hfl
    · rw [hfl]
      exact h1
    · exact absurd hfl h2
  · rw [hdev2 c2 hc] at hd1
    exact h.2 c2 i d1 hd1 hc1

theorem flagsInvariant_flag (w w1 : World) (c : DeviceCapabilityType) (i : Nat) (b : Bool)
    (hmem : isMember (w.affinityMap c) i) (hinv : flagsInvariant w)
    (h : w.modifyDevice c i (fun d => { d with IsCardAffinityCouple := b }) = some w1) :
    flagsInvariant w1 := by
  obtain ⟨d, hd, hdev, hdev2, hmap, _, _, _⟩ := modifyDevice_proj w w1 c i _ h
  refine flagsInvariant_devices w w1 c hmap hdev2 ?_ hinv
  intro j d1 hd1
  rw [hdev] at hd1
  by_cases hj : j = i
  · subst hj
    rw [List.getElem?_set_self (List.getElem?_eq_some_iff.mp hd).1] at hd1
    cases hd1
    exact ⟨d, hd, rfl, Or.inr hmem⟩
  · rw [List.getElem?_set_ne (fun e => hj e.symm)] at hd1
    exact ⟨d1, hd1, rfl, Or.inl rfl⟩

theorem flagsInvariant_optionalFlag (b : Prop) [Decidable b] (w w1 : World)
    (c : DeviceCapabilityType) (i : Nat) (v : Bool) (hmem : isMember (w.affinityMap c) i)
    (hinv : flagsInvariant w)
    (h : (if b then w.modifyDevice c i (fun d => { d with IsCardAffinityCouple := v })
      else some w) = some w1) : flagsInvariant w1 := by
  by_cases hb : b
  · rw [if_pos hb] at h
    exact flagsInvariant_flag w w1 c i v hmem hinv h
  · rw [if_neg hb] at h
    simp only [Option.some.injEq] at h
    rw [← h]
    exact hinv

theorem flagsInvariant_mark (w : World) (c : DeviceCapabilityType) (l : List Nat)
    (devices1 : List SupDevice) (hmem : ∀ p, p ∈ l → isMember (w.affinityMap c) p)
    (hmark : markCardAffinityCouples l (w.devices c) = some devices1)
    (hinv : flagsInvariant w) : flagsInvariant (w.setDevices c devices1) := by
  obtain ⟨_, hspec⟩ := markCardAffinityCouples_spec l _ _ hmark
  refine flagsInvariant_devices w _ c (fun c2 => affinityMap_setDevices w c c2 devices1)
    (fun c2 hc2 => devices_setDevices_ne w c c2 devices1 hc2) ?_ hinv
  intro i d1 hd1
  rw [devices_setDevices, Function.update_same, hspec i] at hd1
  cases hd : (w.devices c)[i]? with
  | none =>
    rw [hd] at hd1
    simp at hd1
  | some d =>
    rw [hd] at hd1
    simp only [Option.map_some', Option.some.injEq] at hd1
    refine ⟨d, rfl, ?_, ?_⟩
    · rw [← hd1]
      split <;> rfl
    · by_cases hi : i ∈ l
      · exact Or.inr (hmem i hi)
      · rw [← hd1, if_neg hi]
        exact Or.inl rfl

theorem flagsInvariant_setChosen (w : World) (c : DeviceCapabilityType) (key : String)
    (info : CardAffinityDevicesInfo) (b : Bool)
    (hget : mapGet (w.affinityMap c) key = some info) (hinv : flagsInvariant w) :
    flagsInvariant (w.setAffinityMap c (mapSet (w.affinityMap c) key
      { info with ChosenDeviceHasNoCardAffinity := b })) := by
  refine ⟨?_, ?_⟩
  · intro c2
    by_cases hc : c2 = c
    · subst hc
      rw [affinityMap_setAffinityMap_self]
      exact listedAtMostOnce_mapSet_same_slice _ key info
        { info with ChosenDeviceHasNoCardAffinity := b } hget rfl (hinv.1 c2)
    · rw [affinityMap_setAffinityMap_ne _ _ _ _ hc]
      exact hinv.1 c2
  · intro c2 i d hd hck
    rw [devices_setAffinityMap] at hd
    obtain ⟨h1, h2⟩ := hinv.2 c2 i d hd hck
    refine ⟨h1, ?_⟩
    by_cases hc : c2 = c
    · subst hc
      rw [affinityMap_setAffinityMap_self]
      exact fun hm => h2 ((isMember_mapSet_same_slice _ key info
        { info with ChosenDeviceHasNoCardAffinity := b } hget rfl i).mp hm)
    · rw [affinityMap_setAffinityMap_ne _ _ _ _ hc]
      exact h2

/-- The groups after a removal list no position that was not listed before. -/
theorem isMember_of_remove (idx : Nat) (key : String) (m m1 : GoMap CardAffinityDevicesInfo)
    (hwf : listedAtMostOnce m) (h : RemoveDeviceIndexFromSlice idx key m = some m1) (x : Nat)
    (hx : isMember m1 x) : isMember m x := by
  obtain ⟨info, p, hget, _, _, _, hother, hself, _⟩ := remove_spec idx key m m1 h hwf
  obtain ⟨k, i, hk, hxi⟩ := hx
  by_cases hkk : k = key
  · subst hkk
    exact ⟨k, info, hget, (((hself i hk).2.2 x).mp hxi).1⟩
  · rw [hother k hkk] at hk
    exact ⟨k, i, hk, hxi⟩

theorem flagsInvariant_remove (w w1 : World) (c : DeviceCapabilityType) (idx : Nat)
    (key : String) (hinv : flagsInvariant w) (h : w.removeDeviceIndex c idx key = some w1) :
    flagsInvariant w1 := by
  obtain ⟨m1, hm1, hmap, hmap2, hdev, _, _, _⟩ := removeDeviceIndex_proj w w1 c idx key h
  obtain ⟨_, _, _, _, hwf1, _, _, _, _⟩ := remove_spec idx key _ m1 hm1 (hinv.1 c)
  refine ⟨?_, ?_⟩
  · intro c2
    by_cases hc : c2 = c
    · subst hc
      rw [hmap]
      exact hwf1
    · rw [hmap2 c2 hc]
      exact hinv.1 c2
  · intro c2 i d hd hck
    rw [hdev] at hd
    obtain ⟨h1, h2⟩ := hinv.2 c2 i d hd hck
    refine ⟨h1, ?_⟩
    by_cases hc : c2 = c
    · subst hc
      rw [hmap]
      exact fun hm => h2 (isMember_of_remove idx key _ m1 (hinv.1 c2) hm1 i hm)
    · rw [hmap2 c2 hc]
      exact h2

theorem flagsInvariant_removeAndLog (w w1 : World) (c : DeviceCapabilityType) (idx p : Nat)
    (key : String) (hinv : flagsInvariant w)
    (h : (w.removeDeviceIndex c idx key).map (fun w3 : World => w3.logSelection c p) = some w1) :
    flagsInvariant w1 := by
  cases hr : w.removeDeviceIndex c idx key with
  | none =>
    rw [hr] at h
    simp at h
  | some w3 =>
    rw [hr] at h
    simp only [Option.map_some', Option.some.injEq] at h
    rw [← h]
    exact flagsInvariant_logSelection _ c p (flagsInvariant_remove w w3 c idx key hinv hr)

/-- Setting `CheckedAgainstCriteria` of a device that is not flagged
`IsCardAffinityCouple`, before its position leaves its group. -/
theorem flagsInvariant_check_start (w w1 : World) (c : DeviceCapabilityType) (i : Nat)
    (hflag : ∀ d, (w.devices c)[i]? = some d → d.IsCardAffinityCouple = false)
    (hinv : flagsInvariant w)
    (h : w.modifyDevice c i (fun d => { d with CheckedAgainstCriteria := true }) = some w1) :
    flagsInvariantBut c i w1 := by
  obtain ⟨d, hd, hdev, hdev2, hmap, _, _, _⟩ := modifyDevice_proj w w1 c i _ h
  refine ⟨fun c2 => by rw [hmap]; exact hinv.1 c2, ?_⟩
  intro c2 j d1 hd1 hck
  rw [hmap]
  by_cases hc : c2 = c
  · subst hc
    rw [hdev] at hd1
    by_cases hj : j = i
    · subst hj
      rw [List.getElem?_set_self (List.getElem?_eq_some_iff.mp hd).1] at hd1
      cases hd1
      exact ⟨hflag d hd, fun _ => ⟨rfl, rfl⟩⟩
    · rw [List.getElem?_set_ne (fun e => hj e.symm)] at hd1
      obtain ⟨h1, h2⟩ := hinv.2 c2 j d1 hd1 hck
      exact ⟨h1, fun hm => absurd hm h2⟩
  · rw [hdev2 c2 hc] at hd1
    obtain ⟨h1, h2⟩ := hinv.2 c2 j d1 hd1 hck
    exact ⟨h1, fun hm => absurd hm h2⟩

/-- The removal of the position whose device has just got `CheckedAgainstCriteria`
restores the invariant. -/
theorem flagsInvariantBut_remove (w w1 : World) (c : DeviceCapabilityType) (idx i : Nat)
    (key : String) (info : CardAffinityDevicesInfo)
    (hget : mapGet (w.affinityMap c) key = some info)
    (hp : info.DevicesIndexesSlice[idx]? = some i) (hinv : flagsInvariantBut c i w)
    (h : w.removeDeviceIndex c idx key = some w1) : flagsInvariant w1 := by
  obtain ⟨m1, hm1, hmap, hmap2, hdev, _, _, _⟩ := removeDeviceIndex_proj w w1 c idx key h
  obtain ⟨info0, p0, hget0, hp0, hwf1, hnot, _, _, _⟩ := remove_spec idx key _ m1 hm1 (hinv.1 c)
  rw [hget] at hget0
  cases hget0
  rw [hp] at hp0
  cases hp0
  refine ⟨?_, ?_⟩
  · intro c2
    by_cases hc : c2 = c
    · subst hc
      rw [hmap]
      exact hwf1
    · rw [hmap2 c2 hc]
      exact hinv.1 c2
  · intro c2 j d hd hck
    rw [hdev] at hd
    obtain ⟨h1, h2⟩ := hinv.2 c2 j d hd hck
    refine ⟨h1, ?_⟩
    by_cases hc : c2 = c
    · subst hc
      rw [hmap]
      intro hm
      have hold := isMember_of_remove idx key _ m1 (hinv.1 c2) hm1 j hm
      obtain ⟨_, hji⟩ := h2 hold
      subst hji
      exact hnot hm
    · rw [hmap2 c2 hc]
      exact fun hm => hc (h2 hm).1

theorem flagsInvariantBut_removeAndLog (w w1 : World) (c : DeviceCapabilityType) (idx i : Nat)
    (key : String) (info : CardAffinityDevicesInfo)
    (hget : mapGet (w.affinityMap c) key = some info)
    (hp : info.DevicesIndexesSlice[idx]? = some i) (hinv : flagsInvariantBut c i w)
    (h : (w.removeDeviceIndex c idx key).map (fun w3 : World => w3.logSelection c i) = some w1) :
    flagsInvariant w1 := by
  cases hr : w.removeDeviceIndex c idx key with
  | none =>
    rw [hr] at h
    simp at h
  | some w3 =>
    rw [hr] at h
    simp only [Option.map_some', Option.some.injEq] at h
    rw [← h]
    exact flagsInvariant_logSelection _ c i
      (flagsInvariantBut_remove w w3 c idx i key info hget hp hinv hr)

/-- Setting `CheckedAgainstCriteria` of a device that is not flagged
`IsCardAffinityCouple` and whose position is in no group. -/
theorem flagsInvariant_check (w w1 : World) (c : DeviceCapabilityType) (i : Nat)
    (hflag : ∀ d, (w.devices c)[i]? = some d → d.IsCardAffinityCouple = false)
    (hnot : ¬ isMember (w.affinityMap c) i) (hinv : flagsInvariant w)
    (h : w.modifyDevice c i (fun d => { d with CheckedAgainstCriteria := true }) = some w1) :
    flagsInvariant w1 := by
  obtain ⟨hwf, hbut⟩ := flagsInvariant_check_start w w1 c i hflag hinv h
  obtain ⟨_, _, _, _, hmap, _, _, _⟩ := modifyDevice_proj w w1 c i _ h
  refine ⟨hwf, ?_⟩
  intro c2 j d hd hck
  obtain ⟨h1, h2⟩ := hbut c2 j d hd hck
  refine ⟨h1, ?_⟩
  intro hm
  obtain ⟨hc, hj⟩ := h2 hm
  subst hc hj
  rw [hmap] at hm
  exact hnot hm

/-- The loop of `SelectingDeviceFromCardAffinityIndexesSlice` keeps the invariant
of the two flags: it writes `IsCardAffinityCouple` only at positions of the
group, and no listed position holds a device with `CheckedAgainstCriteria`. -/
theorem selecting_loop_flags (ty : CardAffinityPfCoupleType) (c : DeviceCapabilityType)
    (key pf : String) :
    ∀ (rest : List Nat) (idx : Nat) (w : World) (r : Int) (w1 : World)
      (info : CardAffinityDevicesInfo),
      flagsInvariant w → mapGet (w.affinityMap c) key = some info →
      info.DevicesIndexesSlice.drop idx = rest →
      SelectingDeviceFromCardAffinityIndexesSlice.loop ty c key pf rest idx w = some (r, w1) →
      flagsInvariant w1 := by
  intro rest
  induction rest with
  | nil =>
    intro idx w r w1 info hinv _ _ h
    simp only [SelectingDeviceFromCardAffinityIndexesSlice.loop, Option.some.injEq,
      Prod.mk.injEq] at h
    rw [← h.2]
    exact hinv
  | cons deviceIndex rest ih =>
    intro idx w r w1 info hinv hget hdrop h
    obtain ⟨hp, hdrop2⟩ := drop_eq_cons _ _ _ _ hdrop
    have hmem : isMember (w.affinityMap c) deviceIndex :=
      ⟨key, info, hget, List.getElem?_mem hp⟩
    rw [SelectingDeviceFromCardAffinityIndexesSlice.loop] at h
    split at h
    · simp at h
    · rename_i wa hwa
      obtain ⟨hamap, _, _, _, _⟩ := optionalModify_proj _ _ _ _ _ _ hwa
      have hinva : flagsInvariant wa :=
        flagsInvariant_optionalFlag _ w wa c deviceIndex false hmem hinv hwa
      have hgeta : mapGet (wa.affinityMap c) key = some info := by rw [hamap]; exact hget
      have hmema : isMember (wa.affinityMap c) deviceIndex := by rw [hamap]; exact hmem
      split at h
      · simp at h
      · rename_i device hdev
        split at h
        · simp at h
        · rename_i res hres
          split at h
          · -- a device was found
            split at h
            · -- EMPTY_MARKED_FALSE
              split at h
              · simp at h
              · rename_i info2 hinfo2
                have hinvb := flagsInvariant_setChosen wa c key info2 true hinfo2 hinva
                dsimp only at h
                split at h
                · simp at h
                · rename_i wc hwc
                  simp only [Option.some.injEq, Prod.mk.injEq] at h
                  rw [← h.2]
                  exact flagsInvariant_logSelection _ _ _
                    (flagsInvariant_remove _ wc c idx key hinvb hwc)
            · -- CURRENT_PF_SMALLER_THAN_COUPLED
              split at h
              · simp at h
              · rename_i criteriaList _
                split at h
                · simp at h
                · rename_i wb hwb
                  obtain ⟨_, _, _, _, hbmap, _, _⟩ := modifyCriteria_proj _ _ _ _ hwb
                  have hinvb := flagsInvariant_modifyCriteria _ _ _ _ hinva hwb
                  split at h
                  · simp at h
                  · rename_i info2 hinfo2
                    split at h
                    · simp at h
                    · rename_i devices hmark
                      split at h
                      · simp at h
                      · rename_i wc hwc
                        simp only [Option.some.injEq, Prod.mk.injEq] at h
                        rw [← h.2]
                        have hinvd := flagsInvariant_mark wb c info2.DevicesIndexesSlice devices
                          (fun p hp2 => ⟨key, info2, hinfo2, hp2⟩) hmark hinvb
                        exact flagsInvariant_logSelection _ _ _
                          (flagsInvariant_remove _ wc c idx key hinvd hwc)
            · -- CURRENT_PF_BIGGER_THAN_COUPLED
              split at h
              · simp at h
              · rename_i wb hwb
                have hinvb := flagsInvariant_flag wa wb c deviceIndex true hmema hinva hwb
                split at h
                · simp at h
                · rename_i wc hwc
                  simp only [Option.some.injEq, Prod.mk.injEq] at h
                  rw [← h.2]
                  exact flagsInvariant_logSelection _ _ _
                    (flagsInvariant_remove _ wc c idx key hinvb hwc)
            · -- EMPTY_MARKED_TRUE
              split at h
              · simp at h
              · rename_i wc hwc
                simp only [Option.some.injEq, Prod.mk.injEq] at h
                rw [← h.2]
                exact flagsInvariant_logSelection _ _ _
                  (flagsInvariant_remove _ wc c idx key hinva hwc)
          · -- the device does not fit: next position of the group
            split at h
            · simp at h
            · rename_i wb hwb
              obtain ⟨hbmap, _, _, _, _⟩ := optionalModify_proj _ _ _ _ _ _ hwb
              have hinvb : flagsInvariant wb :=
                flagsInvariant_optionalFlag _ wa wb c deviceIndex true hmema hinva hwb
              exact ih (idx + 1) wb r w1 info hinvb (by rw [hbmap]; exact hgeta) hdrop2 h

/-- A scan of `CheckDevicesAgainstCriteriaListWithCardAffinity` keeps the
invariant of the two flags. -/
theorem scan_flags (ty : CardAffinityPfCoupleType) (c : DeviceCapabilityType) (pf : String)
    (visit : CardAffinityDevicesInfo → Bool) :
    ∀ (keys : List String) (w : World) (r : Int) (w1 : World),
      flagsInvariant w →
      CheckDevicesAgainstCriteriaListWithCardAffinity.scan ty c pf visit keys w = some (r, w1) →
      flagsInvariant w1 := by
  intro keys
  induction keys with
  | nil =>
    intro w r w1 hinv h
    simp only [CheckDevicesAgainstCriteriaListWithCardAffinity.scan, Option.some.injEq,
      Prod.mk.injEq] at h
    rw [← h.2]
    exact hinv
  | cons key rest ih =>
    intro w r w1 hinv h
    rw [CheckDevicesAgainstCriteriaListWithCardAffinity.scan] at h
    split at h
    · exact ih w r w1 hinv h
    · rename_i info hinfo
      split at h
      · simp only [SelectingDeviceFromCardAffinityIndexesSlice, hinfo] at h
        split at h
        · simp at h
        · rename_i r0 w0 hsel
          have hinv0 := selecting_loop_flags ty c key pf _ 0 w r0 w0 info hinv hinfo rfl hsel
          split at h
          · simp only [Option.some.injEq, Prod.mk.injEq] at h
            rw [← h.2]
            exact hinv0
          · exact ih w0 r w1 hinv0 h
      · exact ih w r w1 hinv h

/-- Go: `CheckDevicesAgainstCriteriaListWithCardAffinity` keeps the invariant of
the two flags. -/
theorem checkWithCardAffinity_flags (mapOrder : Nat → List String → List String)
    (c : DeviceCapabilityType) (pf : String) (w : World) (r : Int) (w1 : World)
    (hinv : flagsInvariant w)
    (h : CheckDevicesAgainstCriteriaListWithCardAffinity mapOrder c pf w = some (r, w1)) :
    flagsInvariant w1 := by
  unfold CheckDevicesAgainstCriteriaListWithCardAffinity at h
  split at h
  · simp at h
  · split at h
    · split at h
      · simp at h
      · rename_i r0 w0 hscan
        have hinv0 := scan_flags _ c pf _ _ _ r0 w0 (flagsInvariant_tick w hinv) hscan
        split at h
        · simp only [Option.some.injEq, Prod.mk.injEq] at h
          rw [← h.2]
          exact hinv0
        · exact scan_flags _ c pf _ _ _ r w1 (flagsInvariant_tick w0 hinv0) h
    · split at h
      · exact scan_flags _ c pf _ _ _ r w1 (flagsInvariant_tick w hinv) h
      · split at h
        · simp only [Option.some.injEq, Prod.mk.injEq] at h
          rw [← h.2]
          exact hinv
        · simp only [SelectingDeviceFromCardAffinityIndexesSlice] at h
          split at h
          · simp at h
          · rename_i info hinfo
            exact selecting_loop_flags _ c _ pf _ 0 w r w1 info hinv hinfo rfl h

/-- Go: `FindDevicesForPfCoupleWithSpecialCapability` keeps the invariant of the
two flags. -/
theorem findDevicesForPfCouple_flags (mapOrder : Nat → List String → List String)
    (c : DeviceCapabilityType) (pf : String) (w : World) (b : Bool) (w1 : World)
    (hinv : flagsInvariant w)
    (h : FindDevicesForPfCoupleWithSpecialCapability mapOrder c pf w = some (b, w1)) :
    flagsInvariant w1 := by
  unfold FindDevicesForPfCoupleWithSpecialCapability at h
  split at h
  · simp at h
  · dsimp only at h
    split at h
    · simp at h
    · rename_i r0 w0 hfirst
      have hinv0 := checkWithCardAffinity_flags mapOrder c _ w r0 w0 hinv hfirst
      split at h
      · split at h
        · simp at h
        · rename_i r2 w2 hsecond
          have hinv2 := checkWithCardAffinity_flags mapOrder c _ w0 r2 w2 hinv0 hsecond
          split at h
          · split at h
            · simp at h
            · split at h
              · simp at h
              · rename_i w3 hw3
                have hinv3 := flagsInvariant_modifyCriteria _ _ _ _ hinv2 hw3
                split at h
                · simp at h
                · split at h
                  · simp at h
                  · rename_i w4 hw4
                    simp only [Option.some.injEq, Prod.mk.injEq] at h
                    rw [← h.2]
                    exact flagsInvariant_modifyCriteria _ _ _ _ hinv3 hw4
          · simp only [Option.some.injEq, Prod.mk.injEq] at h
            rw [← h.2]
            exact hinv2
      · simp only [Option.some.injEq, Prod.mk.injEq] at h
        rw [← h.2]
        exact hinv0

/-- The loop of `FindProperCoupleDevicesFromDifferentCardAffinityMaps` keeps the
invariant of the two flags: the devices that get `CheckedAgainstCriteria` have
just been found acceptable, so they are not flagged `IsCardAffinityCouple`, and
their positions leave their groups. -/
theorem findProperCouple_loop_flags (cur cpl : DeviceCapabilityType) (pf : String)
    (required : Bool) :
    ∀ (keys : List String) (w : World) (b : Bool) (w1 : World),
      flagsInvariant w →
      FindProperCoupleDevicesFromDifferentCardAffinityMaps.loop cur cpl pf required keys w =
        some (b, w1) →
      flagsInvariant w1 := by
  intro keys
  induction keys with
  | nil =>
    intro w b w1 hinv h
    simp only [FindProperCoupleDevicesFromDifferentCardAffinityMaps.loop, Option.some.injEq,
      Prod.mk.injEq] at h
    rw [← h.2]
    exact hinv
  | cons key rest ih =>
    intro w b w1 hinv h
    rw [FindProperCoupleDevicesFromDifferentCardAffinityMaps.loop] at h
    split at h
    · exact ih w b w1 hinv h
    · rename_i info hinfo
      split at h
      · exact ih w b w1 hinv h
      · rename_i coupledInfo hcoupled
        have hone : info.DevicesIndexesSlice.length = 1 ∧
            mapGet (w.affinityMap cpl) key = some coupledInfo := by
          split at hcoupled
          · rename_i hl
            exact ⟨hl, hcoupled⟩
          · simp at hcoupled
        split at h
        · simp at h
        · rename_i position hposition
          split at h
          · simp at h
          · rename_i device hdevice
            split at h
            · simp at h
            · rename_i deviceIndex hcheck
              split at h
              · rename_i hzero
                rw [hzero] at hcheck
                obtain ⟨role, _, hacc⟩ := check_single_zero _ device hcheck
                -- the steps common to the two branches
                have hcommon : ∀ wa wb wc,
                    w.modifyCriteria pf
                      (fun cl => { cl with SelectedDeviceInterface := device.InterfaceName }) =
                      some wa →
                    wa.modifyDevice cur position
                      (fun d => { d with CheckedAgainstCriteria := true }) = some wb →
                    (wb.removeDeviceIndex cur 0 key).map
                      (fun w3 : World => w3.logSelection cur position) = some wc →
                    flagsInvariant wc ∧
                    (cur = cpl → mapGet (wc.affinityMap cpl) key = none) ∧
                    (cur ≠ cpl → wc.affinityMap cpl = w.affinityMap cpl ∧
                      wc.devices cpl = w.devices cpl) := by
                  intro wa wb wc hwa hwb hwc
                  have hinva := flagsInvariant_modifyCriteria _ _ _ _ hinv hwa
                  obtain ⟨_, _, _, hadev, hamap, _, _⟩ := modifyCriteria_proj _ _ _ _ hwa
                  have hbut := flagsInvariant_check_start wa wb cur position
                    (fun d hd => by
                      rw [hadev, hdevice] at hd
                      cases hd
                      exact hacc.2.1) hinva hwb
                  obtain ⟨_, _, _, hbdev2, hbmap, _, _, _⟩ := modifyDevice_proj _ _ _ _ _ hwb
                  have hgetb : mapGet (wb.affinityMap cur) key = some info := by
                    rw [hbmap, hamap]
                    exact hinfo
                  obtain ⟨m1, hm1, hcmap, hcmap2, hcdev, _, _, _⟩ :=
                    removeAndLog_proj _ _ _ _ _ _ hwc
                  refine ⟨flagsInvariantBut_removeAndLog wb wc cur 0 position key info hgetb
                    hposition hbut hwc, ?_, ?_⟩
                  · intro he
                    subst he
                    rw [hcmap]
                    obtain ⟨info0, _, hget0, _, _, _, _, _, hdel⟩ :=
                      remove_spec 0 key _ m1 hm1 (hbut.1 cur)
                    rw [hgetb] at hget0
                    cases hget0
                    exact hdel.mpr hone.1
                  · intro hne
                    refine ⟨?_, ?_⟩
                    · rw [hcmap2 cpl (fun e => hne e.symm), hbmap, hamap]
                    · rw [hcdev, hbdev2 cpl (fun e => hne e.symm), hadev]
                split at h
                · -- a couple of devices is required
                  split at h
                  · simp at h
                  · rename_i coupledPosition hcoupledPosition
                    split at h
                    · simp at h
                    · rename_i coupledDevice hcoupledDevice
                      split at h
                      · simp at h
                      · split at h
                        · simp at h
                        · rename_i coupledDeviceIndex hcoupledCheck
                          split at h
                          · rename_i hzero2
                            rw [hzero2] at hcoupledCheck
                            obtain ⟨role2, _, hacc2⟩ := check_single_zero _ coupledDevice
                              hcoupledCheck
                            split at h
                            · simp at h
                            · rename_i wa hwa
                              split at h
                              · simp at h
                              · rename_i wb hwb
                                split at h
                                · simp at h
                                · rename_i wc hwc
                                  obtain ⟨hinvc, hsame, hdiff⟩ := hcommon wa wb wc hwa hwb hwc
                                  split at h
                                  · simp at h
                                  · rename_i coupledInfo3 hci3
                                    have hne : cur ≠ cpl := by
                                      intro he
                                      rw [hsame he] at hci3
                                      cases hci3
                                    obtain ⟨hcplmap, hcpldev⟩ := hdiff hne
                                    rw [hcplmap, hone.2] at hci3
                                    cases hci3
                                    split at h
                                    · simp at h
                                    · rename_i coupledPosition3 hcp3
                                      rw [hcoupledPosition] at hcp3
                                      cases hcp3
                                      split at h
                                      · simp at h
                                      · rename_i wd hwd
                                        have hbutd := flagsInvariant_check_start wc wd cpl
                                          coupledPosition
                                          (fun d hd => by
                                            rw [hcpldev, hcoupledDevice] at hd
                                            cases hd
                                            exact hacc2.2.1) hinvc hwd
                                        obtain ⟨_, _, _, _, hdmap, _, _, _⟩ :=
                                          modifyDevice_proj _ _ _ _ _ hwd
                                        split at h
                                        · simp at h
                                        · split at h
                                          · simp at h
                                          · rename_i we hwe
                                            have hbute := flagsInvariantBut_modifyCriteria _ _ _ _
                                              _ _ hbutd hwe
                                            obtain ⟨_, _, _, _, hemap, _, _⟩ :=
                                              modifyCriteria_proj _ _ _ _ hwe
                                            split at h
                                            · simp at h
                                            · rename_i wf hwf
                                              simp only [Option.some.injEq, Prod.mk.injEq] at h
                                              rw [← h.2]
                                              exact flagsInvariant_logSelection _ _ _
                                                (flagsInvariantBut_remove we wf cpl 0
                                                  coupledPosition key coupledInfo
                                                  (by rw [hemap, hdmap, hcplmap]; exact hone.2)
                                                  hcoupledPosition hbute hwf)
                          · exact ih w b w1 hinv h
                · -- a single device
                  split at h
                  · simp at h
                  · rename_i wa hwa
                    split at h
                    · simp at h
                    · rename_i wb hwb
                      split at h
                      · simp at h
                      · rename_i wc hwc
                        obtain ⟨hinvc, _, _⟩ := hcommon wa wb wc hwa hwb hwc
                        split at h
                        · simp at h
                        · rename_i coupledInfo3 hci3
                          simp only [Option.some.injEq, Prod.mk.injEq] at h
                          rw [← h.2]
                          exact flagsInvariant_setChosen wc cpl key coupledInfo3 true hci3 hinvc
              · exact ih w b w1 hinv h

/-- Go: `FindProperCoupleDevicesFromDifferentCardAffinityMaps` keeps the invariant
of the two flags. -/
theorem findProperCouple_flags (mapOrder : Nat → List String → List String)
    (cur cpl : DeviceCapabilityType) (pf : String) (required : Bool) (w : World) (b : Bool)
    (w1 : World) (hinv : flagsInvariant w)
    (h : FindProperCoupleDevicesFromDifferentCardAffinityMaps mapOrder cur cpl pf required w =
      some (b, w1)) : flagsInvariant w1 :=
  findProperCouple_loop_flags cur cpl pf required _ _ b w1 (flagsInvariant_tick w hinv) h

theorem check_loop_nil_pointer : ∀ (devices : List SupDevice) (k : Nat) (r : Int),
    CheckDevicesAgainstSpecificCriteriaList.loop none devices k = some r → r = -1 := by
  intro devices
  induction devices with
  | nil =>
    intro k r h
    simp only [CheckDevicesAgainstSpecificCriteriaList.loop, Option.some.injEq] at h
    exact h.symm
  | cons d rest ih =>
    intro k r h
    rw [CheckDevicesAgainstSpecificCriteriaList.loop] at h
    split at h
    · exact ih (k + 1) r h
    · simp at h

/-- A device returned by `CheckDevicesAgainstSpecificCriteriaList` has both flags
clear, whatever the criteria pointer. -/
theorem returned_clear (ptr : Option CriteriaList) (devices : List SupDevice) (r : Int)
    (h : CheckDevicesAgainstSpecificCriteriaList ptr devices = some r) (hr : 0 ≤ r) :
    ∃ d, devices[r.toNat]? = some d ∧ d.CheckedAgainstCriteria = false ∧
      d.IsCardAffinityCouple = false := by
  cases ptr with
  | none =>
    have := check_loop_nil_pointer devices 0 r h
    rw [this] at hr
    exact absurd hr (by decide)
  | some role =>
    have hidx : r = ((r.toNat : Nat) : Int) := (Int.toNat_of_nonneg hr).symm
    rw [hidx] at h
    obtain ⟨d, hd, hacc⟩ := returned_acceptable role devices r.toNat h
    exact ⟨d, hd, hacc.1, hacc.2.1⟩

/-- The loop of `TreatmentOFCardAffinityWithCapabilities` keeps the invariant of
the two flags. -/
theorem treatment_loop_flags (mapOrder : Nat → List String → List String)
    (target other ty : DeviceCapabilityType) :
    ∀ (pfs : List String) (w : World) (b : Bool) (w1 : World),
      flagsInvariant w →
      TreatmentOFCardAffinityWithCapabilities.loop mapOrder target other ty pfs w =
        some (b, w1) →
      flagsInvariant w1 := by
  intro pfs
  induction pfs with
  | nil =>
    intro w b w1 hinv h
    simp only [TreatmentOFCardAffinityWithCapabilities.loop, Option.some.injEq,
      Prod.mk.injEq] at h
    rw [← h.2]
    exact hinv
  | cons pf rest ih =>
    intro w b w1 hinv h
    rw [TreatmentOFCardAffinityWithCapabilities.loop] at h
    split at h
    · simp at h
    · split at h
      · exact ih w b w1 hinv h
      · split at h
        · split at h
          · -- no coupled PF
            split at h
            · simp at h
            · rename_i wa hwa
              exact ih wa b w1 (findProperCouple_flags _ _ _ _ _ _ _ _ hinv hwa) h
            · rename_i wa hwa
              have hinva := findProperCouple_flags _ _ _ _ _ _ _ _ hinv hwa
              split at h
              · simp at h
              · rename_i wb hwb
                exact ih wb b w1 (findProperCouple_flags _ _ _ _ _ _ _ _ hinva hwb) h
              · rename_i wb hwb
                have hinvb := findProperCouple_flags _ _ _ _ _ _ _ _ hinva hwb
                split at h
                · simp at h
                · rename_i deviceIndex hcheck
                  split at h
                  · rename_i hge
                    obtain ⟨d0, hd0, _, hd0flag⟩ := returned_clear _ _ deviceIndex hcheck hge
                    split at h
                    · simp at h
                    · rename_i device hdevice
                      rw [hd0] at hdevice
                      cases hdevice
                      split at h
                      · simp at h
                      · rename_i info hinfo
                        split at h
                        · simp at h
                        · rename_i w6 hw6
                          have hinv6 : flagsInvariant w6 := by
                            split at hw6
                            · simp only [Option.some.injEq] at hw6
                              rw [← hw6]
                              exact hinvb
                            · rename_i idx hidx
                              obtain ⟨j, hj, hx⟩ := findIndex_spec _ _ _ _ hidx
                              have hidx2 : info.DevicesIndexesSlice[idx]? =
                                  some deviceIndex.toNat := by
                                rw [hj, Nat.zero_add]
                                exact hx
                              split at hw6
                              · simp at hw6
                              · rename_i w3 hw3
                                have hinv3 := flagsInvariant_modifyCriteria _ _ _ _ hinvb hw3
                                obtain ⟨_, _, _, h3dev, h3map, _, _⟩ :=
                                  modifyCriteria_proj _ _ _ _ hw3
                                split at hw6
                                · simp at hw6
                                · rename_i w4 hw4
                                  have hinv4 := flagsInvariant_removeAndLog w3 w4 target idx
                                    deviceIndex.toNat d0.CardAffinity hinv3 hw4
                                  obtain ⟨m1, hm1, h4map, _, h4dev, _, _, _⟩ :=
                                    removeAndLog_proj _ _ _ _ _ _ hw4
                                  obtain ⟨info0, p0, hget0, hp0, _, hnot, _, _, _⟩ :=
                                    remove_spec idx d0.CardAffinity _ m1 hm1 (hinv3.1 target)
                                  rw [h3map, hinfo] at hget0
                                  cases hget0
                                  rw [hidx2] at hp0
                                  cases hp0
                                  refine flagsInvariant_check w4 w6 target deviceIndex.toNat ?_
                                    (by rw [h4map]; exact hnot) hinv4 hw6
                                  intro d hd
                                  rw [h4dev, h3dev, hd0] at hd
                                  cases hd
                                  exact hd0flag
                          split at h
                          · simp at h
                          · split at h
                            · exact ih w6 b w1 hinv6 h
                            · simp only [Option.some.injEq, Prod.mk.injEq] at h
                              rw [← h.2]
                              exact hinv6
                  · simp only [Option.some.injEq, Prod.mk.injEq] at h
                    rw [← h.2]
                    exact hinvb
          · -- a coupled PF
            split at h
            · simp at h
            · split at h
              · split at h
                · simp at h
                · rename_i wa hwa
                  exact ih wa b w1 (findDevicesForPfCouple_flags _ _ _ _ _ _ hinv hwa) h
                · rename_i wa hwa
                  simp only [Option.some.injEq, Prod.mk.injEq] at h
                  rw [← h.2]
                  exact findDevicesForPfCouple_flags _ _ _ _ _ _ hinv hwa
              · split at h
                · split at h
                  · simp at h
                  · rename_i wa hwa
                    exact ih wa b w1 (findProperCouple_flags _ _ _ _ _ _ _ _ hinv hwa) h
                  · rename_i wa hwa
                    simp only [Option.some.injEq, Prod.mk.injEq] at h
                    rw [← h.2]
                    exact findProperCouple_flags _ _ _ _ _ _ _ _ hinv hwa
                · split at h
                  · simp at h
                  · rename_i wa hwa
                    exact ih wa b w1 (findProperCouple_flags _ _ _ _ _ _ _ _ hinv hwa) h
                  · rename_i wa hwa
                    have hinva := findProperCouple_flags _ _ _ _ _ _ _ _ hinv hwa
                    split at h
                    · simp at h
                    · rename_i wb hwb
                      exact ih wb b w1 (findProperCouple_flags _ _ _ _ _ _ _ _ hinva hwb) h
                    · rename_i wb hwb
                      have hinvb := findProperCouple_flags _ _ _ _ _ _ _ _ hinva hwb
                      split at h
                      · simp at h
                      · rename_i wc hwc
                        exact ih wc b w1 (findDevicesForPfCouple_flags _ _ _ _ _ _ hinvb hwc) h
                      · rename_i wc hwc
                        simp only [Option.some.injEq, Prod.mk.injEq] at h
                        rw [← h.2]
                        exact findDevicesForPfCouple_flags _ _ _ _ _ _ hinvb hwc
        · exact ih w b w1 hinv h

/-- The loop of `CheckDevicesAgainstCriteria` with card affinity keeps the
invariant of the two flags. -/
theorem loop_cardAffinity_flags (mapOrder : Nat → List String → List String) (g : Globals)
    (hAff : g.USE_OF_CARD_AFFINITY_CAPABILITY = true) :
    ∀ (pfs : List String) (s : Nat) (out : String) (w : World) (str : String) (w1 : World),
      flagsInvariant w →
      CheckDevicesAgainstCriteria.loop mapOrder g pfs s out w = some (str, w1) →
      flagsInvariant w1 := by
  intro pfs
  induction pfs with
  | nil =>
    intro s out w str w1 hinv h
    simp only [CheckDevicesAgainstCriteria.loop, Option.some.injEq, Prod.mk.injEq] at h
    rw [← h.2]
    exact hinv
  | cons pf rest ih =>
    intro s out w str w1 hinv h
    rw [CheckDevicesAgainstCriteria.loop] at h
    simp only [hAff, if_true] at h
    split at h
    · simp at h
    · split at h
      · split at h
        · simp at h
        · rename_i r0 w0 hcheck
          have hinv0 := checkWithCardAffinity_flags mapOrder _ pf w r0 w0 hinv hcheck
          split at h
          · split at h
            · simp at h
            · split at h
              · simp only [Option.some.injEq, Prod.mk.injEq] at h
                rw [← h.2]
                exact hinv0
              · exact ih _ _ w0 str w1 hinv0 h
          · simp only [Option.some.injEq, Prod.mk.injEq] at h
            rw [← h.2]
            exact hinv0
      · split at h
        · simp only [Option.some.injEq, Prod.mk.injEq] at h
          rw [← h.2]
          exact hinv
        · exact ih _ _ w str w1 hinv h

/-- Go: `CheckDevicesAgainstCriteriaListWithNoCardAffinity` sets
`CheckedAgainstCriteria` of a device that is not flagged `IsCardAffinityCouple`
and writes no other flag. -/
theorem noCardAffinity_flags (g : Globals) (ptr : Option CriteriaList) (out : String) (s : Nat)
    (w : World) (found : Bool) (out1 : String) (s1 : Nat) (w1 : World)
    (hex : flagsExclusive w)
    (h : CheckDevicesAgainstCriteriaListWithNoCardAffinity g ptr out s w =
      some (found, out1, s1, w1)) : flagsExclusive w1 := by
  unfold CheckDevicesAgainstCriteriaListWithNoCardAffinity at h
  split at h
  · simp at h
  · rename_i criteriaList
    dsimp only at h
    split at h
    · simp only [Option.some.injEq, Prod.mk.injEq] at h
      rw [← h.2.2.2]
      exact hex
    · rename_i capability _
      split at h
      · simp at h
      · rename_i deviceIndex hcheck
        split at h
        · rename_i hge
          obtain ⟨d0, hd0, _, hflag⟩ := returned_clear _ _ deviceIndex hcheck hge
          split at h
          · simp at h
          · rename_i device hdevice
            rw [hd0] at hdevice
            cases hdevice
            simp only [Option.some.injEq, Prod.mk.injEq] at h
            rw [← h.2.2.2]
            intro c d hd hboth
            rw [devices_logSelection] at hd
            by_cases hc : c = capability
            · subst hc
              rw [devices_setDevices, Function.update_same] at hd
              rcases List.mem_or_eq_of_mem_set hd with hd | hd
              · exact hex c d hd hboth
              · rw [hd] at hboth
                have := hboth.2
                simp only at this
                rw [hflag] at this
                exact absurd this (by decide)
            · rw [devices_setDevices_ne _ _ _ _ hc] at hd
              exact hex c d hd hboth
        · simp only [Option.some.injEq, Prod.mk.injEq] at h
          rw [← h.2.2.2]
          exact hex

/-- The loop of `CheckDevicesAgainstCriteria` without card affinity leaves no
device with both flags. -/
theorem loop_noCardAffinity_flags (mapOrder : Nat → List String → List String) (g : Globals)
    (hAff : g.USE_OF_CARD_AFFINITY_CAPABILITY = false) :
    ∀ (pfs : List String) (s : Nat) (out : String) (w : World) (str : String) (w1 : World),
      flagsExclusive w →
      CheckDevicesAgainstCriteria.loop mapOrder g pfs s out w = some (str, w1) →
      flagsExclusive w1 := by
  intro pfs
  induction pfs with
  | nil =>
    intro s out w str w1 hex h
    simp only [CheckDevicesAgainstCriteria.loop, Option.some.injEq, Prod.mk.injEq] at h
    rw [← h.2]
    exact hex
  | cons pf rest ih =>
    intro s out w str w1 hex h
    rw [CheckDevicesAgainstCriteria.loop] at h
    simp only [hAff, Bool.false_eq_true, if_false] at h
    split at h
    · simp at h
    · rename_i found out1 s1 wa hwa
      have hexa := noCardAffinity_flags g _ out s w found out1 s1 wa hex hwa
      split at h
      · split at h
        · simp only [Option.some.injEq, Prod.mk.injEq] at h
          rw [← h.2]
          exact hexa
        · exact ih _ _ wa str w1 hexa h
      · simp only [Option.some.injEq, Prod.mk.injEq] at h
        rw [← h.2]
        exact hexa

/-- A state whose devices have both flags clear and whose maps list every
position at most once satisfies the invariant of the two flags. -/
theorem flagsInvariant_of_clear (w : World)
    (hclear : ∀ c d, d ∈ w.devices c → d.CheckedAgainstCriteria = false)
    (hwf : ∀ c, listedAtMostOnce (w.affinityMap c)) : flagsInvariant w := by
  refine ⟨hwf, ?_⟩
  intro c i d hd hck
  have := hclear c d (List.getElem?_mem hd)
  rw [hck] at this
  exact absurd this (by decide)

/-- One pass of `CheckDevicesAgainstCriteria`, in either mode, from devices with
both flags clear and maps that list every position at most once, leaves no
device with both flags. -/
theorem pass_flags (mapOrder : Nat → List String → List String) (g : Globals) (w : World)
    (str : String) (w1 : World)
    (hclear : ∀ c d, d ∈ w.devices c →
      d.CheckedAgainstCriteria = false ∧ d.IsCardAffinityCouple = false)
    (hwf : ∀ c, listedAtMostOnce (w.affinityMap c))
    (h : CheckDevicesAgainstCriteria mapOrder g w = some (str, w1)) : flagsExclusive w1 := by
  by_cases hAff : g.USE_OF_CARD_AFFINITY_CAPABILITY = true
  · have hinit : flagsInvariant w.tick :=
      flagsInvariant_tick w (flagsInvariant_of_clear w (fun c d hd => (hclear c d hd).1) hwf)
    apply flagsExclusive_of_invariant
    unfold CheckDevicesAgainstCriteria at h
    dsimp only at h
    split at h
    · simp at h
    · rename_i wa hwa
      simp only [Option.some.injEq, Prod.mk.injEq] at h
      rw [← h.2]
      split at hwa
      · exact treatment_loop_flags _ _ _ _ _ _ _ _ hinit hwa
      · simp at hwa
    · rename_i wa hwa
      have hinva : flagsInvariant wa := by
        split at hwa
        · exact treatment_loop_flags _ _ _ _ _ _ _ _ hinit hwa
        · simp only [Option.some.injEq, Prod.mk.injEq] at hwa
          rw [← hwa.2]
          exact hinit
      split at h
      · simp at h
      · rename_i wb hwb
        simp only [Option.some.injEq, Prod.mk.injEq] at h
        rw [← h.2]
        split at hwb
        · exact treatment_loop_flags _ _ _ _ _ _ _ _ hinva hwb
        · simp at hwb
      · rename_i wb hwb
        have hinvb : flagsInvariant wb := by
          split at hwb
          · exact treatment_loop_flags _ _ _ _ _ _ _ _ hinva hwb
          · simp only [Option.some.injEq, Prod.mk.injEq] at hwb
            rw [← hwb.2]
            exact hinva
        exact loop_cardAffinity_flags mapOrder g hAff _ _ _ _ str w1 hinvb h
  · have hAff2 : g.USE_OF_CARD_AFFINITY_CAPABILITY = false := by
      cases hv : g.USE_OF_CARD_AFFINITY_CAPABILITY with
      | false => rfl
      | true => exact absurd hv hAff
    have hinit : flagsExclusive w.tick := by
      intro c d hd hboth
      rw [devices_tick] at hd
      have := (hclear c d hd).1
      rw [hboth.1] at this
      exact absurd this (by decide)
    unfold CheckDevicesAgainstCriteria at h
    simp only [hAff2, Bool.false_eq_true, false_and, if_false] at h
    exact loop_noCardAffinity_flags mapOrder g hAff2 _ _ _ _ str w1 hinit h

/-- C36: no function of a matching pass leaves a device with
`CheckedAgainstCriteria` and `IsCardAffinityCouple` both set. A state whose
devices have `CheckedAgainstCriteria` clear and whose maps list every position
at most once satisfies `flagsInvariant`, which excludes such a device and is kept
by each selection function of the matching with card affinity;
`CheckDevicesAgainstCriteriaListWithNoCardAffinity` keeps `flagsExclusive` itself;
and a pass of `CheckDevicesAgainstCriteria` in either mode, from devices with both
flags clear, ends in a state where no device has both flags. -/
theorem C36_flags_never_both_set :
    (∀ w, (∀ c d, d ∈ w.devices c → d.CheckedAgainstCriteria = false) →
      (∀ c, listedAtMostOnce (w.affinityMap c)) → flagsInvariant w) ∧
    (∀ w, flagsInvariant w → flagsExclusive w) ∧
    (∀ ty c key pf w r w1, flagsInvariant w →
      SelectingDeviceFromCardAffinityIndexesSlice ty c key pf w = some (r, w1) →
      flagsInvariant w1) ∧
    (∀ mapOrder c pf w r w1, flagsInvariant w →
      CheckDevicesAgainstCriteriaListWithCardAffinity mapOrder c pf w = some (r, w1) →
      flagsInvariant w1) ∧
    (∀ mapOrder cur cpl pf required w b w1, flagsInvariant w →
      FindProperCoupleDevicesFromDifferentCardAffinityMaps mapOrder cur cpl pf required w =
        some (b, w1) → flagsInvariant w1) ∧
    (∀ mapOrder c pf w b w1, flagsInvariant w →
      FindDevicesForPfCoupleWithSpecialCapability mapOrder c pf w = some (b, w1) →
      flagsInvariant w1) ∧
    (∀ mapOrder keys target other ty w b w1, flagsInvariant w →
      TreatmentOFCardAffinityWithCapabilities mapOrder keys target other ty w = some (b, w1) →
      flagsInvariant w1) ∧
    (∀ g ptr out s w found out1 s1 w1, flagsExclusive w →
      CheckDevicesAgainstCriteriaListWithNoCardAffinity g ptr out s w =
        some (found, out1, s1, w1) → flagsExclusive w1) ∧
    (∀ mapOrder g w str w1,
      (∀ c d, d ∈ w.devices c →
        d.CheckedAgainstCriteria = false ∧ d.IsCardAffinityCouple = false) →
      (∀ c, listedAtMostOnce (w.affinityMap c)) →
      CheckDevicesAgainstCriteria mapOrder g w = some (str, w1) → flagsExclusive w1) := by
  refine ⟨flagsInvariant_of_clear, flagsExclusive_of_invariant, ?_, ?_, ?_, ?_, ?_, ?_, ?_⟩
  · intro ty c key pf w r w1 hinv h
    unfold SelectingDeviceFromCardAffinityIndexesSlice at h
    split at h
    · simp at h
    · rename_i info hinfo
      exact selecting_loop_flags ty c key pf _ 0 w r w1 info hinv hinfo rfl h
  · intro mapOrder c pf w r w1 hinv h
    exact checkWithCardAffinity_flags mapOrder c pf w r w1 hinv h
  · intro mapOrder cur cpl pf required w b w1 hinv h
    exact findProperCouple_flags mapOrder cur cpl pf required w b w1 hinv h
  · intro mapOrder c pf w b w1 hinv h
    exact findDevicesForPfCouple_flags mapOrder c pf w b w1 hinv h
  · intro mapOrder keys target other ty w b w1 hinv h
    exact treatment_loop_flags mapOrder target other ty keys w b w1 hinv h
  · intro g ptr out s w found out1 s1 w1 hex h
    exact noCardAffinity_flags g ptr out s w found out1 s1 w1 hex h
  · intro mapOrder g w str w1 hclear hwf h
    exact pass_flags mapOrder g w str w1 hclear hwf h

/-- C36, witness: a pass with card affinity and RRU in use over the fixture with
`pf3` requiring an RRU connection starts from devices with both flags clear. In
its final state eth5 and eth4, taken by the RRU treatment, have
`CheckedAgainstCriteria` set, eth12 and eth13, taken by the couple of `pf7` and
`pf8`, are flagged `IsCardAffinityCouple`, and no device has both flags. -/
theorem C36_witness_rru_role_and_regular_couple :
    (∀ c d, d ∈ testWorldRruRoleAndRegularCouple.devices c →
      d.CheckedAgainstCriteria = false ∧ d.IsCardAffinityCouple = false) ∧
    (CheckDevicesAgainstCriteria storageOrder ⟨8, true, false, true⟩
      testWorldRruRoleAndRegularCouple).map (fun r =>
        ((r.2.devices .REGULAR ++ r.2.devices .PTP_SUPPORT ++ r.2.devices .RRU_CONNECTION).filter
          (fun d => d.CheckedAgainstCriteria || d.IsCardAffinityCouple)).map
          (fun d => (d.InterfaceName, d.CheckedAgainstCriteria, d.IsCardAffinityCouple))) =
      some [("eth4", true, false), ("eth12", false, true), ("eth13", false, true),
        ("eth5", true, false)] ∧
    flagsExclusive ((CheckDevicesAgainstCriteria storageOrder ⟨8, true, false, true⟩
      testWorldRruRoleAndRegularCouple).getD ("", testWorld)).2 :=
  ⟨fun c => by cases c <;> decide, by decide,
    C36_flags_never_both_set.2.2.2.2.2.2.2.2 storageOrder ⟨8, true, false, true⟩
      testWorldRruRoleAndRegularCouple
      ((CheckDevicesAgainstCriteria storageOrder ⟨8, true, false, true⟩
        testWorldRruRoleAndRegularCouple).getD ("", testWorld)).1
      ((CheckDevicesAgainstCriteria storageOrder ⟨8, true, false, true⟩
        testWorldRruRoleAndRegularCouple).getD ("", testWorld)).2
      (fun c => by cases c <;> decide)
      (fun c => (affinityMapWellFormed_of_entries (testWorldRruRoleAndRegularCouple.devices c) _
        (by cases c <;> decide)).1)
      (by decide)⟩

theorem namesKept_refl (w : World) : namesKept w w := fun _ => rfl

theorem namesKept_trans (w w1 w2 : World) (h1 : namesKept w w1) (h2 : namesKept w1 w2) :
    namesKept w w2 := fun c => (h2 c).trans (h1 c)

theorem namesKept_of_eq (w w1 : World) (h : w1.devices = w.devices) : namesKept w w1 :=
  fun c => by rw [h]

theorem namesKept_of_step (T : String → Prop) (sel : Bool) (w w1 : World)
    (h : stepOf T sel w w1) : namesKept w w1 := h.1

theorem interfaceAt_kept (w w1 : World) (h : namesKept w w1)
    (p : DeviceCapabilityType × Nat) : interfaceAt w1 p = interfaceAt w p := by
  unfold interfaceAt
  have e1 : ((w1.devices p.1)[p.2]?).map (fun d => d.InterfaceName) =
      ((w1.devices p.1).map (fun d => d.InterfaceName))[p.2]? := by
    rw [List.getElem?_map]
  have e2 : ((w.devices p.1)[p.2]?).map (fun d => d.InterfaceName) =
      ((w.devices p.1).map (fun d => d.InterfaceName))[p.2]? := by
    rw [List.getElem?_map]
  rw [e1, e2, h p.1]

theorem interfaceAt_of_device (w : World) (c : DeviceCapabilityType) (i : Nat) (d : SupDevice)
    (h : (w.devices c)[i]? = some d) : interfaceAt w (c, i) = some d.InterfaceName := by
  unfold interfaceAt
  rw [h]
  rfl

/-- A step that writes no selected interface keeps the invariant. -/
theorem assignmentInvariant_keep (w0 w w1 : World)
    (a : List (String × DeviceCapabilityType × Nat))
    (hJ : assignmentInvariant w0 a w) (hnames : namesKept w w1)
    (hlog : ∀ e ∈ w.selectionLog, e ∈ w1.selectionLog)
    (hsel : ∀ k cl1, mapGet w1.criteriaListsMap k = some cl1 →
      ∃ cl, mapGet w.criteriaListsMap k = some cl ∧
        cl.SelectedDeviceInterface = cl1.SelectedDeviceInterface) :
    assignmentInvariant w0 a w1 := by
  obtain ⟨h1, h2, h3, h4⟩ := hJ
  refine ⟨namesKept_trans _ _ _ h1 hnames, h2, fun e he => hlog _ (h3 e he), ?_⟩
  intro k cl1 hcl1 hne
  obtain ⟨cl, hcl, hs⟩ := hsel k cl1 hcl1
  rw [← hs] at hne ⊢
  exact h4 k cl hcl hne

/-- A step of the matching that writes no selected interface reads as such. -/
theorem selected_of_step (T : String → Prop) (w w1 : World) (h : stepOf T false w w1) :
    ∀ k cl1, mapGet w1.criteriaListsMap k = some cl1 →
      ∃ cl, mapGet w.criteriaListsMap k = some cl ∧
        cl.SelectedDeviceInterface = cl1.SelectedDeviceInterface := by
  intro k cl1 hcl1
  cases hk : mapGet w.criteriaListsMap k with
  | none =>
    rw [(h.2 k).1 hk] at hcl1
    exact absurd hcl1 (by simp)
  | some cl =>
    obtain ⟨cl2, hcl2, _, _, hsame, _⟩ := (h.2 k).2 cl hk
    rw [hcl1] at hcl2
    cases hcl2
    exact ⟨cl, rfl, (hsame rfl).symm⟩

/-- The role `pf` is given the device at the position `p`, which no role holds
yet: the invariant holds with the pair of `pf` and `p` added. -/
theorem assignmentInvariant_assign (w0 w w1 : World)
    (a : List (String × DeviceCapabilityType × Nat)) (pf : String)
    (p : DeviceCapabilityType × Nat) (name : String) (cl : CriteriaList)
    (hJ : assignmentInvariant w0 a w) (hname : interfaceAt w0 p = some name)
    (hfresh : p ∉ a.map Prod.snd) (hin : p ∈ w1.selectionLog)
    (hnames : namesKept w w1) (hlog : ∀ e ∈ w.selectionLog, e ∈ w1.selectionLog)
    (hcl : mapGet w.criteriaListsMap pf = some cl)
    (hcr : w1.criteriaListsMap =
      mapSet w.criteriaListsMap pf { cl with SelectedDeviceInterface := name }) :
    assignmentInvariant w0 (a ++ [(pf, p)]) w1 := by
  obtain ⟨h1, h2, h3, h4⟩ := hJ
  refine ⟨namesKept_trans _ _ _ h1 hnames, ?_, ?_, ?_⟩
  · rw [List.map_append, List.map_singleton]
    exact List.Nodup.append h2 (List.nodup_singleton _) (by simpa using hfresh)
  · intro e he
    rcases List.mem_append.mp he with he | he
    · exact hlog _ (h3 e he)
    · rw [List.mem_singleton.mp he]
      exact hin
  · intro k cl1 hcl1 hne
    rw [hcr] at hcl1
    by_cases hk : k = pf
    · subst hk
      rw [mapGet_mapSet_self _ _ _ _ hcl] at hcl1
      cases hcl1
      exact Or.inr ⟨p, by simp, hname⟩
    · rw [mapGet_mapSet_ne _ _ _ _ (fun e => hk e.symm)] at hcl1
      rcases h4 k cl1 hcl1 hne with hl | ⟨q, hq, hqn⟩
      · exact Or.inl hl
      · exact Or.inr ⟨q, List.mem_append_left _ hq, hqn⟩

/-- The log after the loop of `SelectingDeviceFromCardAffinityIndexesSlice`: the
returned position is appended, and nothing is appended when none is returned. -/
theorem selecting_loop_log (ty : CardAffinityPfCoupleType) (c : DeviceCapabilityType)
    (key pf : String) (w : World) (r : Int) (w1 : World) (info : CardAffinityDevicesInfo)
    (hwf : listedAtMostOnce (w.affinityMap c))
    (hget : mapGet (w.affinityMap c) key = some info)
    (h : SelectingDeviceFromCardAffinityIndexesSlice.loop ty c key pf info.DevicesIndexesSlice 0 w
      = some (r, w1)) :
    (0 ≤ r → w1.selectionLog = w.selectionLog ++ [(c, r.toNat)]) ∧
    (¬ 0 ≤ r → w1.selectionLog = w.selectionLog) := by
  rcases selecting_loop_result ty c key pf _ 0 w r w1 info hwf hget (List.drop_zero _) h with
    ⟨hr, _, _, _, hlog, _⟩ | ⟨p, hr, _, _, _, hlog, _⟩
  · subst hr
    exact ⟨fun h0 => absurd h0 (by decide), fun _ => hlog⟩
  · subst hr
    refine ⟨fun _ => ?_, fun h0 => absurd (Int.ofNat_nonneg p) h0⟩
    rw [hlog, Int.toNat_ofNat]

/-- The log after `CheckDevicesAgainstCriteriaListWithCardAffinity`: the returned
position is appended, and nothing is appended when none is returned. -/
theorem checkWithCardAffinity_log (mapOrder : Nat → List String → List String)
    (c : DeviceCapabilityType) (pf : String) (w : World) (r : Int) (w1 : World)
    (hwf : listedAtMostOnce (w.affinityMap c))
    (h : CheckDevicesAgainstCriteriaListWithCardAffinity mapOrder c pf w = some (r, w1)) :
    (0 ≤ r → w1.selectionLog = w.selectionLog ++ [(c, r.toNat)]) ∧
    (¬ 0 ≤ r → w1.selectionLog = w.selectionLog) := by
  have scanLog : ∀ (ty : CardAffinityPfCoupleType) (visit : CardAffinityDevicesInfo → Bool)
      (keys : List String) (wa : World) (ra : Int) (wb : World),
      ty ≠ .CURRENT_PF_BIGGER_THAN_COUPLED → listedAtMostOnce (wa.affinityMap c) →
      CheckDevicesAgainstCriteriaListWithCardAffinity.scan ty c pf visit keys wa = some (ra, wb) →
      (0 ≤ ra → wb.selectionLog = wa.selectionLog ++ [(c, ra.toNat)]) ∧
      (¬ 0 ≤ ra → wb = wa) := by
    intro ty visit keys wa ra wb hty hwa hscan
    constructor
    · intro hra
      obtain ⟨key, info, _, hget, _, hloop⟩ :=
        scan_success ty hty c pf visit keys wa ra wb hwa hscan hra
      exact (selecting_loop_log ty c key pf wa ra wb info hwa hget hloop).1 hra
    · intro hra
      exact scan_failure ty hty c pf visit keys wa ra wb hwa hscan hra
  unfold CheckDevicesAgainstCriteriaListWithCardAffinity at h
  split at h
  · simp at h
  · rename_i criteriaList hcl
    have hwft : listedAtMostOnce (w.tick.affinityMap c) := by rw [affinityMap_tick]; exact hwf
    split at h
    · split at h
      · simp at h
      · rename_i r1 wa hscan
        obtain ⟨hs1, hs2⟩ := scanLog _ _ _ _ _ _ (by decide) hwft hscan
        split at h
        · rename_i hr1
          simp only [Option.some.injEq, Prod.mk.injEq] at h
          obtain ⟨hrr, hww⟩ := h
          subst hrr hww
          refine ⟨fun _ => ?_, fun h0 => absurd hr1 h0⟩
          rw [hs1 hr1, selectionLog_tick]
        · rename_i hr1
          have hwa := hs2 hr1
          subst hwa
          have hwft2 : listedAtMostOnce (w.tick.tick.affinityMap c) := by
            rw [affinityMap_tick]; exact hwft
          obtain ⟨ht1, ht2⟩ := scanLog _ _ _ _ _ _ (by decide) hwft2 h
          constructor
          · intro hr
            rw [ht1 hr, selectionLog_tick, selectionLog_tick]
          · intro hr
            rw [ht2 hr, selectionLog_tick, selectionLog_tick]
    · split at h
      · obtain ⟨ht1, ht2⟩ := scanLog _ _ _ _ _ _ (by decide) hwft h
        constructor
        · intro hr
          rw [ht1 hr, selectionLog_tick]
        · intro hr
          rw [ht2 hr, selectionLog_tick]
      · split at h
        · simp only [Option.some.injEq, Prod.mk.injEq] at h
          rw [← h.1, ← h.2]
          exact ⟨fun h0 => absurd h0 (by decide), fun _ => rfl⟩
        · unfold SelectingDeviceFromCardAffinityIndexesSlice at h
          split at h
          · simp at h
          · rename_i info hget
            exact selecting_loop_log _ c _ pf w r w1 info hwf hget h

/-- `CheckDevicesAgainstCriteriaListWithCardAffinity` keeps the invariant of the
assignments: it writes no selected interface. -/
theorem checkWithCardAffinity_assign (mapOrder : Nat → List String → List String)
    (c : DeviceCapabilityType) (pf : String) (w0 w : World) (r : Int) (w1 : World)
    (a : List (String × DeviceCapabilityType × Nat))
    (hwf : listedAtMostOnce (w.affinityMap c)) (hJ : assignmentInvariant w0 a w)
    (h : CheckDevicesAgainstCriteriaListWithCardAffinity mapOrder c pf w = some (r, w1)) :
    assignmentInvariant w0 a w1 := by
  have hstep : stepOf (fun _ => True) false w w1 :=
    checkWithCardAffinity_step (fun _ => True) false mapOrder c pf w w r w1 (fun _ => trivial)
      (stepOf_refl _ _ _) h
  obtain ⟨hl1, hl2⟩ := checkWithCardAffinity_log mapOrder c pf w r w1 hwf h
  refine assignmentInvariant_keep w0 w w1 a hJ hstep.1 ?_ (selected_of_step _ w w1 hstep)
  intro e he
  by_cases hr : 0 ≤ r
  · rw [hl1 hr]
    exact List.mem_append_left _ he
  · rw [hl2 hr]
    exact he

theorem not_mem_of_nodup_concat {α : Type} (l : List α) (x : α) (h : (l ++ [x]).Nodup) :
    x ∉ l := by
  intro hx
  have := List.nodup_append.mp h
  exact this.2.2 hx (List.mem_singleton_self x)

/-- `FindDevicesForPfCoupleWithSpecialCapability` keeps the invariant of the
assignments: the two roles are given the two positions that the two selections
have logged. -/
theorem findDevicesForPfCouple_assign (mapOrder : Nat → List String → List String)
    (c : DeviceCapabilityType) (pf : String) (w0 w : World) (b : Bool) (w1 : World)
    (a : List (String × DeviceCapabilityType × Nat))
    (hinv : selectionInvariant w) (hJ : assignmentInvariant w0 a w)
    (h : FindDevicesForPfCoupleWithSpecialCapability mapOrder c pf w = some (b, w1)) :
    ∃ a1, assignmentInvariant w0 a1 w1 := by
  unfold FindDevicesForPfCoupleWithSpecialCapability at h
  split at h
  · simp at h
  · dsimp only at h
    split at h
    · simp at h
    · rename_i r0 wa hfirst
      have hinv0 := checkWithCardAffinity_inv mapOrder c _ w r0 wa hinv hfirst
      have hJ0 := checkWithCardAffinity_assign mapOrder c _ w0 w r0 wa a (hinv.1 c) hJ hfirst
      obtain ⟨hlog0, _⟩ := checkWithCardAffinity_log mapOrder c _ w r0 wa (hinv.1 c) hfirst
      split at h
      · rename_i hr0
        have hlog0 := hlog0 hr0
        split at h
        · simp at h
        · rename_i r2 w2 hsecond
          have hinv2 := checkWithCardAffinity_inv mapOrder c _ wa r2 w2 hinv0 hsecond
          have hJ2 := checkWithCardAffinity_assign mapOrder c _ w0 wa r2 w2 a (hinv0.1 c) hJ0
            hsecond
          obtain ⟨hlog2, _⟩ := checkWithCardAffinity_log mapOrder c _ wa r2 w2 (hinv0.1 c) hsecond
          split at h
          · rename_i hr2
            have hlog2 := hlog2 hr2
            split at h
            · simp at h
            · rename_i device hdevice
              split at h
              · simp at h
              · rename_i w3 hw3
                obtain ⟨cl3, hcl3, hcr3, hdev3, _, hl3, _⟩ := modifyCriteria_proj _ _ _ _ hw3
                split at h
                · simp at h
                · rename_i coupledDevice hcoupled
                  split at h
                  · simp at h
                  · rename_i w4 hw4
                    obtain ⟨cl4, hcl4, hcr4, hdev4, _, hl4, _⟩ := modifyCriteria_proj _ _ _ _ hw4
                    simp only [Option.some.injEq, Prod.mk.injEq] at h
                    rw [← h.2]
                    have hnd0 : (w.selectionLog ++ [(c, r0.toNat)]).Nodup := by
                      rw [← hlog0]; exact hinv0.2.1
                    have hnd2 : (wa.selectionLog ++ [(c, r2.toNat)]).Nodup := by
                      rw [← hlog2]; exact hinv2.2.1
                    have hf0 := not_mem_of_nodup_concat _ _ hnd0
                    have hf2 := not_mem_of_nodup_concat _ _ hnd2
                    have hp1w2 : (c, r0.toNat) ∈ w2.selectionLog := by
                      rw [hlog2, hlog0]; simp
                    obtain ⟨a3, hJ3, ha3⟩ : ∃ a3, assignmentInvariant w0 a3 w3 ∧
                        a3.map Prod.snd = a.map Prod.snd ++ [(c, r0.toNat)] := by
                      refine ⟨_, assignmentInvariant_assign w0 w2 w3 a _ (c, r0.toNat)
                        device.InterfaceName cl3 hJ2 ?_ ?_ ?_ (namesKept_of_eq _ _ hdev3) ?_
                        hcl3 hcr3, by simp⟩
                      · rw [← interfaceAt_kept w0 w2 hJ2.1]
                        exact interfaceAt_of_device w2 c _ device hdevice
                      · intro hmem
                        obtain ⟨e, he, hep⟩ := List.mem_map.mp hmem
                        apply hf0
                        rw [← hep]
                        exact hJ.2.2.1 e he
                      · rw [hl3]; exact hp1w2
                      · intro e he
                        rw [hl3]; exact he
                    refine ⟨_, assignmentInvariant_assign w0 w3 w4 _ _ (c, r2.toNat)
                      coupledDevice.InterfaceName cl4 hJ3 ?_ ?_ ?_ (namesKept_of_eq _ _ hdev4) ?_
                      hcl4 hcr4⟩
                    · rw [← interfaceAt_kept w0 w3 hJ3.1]
                      exact interfaceAt_of_device w3 c _ coupledDevice hcoupled
                    · intro hmem
                      rw [ha3, List.mem_append] at hmem
                      rcases hmem with hmem | hmem
                      · obtain ⟨e, he, hep⟩ := List.mem_map.mp hmem
                        apply hf2
                        rw [← hep]
                        exact hJ0.2.2.1 e he
                      · rw [List.mem_singleton] at hmem
                        apply hf2
                        rw [hmem, hlog0]
                        simp
                    · rw [hl4, hl3, hlog2]; simp
                    · intro e he
                      rw [hl4]; exact he
          · simp only [Option.some.injEq, Prod.mk.injEq] at h
            rw [← h.2]
            exact ⟨a, hJ2⟩
      · simp only [Option.some.injEq, Prod.mk.injEq] at h
        rw [← h.2]
        exact ⟨a, hJ0⟩

theorem assignmentInvariant_congr (w0 w w1 : World)
    (a : List (String × DeviceCapabilityType × Nat)) (hJ : assignmentInvariant w0 a w)
    (hdev : w1.devices = w.devices) (hlog : w1.selectionLog = w.selectionLog)
    (hcr : w1.criteriaListsMap = w.criteriaListsMap) : assignmentInvariant w0 a w1 := by
  refine assignmentInvariant_keep w0 w w1 a hJ (namesKept_of_eq _ _ hdev) ?_ ?_
  · intro e he
    rw [hlog]; exact he
  · intro k cl1 hcl1
    rw [hcr] at hcl1
    exact ⟨cl1, hcl1, rfl⟩

theorem namesKept_modifyDevice (w w1 : World) (c : DeviceCapabilityType) (i : Nat)
    (f : SupDevice → SupDevice) (h : w.modifyDevice c i f = some w1)
    (hf : ∀ d, (f d).InterfaceName = d.InterfaceName) : namesKept w w1 :=
  (stepOf_modifyDevice (fun _ => True) false w w1 c i f h hf).1

/-- The role `pf` is given the device at the position `p` that the step logs:
the invariant holds with the pair of `pf` and `p` added. -/
theorem assignmentInvariant_select (w0 w w1 : World)
    (a : List (String × DeviceCapabilityType × Nat)) (pf : String)
    (p : DeviceCapabilityType × Nat) (name : String) (cl : CriteriaList)
    (hJ : assignmentInvariant w0 a w) (hinv : selectionInvariant w1)
    (hlog : w1.selectionLog = w.selectionLog ++ [p])
    (hname : interfaceAt w p = some name) (hnames : namesKept w w1)
    (hcl : mapGet w.criteriaListsMap pf = some cl)
    (hcr : w1.criteriaListsMap =
      mapSet w.criteriaListsMap pf { cl with SelectedDeviceInterface := name }) :
    assignmentInvariant w0 (a ++ [(pf, p)]) w1 := by
  have hnd : (w.selectionLog ++ [p]).Nodup := by
    rw [← hlog]; exact hinv.2.1
  have hfresh := not_mem_of_nodup_concat _ _ hnd
  refine assignmentInvariant_assign w0 w w1 a pf p name cl hJ ?_ ?_ ?_ hnames ?_ hcl hcr
  · rw [← interfaceAt_kept w0 w hJ.1]
    exact hname
  · intro hmem
    obtain ⟨e, he, hep⟩ := List.mem_map.mp hmem
    apply hfresh
    rw [← hep]
    exact hJ.2.2.1 e he
  · rw [hlog]; simp
  · intro e he
    rw [hlog]
    exact List.mem_append_left _ he

/-- The loop of `FindProperCoupleDevicesFromDifferentCardAffinityMaps` keeps the
invariant of the assignments: a role is given the position that is logged with
its device. -/
theorem findProperCouple_loop_assign (cur cpl : DeviceCapabilityType) (pf : String)
    (required : Bool) (w0 : World) :
    ∀ (keys : List String) (w : World) (b : Bool) (w1 : World)
      (a : List (String × DeviceCapabilityType × Nat)),
      selectionInvariant w → assignmentInvariant w0 a w →
      FindProperCoupleDevicesFromDifferentCardAffinityMaps.loop cur cpl pf required keys w =
        some (b, w1) →
      ∃ a1, assignmentInvariant w0 a1 w1 := by
  intro keys
  induction keys with
  | nil =>
    intro w b w1 a hinv hJ h
    simp only [FindProperCoupleDevicesFromDifferentCardAffinityMaps.loop, Option.some.injEq,
      Prod.mk.injEq] at h
    rw [← h.2]
    exact ⟨a, hJ⟩
  | cons key rest ih =>
    intro w b w1 a hinv hJ h
    rw [FindProperCoupleDevicesFromDifferentCardAffinityMaps.loop] at h
    split at h
    · exact ih w b w1 a hinv hJ h
    · rename_i info hinfo
      split at h
      · exact ih w b w1 a hinv hJ h
      · rename_i coupledInfo _
        split at h
        · simp at h
        · rename_i position hposition
          split at h
          · simp at h
          · rename_i device hdevice
            split at h
            · simp at h
            · split at h
              · split at h
                · -- a couple of devices is required
                  split at h
                  · simp at h
                  · split at h
                    · simp at h
                    · split at h
                      · simp at h
                      · rename_i criteriaList hcl
                        split at h
                        · simp at h
                        · split at h
                          · split at h
                            · simp at h
                            · rename_i wa hwa
                              have hinva := selectionInvariant_modifyCriteria _ _ _ _ hinv hwa
                              obtain ⟨cla, hcla, hacr, hadev, hamap, halog, _⟩ :=
                                modifyCriteria_proj _ _ _ _ hwa
                              split at h
                              · simp at h
                              · rename_i wb hwb
                                have hinvb := selectionInvariant_modifyDevice _ _ _ _ _ hinva hwb
                                obtain ⟨_, _, _, _, hbmap, hbcr, hblog, _⟩ :=
                                  modifyDevice_proj _ _ _ _ _ hwb
                                have hbn := namesKept_modifyDevice _ _ _ _ _ hwb (fun _ => rfl)
                                split at h
                                · simp at h
                                · rename_i wc hwc
                                  have hinvc := selectionInvariant_removeAndLog wb wc cur 0
                                    position key info hinvb
                                    (by rw [hbmap, hamap]; exact hinfo) hposition hwc
                                  obtain ⟨_, _, _, _, hcdev, hccr, hclog, _⟩ :=
                                    removeAndLog_proj _ _ _ _ _ _ hwc
                                  have hJc : assignmentInvariant w0 (a ++ [(pf, (cur, position))])
                                      wc := by
                                    refine assignmentInvariant_select w0 w wc a pf (cur, position)
                                      device.InterfaceName cla hJ hinvc ?_
                                      (interfaceAt_of_device w cur position device hdevice) ?_
                                      hcla ?_
                                    · rw [hclog, hblog, halog]
                                    · exact namesKept_trans _ _ _
                                        (namesKept_trans _ _ _ (namesKept_of_eq _ _ hadev) hbn)
                                        (namesKept_of_eq _ _ hcdev)
                                    · rw [hccr, hbcr, hacr]
                                  split at h
                                  · simp at h
                                  · rename_i coupledInfo3 hci3
                                    split at h
                                    · simp at h
                                    · rename_i coupledPosition3 hcp3
                                      split at h
                                      · simp at h
                                      · rename_i wd hwd
                                        have hinvd :=
                                          selectionInvariant_modifyDevice _ _ _ _ _ hinvc hwd
                                        obtain ⟨_, _, _, _, hdmap, hdcr, hdlog, _⟩ :=
                                          modifyDevice_proj _ _ _ _ _ hwd
                                        have hdn := namesKept_modifyDevice _ _ _ _ _ hwd
                                          (fun _ => rfl)
                                        split at h
                                        · simp at h
                                        · rename_i coupledDevice4 hcd4
                                          split at h
                                          · simp at h
                                          · rename_i we hwe
                                            have hinve :=
                                              selectionInvariant_modifyCriteria _ _ _ _ hinvd hwe
                                            obtain ⟨cle, hcle, hecr, hedev, hemap, helog, _⟩ :=
                                              modifyCriteria_proj _ _ _ _ hwe
                                            split at h
                                            · simp at h
                                            · rename_i wf hwf
                                              simp only [Option.some.injEq, Prod.mk.injEq] at h
                                              rw [← h.2]
                                              have hinvf := selectionInvariant_removeThenLog we wf
                                                cpl 0 coupledPosition3 key coupledInfo3 hinve
                                                (by rw [hemap, hdmap]; exact hci3) hcp3 hwf
                                              obtain ⟨_, _, _, _, hfdev, hfcr, hflog, _⟩ :=
                                                removeDeviceIndex_proj _ _ _ _ _ hwf
                                              refine ⟨_, assignmentInvariant_select w0 wc
                                                (wf.logSelection cpl coupledPosition3) _
                                                criteriaList.CardAffinityPfCouple
                                                (cpl, coupledPosition3)
                                                coupledDevice4.InterfaceName cle hJc hinvf ?_ ?_
                                                ?_ ?_ ?_⟩
                                              · rw [selectionLog_logSelection, hflog, helog,
                                                  hdlog]
                                              · rw [← interfaceAt_kept wc wd hdn]
                                                exact interfaceAt_of_device wd cpl _ _ hcd4
                                              · refine namesKept_trans _ _ _ hdn ?_
                                                refine namesKept_trans _ _ _
                                                  (namesKept_of_eq _ _ hedev) ?_
                                                exact namesKept_of_eq _ _ (by
                                                  rw [devices_logSelection, hfdev])
                                              · rw [← hdcr]; exact hcle
                                              · rw [criteria_logSelection, hfcr, hecr, hdcr]
                          · exact ih w b w1 a hinv hJ h
                · -- a single device
                  split at h
                  · simp at h
                  · rename_i wa hwa
                    have hinva := selectionInvariant_modifyCriteria _ _ _ _ hinv hwa
                    obtain ⟨cla, hcla, hacr, hadev, hamap, halog, _⟩ :=
                      modifyCriteria_proj _ _ _ _ hwa
                    split at h
                    · simp at h
                    · rename_i wb hwb
                      have hinvb := selectionInvariant_modifyDevice _ _ _ _ _ hinva hwb
                      obtain ⟨_, _, _, _, hbmap, hbcr, hblog, _⟩ := modifyDevice_proj _ _ _ _ _ hwb
                      have hbn := namesKept_modifyDevice _ _ _ _ _ hwb (fun _ => rfl)
                      split at h
                      · simp at h
                      · rename_i wc hwc
                        have hinvc := selectionInvariant_removeAndLog wb wc cur 0
                          position key info hinvb
                          (by rw [hbmap, hamap]; exact hinfo) hposition hwc
                        obtain ⟨_, _, _, _, hcdev, hccr, hclog, _⟩ :=
                          removeAndLog_proj _ _ _ _ _ _ hwc
                        have hJc : assignmentInvariant w0 (a ++ [(pf, (cur, position))]) wc := by
                          refine assignmentInvariant_select w0 w wc a pf (cur, position)
                            device.InterfaceName cla hJ hinvc ?_
                            (interfaceAt_of_device w cur position device hdevice) ?_ hcla ?_
                          · rw [hclog, hblog, halog]
                          · exact namesKept_trans _ _ _
                              (namesKept_trans _ _ _ (namesKept_of_eq _ _ hadev) hbn)
                              (namesKept_of_eq _ _ hcdev)
                          · rw [hccr, hbcr, hacr]
                        split at h
                        · simp at h
                        · rename_i coupledInfo3 hci3
                          simp only [Option.some.injEq, Prod.mk.injEq] at h
                          rw [← h.2]
                          exact ⟨_, assignmentInvariant_congr w0 wc _ _ hJc
                            (by rw [devices_setAffinityMap])
                            (by rw [selectionLog_setAffinityMap])
                            (by rw [criteria_setAffinityMap])⟩
              · exact ih w b w1 a hinv hJ h

theorem assignmentInvariant_tick (w0 w : World)
    (a : List (String × DeviceCapabilityType × Nat)) (hJ : assignmentInvariant w0 a w) :
    assignmentInvariant w0 a w.tick :=
  assignmentInvariant_congr w0 w w.tick a hJ rfl rfl rfl

/-- Go: `FindProperCoupleDevicesFromDifferentCardAffinityMaps` keeps the invariant
of the assignments. -/
theorem findProperCouple_assign (mapOrder : Nat → List String → List String)
    (cur cpl : DeviceCapabilityType) (pf : String) (required : Bool) (w0 w : World) (b : Bool)
    (w1 : World) (hinv : selectionInvariant w)
    (hJ : ∃ a, assignmentInvariant w0 a w)
    (h : FindProperCoupleDevicesFromDifferentCardAffinityMaps mapOrder cur cpl pf required w =
      some (b, w1)) : ∃ a1, assignmentInvariant w0 a1 w1 := by
  obtain ⟨a, hJ⟩ := hJ
  exact findProperCouple_loop_assign cur cpl pf required w0 _ _ b w1 a
    (selectionInvariant_tick w hinv) (assignmentInvariant_tick w0 w a hJ) h

theorem findDevicesForPfCouple_assigned (mapOrder : Nat → List String → List String)
    (c : DeviceCapabilityType) (pf : String) (w0 w : World) (b : Bool) (w1 : World)
    (hinv : selectionInvariant w) (hJ : ∃ a, assignmentInvariant w0 a w)
    (h : FindDevicesForPfCoupleWithSpecialCapability mapOrder c pf w = some (b, w1)) :
    ∃ a1, assignmentInvariant w0 a1 w1 := by
  obtain ⟨a, hJ⟩ := hJ
  exact findDevicesForPfCouple_assign mapOrder c pf w0 w b w1 a hinv hJ h

/-- The loop of `TreatmentOFCardAffinityWithCapabilities` keeps the invariant of
the assignments. -/
theorem treatment_loop_assign (mapOrder : Nat → List String → List String)
    (target other ty : DeviceCapabilityType) (w0 : World) :
    ∀ (pfs : List String) (w : World) (b : Bool) (w1 : World),
      selectionInvariant w → (∃ a, assignmentInvariant w0 a w) →
      TreatmentOFCardAffinityWithCapabilities.loop mapOrder target other ty pfs w =
        some (b, w1) →
      ∃ a1, assignmentInvariant w0 a1 w1 := by
  intro pfs
  induction pfs with
  | nil =>
    intro w b w1 hinv hJ h
    simp only [TreatmentOFCardAffinityWithCapabilities.loop, Option.some.injEq,
      Prod.mk.injEq] at h
    rw [← h.2]
    exact hJ
  | cons pf rest ih =>
    intro w b w1 hinv hJ h
    rw [TreatmentOFCardAffinityWithCapabilities.loop] at h
    split at h
    · simp at h
    · split at h
      · exact ih w b w1 hinv hJ h
      · split at h
        · split at h
          · -- no coupled PF
            split at h
            · simp at h
            · rename_i wa hwa
              exact ih wa b w1 (findProperCouple_inv _ _ _ _ _ _ _ _ hinv hwa)
                (findProperCouple_assign _ _ _ _ _ _ _ _ _ hinv hJ hwa) h
            · rename_i wa hwa
              have hinva := findProperCouple_inv _ _ _ _ _ _ _ _ hinv hwa
              have hJa := findProperCouple_assign _ _ _ _ _ _ _ _ _ hinv hJ hwa
              split at h
              · simp at h
              · rename_i wb hwb
                exact ih wb b w1 (findProperCouple_inv _ _ _ _ _ _ _ _ hinva hwb)
                  (findProperCouple_assign _ _ _ _ _ _ _ _ _ hinva hJa hwb) h
              · rename_i wb hwb
                have hinvb := findProperCouple_inv _ _ _ _ _ _ _ _ hinva hwb
                obtain ⟨ab, hJb⟩ := findProperCouple_assign _ _ _ _ _ _ _ _ _ hinva hJa hwb
                split at h
                · simp at h
                · rename_i deviceIndex _
                  split at h
                  · split at h
                    · simp at h
                    · rename_i device hdevice
                      split at h
                      · simp at h
                      · rename_i info hinfo
                        split at h
                        · simp at h
                        · rename_i w6 hw6
                          have hboth : selectionInvariant w6 ∧
                              ∃ a6, assignmentInvariant w0 a6 w6 := by
                            split at hw6
                            · simp only [Option.some.injEq] at hw6
                              rw [← hw6]
                              exact ⟨hinvb, ab, hJb⟩
                            · rename_i idx hidx
                              obtain ⟨j, hj, hx⟩ := findIndex_spec _ _ _ _ hidx
                              have hidx2 : info.DevicesIndexesSlice[idx]? =
                                  some deviceIndex.toNat := by
                                rw [hj, Nat.zero_add]
                                exact hx
                              split at hw6
                              · simp at hw6
                              · rename_i w3 hw3
                                have hinv3 := selectionInvariant_modifyCriteria _ _ _ _ hinvb hw3
                                obtain ⟨cl3, hcl3, h3cr, h3dev, h3map, h3log, _⟩ :=
                                  modifyCriteria_proj _ _ _ _ hw3
                                split at hw6
                                · simp at hw6
                                · rename_i w4 hw4
                                  have hinv4 := selectionInvariant_removeAndLog w3 w4 target idx
                                    deviceIndex.toNat device.CardAffinity info hinv3
                                    (by rw [h3map]; exact hinfo) hidx2 hw4
                                  obtain ⟨_, _, _, _, h4dev, h4cr, h4log, _⟩ :=
                                    removeAndLog_proj _ _ _ _ _ _ hw4
                                  have hinv6 := selectionInvariant_modifyDevice _ _ _ _ _ hinv4 hw6
                                  obtain ⟨_, _, _, _, _, h6cr, h6log, _⟩ :=
                                    modifyDevice_proj _ _ _ _ _ hw6
                                  have h6n := namesKept_modifyDevice _ _ _ _ _ hw6 (fun _ => rfl)
                                  refine ⟨hinv6, _, assignmentInvariant_select w0 wb w6 ab pf
                                    (target, deviceIndex.toNat) device.InterfaceName cl3 hJb
                                    hinv6 ?_
                                    (interfaceAt_of_device wb target _ device hdevice) ?_ hcl3 ?_⟩
                                  · rw [h6log, h4log, h3log]
                                  · exact namesKept_trans _ _ _
                                      (namesKept_trans _ _ _ (namesKept_of_eq _ _ h3dev)
                                        (namesKept_of_eq _ _ h4dev)) h6n
                                  · rw [h6cr, h4cr, h3cr]
                          obtain ⟨hinv6, hJ6⟩ := hboth
                          split at h
                          · simp at h
                          · split at h
                            · exact ih w6 b w1 hinv6 hJ6 h
                            · simp only [Option.some.injEq, Prod.mk.injEq] at h
                              rw [← h.2]
                              exact hJ6
                  · simp only [Option.some.injEq, Prod.mk.injEq] at h
                    rw [← h.2]
                    exact ⟨ab, hJb⟩
          · -- a coupled PF
            split at h
            · simp at h
            · split at h
              · split at h
                · simp at h
                · rename_i wa hwa
                  exact ih wa b w1 (findDevicesForPfCouple_inv _ _ _ _ _ _ hinv hwa)
                    (findDevicesForPfCouple_assigned _ _ _ _ _ _ _ hinv hJ hwa) h
                · rename_i wa hwa
                  simp only [Option.some.injEq, Prod.mk.injEq] at h
                  rw [← h.2]
                  exact findDevicesForPfCouple_assigned _ _ _ _ _ _ _ hinv hJ hwa
              · split at h
                · split at h
                  · simp at h
                  · rename_i wa hwa
                    exact ih wa b w1 (findProperCouple_inv _ _ _ _ _ _ _ _ hinv hwa)
                      (findProperCouple_assign _ _ _ _ _ _ _ _ _ hinv hJ hwa) h
                  · rename_i wa hwa
                    simp only [Option.some.injEq, Prod.mk.injEq] at h
                    rw [← h.2]
                    exact findProperCouple_assign _ _ _ _ _ _ _ _ _ hinv hJ hwa
                · split at h
                  · simp at h
                  · rename_i wa hwa
                    exact ih wa b w1 (findProperCouple_inv _ _ _ _ _ _ _ _ hinv hwa)
                      (findProperCouple_assign _ _ _ _ _ _ _ _ _ hinv hJ hwa) h
                  · rename_i wa hwa
                    have hinva := findProperCouple_inv _ _ _ _ _ _ _ _ hinv hwa
                    have hJa := findProperCouple_assign _ _ _ _ _ _ _ _ _ hinv hJ hwa
                    split at h
                    · simp at h
                    · rename_i wb hwb
                      exact ih wb b w1 (findProperCouple_inv _ _ _ _ _ _ _ _ hinva hwb)
                        (findProperCouple_assign _ _ _ _ _ _ _ _ _ hinva hJa hwb) h
                    · rename_i wb hwb
                      have hinvb := findProperCouple_inv _ _ _ _ _ _ _ _ hinva hwb
                      have hJb := findProperCouple_assign _ _ _ _ _ _ _ _ _ hinva hJa hwb
                      split at h
                      · simp at h
                      · rename_i wc hwc
                        exact ih wc b w1 (findDevicesForPfCouple_inv _ _ _ _ _ _ hinvb hwc)
                          (findDevicesForPfCouple_assigned _ _ _ _ _ _ _ hinvb hJb hwc) h
                      · rename_i wc hwc
                        simp only [Option.some.injEq, Prod.mk.injEq] at h
                        rw [← h.2]
                        exact findDevicesForPfCouple_assigned _ _ _ _ _ _ _ hinvb hJb hwc
        · exact ih w b w1 hinv hJ h

theorem outputState_step (w0 : World) (n s : Nat) (out : String)
    (lines : List (String × Option (DeviceCapabilityType × Nat)))
    (e : String × Option (DeviceCapabilityType × Nat)) (name : String)
    (hname : name = outputLineOf w0 e.1 e.2) (h : outputState w0 n s out lines) :
    ((s + 1) % 256 = n →
      UpdateOutputString n ((s + 1) % 256) name out = "" ∨
      ((lines ++ [e]).length = n ∧ UpdateOutputString n ((s + 1) % 256) name out =
        outputLines ((lines ++ [e]).map (fun e => outputLineOf w0 e.1 e.2)))) ∧
    ((s + 1) % 256 ≠ n →
      outputState w0 n ((s + 1) % 256) (UpdateOutputString n ((s + 1) % 256) name out)
        (lines ++ [e])) := by
  rcases h with ⟨h0, hout⟩ | h256 | ⟨hlt, hn, hlen, hout⟩
  · subst h0
    rw [updateOutputString_zero]
    exact ⟨fun _ => Or.inl rfl, fun _ => Or.inl ⟨rfl, rfl⟩⟩
  · exact ⟨fun hs => by omega, fun _ => Or.inr (Or.inl h256)⟩
  · have hs : (s + 1) % 256 = s + 1 := Nat.mod_eq_of_lt (by omega)
    have hupd : UpdateOutputString n (s + 1) name out =
        outputLines ((lines ++ [e]).map (fun e => outputLineOf w0 e.1 e.2)) := by
      rw [updateOutputString_of_le n (s + 1) name out (by omega) (by omega), hout,
        List.map_append, List.map_singleton, outputLines_append, hname]
    rw [hs, hupd]
    refine ⟨fun hn2 => Or.inr ⟨by simp [hlen, hn2], rfl⟩, fun hn2 => Or.inr (Or.inr ⟨by omega, hn,
      by simp [hlen], rfl⟩)⟩

theorem mem_positions (lines : List (String × Option (DeviceCapabilityType × Nat)))
    (p : DeviceCapabilityType × Nat) :
    p ∈ lines.filterMap Prod.snd ↔ ∃ k, (k, some p) ∈ lines := by
  rw [List.mem_filterMap]
  constructor
  · rintro ⟨⟨k, o⟩, he, ho⟩
    simp only at ho
    subst ho
    exact ⟨k, he⟩
  · rintro ⟨k, hk⟩
    exact ⟨(k, some p), hk, rfl⟩

theorem linesTracked_snoc_some (w0 : World) (a : List (String × DeviceCapabilityType × Nat))
    (log log1 : List (DeviceCapabilityType × Nat))
    (lines : List (String × Option (DeviceCapabilityType × Nat))) (k : String)
    (p : DeviceCapabilityType × Nat) (h : linesTracked w0 a log lines)
    (hlog : ∀ q ∈ log, q ∈ log1) (hp : p ∈ log1) (hdev : (interfaceAt w0 p).isSome)
    (hcross : ∀ k2, (k2, p) ∈ a → k2 = k)
    (hfresh : p ∉ lines.filterMap Prod.snd) :
    linesTracked w0 a log1 (lines ++ [(k, some p)]) := by
  obtain ⟨h1, h2, h3⟩ := h
  refine ⟨?_, ?_, ?_⟩
  · intro k2 q hq
    rcases List.mem_append.mp hq with hq | hq
    · exact ⟨hlog _ (h1 k2 q hq).1, (h1 k2 q hq).2⟩
    · simp only [List.mem_singleton, Prod.mk.injEq, Option.some.injEq] at hq
      rw [hq.1, hq.2]
      exact ⟨hp, hdev, hcross⟩
  · intro k2 hk2
    rcases List.mem_append.mp hk2 with hq | hq
    · exact h2 k2 hq
    · simp at hq
  · rw [List.filterMap_append]
    exact List.Nodup.append h3 (by simp) (by simpa using hfresh)

theorem linesTracked_snoc_none (w0 : World) (a : List (String × DeviceCapabilityType × Nat))
    (log log1 : List (DeviceCapabilityType × Nat))
    (lines : List (String × Option (DeviceCapabilityType × Nat))) (k : String)
    (h : linesTracked w0 a log lines) (hlog : ∀ q ∈ log, q ∈ log1)
    (hsel : selectedOf w0.criteriaListsMap k ≠ "") :
    linesTracked w0 a log1 (lines ++ [(k, none)]) := by
  obtain ⟨h1, h2, h3⟩ := h
  refine ⟨?_, ?_, ?_⟩
  · intro k2 q hq
    rcases List.mem_append.mp hq with hq | hq
    · exact ⟨hlog _ (h1 k2 q hq).1, (h1 k2 q hq).2⟩
    · simp at hq
  · intro k2 hk2
    rcases List.mem_append.mp hk2 with hq | hq
    · exact h2 k2 hq
    · simp only [List.mem_singleton, Prod.mk.injEq, and_true] at hq
      rw [hq]
      exact hsel
  · rw [List.filterMap_append]
    simpa using h3

/-- Two pairs of `a` with the same position have the same role. -/
theorem role_of_position (a : List (String × DeviceCapabilityType × Nat))
    (h : (a.map Prod.snd).Nodup) (k k2 : String) (p : DeviceCapabilityType × Nat)
    (h1 : (k, p) ∈ a) (h2 : (k2, p) ∈ a) : k = k2 := by
  have := List.inj_on_of_nodup_map h h1 h2 rfl
  exact (Prod.mk.inj this).1

/-- The loop of `CheckDevicesAgainstCriteria` with card affinity: every line it
adds to the output is the interface name of the device at a position that is
logged and handed to the role of the line only, or the selected interface that
the role held on entry. -/
theorem loop_cardAffinity_lines (mapOrder : Nat → List String → List String) (g : Globals)
    (hAff : g.USE_OF_CARD_AFFINITY_CAPABILITY = true) (w0 : World)
    (a : List (String × DeviceCapabilityType × Nat)) :
    ∀ (keys : List String) (s : Nat) (out : String) (w : World) (str : String) (w1 : World)
      (lines : List (String × Option (DeviceCapabilityType × Nat))),
      keys.Nodup → selectionInvariant w → assignmentInvariant w0 a w →
      linesTracked w0 a w.selectionLog lines →
      (∀ k ∈ keys, ∀ p, (k, p) ∈ a → p ∉ lines.filterMap Prod.snd) →
      outputState w0 g.NUMBER_OF_DEVICES_REQUIRED s out lines →
      CheckDevicesAgainstCriteria.loop mapOrder g keys s out w = some (str, w1) →
      str = "" ∨ ∃ more : List (String × Option (DeviceCapabilityType × Nat)),
        more.map Prod.fst <+: keys ∧
        (lines ++ more).length = g.NUMBER_OF_DEVICES_REQUIRED ∧
        str = outputLines ((lines ++ more).map (fun e => outputLineOf w0 e.1 e.2)) ∧
        linesTracked w0 a w1.selectionLog (lines ++ more) := by
  intro keys
  induction keys with
  | nil =>
    intro s out w str w1 lines _ _ _ _ _ _ h
    simp only [CheckDevicesAgainstCriteria.loop, Option.some.injEq, Prod.mk.injEq] at h
    exact Or.inl h.1.symm
  | cons pf rest ih =>
    intro s out w str w1 lines hkeys hinv hJ hlines hdisj hout h
    have hpf : pf ∉ rest := (List.nodup_cons.mp hkeys).1
    have hrest : rest.Nodup := (List.nodup_cons.mp hkeys).2
    -- what one more line gives
    have conclude : ∀ (e : String × Option (DeviceCapabilityType × Nat)) (name : String)
        (wa : World), e.1 = pf → name = outputLineOf w0 e.1 e.2 →
        selectionInvariant wa → assignmentInvariant w0 a wa →
        linesTracked w0 a wa.selectionLog (lines ++ [e]) →
        (∀ k ∈ rest, ∀ p, (k, p) ∈ a → p ∉ (lines ++ [e]).filterMap Prod.snd) →
        (if (s + 1) % 256 = g.NUMBER_OF_DEVICES_REQUIRED then
          some (UpdateOutputString g.NUMBER_OF_DEVICES_REQUIRED ((s + 1) % 256) name out, wa)
        else CheckDevicesAgainstCriteria.loop mapOrder g rest ((s + 1) % 256)
          (UpdateOutputString g.NUMBER_OF_DEVICES_REQUIRED ((s + 1) % 256) name out) wa) =
          some (str, w1) →
        str = "" ∨ ∃ more : List (String × Option (DeviceCapabilityType × Nat)),
          more.map Prod.fst <+: pf :: rest ∧
          (lines ++ more).length = g.NUMBER_OF_DEVICES_REQUIRED ∧
          str = outputLines ((lines ++ more).map (fun e => outputLineOf w0 e.1 e.2)) ∧
          linesTracked w0 a w1.selectionLog (lines ++ more) := by
      intro e name wa he hname hinva hJa hla hda hrun
      obtain ⟨hst1, hst2⟩ := outputState_step w0 g.NUMBER_OF_DEVICES_REQUIRED s out lines e name
        hname hout
      split at hrun
      · rename_i heq
        simp only [Option.some.injEq, Prod.mk.injEq] at hrun
        obtain ⟨hstr, hw⟩ := hrun
        rcases hst1 heq with hempty | ⟨hlen, hval⟩
        · left
          rw [← hstr, hempty]
        · right
          refine ⟨[e], ?_, hlen, by rw [← hstr, hval], by rw [← hw]; exact hla⟩
          rw [List.map_singleton, he]
          exact List.prefix_iff_eq_take.mpr (by simp)
      · rename_i hne
        rcases ih _ _ wa str w1 (lines ++ [e]) hrest hinva hJa hla hda (hst2 hne) hrun with
          hempty | ⟨more, hpre, hlen, hval, htr⟩
        · exact Or.inl hempty
        · right
          refine ⟨e :: more, ?_, ?_, ?_, ?_⟩
          · rw [List.map_cons, he]
            exact (List.prefix_cons_inj pf).mpr hpre
          · rw [← hlen]; simp
          · rw [hval]; simp
          · have e2 : lines ++ e :: more = lines ++ [e] ++ more := by simp
            rw [e2]; exact htr
    rw [CheckDevicesAgainstCriteria.loop] at h
    simp only [hAff, if_true] at h
    split at h
    · simp at h
    · rename_i criteriaList hcl
      split at h
      · -- the role holds no selected interface: a device is selected for it
        split at h
        · simp at h
        · rename_i r0 wa hcheck
          have hinva := checkWithCardAffinity_inv mapOrder _ pf w r0 wa hinv hcheck
          have hJa := checkWithCardAffinity_assign mapOrder _ pf w0 w r0 wa a (hinv.1 _) hJ hcheck
          obtain ⟨hlog1, _⟩ := checkWithCardAffinity_log mapOrder _ pf w r0 wa (hinv.1 _) hcheck
          split at h
          · rename_i hr0
            have hlog := hlog1 hr0
            split at h
            · simp at h
            · rename_i device hdevice
              have hnd : (w.selectionLog ++ [(DeviceCapabilityType.REGULAR, r0.toNat)]).Nodup := by
                rw [← hlog]; exact hinva.2.1
              have hfresh := not_mem_of_nodup_concat _ _ hnd
              have hat : interfaceAt w0 (.REGULAR, r0.toNat) = some device.InterfaceName := by
                rw [← interfaceAt_kept w0 wa hJa.1]
                exact interfaceAt_of_device wa .REGULAR _ device hdevice
              have hnotin : (DeviceCapabilityType.REGULAR, r0.toNat) ∉
                  lines.filterMap Prod.snd := by
                intro hmem
                obtain ⟨k, hk⟩ := (mem_positions lines _).mp hmem
                exact hfresh (hlines.1 k _ hk).1
              refine conclude (pf, some (.REGULAR, r0.toNat)) device.InterfaceName wa rfl ?_
                hinva hJa ?_ ?_ h
              · show device.InterfaceName = (interfaceAt w0 (.REGULAR, r0.toNat)).getD ""
                rw [hat]
                rfl
              · refine linesTracked_snoc_some w0 a w.selectionLog wa.selectionLog lines pf _
                  hlines ?_ ?_ ?_ ?_ hnotin
                · intro q hq
                  rw [hlog]
                  exact List.mem_append_left _ hq
                · rw [hlog]; simp
                · rw [hat]; rfl
                · intro k2 hk2
                  exact absurd (hJ.2.2.1 (k2, _) hk2) hfresh
              · intro k hk p hkp hmem
                rw [List.filterMap_append, List.mem_append] at hmem
                rcases hmem with hmem | hmem
                · exact hdisj k (List.mem_cons_of_mem _ hk) p hkp hmem
                · simp only [List.filterMap_cons, List.filterMap_nil, List.mem_singleton] at hmem
                  apply hfresh
                  rw [← hmem]
                  exact hJ.2.2.1 (k, p) hkp
          · simp only [Option.some.injEq, Prod.mk.injEq] at h
            exact Or.inl h.1.symm
      · -- the role holds a selected interface
        rename_i hsel
        rcases hJ.2.2.2 pf criteriaList hcl hsel with hentry | ⟨p, hpa, hpn⟩
        · refine conclude (pf, none) criteriaList.SelectedDeviceInterface w rfl hentry.symm
            hinv hJ ?_ ?_ h
          · refine linesTracked_snoc_none w0 a w.selectionLog w.selectionLog lines pf hlines
              (fun _ hq => hq) ?_
            rw [hentry]
            exact hsel
          · intro k hk q hkq hmem
            rw [List.filterMap_append] at hmem
            simp only [List.filterMap_cons, List.filterMap_nil, List.append_nil] at hmem
            exact hdisj k (List.mem_cons_of_mem _ hk) q hkq hmem
        · refine conclude (pf, some p) criteriaList.SelectedDeviceInterface w rfl ?_
            hinv hJ ?_ ?_ h
          · show criteriaList.SelectedDeviceInterface = (interfaceAt w0 p).getD ""
            rw [hpn]
            rfl
          · refine linesTracked_snoc_some w0 a w.selectionLog w.selectionLog lines pf p hlines
              (fun _ hq => hq) (hJ.2.2.1 (pf, p) hpa) ?_
              (fun k2 hk2 => role_of_position a hJ.2.1 k2 pf p hk2 hpa)
              (hdisj pf (List.mem_cons_self _ _) p hpa)
            rw [hpn]; rfl
          · intro k hk q hkq hmem
            rw [List.filterMap_append, List.mem_append] at hmem
            rcases hmem with hmem | hmem
            · exact hdisj k (List.mem_cons_of_mem _ hk) q hkq hmem
            · simp only [List.filterMap_cons, List.filterMap_nil, List.mem_singleton] at hmem
              subst hmem
              have := role_of_position a hJ.2.1 k pf q hkq hpa
              rw [this] at hk
              exact hpf hk

theorem assignmentInvariant_init (w : World) : assignmentInvariant w [] w := by
  refine ⟨namesKept_refl w, List.nodup_nil, fun e he => absurd he (by simp), ?_⟩
  intro k cl hcl _
  left
  unfold selectedOf
  rw [hcl]

/-- When no line is without a position, the lines are the names of the devices
at the positions. -/
theorem lines_all_some (w : World) :
    ∀ lines : List (String × Option (DeviceCapabilityType × Nat)),
      (∀ k, (k, none) ∉ lines) →
      lines.map Prod.snd = (lines.filterMap Prod.snd).map some ∧
      lines.map (fun e => outputLineOf w e.1 e.2) =
        (lines.filterMap Prod.snd).map (fun p => (interfaceAt w p).getD "") := by
  intro lines
  induction lines with
  | nil => intro _; exact ⟨rfl, rfl⟩
  | cons e rest ih =>
    intro hnone
    obtain ⟨ih1, ih2⟩ := ih (fun k hk => hnone k (List.mem_cons_of_mem _ hk))
    obtain ⟨k, o⟩ := e
    cases o with
    | none => exact absurd (List.mem_cons_self _ _) (hnone k)
    | some p =>
      constructor
      · simp only [List.map_cons, List.filterMap_cons, ih1]
      · rw [List.map_cons, List.filterMap_cons, ih2]
        rfl

/-- The loop of `CheckDevicesAgainstCriteria` with card affinity keeps the
invariant of the assignments: it writes no selected interface. -/
theorem loop_cardAffinity_assign (mapOrder : Nat → List String → List String) (g : Globals)
    (hAff : g.USE_OF_CARD_AFFINITY_CAPABILITY = true) (w0 : World)
    (a : List (String × DeviceCapabilityType × Nat)) :
    ∀ (pfs : List String) (s : Nat) (out : String) (w : World) (str : String) (w1 : World),
      selectionInvariant w → assignmentInvariant w0 a w →
      CheckDevicesAgainstCriteria.loop mapOrder g pfs s out w = some (str, w1) →
      assignmentInvariant w0 a w1 := by
  intro pfs
  induction pfs with
  | nil =>
    intro s out w str w1 _ hJ h
    simp only [CheckDevicesAgainstCriteria.loop, Option.some.injEq, Prod.mk.injEq] at h
    rw [← h.2]
    exact hJ
  | cons pf rest ih =>
    intro s out w str w1 hinv hJ h
    rw [CheckDevicesAgainstCriteria.loop] at h
    simp only [hAff, if_true] at h
    split at h
    · simp at h
    · split at h
      · split at h
        · simp at h
        · rename_i r0 wa hcheck
          have hinva := checkWithCardAffinity_inv mapOrder _ pf w r0 wa hinv hcheck
          have hJa := checkWithCardAffinity_assign mapOrder _ pf w0 w r0 wa a (hinv.1 _) hJ hcheck
          split at h
          · split at h
            · simp at h
            · split at h
              · simp only [Option.some.injEq, Prod.mk.injEq] at h
                rw [← h.2]
                exact hJa
              · exact ih _ _ wa str w1 hinva hJa h
          · simp only [Option.some.injEq, Prod.mk.injEq] at h
            rw [← h.2]
            exact hJa
      · split at h
        · simp only [Option.some.injEq, Prod.mk.injEq] at h
          rw [← h.2]
          exact hJ
        · exact ih _ _ w str w1 hinv hJ h

/-- A pass of `CheckDevicesAgainstCriteria` with card affinity that returns:
the invariant of the selections and the invariant of the assignments hold at the
end, and the returned string is empty or made of lines that are tracked. -/
theorem pass_lines (mapOrder : Nat → List String → List String) (g : Globals) (w : World)
    (str : String) (w1 : World) (hAff : g.USE_OF_CARD_AFFINITY_CAPABILITY = true)
    (hwf : ∀ c, listedAtMostOnce (w.affinityMap c)) (hlog : w.selectionLog = [])
    (hroles : (mapOrder w.rangeCount (mapKeys w.criteriaListsMap)).Nodup)
    (h : CheckDevicesAgainstCriteria mapOrder g w = some (str, w1)) :
    selectionInvariant w1 ∧
    ∃ a, assignmentInvariant w a w1 ∧
      (str = "" ∨ ∃ lines : List (String × Option (DeviceCapabilityType × Nat)),
        lines.map Prod.fst <+: sortStrings (mapOrder w.rangeCount (mapKeys w.criteriaListsMap)) ∧
        lines.length = g.NUMBER_OF_DEVICES_REQUIRED ∧
        str = outputLines (lines.map (fun e => outputLineOf w e.1 e.2)) ∧
        linesTracked w a w1.selectionLog lines) := by
  have hinit : selectionInvariant w.tick := by
    apply selectionInvariant_tick
    refine ⟨hwf, ?_, ?_⟩
    · rw [hlog]
      exact List.nodup_nil
    · intro c i hmem
      rw [hlog] at hmem
      exact absurd hmem (by simp)
  have hJinit : ∃ a, assignmentInvariant w a w.tick :=
    ⟨[], assignmentInvariant_tick w w [] (assignmentInvariant_init w)⟩
  have hsorted : (sortStrings (mapOrder w.rangeCount (mapKeys w.criteriaListsMap))).Nodup :=
    (sortStrings_perm _).nodup_iff.mpr hroles
  unfold CheckDevicesAgainstCriteria at h
  dsimp only at h
  split at h
  · simp at h
  · rename_i wa hwa
    simp only [Option.some.injEq, Prod.mk.injEq] at h
    rw [← h.2]
    split at hwa
    · obtain ⟨a, ha⟩ := treatment_loop_assign _ _ _ _ _ _ _ _ _ hinit hJinit hwa
      exact ⟨treatment_loop_inv _ _ _ _ _ _ _ _ hinit hwa, a, ha, Or.inl h.1.symm⟩
    · simp at hwa
  · rename_i wa hwa
    have hboth : selectionInvariant wa ∧ ∃ a, assignmentInvariant w a wa := by
      split at hwa
      · exact ⟨treatment_loop_inv _ _ _ _ _ _ _ _ hinit hwa,
          treatment_loop_assign _ _ _ _ _ _ _ _ _ hinit hJinit hwa⟩
      · simp only [Option.some.injEq, Prod.mk.injEq] at hwa
        rw [← hwa.2]
        exact ⟨hinit, hJinit⟩
    obtain ⟨hinva, hJa⟩ := hboth
    split at h
    · simp at h
    · rename_i wb hwb
      simp only [Option.some.injEq, Prod.mk.injEq] at h
      rw [← h.2]
      split at hwb
      · obtain ⟨a, ha⟩ := treatment_loop_assign _ _ _ _ _ _ _ _ _ hinva hJa hwb
        exact ⟨treatment_loop_inv _ _ _ _ _ _ _ _ hinva hwb, a, ha, Or.inl h.1.symm⟩
      · simp at hwb
    · rename_i wb hwb
      have hboth : selectionInvariant wb ∧ ∃ a, assignmentInvariant w a wb := by
        split at hwb
        · exact ⟨treatment_loop_inv _ _ _ _ _ _ _ _ hinva hwb,
            treatment_loop_assign _ _ _ _ _ _ _ _ _ hinva hJa hwb⟩
        · simp only [Option.some.injEq, Prod.mk.injEq] at hwb
          rw [← hwb.2]
          exact ⟨hinva, hJa⟩
      obtain ⟨hinvb, ab, hJb⟩ := hboth
      refine ⟨loop_cardAffinity_inv mapOrder g hAff _ _ _ _ str w1 hinvb h, ab,
        loop_cardAffinity_assign mapOrder g hAff w ab _ _ _ wb str w1 hinvb hJb h, ?_⟩
      have hstate : outputState w g.NUMBER_OF_DEVICES_REQUIRED 0 "" [] := by
        by_cases h0 : g.NUMBER_OF_DEVICES_REQUIRED = 0
        · exact Or.inl ⟨h0, rfl⟩
        · by_cases h256 : 256 ≤ g.NUMBER_OF_DEVICES_REQUIRED
          · exact Or.inr (Or.inl h256)
          · exact Or.inr (Or.inr ⟨by omega, by omega, rfl, rfl⟩)
      rcases loop_cardAffinity_lines mapOrder g hAff w ab _ 0 "" wb str w1 [] hsorted hinvb hJb
        ⟨fun _ _ hm => absurd hm (by simp), fun _ hm => absurd hm (by simp), by simp⟩
        (fun _ _ _ _ hm => absurd hm (by simp)) hstate h with hempty | ⟨more, h1, h2, h3, h4⟩
      · exact Or.inl hempty
      · rw [List.nil_append] at h2 h3 h4
        exact Or.inr ⟨more, h1, h2, h3, h4⟩

/-- No role of the fixture holds a selected interface, as a property of the list
of entries. -/
theorem selected_empty_of_entries (m : GoMap CriteriaList)
    (h : ∀ e ∈ m, e.2.SelectedDeviceInterface = "") :
    ∀ k cl, mapGet m k = some cl → cl.SelectedDeviceInterface = "" :=
  fun k cl hcl => h (k, cl) (mem_of_mapGet m k cl hcl)

/-- C5. With card affinity enabled and card affinity maps that list every
position at most once, one call of `CheckDevicesAgainstCriteria` that returns
gives no device to two roles, whichever path selected it (the RRU phase, the PTP
phase or the regular matching) and whatever the enumeration `mapOrder` of the
maps; the enumeration of the criteria lists map visits no role twice, as every
enumeration of a Go map does.
The log of the selections has no duplicates and every selected position has
left the card affinity map of its collection. A role that holds a selected
interface at the end holds the one it held on entry or the interface name of
the device at a logged position that is paired with this role only
(`assignmentInvariant`, with the pairs `a`). When the returned string is not
empty, its lines are those of the first `NUMBER_OF_DEVICES_REQUIRED` roles in
sorted order, and the line of a role is the interface name of the device at a
logged position, handed to no other line and paired in `a` with no other role,
or else the selected interface that the role held on entry.
When no role holds a selected interface on entry, the returned string is made
of the interface names of the devices at pairwise distinct logged positions. -/
theorem C5_affinity_no_device_twice (mapOrder : Nat → List String → List String)
    (g : Globals) (w : World) (str : String) (w1 : World)
    (hAff : g.USE_OF_CARD_AFFINITY_CAPABILITY = true)
    (hwf : ∀ c, listedAtMostOnce (w.affinityMap c)) (hlog : w.selectionLog = [])
    (hroles : (mapOrder w.rangeCount (mapKeys w.criteriaListsMap)).Nodup)
    (h : CheckDevicesAgainstCriteria mapOrder g w = some (str, w1)) :
    w1.selectionLog.Nodup ∧
    (∀ (c : DeviceCapabilityType) (i : Nat), (c, i) ∈ w1.selectionLog →
      ¬ isMember (w1.affinityMap c) i) ∧
    ∃ a, assignmentInvariant w a w1 ∧
    (str ≠ "" →
      ∃ lines : List (String × Option (DeviceCapabilityType × Nat)),
        lines.map Prod.fst =
          (sortStrings (mapOrder w.rangeCount (mapKeys w.criteriaListsMap))).take
            g.NUMBER_OF_DEVICES_REQUIRED ∧
        lines.length = g.NUMBER_OF_DEVICES_REQUIRED ∧
        str = outputLines (lines.map (fun e => outputLineOf w e.1 e.2)) ∧
        (∀ k p, (k, some p) ∈ lines →
          p ∈ w1.selectionLog ∧ (interfaceAt w p).isSome ∧ ∀ k2, (k2, p) ∈ a → k2 = k) ∧
        (∀ k, (k, none) ∈ lines → selectedOf w.criteriaListsMap k ≠ "") ∧
        (lines.filterMap Prod.snd).Nodup ∧
        ((∀ k cl, mapGet w.criteriaListsMap k = some cl → cl.SelectedDeviceInterface = "") →
          ∃ positions : List (DeviceCapabilityType × Nat),
            lines.map Prod.snd = positions.map some ∧ positions.Nodup ∧
            positions.length = g.NUMBER_OF_DEVICES_REQUIRED ∧
            (∀ p ∈ positions, p ∈ w1.selectionLog ∧ (interfaceAt w p).isSome) ∧
            str = outputLines (positions.map (fun p => (interfaceAt w p).getD "")))) := by
  obtain ⟨hfinal, a, hassign, hlines⟩ := pass_lines mapOrder g w str w1 hAff hwf hlog hroles h
  refine ⟨hfinal.2.1, hfinal.2.2, a, hassign, ?_⟩
  intro hne
  rcases hlines with hempty | ⟨lines, hpre, hlen, hstr, htr1, htr2, htr3⟩
  · exact absurd hempty hne
  · refine ⟨lines, ?_, hlen, hstr, htr1, htr2, htr3, ?_⟩
    · have := List.prefix_iff_eq_take.mp hpre
      rw [List.length_map, hlen] at this
      exact this
    · intro hfree
      have hnone : ∀ k, (k, none) ∉ lines := by
        intro k hk
        apply htr2 k hk
        unfold selectedOf
        cases hm : mapGet w.criteriaListsMap k with
        | none => rfl
        | some cl => exact hfree k cl hm
      obtain ⟨hs1, hs2⟩ := lines_all_some w lines hnone
      refine ⟨lines.filterMap Prod.snd, hs1, htr3, ?_, ?_, by rw [hstr, hs2]⟩
      · have := congrArg List.length hs1
        rw [List.length_map, List.length_map, hlen] at this
        exact this.symm
      · intro p hp
        obtain ⟨k, hk⟩ := (mem_positions lines p).mp hp
        exact ⟨(htr1 k p hk).1, (htr1 k p hk).2.1⟩

/-- C5, witness: on the fixture of
`Test_CheckDevicesAgainstCriteriaWithCardAffinityAndSpecialCapabilities`, with
eight devices required and all three capabilities in use, the run selects eight
pairwise distinct positions: one in the RRU phase with its regular partner, one
in the PTP phase with its regular partner, and four in the regular matching.
The eight lines of the output are the names of the devices at these positions,
in the order of the roles `pf1` to `pf8`. -/
theorem C5_witness_special_capabilities :
    (CheckDevicesAgainstCriteria storageOrder ⟨8, true, true, true⟩
        testWorldSpecialCapabilities).map (fun r => (r.1, r.2.selectionLog)) =
      some ("eth6\neth10\neth5\neth3\neth11\neth4\neth1\neth0\n",
        [(.RRU_CONNECTION, 1), (.REGULAR, 2), (.PTP_SUPPORT, 0), (.REGULAR, 0), (.REGULAR, 3),
          (.REGULAR, 4), (.REGULAR, 1), (.REGULAR, 5)]) ∧
    ([(DeviceCapabilityType.REGULAR, 3), (.REGULAR, 4), (.RRU_CONNECTION, 1), (.REGULAR, 1),
        (.REGULAR, 5), (.REGULAR, 2), (.PTP_SUPPORT, 0), (.REGULAR, 0)].map
        (interfaceAt testWorldSpecialCapabilities) =
      [some "eth6", some "eth10", some "eth5", some "eth3", some "eth11", some "eth4",
        some "eth1", some "eth0"]) ∧
    (((CheckDevicesAgainstCriteria storageOrder ⟨8, true, true, true⟩
        testWorldSpecialCapabilities).getD ("", testWorld)).2.selectionLog.Nodup ∧
      ∃ positions : List (DeviceCapabilityType × Nat),
        positions.Nodup ∧ positions.length = 8 ∧
        (∀ p ∈ positions, p ∈ ((CheckDevicesAgainstCriteria storageOrder ⟨8, true, true, true⟩
          testWorldSpecialCapabilities).getD ("", testWorld)).2.selectionLog) ∧
        "eth6\neth10\neth5\neth3\neth11\neth4\neth1\neth0\n" = outputLines (positions.map
          (fun p => (interfaceAt testWorldSpecialCapabilities p).getD ""))) := by
  refine ⟨by decide, by decide, ?_⟩
  obtain ⟨h1, _, _, _, h3⟩ :=
    C5_affinity_no_device_twice storageOrder ⟨8, true, true, true⟩ testWorldSpecialCapabilities
      "eth6\neth10\neth5\neth3\neth11\neth4\neth1\neth0\n"
      ((CheckDevicesAgainstCriteria storageOrder ⟨8, true, true, true⟩
        testWorldSpecialCapabilities).getD ("", testWorld)).2
      (by decide)
      (fun c => (affinityMapWellFormed_of_entries (testWorldSpecialCapabilities.devices c) _
        (by cases c <;> decide)).1)
      (by decide) (by decide) (by decide)
  obtain ⟨lines, _, _, _, _, _, _, hfree⟩ := h3 (by decide)
  obtain ⟨positions, _, hnd, hlen, hmem, hstr⟩ :=
    hfree (selected_empty_of_entries _ (by decide))
  exact ⟨h1, positions, hnd, hlen, fun p hp => (hmem p hp).1, hstr⟩

end SriovDetection
